import Mathlib

/-!
# The expression parser of find (find/parser.c): a shallow embedding

C strings are lists of characters (the bytes before the terminating NUL), the
argument vector is a list of C strings whose end plays the role of the
terminating NULL pointer, and a call of `error (EXIT_FAILURE, ...)` is the
outcome `Res.fatal`.  Success rates (C floats) are kept as exact decimal
fractions, counted in units of 1e-9.
-/

namespace Findutils

/-- A C string: the characters that precede the terminating NUL. -/
abbrev CStr := List Char

/-- The places where the parser leaves the process: through
`error (EXIT_FAILURE, ...)`, and in parse_help and parse_version through
`usage (EXIT_SUCCESS)` and `exit (EXIT_SUCCESS)`. -/
inductive Fatal
  | path_current_directory
  | path_relative
  | braces_in_utility_name
  | only_one_instance
  | braces_not_alone
  | environment_too_large
  | size_null_argument
  | size_invalid_type
  | size_invalid_argument
  | non_numeric_argument
  | type_no_letter
  | type_unsupported
  | type_unknown
  | type_duplicate
  | type_missing_comma
  | type_trailing_comma
  | fnmatch_sanity
  | regex_compile
  | target_file
  | integer_out_of_range
  | integer_unexpected_suffix
  | integer_expected
  | depth_expected_integer
  | files0_with_operands
  | files0_stdin_with_ok
  | files0_cannot_open
  | files0_same_as_stdin
  | files0_error_reading
  | delete_with_prune
  | nontarget_file
  | invalid_mode
  | not_a_number
  | time_overflow
  | end_of_today_overflow
  | newerXY_needs_argument
  | newerXY_date
  | newerXY_birth_time
  | used_invalid_argument
  | invalid_user
  | invalid_group
  | selinux_not_enabled
  | help_usage
  | version_exit
  deriving DecidableEq

/-- What a call does: it returns a value, or the process exits at one of the
places of `Fatal`. -/
inductive Res (α : Type)
  | ret (a : α)
  | fatal (e : Fatal)
  deriving DecidableEq

/-- The predicate evaluation functions that the parsers of this file install. -/
inductive PRED_FUNC
  | pred_exec
  | pred_execdir
  | pred_ok
  | pred_okdir
  | pred_type
  | pred_xtype
  | pred_size
  | pred_samefile
  | pred_inum
  | pred_links
  | pred_uid
  | pred_gid
  | pred_name
  | pred_iname
  | pred_path
  | pred_ipath
  | pred_regex
  | pred_true
  | pred_false
  | pred_print
  | pred_delete
  | pred_prune
  | pred_quit
  | pred_print0
  | pred_fprint
  | pred_fprint0
  | pred_ls
  | pred_fls
  | pred_fstype
  | pred_perm
  | pred_empty
  | pred_executable
  | pred_readable
  | pred_writable
  | pred_lname
  | pred_ilname
  | pred_nogroup
  | pred_nouser
  | pred_amin
  | pred_atime
  | pred_cmin
  | pred_ctime
  | pred_mmin
  | pred_mtime
  | pred_anewer
  | pred_cnewer
  | pred_newer
  | pred_newerXY
  | pred_used
  | pred_user
  | pred_group
  | pred_context
  deriving DecidableEq

/-- The enum comparison_type. -/
inductive comparison_type
  | COMP_GT
  | COMP_LT
  | COMP_EQ
  deriving DecidableEq

/-- The struct timespec: tv_sec is a time_t, tv_nsec a long. -/
structure timespec where
  tv_sec : Int
  tv_nsec : Int
  deriving DecidableEq

/-- The values of enum xval that the parsers of this file store. -/
inductive xval
  | XVAL_ATIME
  | XVAL_BIRTHTIME
  | XVAL_CTIME
  | XVAL_MTIME
  deriving DecidableEq

/-- The struct time_val; `xval` is `none` as long as nothing is assigned to
that member. -/
structure time_val where
  xval : Option xval
  kind : comparison_type
  ts : timespec
  deriving DecidableEq

/-- What strtod reads: not-a-number, or a finite number, given by its exact
decimal value `num / 10 ^ scale` (every number that strtod reads, and every
finite double, has such a value).  strtod delivers the double nearest to that
value, see `round_double`.  The infinities are left out. -/
inductive double_value
  | nan
  | finite (num : Int) (scale : Nat)
  deriving DecidableEq

/-- The enum BC_INIT_STATUS returned by bc_init_controlinfo. -/
inductive BC_INIT_STATUS
  | BC_INIT_OK
  | BC_INIT_ENV_TOO_BIG
  | BC_INIT_CANNOT_ACCOMODATE_HEADROOM
  deriving DecidableEq

/-- The fields of struct exec_val (and of its buildcmd control block) that
insert_exec_ok assigns.  `wd_for_exec` is `true` for initial_wd and `false`
for NULL; `pushed` is the sequence of bc_push_arg calls. -/
structure exec_val where
  multiple : Bool
  close_stdin : Bool
  wd_for_exec : Bool
  num_args : Nat
  replace_vec : Option (List CStr)
  replace_pat : Option CStr
  rplen : Nat
  lines_per_exec : Nat
  args_per_exec : Nat
  initial_argc : Nat
  pushed : List CStr
  deriving DecidableEq

/-- The enum permissions_type. -/
inductive permissions_type
  | PERM_AT_LEAST
  | PERM_ANY
  | PERM_EXACT
  deriving DecidableEq

/-- The union `args` of struct predicate, restricted to the members used here. -/
inductive pred_args
  | none
  | str (s : CStr)
  | size (kind : comparison_type) (blocksize : Nat) (size : Nat)
  | numinfo (kind : comparison_type) (l_val : Nat)
  | samefileid (ino : Nat) (dev : Nat) (fd : Int)
  | types (cells : List Bool)
  | exec_vec (e : exec_val)
  | perm (kind : permissions_type) (val0 val1 : Nat)
  | reftime (t : time_val)
  | uid (uid : Nat)
  | gid (gid : Nat)
  | scontext (s : CStr)
  deriving DecidableEq

/-- The fields of struct predicate that the parsers assign.  `est_success_rate`
counts units of 1e-9. -/
structure predicate where
  pred_func : PRED_FUNC
  side_effects : Bool
  no_default_print : Bool
  need_stat : Bool
  need_type : Bool
  need_inum : Bool
  est_success_rate : Nat
  args : pred_args
  deriving DecidableEq

/-- The enum SymlinkOption. -/
inductive SymlinkOption
  | SYMLINK_NEVER_DEREF
  | SYMLINK_ALWAYS_DEREF
  | SYMLINK_DEREF_ARGSONLY
  deriving DecidableEq

/-- The members of the global `options` that the parsers modelled here read or
write. -/
structure options where
  ok_prompt_stdin : Bool := false
  ignore_readdir_race : Bool := false
  posixly_correct : Bool := false
  symlink_handling : SymlinkOption := SymlinkOption.SYMLINK_NEVER_DEREF
  open_nofollow_available : Bool := true
  regex_options : Nat := 0
  maxdepth : Int := -1
  mindepth : Int := -1
  do_dir_first : Bool := true
  stay_on_filesystem : Bool := false
  files0_from : Option CStr := none
  explicit_depth : Bool := false
  warnings : Bool := true
  optimisation_level : Nat := 2
  cur_day_start : timespec := ⟨0, 0⟩
  full_days : Bool := false
  deriving DecidableEq

/-- What a parser leaves behind: the new value of `*arg_ptr`, the global
options, and the predicate it inserted (if it kept one). -/
structure parse_state where
  arg_ptr : Nat
  opts : options
  pred : Option predicate
  deriving DecidableEq

/-- Modelled from the spec: get_new_pred / insert_primary_withpred (find/tree.c)
are not under src/.  A freshly inserted predicate is zero-initialised (no file
type cell is set, no arguments), has no side effects, does not inhibit the
default print, and starts with need_stat = need_type = true and a success rate
of 1.0. -/
def insert_primary_withpred (func : PRED_FUNC) : predicate :=
  { pred_func := func, side_effects := false, no_default_print := false,
    need_stat := true, need_type := true, need_inum := false,
    est_success_rate := 1000000000, args := pred_args.none }

/-- The call mbsstr (haystack, needle), read as a truth value: does `needle`
occur in `haystack`? -/
def mbsstr : CStr → CStr → Bool
  | [], needle => needle.isEmpty
  | c :: cs, needle => needle.isPrefixOf (c :: cs) || mbsstr cs needle

/-- The string ";". -/
def semicolon : CStr := [';']

/-- The string "+". -/
def plus : CStr := ['+']

/-- The string of an opening and a closing brace, the replacement pattern. -/
def braces : CStr := ['\x7b', '\x7d']

/-- The strcspn-style length of the first field of `str`: the number of
characters before the first one that is in `separators`. -/
def field_length (str separators : CStr) : Nat :=
  (str.takeWhile (fun c => !separators.contains c)).length

/-- Modelled from the spec: splitstring (lib/splitstring.c) is not under src/.
It walks the fields of `s` delimited by single separator characters: the first
call yields the field at position 0; a later call moves past the current field,
returns false (here `none`) at the end of the string, and otherwise skips one
separator and yields the next field, which may be empty. -/
def splitstring (s separators : CStr) (first : Bool) (pos len : Nat) : Option (Nat × Nat) :=
  if first then some (0, field_length s separators)
  else
    match s[pos + len]? with
    | none => none
    | some _ => some (pos + len + 1, field_length (s.drop (pos + len + 1)) separators)

/-- The do-while loop of check_path_safety, one iteration per field of PATH.
Every iteration moves `pos` forward, so `path.length + 1` iterations suffice;
the first argument bounds the iterations. -/
def check_path_safety_loop (path : CStr) : Nat → Nat → Nat → Res Unit
  | 0, _, _ => Res.ret ()
  | fuel + 1, pos, len =>
    if len = 0 ∨ (len = 1 ∧ path[pos]? = some '.') then
      Res.fatal Fatal.path_current_directory
    else if path[pos]? ≠ some '/' then
      Res.fatal Fatal.path_relative
    else
      match splitstring path [':'] false pos len with
      | none => Res.ret ()
      | some (p, l) => check_path_safety_loop path fuel p l

/-- The function check_path_safety; the argument is the value of getenv ("PATH"). -/
def check_path_safety (path : Option CStr) : Res Unit :=
  match path with
  | none => Res.ret ()
  | some p =>
    match splitstring p [':'] true 0 0 with
    | none => Res.ret ()
    | some (pos, len) => check_path_safety_loop p (p.length + 1) pos len

/-- The test `(func == pred_execdir) || (func == pred_okdir)` of insert_exec_ok. -/
def is_dir (func : PRED_FUNC) : Bool :=
  decide (func = PRED_FUNC.pred_execdir ∨ func = PRED_FUNC.pred_okdir)

/-- The local variables of insert_exec_ok when its scanning loop is left. -/
structure scan_state where
  end_ : Nat
  prev_was_braces_only : Bool
  brace_count : Nat
  brace_arg : Option CStr
  multiple : Bool
  deriving DecidableEq

/-- The scanning loop of insert_exec_ok.  The list is argv from index `end_`
on (the empty list: argv[end] is NULL). -/
def exec_scan (allow_plus : Bool) (func : PRED_FUNC) (start : Nat) :
    List CStr → Nat → Bool → Nat → Option CStr → Res scan_state
  | [], end_, prev, bc, ba => Res.ret ⟨end_, prev, bc, ba, false⟩
  | a :: rest, end_, prev, bc, ba =>
    if a = semicolon then Res.ret ⟨end_, prev, bc, ba, false⟩
    else if allow_plus && prev && (a == plus) then Res.ret ⟨end_, prev, bc, ba, true⟩
    else if mbsstr a braces then
      if start = end_ ∧ is_dir func = true then
        Res.fatal Fatal.braces_in_utility_name
      else
        exec_scan allow_plus func start rest (end_ + 1) (a == braces) (bc + 1) (some a)
    else
      exec_scan allow_plus func start rest (end_ + 1) false bc ba

/-- The local allow_plus of insert_exec_ok: "+" may end the command unless the
predicate function is pred_ok or pred_okdir. -/
def allow_plus (func : PRED_FUNC) : Bool :=
  decide (func ≠ PRED_FUNC.pred_okdir ∧ func ≠ PRED_FUNC.pred_ok)

/-- The scanning loop of insert_exec_ok with its initialisers: `end = start`,
`prev_was_braces_only = false`, `brace_count = 0`, `brace_arg = NULL`. -/
def exec_scan_argv (func : PRED_FUNC) (argv : List CStr) (start : Nat) : Res scan_state :=
  exec_scan (allow_plus func) func start (argv.drop start) start false 0 none

/-- What insert_exec_ok reads from the process environment: the value of PATH
and the result of bc_init_controlinfo. -/
structure exec_env where
  path : Option CStr
  bcstatus : BC_INIT_STATUS
  deriving DecidableEq

/-- The function insert_exec_ok.  `argv = none` is a NULL argv; an index at or
past the end of the list reads the terminating NULL. -/
def insert_exec_ok (env : exec_env) (o : options) (func : PRED_FUNC)
    (argv : Option (List CStr)) (arg_ptr : Nat) : Res (Bool × parse_state) :=
  match argv with
  | none => Res.ret (false, ⟨arg_ptr, o, none⟩)
  | some argv =>
    if argv[arg_ptr]? = none then Res.ret (false, ⟨arg_ptr, o, none⟩)
    else
      let our_pred : predicate :=
        { insert_primary_withpred func with
          side_effects := true, no_default_print := true,
          need_type := false, need_stat := false }
      let o1 : options := if allow_plus func then o else { o with ok_prompt_stdin := true }
      let close_stdin : Bool := !allow_plus func
      let o2 : options := if is_dir func then { o1 with ignore_readdir_race := false } else o1
      match (if is_dir func then check_path_safety env.path else Res.ret ()) with
      | Res.fatal e => Res.fatal e
      | Res.ret _ =>
        let start := arg_ptr
        match exec_scan_argv func argv start with
        | Res.fatal e => Res.fatal e
        | Res.ret s =>
          if s.end_ = start ∨ argv[s.end_]? = none then
            Res.ret (false, ⟨s.end_, o2, none⟩)
          else if s.multiple = true ∧ s.brace_count > 1 then
            Res.fatal Fatal.only_one_instance
          else if s.multiple = true ∧ (s.brace_arg.getD []).length ≠ 2 then
            Res.fatal Fatal.braces_not_alone
          else if env.bcstatus ≠ BC_INIT_STATUS.BC_INIT_OK then
            Res.fatal Fatal.environment_too_large
          else
            let execp : exec_val :=
              if s.multiple then
                { multiple := true, close_stdin := close_stdin, wd_for_exec := !is_dir func,
                  num_args := 0, replace_vec := none, replace_pat := none, rplen := 0,
                  lines_per_exec := 0, args_per_exec := 0,
                  initial_argc := (s.end_ - start) - 1,
                  pushed := (argv.drop start).take (s.end_ - 1 - start) }
              else
                { multiple := false, close_stdin := close_stdin, wd_for_exec := !is_dir func,
                  num_args := s.end_ - start,
                  replace_vec := some ((argv.drop start).take (s.end_ - start)),
                  replace_pat := some braces, rplen := braces.length,
                  lines_per_exec := 0, args_per_exec := 0,
                  initial_argc := 0, pushed := [] }
            Res.ret (true,
              ⟨s.end_ + 1, o2, some { our_pred with args := pred_args.exec_vec execp }⟩)

/-- The parser of -exec. -/
def parse_exec (env : exec_env) (o : options) (argv : Option (List CStr)) (arg_ptr : Nat) :
    Res (Bool × parse_state) :=
  insert_exec_ok env o PRED_FUNC.pred_exec argv arg_ptr

/-- The parser of -execdir. -/
def parse_execdir (env : exec_env) (o : options) (argv : Option (List CStr)) (arg_ptr : Nat) :
    Res (Bool × parse_state) :=
  insert_exec_ok env o PRED_FUNC.pred_execdir argv arg_ptr

/-- The parser of -ok. -/
def parse_ok (env : exec_env) (o : options) (argv : Option (List CStr)) (arg_ptr : Nat) :
    Res (Bool × parse_state) :=
  insert_exec_ok env o PRED_FUNC.pred_ok argv arg_ptr

/-- The parser of -okdir. -/
def parse_okdir (env : exec_env) (o : options) (argv : Option (List CStr)) (arg_ptr : Nat) :
    Res (Bool × parse_state) :=
  insert_exec_ok env o PRED_FUNC.pred_okdir argv arg_ptr


/-! ### Notions used to state the properties of insert_exec_ok -/

/-- The predicate function is one of the four that insert_exec_ok is called
with (by parse_exec, parse_execdir, parse_ok and parse_okdir). -/
def exec_family (func : PRED_FUNC) : Bool :=
  decide (func = PRED_FUNC.pred_exec ∨ func = PRED_FUNC.pred_execdir ∨
    func = PRED_FUNC.pred_ok ∨ func = PRED_FUNC.pred_okdir)

/-- Index `i` holds a "+" that ends the command: the action is -exec or
-execdir, argv[i] is exactly "+", and argv[i-1], at an index not below `start`,
is exactly the pair of braces. -/
def is_plus_terminator (func : PRED_FUNC) (argv : List CStr) (start i : Nat) : Prop :=
  (func = PRED_FUNC.pred_exec ∨ func = PRED_FUNC.pred_execdir) ∧
    argv[i]? = some plus ∧ start < i ∧ argv[i - 1]? = some braces

instance (func : PRED_FUNC) (argv : List CStr) (start i : Nat) :
    Decidable (is_plus_terminator func argv start i) := by
  unfold is_plus_terminator; infer_instance

/-- Index `i` ends the command: argv[i] is NULL, or exactly ";", or a "+" that
ends the command. -/
def is_terminator (func : PRED_FUNC) (argv : List CStr) (start i : Nat) : Prop :=
  argv[i]? = none ∨ argv[i]? = some semicolon ∨ is_plus_terminator func argv start i

instance (func : PRED_FUNC) (argv : List CStr) (start i : Nat) :
    Decidable (is_terminator func argv start i) := by
  unfold is_terminator; infer_instance

/-- Index `e` is the smallest index from `start` on that ends the command. -/
def first_terminator (func : PRED_FUNC) (argv : List CStr) (start e : Nat) : Prop :=
  start ≤ e ∧ is_terminator func argv start e ∧
    ∀ j, start ≤ j → j < e → ¬ is_terminator func argv start j

/-- The utility name argv[start] is present and contains the pair of braces. -/
def utility_name_has_braces (argv : List CStr) (start : Nat) : Bool :=
  match argv[start]? with
  | some a => mbsstr a braces
  | none => false

/-- The scan of insert_exec_ok is left normally, at the first index that ends
the command, with `multiple` set exactly for a "+" that ends the command. -/
def scan_stops_at_first_terminator (func : PRED_FUNC) (argv : List CStr) (start : Nat) : Prop :=
  ∃ s, exec_scan_argv func argv start = Res.ret s ∧
    first_terminator func argv start s.end_ ∧
    (s.multiple = true ↔ is_plus_terminator func argv start s.end_)

/-! ### Concrete inputs used by the witnesses -/

/-- An environment in which PATH is unset and bc_init_controlinfo succeeds. -/
def sample_env : exec_env := ⟨none, BC_INIT_STATUS.BC_INIT_OK⟩

/-- Option values before parsing: no -ok seen, -ignore_readdir_race given. -/
def sample_options : options := { ignore_readdir_race := true }

/-- The string "echo". -/
def echo : CStr := ['e', 'c', 'h', 'o']

/-- The exec_val that -exec echo, braces, + leaves behind. -/
def sample_plus_exec_val : exec_val :=
  { multiple := true, close_stdin := false, wd_for_exec := true, num_args := 0,
    replace_vec := none, replace_pat := none, rplen := 0, lines_per_exec := 0,
    args_per_exec := 0, initial_argc := 1, pushed := [echo] }

/-- The predicate that -exec echo, braces, + leaves behind. -/
def sample_plus_pred : predicate :=
  { pred_func := PRED_FUNC.pred_exec, side_effects := true, no_default_print := true,
    need_stat := false, need_type := false, need_inum := false,
    est_success_rate := 1000000000, args := pred_args.exec_vec sample_plus_exec_val }

/-! ### Notions used to state the properties of check_path_safety -/

/-- The verdict on a list of PATH components, the first offending component
deciding: an empty component or "." is the current directory, any other
component that does not begin with '/' is a relative path. -/
def check_components : List CStr → Res Unit
  | [] => Res.ret ()
  | c :: cs =>
    if c = [] ∨ c = ['.'] then Res.fatal Fatal.path_current_directory
    else if c.head? ≠ some '/' then Res.fatal Fatal.path_relative
    else check_components cs

/-! ### Numbers with a comparison prefix -/

/-- The enum strtol_error of the xstrtol family. -/
inductive strtol_error
  | LONGINT_OK
  | LONGINT_OVERFLOW
  | LONGINT_INVALID_SUFFIX_CHAR
  | LONGINT_INVALID_SUFFIX_CHAR_WITH_OVERFLOW
  | LONGINT_INVALID
  deriving DecidableEq

/-- The largest uintmax_t (64 bits). -/
def UINTMAX_MAX : Nat := 18446744073709551615

/-- The C library's isspace in the C locale. -/
def isspace (c : Char) : Bool :=
  c = ' ' || c = '\t' || c = '\n' || c = '\x0b' || c = '\x0c' || c = '\r'

/-- The value of a string of decimal digits. -/
def decimal_value (ds : List Char) : Nat :=
  ds.foldl (fun acc c => 10 * acc + (c.toNat - '0'.toNat)) 0

/-- Does the string begin with a '-' sign? -/
def begins_with_minus : CStr → Bool
  | '-' :: _ => true
  | _ => false

/-- The string after one optional '+' sign. -/
def skip_plus : CStr → CStr
  | '+' :: r => r
  | q => q

/-- Modelled from the spec: xstrtoumax is a library routine (gnulib xstrtol.c)
whose source is not under src/.  This is the call
`xstrtoumax (s, &pend, 10, &val, "")`: base 10, no suffix allowed.  Like
strtoumax it skips leading white space and accepts one '+' sign; a '-' sign is
LONGINT_INVALID for an unsigned type, as is a string without digits; digits
followed by anything are LONGINT_INVALID_SUFFIX_CHAR; a value above UINTMAX_MAX
is LONGINT_OVERFLOW.  LONGINT_OK comes with the decimal value of the digits. -/
def xstrtoumax (s : CStr) : strtol_error × Nat :=
  let q := s.dropWhile isspace
  if begins_with_minus q then (strtol_error.LONGINT_INVALID, 0)
  else
    let ds := (skip_plus q).takeWhile Char.isDigit
    let rest := (skip_plus q).dropWhile Char.isDigit
    if ds = [] then (strtol_error.LONGINT_INVALID, 0)
    else if rest ≠ [] then
      if decimal_value ds > UINTMAX_MAX then
        (strtol_error.LONGINT_INVALID_SUFFIX_CHAR_WITH_OVERFLOW, UINTMAX_MAX)
      else (strtol_error.LONGINT_INVALID_SUFFIX_CHAR, decimal_value ds)
    else if decimal_value ds > UINTMAX_MAX then (strtol_error.LONGINT_OVERFLOW, UINTMAX_MAX)
    else (strtol_error.LONGINT_OK, decimal_value ds)

/-- The function get_comp_type: the returned flag (always true), the string
advanced beyond the comparison prefix, and the comparison type. -/
def get_comp_type (str : CStr) : Bool × CStr × comparison_type :=
  match str with
  | '+' :: r => (true, r, comparison_type.COMP_GT)
  | '-' :: r => (true, r, comparison_type.COMP_LT)
  | _ => (true, str, comparison_type.COMP_EQ)

/-- The function get_num, called with a non-NULL comp_type: `none` is the
return value false, `some (num, comp_type)` the return value true. -/
def get_num (str : Option CStr) : Option (Nat × comparison_type) :=
  match str with
  | none => none
  | some s =>
    match get_comp_type s with
    | (false, _, _) => none
    | (true, s1, c_type) =>
      match xstrtoumax s1 with
      | (strtol_error.LONGINT_OK, num) => some (num, c_type)
      | _ => none

/-- The function collect_arg: the return value, the new `*arg_ptr` and the
collected argument. -/
def collect_arg (argv : Option (List CStr)) (arg_ptr : Nat) : Bool × Nat × Option CStr :=
  match argv with
  | none => (false, arg_ptr, none)
  | some l =>
    match l[arg_ptr]? with
    | none => (false, arg_ptr, none)
    | some a => (true, arg_ptr + 1, some a)

/-- The function insert_primary: insert_primary_withpred with the predicate
function of the parser table entry. -/
def insert_primary (func : PRED_FUNC) : predicate := insert_primary_withpred func

/-- The function insert_primary_noarg. -/
def insert_primary_noarg (func : PRED_FUNC) : predicate := insert_primary func

/-- The switch of parse_size on the last character: the block size and the
argument with the suffix cut off, or `none` for the default case. -/
def size_suffix (arg : CStr) (suffix : Char) : Option (Nat × CStr) :=
  if suffix = 'b' then some (512, arg.dropLast)
  else if suffix = 'c' then some (1, arg.dropLast)
  else if suffix = 'k' then some (1024, arg.dropLast)
  else if suffix = 'M' then some (1024 * 1024, arg.dropLast)
  else if suffix = 'G' then some (1024 * 1024 * 1024, arg.dropLast)
  else if suffix = 'w' then some (2, arg.dropLast)
  else if suffix.isDigit then some (512, arg)
  else none

/-- The function parse_size. -/
def parse_size (o : options) (argv : Option (List CStr)) (arg_ptr : Nat) :
    Res (Bool × parse_state) :=
  match argv with
  | none => Res.ret (false, ⟨arg_ptr, o, none⟩)
  | some l =>
    match l[arg_ptr]? with
    | none => Res.ret (false, ⟨arg_ptr, o, none⟩)
    | some arg =>
      match arg.getLast? with
      | none => Res.fatal Fatal.size_null_argument
      | some suffix =>
        match size_suffix arg suffix with
        | none => Res.fatal Fatal.size_invalid_type
        | some (blksize, arg1) =>
          match get_num (some arg1) with
          | none => Res.fatal Fatal.size_invalid_argument
          | some (num, c_type) =>
            let rate : Nat :=
              match c_type with
              | comparison_type.COMP_GT =>
                if (num * blksize) % (UINTMAX_MAX + 1) > 20480 then 100000000 else 900000000
              | comparison_type.COMP_LT =>
                if (num * blksize) % (UINTMAX_MAX + 1) > 20480 then 900000000 else 100000000
              | comparison_type.COMP_EQ => 10000000
            Res.ret (true, ⟨arg_ptr + 1, o,
              some { insert_primary PRED_FUNC.pred_size with
                      args := pred_args.size c_type blksize num,
                      need_stat := true, need_type := false, est_success_rate := rate }⟩)

/-- The function insert_num: the inserted predicate (NULL is `none`) and the
new `*arg_ptr`. -/
def insert_num (argv : Option (List CStr)) (arg_ptr : Nat) (func : PRED_FUNC) :
    Res (Option predicate × Nat) :=
  match collect_arg argv arg_ptr with
  | (false, ap, _) => Res.ret (none, ap)
  | (true, ap, numstr) =>
    match get_num numstr with
    | some (num, c_type) =>
      Res.ret (some { insert_primary func with args := pred_args.numinfo c_type num }, ap)
    | none => Res.fatal Fatal.non_numeric_argument

/-- The member args.numinfo.l_val of a predicate. -/
def predicate.l_val (p : predicate) : Nat :=
  match p.args with
  | pred_args.numinfo _ l_val => l_val
  | _ => 0

/-- The parser of -inum. -/
def parse_inum (o : options) (argv : Option (List CStr)) (arg_ptr : Nat) :
    Res (Bool × parse_state) :=
  match insert_num argv arg_ptr PRED_FUNC.pred_inum with
  | Res.fatal e => Res.fatal e
  | Res.ret (some p, ap) =>
    Res.ret (true, ⟨ap, o, some { p with est_success_rate := 1000, need_inum := true,
                                         need_stat := false, need_type := false }⟩)
  | Res.ret (none, ap) => Res.ret (false, ⟨ap, o, none⟩)

/-- The parser of -links. -/
def parse_links (o : options) (argv : Option (List CStr)) (arg_ptr : Nat) :
    Res (Bool × parse_state) :=
  match insert_num argv arg_ptr PRED_FUNC.pred_links with
  | Res.fatal e => Res.fatal e
  | Res.ret (some p, ap) =>
    Res.ret (true, ⟨ap, o, some { p with est_success_rate :=
      if p.l_val = 1 then 990000000 else if p.l_val = 2 then 10000000 else 1000000 }⟩)
  | Res.ret (none, ap) => Res.ret (false, ⟨ap, o, none⟩)

/-- The parser of -uid. -/
def parse_uid (o : options) (argv : Option (List CStr)) (arg_ptr : Nat) :
    Res (Bool × parse_state) :=
  match insert_num argv arg_ptr PRED_FUNC.pred_uid with
  | Res.fatal e => Res.fatal e
  | Res.ret (some p, ap) =>
    Res.ret (true, ⟨ap, o, some { p with est_success_rate :=
      if p.l_val < 100 then 990000000 else 200000000 }⟩)
  | Res.ret (none, ap) => Res.ret (false, ⟨ap, o, none⟩)

/-- The parser of -gid. -/
def parse_gid (o : options) (argv : Option (List CStr)) (arg_ptr : Nat) :
    Res (Bool × parse_state) :=
  match insert_num argv arg_ptr PRED_FUNC.pred_gid with
  | Res.fatal e => Res.fatal e
  | Res.ret (some p, ap) =>
    Res.ret (true, ⟨ap, o, some { p with est_success_rate :=
      if p.l_val < 100 then 990000000 else 200000000 }⟩)
  | Res.ret (none, ap) => Res.ret (false, ⟨ap, o, none⟩)

/-! ### Notions used to state the properties of parse_size and insert_num -/

/-- The comparison kind that belongs to a sign: "+" greater, "-" less, none equal. -/
def spec_kind (sign : CStr) : comparison_type :=
  if sign = ['+'] then comparison_type.COMP_GT
  else if sign = ['-'] then comparison_type.COMP_LT
  else comparison_type.COMP_EQ

/-- The block size that belongs to a size suffix: 1 for c, 2 for w, 1024 for k,
1048576 for M, 1073741824 for G, and 512 for b and for no suffix. -/
def spec_blocksize (suf : CStr) : Nat :=
  if suf = ['c'] then 1
  else if suf = ['w'] then 2
  else if suf = ['k'] then 1024
  else if suf = ['M'] then 1048576
  else if suf = ['G'] then 1073741824
  else 512

/-- A non-empty string of decimal digits whose value fits uintmax_t. -/
def is_uintmax_digits (ds : CStr) : Prop :=
  ds ≠ [] ∧ (∀ c ∈ ds, c.isDigit = true) ∧ decimal_value ds ≤ UINTMAX_MAX

instance (ds : CStr) : Decidable (is_uintmax_digits ds) := by
  unfold is_uintmax_digits; infer_instance

/-- The signs a number may carry: none, "+" or "-". -/
def signs : List CStr := [[], ['+'], ['-']]

/-- The size suffixes, and no suffix. -/
def size_suffixes : List CStr := [[], ['b'], ['c'], ['k'], ['M'], ['G'], ['w']]

/-- The enum file_type, the index type of the array args.types. -/
inductive file_type
  | FTYPE_BLK
  | FTYPE_CHR
  | FTYPE_DIR
  | FTYPE_REG
  | FTYPE_LNK
  | FTYPE_FIFO
  | FTYPE_SOCK
  | FTYPE_DOOR
  deriving DecidableEq

/-- The numeric value of a file_type, the cell of args.types it selects. -/
def file_type.cell : file_type → Nat
  | FTYPE_BLK => 0
  | FTYPE_CHR => 1
  | FTYPE_DIR => 2
  | FTYPE_REG => 3
  | FTYPE_LNK => 4
  | FTYPE_FIFO => 5
  | FTYPE_SOCK => 6
  | FTYPE_DOOR => 7

/-- The enum value FTYPE_COUNT, the length of args.types. -/
def FTYPE_COUNT : Nat := 8

/-- Which of the file type macros the platform defines. -/
structure platform where
  S_IFLNK : Bool
  S_IFIFO : Bool
  S_IFSOCK : Bool
  S_IFDOOR : Bool
  deriving DecidableEq

/-- The switch of insert_type on one type letter: the cell and the rate (in
units of 1e-9), or the fatal error of an unsupported or unknown letter. -/
def type_switch (pl : platform) (c : Char) : Res (file_type × Nat) :=
  if c = 'b' then Res.ret (file_type.FTYPE_BLK, 888000)
  else if c = 'c' then Res.ret (file_type.FTYPE_CHR, 443000)
  else if c = 'd' then Res.ret (file_type.FTYPE_DIR, 92200000)
  else if c = 'f' then Res.ret (file_type.FTYPE_REG, 875000000)
  else if c = 'l' then
    if pl.S_IFLNK then Res.ret (file_type.FTYPE_LNK, 31100000)
    else Res.fatal Fatal.type_unsupported
  else if c = 'p' then
    if pl.S_IFIFO then Res.ret (file_type.FTYPE_FIFO, 7554)
    else Res.fatal Fatal.type_unsupported
  else if c = 's' then
    if pl.S_IFSOCK then Res.ret (file_type.FTYPE_SOCK, 15900)
    else Res.fatal Fatal.type_unsupported
  else if c = 'D' then
    if pl.S_IFDOOR then Res.ret (file_type.FTYPE_DOOR, 10000)
    else Res.fatal Fatal.type_unsupported
  else Res.fatal Fatal.type_unknown

/-- The loop of insert_type over the type letters: the array args.types and
the success rate accumulated so far are threaded through. -/
def insert_type_loop (pl : platform) : CStr → List Bool → Nat → Res (List Bool × Nat)
  | [], types, rate => Res.ret (types, rate)
  | c :: rest, types, rate =>
    match type_switch pl c with
    | Res.fatal e => Res.fatal e
    | Res.ret (type_cell, r) =>
      if types.getD type_cell.cell false = true then Res.fatal Fatal.type_duplicate
      else
        match rest with
        | [] => Res.ret (types.set type_cell.cell true, rate + r)
        | d :: rest2 =>
          if d ≠ ',' then Res.fatal Fatal.type_missing_comma
          else if rest2 = [] then Res.fatal Fatal.type_trailing_comma
          else insert_type_loop pl rest2 (types.set type_cell.cell true) (rate + r)

/-- The function insert_type.  The array args.types of the fresh predicate
starts with every cell false. -/
def insert_type (pl : platform) (o : options) (argv : Option (List CStr)) (arg_ptr : Nat)
    (which_pred : PRED_FUNC) : Res (Bool × parse_state) :=
  match collect_arg argv arg_ptr with
  | (false, ap, _) => Res.ret (false, ⟨ap, o, none⟩)
  | (true, ap, typeletter) =>
    if typeletter.getD [] = [] then Res.fatal Fatal.type_no_letter
    else
      let our_pred : predicate :=
        if which_pred = PRED_FUNC.pred_xtype then
          { insert_primary_withpred which_pred with
            est_success_rate := 0, need_stat := true, need_type := false }
        else
          { insert_primary_withpred which_pred with
            est_success_rate := 0, need_stat := false, need_type := true }
      match insert_type_loop pl (typeletter.getD []) (List.replicate FTYPE_COUNT false)
          our_pred.est_success_rate with
      | Res.fatal e => Res.fatal e
      | Res.ret (types, rate) =>
        Res.ret (true, ⟨ap, o,
          some { our_pred with args := pred_args.types types, est_success_rate := rate }⟩)

/-- The parser of -type. -/
def parse_type (pl : platform) (o : options) (argv : Option (List CStr)) (arg_ptr : Nat) :
    Res (Bool × parse_state) :=
  insert_type pl o argv arg_ptr PRED_FUNC.pred_type

/-- The parser of -xtype. -/
def parse_xtype (pl : platform) (o : options) (argv : Option (List CStr)) (arg_ptr : Nat) :
    Res (Bool × parse_state) :=
  insert_type pl o argv arg_ptr PRED_FUNC.pred_xtype

/-! ### Notions used to state the properties of insert_type -/

/-- A platform on which every listed file type exists. -/
def full_platform : platform := ⟨true, true, true, true⟩

/-- The type letters. -/
def type_letters : List Char := ['b', 'c', 'd', 'f', 'l', 'p', 's', 'D']

/-- The letter that selects a file type. -/
def file_type.letter : file_type → Char
  | FTYPE_BLK => 'b'
  | FTYPE_CHR => 'c'
  | FTYPE_DIR => 'd'
  | FTYPE_REG => 'f'
  | FTYPE_LNK => 'l'
  | FTYPE_FIFO => 'p'
  | FTYPE_SOCK => 's'
  | FTYPE_DOOR => 'D'

/-- The rate of a type letter as the specification lists it, in units of 1e-9:
f 0.875, d 0.0922, l 0.0311, b 0.000888, c 0.000443, s 0.0000159,
p 0.000007554, D 0.00001. -/
def spec_type_rate (c : Char) : Nat :=
  if c = 'f' then 875000000
  else if c = 'd' then 92200000
  else if c = 'l' then 31100000
  else if c = 'b' then 888000
  else if c = 'c' then 443000
  else if c = 's' then 15900
  else if c = 'p' then 7554
  else if c = 'D' then 10000
  else 0

/-- The string lists `letters`: a non-empty list of type letters, none
repeated, separated by single commas. -/
def is_type_list (arg : CStr) (letters : List Char) : Prop :=
  letters ≠ [] ∧ (∀ c ∈ letters, c ∈ type_letters) ∧ letters.Nodup ∧
    arg = letters.intersperse ','

/-! ### Name, path, regex, constant, print and samefile parsers -/

/-- The fields of struct stat that the parsers read: the inode, the device and
the file type for parse_samefile, and the timestamps as get_stat_atime,
get_stat_mtime, get_stat_ctime and get_stat_birthtime deliver them for the
tests on newer files (a birth time that is not known has tv_nsec = -1). -/
structure stat_info where
  st_ino : Nat
  st_dev : Nat
  is_lnk : Bool
  st_atime : timespec := ⟨0, 0⟩
  st_mtime : timespec := ⟨0, 0⟩
  st_ctime : timespec := ⟨0, 0⟩
  st_birthtime : timespec := ⟨-1, -1⟩
  deriving DecidableEq

/-- What the parsers below obtain from the C library and the file system:
whether fnmatch passes the sanity check, the verdict of
is_feasible_path_argument, whether re_compile_pattern reports an error, and the
results of the stat, open and fstat calls of parse_samefile (`none` is a
failed call).  The later members are explained where they are used; among
them `parse_datetime` gives the time that gnulib's parse_datetime reads
(`none` when it fails), `have_st_birthtime` tells whether struct stat has a
birth time member on this system, `getpwnam` and `getgrnam` give the numeric
id of a known name, and `is_selinux_enabled` is the value of that call. -/
structure parse_env where
  fnmatch_sane : Bool
  is_feasible_path_argument : CStr → Bool → Bool
  re_compile_error : Nat → CStr → Bool
  xstat : CStr → Option stat_info
  open_cloexec : CStr → Int
  fstat : Int → Option stat_info
  xstat_again : CStr → Option stat_info
  mode_compile : CStr → Option (Nat × Nat) := fun _ => none
  is_used_fs_type : CStr → Bool := fun _ => true
  root_fstype : Option CStr := none
  sharefile_fopen : CStr → Bool := fun _ => true
  xstrtod : CStr → Option double_value := fun _ => none
  localtime : Int → Option (Nat × Nat × Nat) := fun _ => none
  parse_datetime : CStr → Option timespec := fun _ => none
  have_st_birthtime : Bool := true
  getpwnam : CStr → Option Nat := fun _ => none
  getgrnam : CStr → Option Nat := fun _ => none
  is_selinux_enabled : Int := 0

/-- The function estimate_pattern_match_rate, in units of 1e-9. -/
def estimate_pattern_match_rate (pattern : CStr) (is_regex : Bool) : Nat :=
  if pattern.any (fun c => c = '*' || c = '?' || c = '[') ||
      (is_regex && pattern.any (fun c => c = '.')) then 800000000
  else 100000000

/-- The function fnmatch_sanitycheck. -/
def fnmatch_sanitycheck (env : parse_env) : Res Bool :=
  if env.fnmatch_sane then Res.ret true else Res.fatal Fatal.fnmatch_sanity

/-- The parser of -name. -/
def parse_name (env : parse_env) (o : options) (argv : Option (List CStr)) (arg_ptr : Nat) :
    Res (Bool × parse_state) :=
  match fnmatch_sanitycheck env with
  | Res.fatal e => Res.fatal e
  | Res.ret _ =>
    match collect_arg argv arg_ptr with
    | (true, ap, some name) =>
      Res.ret (true, ⟨ap, o,
        some { insert_primary PRED_FUNC.pred_name with
                need_stat := false, need_type := false, args := pred_args.str name,
                est_success_rate := estimate_pattern_match_rate name false }⟩)
    | (_, ap, _) => Res.ret (false, ⟨ap, o, none⟩)

/-- The parser of -iname. -/
def parse_iname (env : parse_env) (o : options) (argv : Option (List CStr)) (arg_ptr : Nat) :
    Res (Bool × parse_state) :=
  match fnmatch_sanitycheck env with
  | Res.fatal e => Res.fatal e
  | Res.ret _ =>
    match collect_arg argv arg_ptr with
    | (true, ap, some name) =>
      Res.ret (true, ⟨ap, o,
        some { insert_primary PRED_FUNC.pred_iname with
                need_stat := false, need_type := false, args := pred_args.str name,
                est_success_rate := estimate_pattern_match_rate name false }⟩)
    | (_, ap, _) => Res.ret (false, ⟨ap, o, none⟩)

/-- The function insert_path_check. -/
def insert_path_check (env : parse_env) (o : options) (argv : Option (List CStr))
    (arg_ptr : Nat) (pred : PRED_FUNC) : Res (Bool × parse_state) :=
  let foldcase : Bool := decide (pred = PRED_FUNC.pred_ipath)
  match fnmatch_sanitycheck env with
  | Res.fatal e => Res.fatal e
  | Res.ret _ =>
    match collect_arg argv arg_ptr with
    | (true, ap, some name) =>
      Res.ret (true, ⟨ap, o,
        some { insert_primary_withpred pred with
                need_stat := false, need_type := false, args := pred_args.str name,
                est_success_rate :=
                  if !o.posixly_correct && !env.is_feasible_path_argument name foldcase then 10
                  else estimate_pattern_match_rate name false }⟩)
    | (_, ap, _) => Res.ret (false, ⟨ap, o, none⟩)

/-- The parser of -path. -/
def parse_path (env : parse_env) (o : options) (argv : Option (List CStr)) (arg_ptr : Nat) :
    Res (Bool × parse_state) :=
  insert_path_check env o argv arg_ptr PRED_FUNC.pred_path

/-- The parser of -wholename. -/
def parse_wholename (env : parse_env) (o : options) (argv : Option (List CStr))
    (arg_ptr : Nat) : Res (Bool × parse_state) :=
  insert_path_check env o argv arg_ptr PRED_FUNC.pred_path

/-- The parser of -ipath. -/
def parse_ipath (env : parse_env) (o : options) (argv : Option (List CStr)) (arg_ptr : Nat) :
    Res (Bool × parse_state) :=
  insert_path_check env o argv arg_ptr PRED_FUNC.pred_ipath

/-- The parser of -iwholename. -/
def parse_iwholename (env : parse_env) (o : options) (argv : Option (List CStr))
    (arg_ptr : Nat) : Res (Bool × parse_state) :=
  insert_path_check env o argv arg_ptr PRED_FUNC.pred_ipath

/-- The syntax bit RE_ICASE of regex.h. -/
def RE_ICASE : Nat := 4194304

/-- The function insert_regex. -/
def insert_regex (env : parse_env) (o : options) (argv : Option (List CStr)) (arg_ptr : Nat)
    (regex_options : Nat) : Res (Bool × parse_state) :=
  match collect_arg argv arg_ptr with
  | (true, ap, some rx) =>
    if env.re_compile_error regex_options rx then Res.fatal Fatal.regex_compile
    else
      Res.ret (true, ⟨ap, o,
        some { insert_primary_withpred PRED_FUNC.pred_regex with
                need_stat := false, need_type := false, args := pred_args.str rx,
                est_success_rate := estimate_pattern_match_rate rx true }⟩)
  | (_, ap, _) => Res.ret (false, ⟨ap, o, none⟩)

/-- The parser of -regex. -/
def parse_regex (env : parse_env) (o : options) (argv : Option (List CStr)) (arg_ptr : Nat) :
    Res (Bool × parse_state) :=
  insert_regex env o argv arg_ptr o.regex_options

/-- The parser of -iregex. -/
def parse_iregex (env : parse_env) (o : options) (argv : Option (List CStr)) (arg_ptr : Nat) :
    Res (Bool × parse_state) :=
  insert_regex env o argv arg_ptr (RE_ICASE ||| o.regex_options)

/-- The parser of -true. -/
def parse_true (o : options) (arg_ptr : Nat) : Res (Bool × parse_state) :=
  Res.ret (true, ⟨arg_ptr, o,
    some { insert_primary_noarg PRED_FUNC.pred_true with
            need_stat := false, need_type := false, est_success_rate := 1000000000 }⟩)

/-- The function insert_false, behind the parser of -false. -/
def insert_false (o : options) (arg_ptr : Nat) : Res (Bool × parse_state) :=
  Res.ret (true, ⟨arg_ptr, o,
    some { insert_primary_noarg PRED_FUNC.pred_false with
            need_stat := false, need_type := false, side_effects := false,
            no_default_print := false, est_success_rate := 0 }⟩)

/-- The parser of -false. -/
def parse_false (o : options) (arg_ptr : Nat) : Res (Bool × parse_state) :=
  insert_false o arg_ptr

/-- The parser of -print. -/
def parse_print (o : options) (arg_ptr : Nat) : Res (Bool × parse_state) :=
  Res.ret (true, ⟨arg_ptr, o,
    some { insert_primary_noarg PRED_FUNC.pred_print with
            side_effects := true, no_default_print := true,
            need_stat := false, need_type := false }⟩)

/-- The part of parse_samefile between the first stat and the insertion of
the predicate: the stat data and the file descriptor that end up in
args.samefileid. -/
def samefile_identity (env : parse_env) (o : options) (filename : CStr) (st : stat_info) :
    Res (stat_info × Int) :=
  let fd0 : Int :=
    if o.symlink_handling = SymlinkOption.SYMLINK_NEVER_DEREF then
      if o.open_nofollow_available then -1
      else if st.is_lnk then -2
      else -1
    else -1
  if fd0 = -1 then
    let fd := env.open_cloexec filename
    if fd ≥ 0 then
      match env.fstat fd with
      | none => Res.fatal Fatal.target_file
      | some fst =>
        match env.xstat_again filename with
        | none => Res.fatal Fatal.target_file
        | some st2 =>
          if o.symlink_handling = SymlinkOption.SYMLINK_NEVER_DEREF ∧
              o.open_nofollow_available = false then
            if st2.is_lnk then Res.ret (st2, -1)
            else if st2.st_dev = fst.st_dev ∧ st2.st_ino = fst.st_ino then Res.ret (st2, fd)
            else Res.ret (st2, -1)
          else Res.ret (fst, fd)
    else Res.ret (st, fd)
  else Res.ret (st, fd0)

/-- The parser of -samefile. -/
def parse_samefile (env : parse_env) (o : options) (argv : Option (List CStr))
    (arg_ptr : Nat) : Res (Bool × parse_state) :=
  match collect_arg argv arg_ptr with
  | (true, ap, some filename) =>
    match env.xstat filename with
    | none => Res.fatal Fatal.target_file
    | some st =>
      match samefile_identity env o filename st with
      | Res.fatal e => Res.fatal e
      | Res.ret (st1, fd) =>
        Res.ret (true, ⟨ap, o,
          some { insert_primary PRED_FUNC.pred_samefile with
                  args := pred_args.samefileid st1.st_ino st1.st_dev fd,
                  need_type := false, need_stat := true, est_success_rate := 10000000 }⟩)
  | (_, ap, _) => Res.ret (false, ⟨ap, o, none⟩)

/-! ### Notions used to state what the parsers declare -/

/-- Whenever the parser call `r` returns true, it has inserted a predicate
whose need_stat and need_type are `stat` and `type`. -/
def declares (r : Res (Bool × parse_state)) (stat type : Bool) : Prop :=
  ∀ st, r = Res.ret (true, st) →
    ∃ p, st.pred = some p ∧ p.need_stat = stat ∧ p.need_type = type

/-- An environment in which the library and the file system cooperate: every
file exists as a regular file with inode 7 on device 1, and open gives
descriptor 3. -/
def sample_parse_env : parse_env :=
  { fnmatch_sane := true,
    is_feasible_path_argument := fun _ _ => true,
    re_compile_error := fun _ _ => false,
    xstat := fun _ => some { st_ino := 7, st_dev := 1, is_lnk := false },
    open_cloexec := fun _ => 3,
    fstat := fun _ => some { st_ino := 7, st_dev := 1, is_lnk := false },
    xstat_again := fun _ => some { st_ino := 7, st_dev := 1, is_lnk := false } }

/-! ## The depth limits: insert_depthspec (parser.c) -/

/-- The largest value of the C type int. -/
def INT_MAX : Int := 2147483647

/-- The smallest value of the C type int. -/
def INT_MIN : Int := -2147483648

/-- The largest value of the C type long. -/
def LONG_MAX : Int := 9223372036854775807

/-- The smallest value of the C type long. -/
def LONG_MIN : Int := -9223372036854775808

/-- The C library's strspn: the length of the longest initial part of `s` made
of characters of `accept`. -/
def strspn (s accept : CStr) : Nat :=
  (s.takeWhile (fun c => accept.contains c)).length

/-- Modelled from the spec: safe_atoi lives in lib/safe-atoi.c, which is not
under src/; the spec only says that a malformed number is a fatal error.  It
reads a long with strtol in base 10 (leading white space, one optional sign,
digits; the result is clamped to the range of long) and ends the program when
the value does not fit an int, when something follows the digits, or when
there are no digits; otherwise it returns the value. -/
def safe_atoi (s : CStr) : Res Int :=
  let q := s.dropWhile isspace
  let neg := begins_with_minus q
  let body := if neg then q.drop 1 else skip_plus q
  let ds := body.takeWhile Char.isDigit
  let rest := if ds = [] then s else body.dropWhile Char.isDigit
  let magnitude : Int := (decimal_value ds : Int)
  let lval : Int := if neg then max (-magnitude) LONG_MIN else min magnitude LONG_MAX
  if lval > INT_MAX ∨ lval < INT_MIN then Res.fatal Fatal.integer_out_of_range
  else if rest ≠ [] then Res.fatal Fatal.integer_unexpected_suffix
  else if ds = [] then Res.fatal Fatal.integer_expected
  else Res.ret lval

/-- The parser behind the table entry `--noop`: parse_true on that entry, whose
predicate function is pred_true. -/
def parse_noop (o : options) (arg_ptr : Nat) : Res (Bool × parse_state) :=
  parse_true o arg_ptr

/-- The function insert_depthspec.  The C code stores the limit through
`limitptr`, which points at options.maxdepth or options.mindepth; here
`set_limit` is that store. -/
def insert_depthspec (set_limit : options → Int → options) (o : options)
    (argv : Option (List CStr)) (arg_ptr : Nat) : Res (Bool × parse_state) :=
  match collect_arg argv arg_ptr with
  | (true, ap, some depthstr) =>
    let depth_len := strspn depthstr "0123456789".toList
    if depth_len > 0 ∧ depthstr[depth_len]? = none then
      match safe_atoi depthstr with
      | Res.fatal e => Res.fatal e
      | Res.ret limit =>
        if limit ≥ 0 then parse_noop (set_limit o limit) ap
        else Res.fatal Fatal.depth_expected_integer
    else Res.fatal Fatal.depth_expected_integer
  | (_, ap, _) => Res.ret (false, ⟨ap, o, none⟩)

/-- The parser of -maxdepth. -/
def parse_maxdepth (o : options) (argv : Option (List CStr)) (arg_ptr : Nat) :
    Res (Bool × parse_state) :=
  insert_depthspec (fun o v => { o with maxdepth := v }) o argv arg_ptr

/-- The parser of -mindepth. -/
def parse_mindepth (o : options) (argv : Option (List CStr)) (arg_ptr : Nat) :
    Res (Bool × parse_state) :=
  insert_depthspec (fun o v => { o with mindepth := v }) o argv arg_ptr

/-- The predicate that parse_noop adds: pred_true, which needs neither stat
nor type information and always succeeds. -/
def noop_predicate : predicate :=
  { insert_primary_noarg PRED_FUNC.pred_true with
    need_stat := false, need_type := false, est_success_rate := 1000000000 }

/-- A non-empty string of the decimal digits 0-9 whose value fits a
non-negative int. -/
def is_depth_argument (s : CStr) : Prop :=
  s ≠ [] ∧ (∀ c ∈ s, c ∈ "0123456789".toList) ∧ (decimal_value s : Int) ≤ INT_MAX

instance (s : CStr) : Decidable (is_depth_argument s) := by
  unfold is_depth_argument; infer_instance

/-! ## The traversal: ftsfind.c -/

/-- The exit status of a run without errors. -/
def EXIT_SUCCESS : Nat := 0

/-- The exit status of a run that met a non-fatal error. -/
def EXIT_FAILURE : Nat := 1

/-- The errno value ENOENT. -/
def ENOENT : Nat := 2

/-- The errno value ELOOP. -/
def ELOOP : Nat := 40

/-- The pseudo file descriptor AT_FDCWD. -/
def AT_FDCWD : Int := -100

/-- Modelled from the spec: the option bits of the walker are declared in
gnulib's fts_.h, which is not under src/; the spec names the options only.
Each one is a single bit of its own: follow the links named on the command
line. -/
def FTS_COMFOLLOW : Nat := 0x0001

/-- Modelled from the spec: logical walk, see FTS_COMFOLLOW. -/
def FTS_LOGICAL : Nat := 0x0002

/-- Modelled from the spec: do not stat every entry, see FTS_COMFOLLOW. -/
def FTS_NOSTAT : Nat := 0x0008

/-- Modelled from the spec: physical walk, see FTS_COMFOLLOW. -/
def FTS_PHYSICAL : Nat := 0x0010

/-- Modelled from the spec: do not cross devices, see FTS_COMFOLLOW. -/
def FTS_XDEV : Nat := 0x0040

/-- Modelled from the spec: tight cycle check, see FTS_COMFOLLOW. -/
def FTS_TIGHT_CYCLE_CHECK : Nat := 0x0100

/-- Modelled from the spec: use a directory file descriptor instead of
changing the working directory, see FTS_COMFOLLOW. -/
def FTS_CWDFD : Nat := 0x0200

/-- Modelled from the spec: leave the starting points verbatim, see
FTS_COMFOLLOW. -/
def FTS_VERBATIM : Nat := 0x1000

/-- The macro S_ISDIR on a st_mode value. -/
def S_ISDIR (mode : Nat) : Bool := mode &&& 0o170000 = 0o040000

/-- The macro S_ISLNK on a st_mode value. -/
def S_ISLNK (mode : Nat) : Bool := mode &&& 0o170000 = 0o120000

/-- The values of the member fts_info of an entry. -/
inductive FTS_INFO
  | FTS_D
  | FTS_DC
  | FTS_DEFAULT
  | FTS_DNR
  | FTS_DOT
  | FTS_DP
  | FTS_ERR
  | FTS_F
  | FTS_INIT
  | FTS_NS
  | FTS_NSOK
  | FTS_SL
  | FTS_SLNONE
  | FTS_W
  deriving DecidableEq

/-- The instructions that fts_set is given in ftsfind.c. -/
inductive FTS_INSTR
  | FTS_AGAIN
  | FTS_SKIP
  deriving DecidableEq

/-- An entry as fts_read returns it: the members of FTSENT that ftsfind.c
reads, the two members of `*fts_statp` it reads, and `fts_cwd_fd`, the value of
the walker's member of that name at the time the entry is returned.  The level
is the value of `(int) ent->fts_level`. -/
structure FTSENT where
  fts_info : FTS_INFO
  fts_level : Int
  fts_errno : Nat := 0
  fts_path : CStr
  fts_accpath : CStr
  fts_name : CStr
  st_mode : Nat := 0
  st_ino : Nat := 0
  fts_cwd_fd : Int := AT_FDCWD
  deriving DecidableEq

/-- The members of `struct state` that ftsfind.c uses, together with the three
file-scope variables of ftsfind.c: ftsoptions, prev_depth and curr_fd. -/
structure state where
  curdepth : Int := 0
  have_stat : Bool := false
  have_type : Bool := false
  type : Nat := 0
  rel_pathname : CStr := []
  cwd_dir_fd : Int := AT_FDCWD
  starting_path_length : Nat := 0
  stop_at_current_level : Bool := false
  exit_status : Nat := EXIT_SUCCESS
  execdirs_outstanding : Bool := false
  already_issued_stat_error_msg : Bool := false
  ftsoptions : Nat := FTS_NOSTAT ||| FTS_TIGHT_CYCLE_CHECK ||| FTS_CWDFD ||| FTS_VERBATIM
  prev_depth : Int := INT_MIN
  curr_fd : Int := -1
  deriving DecidableEq

/-- The messages that ftsfind.c writes with `error (0, ...)`, each with the
name it quotes. -/
inductive diagnostic
  | target_file_error (errno_value : Nat) (name : CStr)
  | symbolic_link_loop (path : CStr)
  | file_system_loop (path : CStr)
  | mode_0000 (path : CStr)
  | cannot_search (arg : CStr)
  | failed_to_read (arg : CStr)
  | failed_to_restore (arg : CStr)
  | extra_operand (arg : CStr)
  | empty_file_name
  | files0_read_error
  deriving DecidableEq

/-- What a run does that can be seen from outside ftsfind.c: a diagnostic,
a call of apply_predicate on a path, a call of fts_set on the entry with that
path, the calls of complete_pending_execdirs, show_success_rates and cleanup,
and a call of fts_open on a starting point with the walker options. -/
inductive event
  | error (d : diagnostic)
  | apply_predicate (path : CStr)
  | fts_set (path : CStr) (instr : FTS_INSTR)
  | complete_pending_execdirs
  | show_success_rates
  | cleanup
  | fts_open (arg : CStr) (ftsoptions : Nat)
  deriving DecidableEq

/-- What evaluating the expression on one entry leaves in `struct state`:
whether -prune asked to stop at the current level, whether an action failed,
and whether an -execdir batch is left pending. -/
structure eval_effect where
  stop_at_current_level : Bool := false
  failed : Bool := false
  execdirs_outstanding : Bool := false
  deriving DecidableEq

/-- The outcome of digest_mode: true with the mode it settled on, or false,
after reporting the failed stat with the given errno or after keeping quiet. -/
inductive digest_result
  | ok (mode : Nat)
  | failed (reported : Option Nat)
  deriving DecidableEq

/-- One walk as fts_open, fts_read and fts_close deliver it: the entries that
fts_read returns before it returns NULL, the errno it leaves then, and the
return value of fts_close. -/
structure fts_run where
  entries : List FTSENT
  read_errno : Nat := 0
  close_status : Int := 0
  deriving DecidableEq

/-- The stream named by -files0-from: whether fopen succeeds, whether it is
the same file as standard input, the names argv_iter reads from it, whether
reading ends in an error instead of the end of file, and whether ferror or
fclose report a failure at the end. -/
structure files0_stream where
  open_ok : Bool := true
  same_as_stdin : Bool := false
  names : List CStr := []
  read_error : Bool := false
  close_error : Bool := false
  deriving DecidableEq

/-- Modelled from the spec: the functions that ftsfind.c calls and that are not
under src/ are parameters of the model.  They are: the test of symlink_loop
(options.xstat failing with ELOOP), digest_mode, apply_predicate (the
evaluation of the expression on a path), dup_cloexec, the walker behind
fts_open, whether a flushed -execdir batch fails, looks_like_expression, the
stream of -files0-from, and whether cleanup finds a failure. -/
structure find_env where
  symlink_loop : CStr → Bool
  digest_mode : FTSENT → Nat → digest_result
  apply_predicate : options → CStr → state → eval_effect
  dup_cloexec : Int → Int
  fts_open : CStr → Nat → Option fts_run
  execdirs_fail : state → Bool
  looks_like_expression : CStr → Bool → Bool
  files0 : files0_stream
  cleanup_fails : state → Bool

/-- The function left_dir. -/
def left_dir (st : state) : state :=
  if st.ftsoptions &&& FTS_CWDFD ≠ 0 then
    if st.curr_fd ≥ 0 then { st with curr_fd := -1 } else st
  else st

/-- The function inside_dir; its assertions are taken to hold. -/
def inside_dir (env : find_env) (st : state) (dir_fd : Int) : state :=
  if st.ftsoptions &&& FTS_CWDFD ≠ 0 then
    if st.curr_fd < 0 then
      if AT_FDCWD = dir_fd then { st with cwd_dir_fd := dir_fd, curr_fd := AT_FDCWD }
      else if dir_fd ≥ 0 then { st with cwd_dir_fd := dir_fd, curr_fd := env.dup_cloexec dir_fd }
      else { st with cwd_dir_fd := dir_fd }
    else { st with cwd_dir_fd := dir_fd }
  else st

/-- Modelled from the spec: nonfatal_target_file_error is defined in util.c,
not under src/.  A target-file error is non-fatal: it is recorded on stderr
and the exit status is set, once per entry: when a stat error message was
already issued for the entry nothing is written. -/
def nonfatal_target_file_error (errno_value : Nat) (name : CStr) (st : state) :
    state × List event :=
  if st.already_issued_stat_error_msg then
    ({ st with already_issued_stat_error_msg := true }, [])
  else
    ({ st with exit_status := EXIT_FAILURE, already_issued_stat_error_msg := true },
      [event.error (diagnostic.target_file_error errno_value name)])

/-- The function issue_loop_warning. -/
def issue_loop_warning (ent : FTSENT) : List event :=
  if S_ISLNK ent.st_mode then [event.error (diagnostic.symbolic_link_loop ent.fts_path)]
  else [event.error (diagnostic.file_system_loop ent.fts_path)]

/-- Modelled from the spec: complete_pending_execdirs is defined outside src/.
It flushes the pending -execdir batches, after which none is outstanding; a
batch that fails makes the exit status non-zero. -/
def complete_pending_execdirs (env : find_env) (st : state) : state :=
  if st.execdirs_outstanding then
    { st with execdirs_outstanding := false,
              exit_status := if env.execdirs_fail st then EXIT_FAILURE else st.exit_status }
  else st

/-- The function visit. -/
def visit (env : find_env) (o : options) (st : state) (ent : FTSENT) : state × List event :=
  let st1 : state :=
    { st with have_stat := ent.fts_info ≠ FTS_INFO.FTS_NS ∧ ent.fts_info ≠ FTS_INFO.FTS_NSOK,
              rel_pathname := ent.fts_accpath,
              cwd_dir_fd := ent.fts_cwd_fd }
  let eff := env.apply_predicate o ent.fts_path st1
  let st2 : state :=
    { st1 with stop_at_current_level := st1.stop_at_current_level || eff.stop_at_current_level,
               exit_status := if eff.failed then EXIT_FAILURE else st1.exit_status,
               execdirs_outstanding := st1.execdirs_outstanding || eff.execdirs_outstanding }
  if st2.stop_at_current_level then
    (st2, [event.apply_predicate ent.fts_path, event.fts_set ent.fts_path FTS_INSTR.FTS_SKIP])
  else (st2, [event.apply_predicate ent.fts_path])

/-- The part of consider_visiting under "Cope with various error conditions",
after the test for FTS_ERR: whether it returns, the state and the events. -/
def consider_visiting_errors (env : find_env) (o : options) (st : state) (ent : FTSENT) :
    Bool × state × List event :=
  if ent.fts_info = FTS_INFO.FTS_DNR then
    if ENOENT = ent.fts_errno ∧ o.ignore_readdir_race = true then (true, st, [])
    else
      let r := nonfatal_target_file_error ent.fts_errno ent.fts_path st
      if o.do_dir_first then (true, r.1, r.2) else (false, r.1, r.2)
  else if ent.fts_info = FTS_INFO.FTS_DC then
    (true, { st with exit_status := EXIT_FAILURE }, issue_loop_warning ent)
  else if ent.fts_info = FTS_INFO.FTS_SLNONE then
    if env.symlink_loop ent.fts_accpath then
      let r := nonfatal_target_file_error ELOOP ent.fts_path st
      (true, r.1, r.2)
    else (false, st, [])
  else if ent.fts_info = FTS_INFO.FTS_NS then
    if ent.fts_level = 0 then
      let r := nonfatal_target_file_error ent.fts_errno ent.fts_path st
      (true, r.1, r.2)
    else if env.symlink_loop ent.fts_accpath then
      let r := nonfatal_target_file_error ELOOP ent.fts_path st
      (true, r.1, r.2)
    else if ENOENT = ent.fts_errno ∧ o.ignore_readdir_race = true then (true, st, [])
    else
      let r := nonfatal_target_file_error ent.fts_errno ent.fts_path st
      (false, r.1, r.2)
  else (false, st, [])

/-- The part of consider_visiting under "Cope with the usual cases": the mode,
the state and the events.  The assertions are taken to hold. -/
def consider_visiting_usual (st : state) (ent : FTSENT) : Nat × state × List event :=
  if ent.fts_info = FTS_INFO.FTS_NSOK ∨ ent.fts_info = FTS_INFO.FTS_NS then (st.type, st, [])
  else
    (ent.st_mode,
      { st with have_stat := true, have_type := true, type := ent.st_mode },
      if ent.st_mode = 0 then [event.error (diagnostic.mode_0000 ent.fts_path)] else [])

/-- The first statements of consider_visiting: left_dir, inside_dir and the
assignment to prev_depth. -/
def consider_visiting_enter (env : find_env) (st : state) (ent : FTSENT) : state :=
  let st1 : state :=
    if ent.fts_info = FTS_INFO.FTS_DP then left_dir st
    else if ent.fts_level > st.prev_depth ∨ ent.fts_level = 0 then left_dir st
    else st
  { inside_dir env st1 ent.fts_cwd_fd with prev_depth := ent.fts_level }

/-- The part of consider_visiting from the call of digest_mode to the return
after FTS_AGAIN: `none` when it returns there, otherwise the mode with which
the entry goes on to the depth check; then the state and the events. -/
def consider_visiting_digest (env : find_env) (st : state) (ent : FTSENT) (mode : Nat) :
    Option Nat × state × List event :=
  match (if mode ≠ 0 then env.digest_mode ent mode else digest_result.ok mode) with
  | digest_result.failed none => (none, st, [])
  | digest_result.failed (some errno_value) =>
    let r := nonfatal_target_file_error errno_value ent.fts_path st
    (none, r.1, r.2)
  | digest_result.ok mode1 =>
    let isdir : Bool := S_ISDIR mode1 || ent.fts_info = FTS_INFO.FTS_D
      || ent.fts_info = FTS_INFO.FTS_DP || ent.fts_info = FTS_INFO.FTS_DC
    if isdir = true ∧ ent.fts_info = FTS_INFO.FTS_NSOK then
      (none, st, [event.fts_set ent.fts_path FTS_INSTR.FTS_AGAIN])
    else (some mode1, st, [])

/-- The first part of consider_visiting, up to the return after FTS_AGAIN:
`none` when it returns there or earlier, otherwise the mode with which the
entry goes on to the depth check; then the state and the events. -/
def consider_visiting_early (env : find_env) (o : options) (st : state) (ent : FTSENT) :
    Option Nat × state × List event :=
  let st2 : state := consider_visiting_enter env st ent
  if ent.fts_info = FTS_INFO.FTS_ERR then
    let r := nonfatal_target_file_error ent.fts_errno ent.fts_path st2
    (none, r.1, r.2)
  else
    let e := consider_visiting_errors env o st2 ent
    if e.1 = true then (none, e.2.1, e.2.2)
    else
      let u := consider_visiting_usual e.2.1 ent
      let d := consider_visiting_digest env { u.2.1 with curdepth := ent.fts_level } ent u.1
      (d.1, d.2.1, e.2.2 ++ u.2.2 ++ d.2.2)

/-- The value of the local variable `ignore` of consider_visiting when it
decides whether to call visit. -/
def consider_visiting_ignore (o : options) (ent : FTSENT) : Bool :=
  let ignore0 : Bool := o.maxdepth ≥ 0 ∧ ent.fts_level ≥ o.maxdepth ∧ ent.fts_level > o.maxdepth
  if ent.fts_info = FTS_INFO.FTS_D ∧ o.do_dir_first = false then true
  else if ent.fts_info = FTS_INFO.FTS_DP ∧ o.do_dir_first = true then true
  else if ent.fts_level < o.mindepth then true
  else ignore0

/-- The second part of consider_visiting, from the depth check on: the state
and the events. -/
def consider_visiting_late (env : find_env) (o : options) (st : state) (ent : FTSENT) :
    state × List event :=
  let skip : List event :=
    if o.maxdepth ≥ 0 ∧ ent.fts_level ≥ o.maxdepth then
      [event.fts_set ent.fts_path FTS_INSTR.FTS_SKIP]
    else []
  let v : state × List event :=
    if consider_visiting_ignore o ent = false then visit env o st ent else (st, [])
  let st1 : state :=
    if ent.fts_info = FTS_INFO.FTS_DP then { v.1 with stop_at_current_level := false } else v.1
  (st1, skip ++ v.2)

/-- The function consider_visiting: the state it leaves and the events, in
order. -/
def consider_visiting (env : find_env) (o : options) (st : state) (ent : FTSENT) :
    state × List event :=
  let e := consider_visiting_early env o st ent
  match e.1 with
  | none => (e.2.1, e.2.2)
  | some _ =>
    let l := consider_visiting_late env o e.2.1 ent
    (l.1, e.2.2 ++ l.2)

/-- The loop of find over the entries that fts_read returns; `level` is the
local variable of that name.  It gives the state and the events, in order. -/
def find_loop (env : find_env) (o : options) : state → Int → List FTSENT → state × List event
  | st, _, [] => (st, [])
  | st, level, ent :: rest =>
    let flush : Bool := st.execdirs_outstanding && decide (ent.fts_level ≠ level)
    let st1 : state := if flush then complete_pending_execdirs env st else st
    let st2 : state :=
      { st1 with already_issued_stat_error_msg := false,
                 have_stat := false,
                 have_type := decide (ent.st_mode ≠ 0),
                 type := if ent.st_mode ≠ 0 then ent.st_mode else 0 }
    let c := consider_visiting env o st2 ent
    let r := find_loop env o c.1 ent.fts_level rest
    (r.1, (if flush then [event.complete_pending_execdirs] else []) ++ c.2 ++ r.2)

/-- The function find: its return value, the state and the events. -/
def find (env : find_env) (o : options) (st : state) (arg : CStr) :
    Bool × state × List event :=
  let st1 : state := inside_dir env { st with starting_path_length := arg.length } AT_FDCWD
  let policy : Nat :=
    match o.symlink_handling with
    | SymlinkOption.SYMLINK_ALWAYS_DEREF => FTS_COMFOLLOW ||| FTS_LOGICAL
    | SymlinkOption.SYMLINK_DEREF_ARGSONLY => FTS_COMFOLLOW ||| FTS_PHYSICAL
    | SymlinkOption.SYMLINK_NEVER_DEREF => FTS_PHYSICAL
  let st2 : state := { st1 with ftsoptions := st1.ftsoptions ||| policy }
  let st3 : state :=
    if o.stay_on_filesystem then { st2 with ftsoptions := st2.ftsoptions ||| FTS_XDEV } else st2
  match env.fts_open arg st3.ftsoptions with
  | none =>
    (true, { st3 with exit_status := EXIT_FAILURE },
      [event.fts_open arg st3.ftsoptions, event.error (diagnostic.cannot_search arg)])
  | some run =>
    let r := find_loop env o st3 INT_MIN run.entries
    if run.read_errno ≠ 0 then
      (false, { r.1 with exit_status := EXIT_FAILURE },
        event.fts_open arg st3.ftsoptions :: r.2 ++
          [event.error (diagnostic.failed_to_read arg)])
    else if run.close_status ≠ 0 then
      (false, { r.1 with exit_status := EXIT_FAILURE },
        event.fts_open arg st3.ftsoptions :: r.2 ++
          [event.error (diagnostic.failed_to_restore arg)])
    else (true, r.1, event.fts_open arg st3.ftsoptions :: r.2)

/-- How process_all_startpoints ends: it returns `ok`, or the program exits
with a fatal error; with the state and the events up to there. -/
structure run_result where
  outcome : Res Bool
  st : state
  events : List event

/-- The loop of process_all_startpoints over the names that argv_iter yields.
`from_files0` tells whether options.files0_from is set, `read_error` whether
the iterator ends with AI_ERR_READ instead of AI_ERR_EOF, `ok` is the local
variable of that name.  It gives `ok`, the state and the events. -/
def startpoints_loop (env : find_env) (o : options) (from_files0 read_error : Bool) :
    state → Bool → List CStr → Bool × state × List event
  | st, ok, [] =>
    if read_error then
      (false, { st with exit_status := EXIT_FAILURE },
        [event.error diagnostic.files0_read_error])
    else (ok, st, [])
  | st, ok, file_name :: rest =>
    if file_name = [] then
      let r := startpoints_loop env o from_files0 read_error
        { st with exit_status := EXIT_FAILURE } false rest
      (r.1, r.2.1, event.error diagnostic.empty_file_name :: r.2.2)
    else if from_files0 = false ∧ env.looks_like_expression file_name true = true then
      (ok, st, [])
    else
      let f := find env o { st with starting_path_length := file_name.length } file_name
      if f.1 then
        let r := startpoints_loop env o from_files0 read_error f.2.1 ok rest
        (r.1, r.2.1, f.2.2 ++ r.2.2)
      else (false, f.2.1, f.2.2)

/-- The part of process_all_startpoints that reads the names from the stream
of -files0-from, once the stream is open. -/
def startpoints_from_stream (env : find_env) (o : options) (st : state) : run_result :=
  let r := startpoints_loop env o true env.files0.read_error st true env.files0.names
  if r.1 = true ∧ env.files0.close_error = true then
    ⟨Res.fatal Fatal.files0_error_reading, r.2.1, r.2.2⟩
  else ⟨Res.ret r.1, r.2.1, r.2.2⟩

/-- The local variable argv_starting_points of process_all_startpoints: did
the user pass starting points on the command line? -/
def argv_starting_points (env : find_env) (argv : List CStr) : Bool :=
  match argv with
  | [] => false
  | a :: _ => !env.looks_like_expression a true

/-- The function process_all_startpoints; `argv` holds the arguments after the
leading options, up to the terminating NULL. -/
def process_all_startpoints (env : find_env) (o : options) (st : state) (argv : List CStr) :
    run_result :=
  match o.files0_from with
  | some files0_from =>
    if argv_starting_points env argv then
      ⟨Res.fatal Fatal.files0_with_operands, st,
        [event.error (diagnostic.extra_operand (argv.headD []))]⟩
    else if files0_from = "-".toList then
      if o.ok_prompt_stdin then ⟨Res.fatal Fatal.files0_stdin_with_ok, st, []⟩
      else startpoints_from_stream env o st
    else if env.files0.open_ok = false then ⟨Res.fatal Fatal.files0_cannot_open, st, []⟩
    else if o.ok_prompt_stdin = true ∧ env.files0.same_as_stdin = true then
      ⟨Res.fatal Fatal.files0_same_as_stdin, st, []⟩
    else startpoints_from_stream env o st
  | none =>
    if argv_starting_points env argv = false then
      let f := find env o st ".".toList
      ⟨Res.ret f.1, f.2.1, f.2.2⟩
    else
      let r := startpoints_loop env o false false st true argv
      ⟨Res.ret r.1, r.2.1, r.2.2⟩

/-- Modelled from the spec: cleanup is defined in util.c, not under src/.  At
program end all pending batches are flushed, after which none is outstanding;
a batch that fails makes the exit status non-zero. -/
def cleanup (env : find_env) (st : state) : state :=
  { st with execdirs_outstanding := false,
            exit_status := if env.cleanup_fails st then EXIT_FAILURE else st.exit_status }

/-- The function main from the initialisation of `state` on: the exit status
it returns, or the fatal error, and the events.  What lies between the
initialisation and the call of process_all_startpoints (reading the leading
options and building the expression, either of which may end the program) has
produced the options `o`; `argv` holds the arguments after the leading
options. -/
def main (env : find_env) (o : options) (argv : List CStr) : Res Nat × List event :=
  let st0 : state :=
    { already_issued_stat_error_msg := false, exit_status := EXIT_SUCCESS,
      execdirs_outstanding := false, cwd_dir_fd := AT_FDCWD }
  let p := process_all_startpoints env o st0 argv
  match p.outcome with
  | Res.fatal e => (Res.fatal e, p.events)
  | Res.ret true =>
    (Res.ret (cleanup env p.st).exit_status,
      p.events ++ [event.show_success_rates, event.cleanup])
  | Res.ret false => (Res.ret p.st.exit_status, p.events)

/-- The paths on which the expression is evaluated, in order. -/
def evaluations (events : List event) : List CStr :=
  events.filterMap (fun e => match e with
    | event.apply_predicate path => some path
    | _ => none)

/-- The paths of the entries for which FTS_SKIP is requested, in order. -/
def skips (events : List event) : List CStr :=
  events.filterMap (fun e => match e with
    | event.fts_set path FTS_INSTR.FTS_SKIP => some path
    | _ => none)

/-- The starting points handed to fts_open, in order. -/
def searches (events : List event) : List CStr :=
  events.filterMap (fun e => match e with
    | event.fts_open arg _ => some arg
    | _ => none)

/-- The diagnostics written, in order. -/
def diagnostics (events : List event) : List diagnostic :=
  events.filterMap (fun e => match e with
    | event.error d => some d
    | _ => none)

/-- Is the visit of the entry the one that the pre/post-order setting selects
for evaluation?  Only the pre-order visit under -depth and the post-order
visit without -depth are not. -/
def selected_by_order (o : options) (ent : FTSENT) : Prop :=
  ¬ (ent.fts_info = FTS_INFO.FTS_D ∧ o.do_dir_first = false) ∧
  ¬ (ent.fts_info = FTS_INFO.FTS_DP ∧ o.do_dir_first = true)

instance (o : options) (ent : FTSENT) : Decidable (selected_by_order o ent) := by
  unfold selected_by_order; infer_instance

/-- Modelled from the spec: looks_like_expression is defined in tree.c, not
under src/.  A token looks like a primary when it starts with one of the
characters `-`, `(`, `)`, `!` and `,`. -/
def looks_like_expression (arg : CStr) ( _leading : Bool) : Bool :=
  match arg with
  | c :: _ => c = '-' || c = '(' || c = ')' || c = '!' || c = ','
  | [] => false

/-- An environment for examples: no symbolic-link loops, digest_mode keeps the
mode, the expression has no effect on the state, every walk is empty and ends
well, and nothing fails. -/
def sample_find_env : find_env :=
  { symlink_loop := fun _ => false
    digest_mode := fun _ mode => digest_result.ok mode
    apply_predicate := fun _ _ _ => {}
    dup_cloexec := fun fd => fd + 1
    fts_open := fun _ _ => some { entries := [] }
    execdirs_fail := fun _ => false
    looks_like_expression := looks_like_expression
    files0 := {}
    cleanup_fails := fun _ => false }

/-- The st_mode of a directory with permissions 0755. -/
def sample_dir_mode : Nat := 0o040755

/-- The pre-order visit of the starting point `a`, a directory. -/
def sample_dir_entry : FTSENT :=
  { fts_info := FTS_INFO.FTS_D, fts_level := 0, fts_path := "a".toList,
    fts_accpath := "a".toList, fts_name := "a".toList, st_mode := sample_dir_mode }

/-- The state in which find_loop hands an entry with a directory mode to
consider_visiting at the start of a run. -/
def sample_state : state := { have_type := true, type := sample_dir_mode }

/-- The errno value EACCES. -/
def EACCES : Nat := 13

/-- The visit of a directory `a/d` that the walker could not read for lack of
permission. -/
def sample_unreadable_entry : FTSENT :=
  { fts_info := FTS_INFO.FTS_DNR, fts_level := 1, fts_errno := EACCES,
    fts_path := "a/d".toList, fts_accpath := "d".toList, fts_name := "d".toList,
    st_mode := sample_dir_mode }

/-- The entry that the walker returns for `a/loop`, a symbolic link to `a`,
when it follows links: a directory that closes a cycle. -/
def sample_cycle_entry : FTSENT :=
  { fts_info := FTS_INFO.FTS_DC, fts_level := 1, fts_path := "a/loop".toList,
    fts_accpath := "loop".toList, fts_name := "loop".toList, st_mode := sample_dir_mode }

/-- The entry that the walker returns for `a/loop` when it does not follow
links: a symbolic link. -/
def sample_link_entry : FTSENT :=
  { fts_info := FTS_INFO.FTS_SL, fts_level := 1, fts_path := "a/loop".toList,
    fts_accpath := "loop".toList, fts_name := "loop".toList, st_mode := 0o120777 }

/-- The post-order visit of the starting point `a`. -/
def sample_dir_leave_entry : FTSENT := { sample_dir_entry with fts_info := FTS_INFO.FTS_DP }

/-- The scenario of a directory `a` that holds the symbolic link `a/loop`
pointing to `a`: a logical walk of `a` meets the cycle, a physical walk sees
the link; nothing else exists. -/
def loop_scenario_env : find_env :=
  { sample_find_env with
    fts_open := fun arg flags =>
      if arg = "a".toList then
        if flags &&& FTS_LOGICAL ≠ 0 then
          some { entries := [sample_dir_entry, sample_cycle_entry, sample_dir_leave_entry] }
        else some { entries := [sample_dir_entry, sample_link_entry, sample_dir_leave_entry] }
      else none }

/-- The options after the leading option -L. -/
def loop_scenario_options : options :=
  { symlink_handling := SymlinkOption.SYMLINK_ALWAYS_DEREF }

/-- The entry that the walker returns for a starting point `gone` that does
not exist. -/
def sample_missing_entry : FTSENT :=
  { fts_info := FTS_INFO.FTS_NS, fts_level := 0, fts_errno := ENOENT,
    fts_path := "gone".toList, fts_accpath := "gone".toList, fts_name := "gone".toList }

/-- The entry that the walker returns for a directory `a/d` that vanished
before it could be read. -/
def sample_vanished_entry : FTSENT :=
  { sample_unreadable_entry with fts_errno := ENOENT }

/-- The initial value of the variable ftsoptions of ftsfind.c. -/
def ftsoptions_base : Nat := FTS_NOSTAT ||| FTS_TIGHT_CYCLE_CHECK ||| FTS_CWDFD ||| FTS_VERBATIM

/-- The state after calling find on each of the arguments in turn. -/
def find_calls (env : find_env) (o : options) : state → List CStr → state
  | st, [] => st
  | st, arg :: rest => find_calls env o (find env o st arg).2.1 rest

/-- The options that find adds for the symlink policy and for -xdev. -/
def ftsoptions_added (o : options) : Nat :=
  (match o.symlink_handling with
    | SymlinkOption.SYMLINK_ALWAYS_DEREF => FTS_COMFOLLOW ||| FTS_LOGICAL
    | SymlinkOption.SYMLINK_DEREF_ARGSONLY => FTS_COMFOLLOW ||| FTS_PHYSICAL
    | SymlinkOption.SYMLINK_NEVER_DEREF => FTS_PHYSICAL)
  ||| (if o.stay_on_filesystem then FTS_XDEV else 0)

/-- The value of the local variable `level` of find after the loop has read
the given entries, starting from the given value. -/
def level_after (level : Int) : List FTSENT → Int
  | [] => level
  | ent :: rest => level_after ent.fts_level rest

/-- Is the event one that consider_visiting produces: a diagnostic, an
evaluation or a call of fts_set? -/
def is_entry_event : event → Bool
  | event.error _ => true
  | event.apply_predicate _ => true
  | event.fts_set _ _ => true
  | _ => false

/-- An environment in which the walker cannot restore the working directory
after a search: fts_close fails. -/
def restore_failure_env : find_env :=
  { sample_find_env with
    fts_open := fun _ _ => some { entries := [], close_status := -1 } }

/-- A step keeps the exit status sticky: afterwards state.exit_status is what
it was before, or EXIT_FAILURE. -/
def exit_status_sticky (before after : state) : Prop :=
  after.exit_status = before.exit_status ∨ after.exit_status = EXIT_FAILURE

/-- What the loop of process_all_startpoints does with the names, in order:
`none` for a report of an empty name, `some arg` for a starting point handed
to fts_open. -/
def startpoint_trace (events : List event) : List (Option CStr) :=
  events.filterMap (fun e => match e with
    | event.fts_open arg _ => some (some arg)
    | event.error diagnostic.empty_file_name => some none
    | _ => none)

/-- The names that the loop of process_all_startpoints takes up: all of them
when they come from -files0-from, and those before the first non-empty name
that looks like an expression when they come from the command line. -/
def names_taken_up (env : find_env) (from_files0 : Bool) (names : List CStr) : List CStr :=
  names.takeWhile (fun n => decide (n = []) || from_files0 || !env.looks_like_expression n true)

/-! ## Option combinations, warnings and the parser table (parser.c) -/

/-- The warnings that parser.c writes with `error (0, 0, ...)`: a global option
after a non-option argument (with the option and that argument), an operator
written with a leading dash, the deprecated -d, a -name pattern with a
directory separator, a -path pattern that ends in a slash, and the changed
meaning of -perm /000 (with the mode pattern). -/
inductive parser_warning
  | misplaced_global_option (original_arg first_nonoption_arg : CStr)
  | dashed_operator (original_arg : CStr)
  | deprecated_d
  | basename_with_separator (pred : CStr)
  | path_ends_with_slash (predicate_name name : CStr)
  | perm_000 (perm_expr : CStr)
  deriving DecidableEq

/-- The function should_issue_warnings. -/
def should_issue_warnings (o : options) : Bool :=
  if o.posixly_correct then false else o.warnings

/-- The enumerator seen_delete of check_option_combinations. -/
def seen_delete : Nat := 1

/-- The enumerator seen_prune of check_option_combinations. -/
def seen_prune : Nat := 2

/-- The function check_option_combinations on the list of predicates that
pred_next links. -/
def check_option_combinations (o : options) (p : List predicate) : Res Unit :=
  let predicates : Nat := p.foldl (fun acc q =>
    if q.pred_func = PRED_FUNC.pred_delete then acc ||| seen_delete
    else if q.pred_func = PRED_FUNC.pred_prune then acc ||| seen_prune
    else acc) 0
  if predicates &&& seen_prune ≠ 0 ∧ predicates &&& seen_delete ≠ 0 then
    if o.explicit_depth = false then Res.fatal Fatal.delete_with_prune
    else Res.ret ()
  else Res.ret ()

/-- The parser of -delete. -/
def parse_delete (o : options) (arg_ptr : Nat) : Res (Bool × parse_state) :=
  Res.ret (true, ⟨arg_ptr, { o with do_dir_first := false },
    some { insert_primary_noarg PRED_FUNC.pred_delete with
            side_effects := true, no_default_print := true,
            need_stat := false, need_type := false, est_success_rate := 1000000000 }⟩)

/-- The parser of -depth. -/
def parse_depth (o : options) (arg_ptr : Nat) : Res (Bool × parse_state) :=
  parse_noop { o with do_dir_first := false, explicit_depth := true } arg_ptr

/-- The parser of -d: the warnings it writes and its result. -/
def parse_d (o : options) (arg_ptr : Nat) : List parser_warning × Res (Bool × parse_state) :=
  (if should_issue_warnings o then [parser_warning.deprecated_d] else [],
    parse_depth o arg_ptr)

/-- The parser of -prune. -/
def parse_prune (o : options) (arg_ptr : Nat) : Res (Bool × parse_state) :=
  let our_pred : predicate := insert_primary_noarg PRED_FUNC.pred_prune
  let our_pred : predicate :=
    if o.do_dir_first = false then { our_pred with need_stat := false, need_type := false }
    else our_pred
  Res.ret (true, ⟨arg_ptr, o,
    some { our_pred with side_effects := true, no_default_print := false }⟩)

/-- The parser of -quit. -/
def parse_quit (o : options) (arg_ptr : Nat) : Res (Bool × parse_state) :=
  Res.ret (true, ⟨arg_ptr, o,
    some { insert_primary_noarg PRED_FUNC.pred_quit with
            need_stat := false, need_type := false, side_effects := true,
            no_default_print := false, est_success_rate := 1000000000 }⟩)

/-- A primary of an expression, as far as the depth options go: -delete,
-prune, -depth, -d, or any other primary, given by what its parser does to the
options and the predicate it inserts, if any. -/
inductive depth_primary
  | delete
  | prune
  | depth
  | d
  | other (f : options → options) (p : Option predicate)

/-- The parsers of a sequence of primaries run in turn: the options at the end
and the predicates inserted, in order. -/
def parse_primaries : options → List depth_primary → options × List predicate
  | o, [] => (o, [])
  | o, x :: rest =>
    let r : Res (Bool × parse_state) :=
      match x with
      | depth_primary.delete => parse_delete o 0
      | depth_primary.prune => parse_prune o 0
      | depth_primary.depth => parse_depth o 0
      | depth_primary.d => (parse_d o 0).2
      | depth_primary.other f p => Res.ret (true, ⟨0, f o, p⟩)
    match r with
    | Res.ret (_, st) =>
      let t := parse_primaries st.opts rest
      (t.1, (match st.pred with | some p => [p] | none => []) ++ t.2)
    | Res.fatal _ => (o, [])

/-- The enum arg_type of the parser table. -/
inductive arg_type
  | ARG_OPTION
  | ARG_NOOP
  | ARG_POSITIONAL_OPTION
  | ARG_TEST
  | ARG_SPECIAL_PARSE
  | ARG_PUNCTUATION
  | ARG_ACTION
  deriving DecidableEq

/-- An entry of the parser table: its type and its name.  The parser function
and the predicate function of the entry are left out. -/
structure parser_table where
  type : arg_type
  parser_name : CStr
  deriving DecidableEq

/-- The entry parse_entry_newerXY. -/
def parse_entry_newerXY : parser_table := ⟨arg_type.ARG_SPECIAL_PARSE, "newerXY".toList⟩

/-- The array parse_table, in the order of the source, without the entries
under UNIMPLEMENTED_UNIX and without the terminating entry. -/
def parse_table : List parser_table :=
  [
    parser_table.mk arg_type.ARG_PUNCTUATION "!".toList,
    parser_table.mk arg_type.ARG_PUNCTUATION "not".toList,
    parser_table.mk arg_type.ARG_PUNCTUATION "(".toList,
    parser_table.mk arg_type.ARG_PUNCTUATION ")".toList,
    parser_table.mk arg_type.ARG_PUNCTUATION ",".toList,
    parser_table.mk arg_type.ARG_PUNCTUATION "a".toList,
    parser_table.mk arg_type.ARG_TEST "amin".toList,
    parser_table.mk arg_type.ARG_PUNCTUATION "and".toList,
    parser_table.mk arg_type.ARG_TEST "anewer".toList,
    parser_table.mk arg_type.ARG_TEST "atime".toList,
    parser_table.mk arg_type.ARG_TEST "cmin".toList,
    parser_table.mk arg_type.ARG_TEST "cnewer".toList,
    parser_table.mk arg_type.ARG_TEST "ctime".toList,
    parser_table.mk arg_type.ARG_TEST "context".toList,
    parser_table.mk arg_type.ARG_POSITIONAL_OPTION "daystart".toList,
    parser_table.mk arg_type.ARG_ACTION "delete".toList,
    parser_table.mk arg_type.ARG_OPTION "d".toList,
    parser_table.mk arg_type.ARG_OPTION "depth".toList,
    parser_table.mk arg_type.ARG_TEST "empty".toList,
    parser_table.mk arg_type.ARG_ACTION "exec".toList,
    parser_table.mk arg_type.ARG_TEST "executable".toList,
    parser_table.mk arg_type.ARG_ACTION "execdir".toList,
    parser_table.mk arg_type.ARG_OPTION "files0-from".toList,
    parser_table.mk arg_type.ARG_ACTION "fls".toList,
    parser_table.mk arg_type.ARG_POSITIONAL_OPTION "follow".toList,
    parser_table.mk arg_type.ARG_ACTION "fprint".toList,
    parser_table.mk arg_type.ARG_ACTION "fprint0".toList,
    parser_table.mk arg_type.ARG_ACTION "fprintf".toList,
    parser_table.mk arg_type.ARG_TEST "fstype".toList,
    parser_table.mk arg_type.ARG_TEST "gid".toList,
    parser_table.mk arg_type.ARG_TEST "group".toList,
    parser_table.mk arg_type.ARG_OPTION "ignore_readdir_race".toList,
    parser_table.mk arg_type.ARG_TEST "ilname".toList,
    parser_table.mk arg_type.ARG_TEST "iname".toList,
    parser_table.mk arg_type.ARG_TEST "inum".toList,
    parser_table.mk arg_type.ARG_TEST "ipath".toList,
    parser_table.mk arg_type.ARG_TEST "iregex".toList,
    parser_table.mk arg_type.ARG_TEST "iwholename".toList,
    parser_table.mk arg_type.ARG_TEST "links".toList,
    parser_table.mk arg_type.ARG_TEST "lname".toList,
    parser_table.mk arg_type.ARG_ACTION "ls".toList,
    parser_table.mk arg_type.ARG_OPTION "maxdepth".toList,
    parser_table.mk arg_type.ARG_OPTION "mindepth".toList,
    parser_table.mk arg_type.ARG_TEST "mmin".toList,
    parser_table.mk arg_type.ARG_OPTION "mount".toList,
    parser_table.mk arg_type.ARG_TEST "mtime".toList,
    parser_table.mk arg_type.ARG_TEST "name".toList,
    parser_table.mk arg_type.ARG_TEST "newer".toList,
    parser_table.mk arg_type.ARG_TEST "atime".toList,
    parser_table.mk arg_type.ARG_OPTION "noleaf".toList,
    parser_table.mk arg_type.ARG_TEST "nogroup".toList,
    parser_table.mk arg_type.ARG_TEST "nouser".toList,
    parser_table.mk arg_type.ARG_OPTION "noignore_readdir_race".toList,
    parser_table.mk arg_type.ARG_POSITIONAL_OPTION "nowarn".toList,
    parser_table.mk arg_type.ARG_POSITIONAL_OPTION "warn".toList,
    parser_table.mk arg_type.ARG_PUNCTUATION "o".toList,
    parser_table.mk arg_type.ARG_PUNCTUATION "or".toList,
    parser_table.mk arg_type.ARG_ACTION "ok".toList,
    parser_table.mk arg_type.ARG_ACTION "okdir".toList,
    parser_table.mk arg_type.ARG_TEST "path".toList,
    parser_table.mk arg_type.ARG_TEST "perm".toList,
    parser_table.mk arg_type.ARG_ACTION "print".toList,
    parser_table.mk arg_type.ARG_ACTION "print0".toList,
    parser_table.mk arg_type.ARG_ACTION "printf".toList,
    parser_table.mk arg_type.ARG_ACTION "prune".toList,
    parser_table.mk arg_type.ARG_ACTION "quit".toList,
    parser_table.mk arg_type.ARG_TEST "readable".toList,
    parser_table.mk arg_type.ARG_TEST "regex".toList,
    parser_table.mk arg_type.ARG_POSITIONAL_OPTION "regextype".toList,
    parser_table.mk arg_type.ARG_TEST "samefile".toList,
    parser_table.mk arg_type.ARG_TEST "size".toList,
    parser_table.mk arg_type.ARG_TEST "type".toList,
    parser_table.mk arg_type.ARG_TEST "uid".toList,
    parser_table.mk arg_type.ARG_TEST "used".toList,
    parser_table.mk arg_type.ARG_TEST "user".toList,
    parser_table.mk arg_type.ARG_TEST "wholename".toList,
    parser_table.mk arg_type.ARG_TEST "writable".toList,
    parser_table.mk arg_type.ARG_OPTION "xdev".toList,
    parser_table.mk arg_type.ARG_TEST "xtype".toList,
    parser_table.mk arg_type.ARG_TEST "false".toList,
    parser_table.mk arg_type.ARG_TEST "true".toList,
    parser_table.mk arg_type.ARG_NOOP "--noop".toList,
    parser_table.mk arg_type.ARG_TEST "help".toList,
    parser_table.mk arg_type.ARG_TEST "-help".toList,
    parser_table.mk arg_type.ARG_TEST "version".toList,
    parser_table.mk arg_type.ARG_TEST "-version".toList
  ]

/-- The function parse_begin_user_args: the value it gives first_nonoption_arg. -/
def parse_begin_user_args : Option CStr := none

/-- The function found_parser: the entry it returns (`none` is NULL), the new
value of first_nonoption_arg, and the warnings it writes. -/
def found_parser_entry (o : options) (first_nonoption_arg : Option CStr) (original_arg : CStr)
    (entry : parser_table) : Option parser_table × Option CStr × List parser_warning :=
  if entry.type ≠ arg_type.ARG_POSITIONAL_OPTION then
    if entry.type = arg_type.ARG_NOOP then (none, first_nonoption_arg, [])
    else if entry.type = arg_type.ARG_OPTION then
      match first_nonoption_arg with
      | some first =>
        if should_issue_warnings o then
          (some entry, first_nonoption_arg,
            [parser_warning.misplaced_global_option original_arg first])
        else (some entry, first_nonoption_arg, [])
      | none => (some entry, first_nonoption_arg, [])
    else
      match first_nonoption_arg with
      | none => (some entry, some original_arg, [])
      | some _ => (some entry, first_nonoption_arg, [])
  else (some entry, first_nonoption_arg, [])

/-- The function find_parser: the entry it returns (`none` is NULL), the new
value of first_nonoption_arg, and the warnings it writes. -/
def find_parser_entry (o : options) (first_nonoption_arg : Option CStr) (search_name : CStr) :
    Option parser_table × Option CStr × List parser_warning :=
  let original_arg := search_name
  if search_name.take 6 = "-newer".toList ∧ search_name.length = 8 then
    found_parser_entry o first_nonoption_arg original_arg parse_entry_newerXY
  else
    let dashed : Bool := search_name.head? = some '-'
    let name : CStr := if dashed then search_name.drop 1 else search_name
    match parse_table.find? (fun e => e.parser_name = name) with
    | some e =>
      let w : List parser_warning :=
        if dashed = true ∧ e.type = arg_type.ARG_PUNCTUATION ∧
            (name.head? = some '!' ∨ name.head? = some ',' ∨ name.head? = some '(' ∨
              name.head? = some ')') ∧ name.length = 1 then
          [parser_warning.dashed_operator original_arg]
        else []
      let r := found_parser_entry o first_nonoption_arg original_arg e
      (r.1, r.2.1, w ++ r.2.2)
    | none => (none, first_nonoption_arg, [])

/-- The value of first_nonoption_arg after a sequence of calls of find_parser,
each with the options at the time of the call. -/
def first_nonoption_after : Option CStr → List (options × CStr) → Option CStr
  | first, [] => first
  | first, (o, name) :: rest => first_nonoption_after (find_parser_entry o first name).2.1 rest

/-! ## More parsers of parser.c -/

/-- The parser of -perm: the warnings it writes and its result.  Modelled from
the spec: mode_compile and mode_adjust belong to gnulib's modechange.c, not
under src/; `env.mode_compile` gives for a mode text `none` when it does not
compile and otherwise the two values that parse_perm stores in perm_val: the
mode adjusted from 0 for a non-directory and for a directory. -/
def parse_perm (env : parse_env) (o : options) (argv : Option (List CStr)) (arg_ptr : Nat) :
    List parser_warning × Res (Bool × parse_state) :=
  match collect_arg argv arg_ptr with
  | (true, ap, some perm_expr) =>
    let mode_start : Nat :=
      if perm_expr.head? = some '-' then 1 else if perm_expr.head? = some '/' then 1 else 0
    let kind : permissions_type :=
      if perm_expr.head? = some '-' then permissions_type.PERM_AT_LEAST
      else if perm_expr.head? = some '/' then permissions_type.PERM_ANY
      else permissions_type.PERM_EXACT
    let rate : Nat :=
      if perm_expr.head? = some '-' then 200000000
      else if perm_expr.head? = some '/' then 300000000
      else 10000000
    match env.mode_compile (perm_expr.drop mode_start) with
    | none => ([], Res.fatal Fatal.invalid_mode)
    | some perm_val =>
      if perm_expr.head? = some '+' ∧ '0' ≤ perm_expr.getD 1 (Char.ofNat 0) ∧
          perm_expr.getD 1 (Char.ofNat 0) < '8' then
        ([], Res.fatal Fatal.invalid_mode)
      else if perm_expr.head? = some '/' ∧ perm_val.1 = 0 ∧ perm_val.2 = 0 then
        ([parser_warning.perm_000 perm_expr],
          Res.ret (true, ⟨ap, o,
            some { insert_primary PRED_FUNC.pred_perm with
                    est_success_rate := 998600000,
                    args := pred_args.perm permissions_type.PERM_AT_LEAST
                      perm_val.1 perm_val.2 }⟩))
      else
        ([], Res.ret (true, ⟨ap, o,
          some { insert_primary PRED_FUNC.pred_perm with
                  est_success_rate := rate,
                  args := pred_args.perm kind perm_val.1 perm_val.2 }⟩))
  | (_, ap, _) => ([], Res.ret (false, ⟨ap, o, none⟩))

/-- The function estimate_fstype_success_rate, in units of 1e-9;
`env.root_fstype` is the file system type of "/" when its stat succeeds. -/
def estimate_fstype_success_rate (env : parse_env) (fsname : CStr) : Nat :=
  match env.root_fstype with
  | some fstype => if fsname = fstype then 700000000 else 300000000
  | none => 1000000000

/-- The parser of -fstype.  Modelled from the spec: is_used_fs_type is not
under src/; `env.is_used_fs_type` tells whether a type is present in the mount
table. -/
def parse_fstype (env : parse_env) (o : options) (argv : Option (List CStr)) (arg_ptr : Nat) :
    Res (Bool × parse_state) :=
  match collect_arg argv arg_ptr with
  | (true, ap, some typename) =>
    if o.optimisation_level < 2 ∨ env.is_used_fs_type typename = true then
      Res.ret (true, ⟨ap, o,
        some { insert_primary PRED_FUNC.pred_fstype with
                args := pred_args.str typename,
                est_success_rate := estimate_fstype_success_rate env typename }⟩)
    else insert_false o ap
  | (_, ap, _) => Res.ret (false, ⟨ap, o, none⟩)

/-- The function open_output_file, as far as it can end the program: the
streams of /dev/stderr and /dev/stdout are at hand, any other path is opened
with sharefile_fopen, whose failure is fatal. -/
def open_output_file (env : parse_env) (path : CStr) : Res Unit :=
  if path = "/dev/stderr".toList then Res.ret ()
  else if path = "/dev/stdout".toList then Res.ret ()
  else if env.sharefile_fopen path then Res.ret ()
  else Res.fatal Fatal.nontarget_file

/-- The function open_stdout. -/
def open_stdout (env : parse_env) : Res Unit := open_output_file env "/dev/stdout".toList

/-- The function insert_fls; `func` is the predicate function of the table
entry. -/
def insert_fls (env : parse_env) (o : options) (arg_ptr : Nat) (func : PRED_FUNC)
    (filename : Option CStr) : Res (Bool × parse_state) :=
  match (match filename with
    | some f => open_output_file env f
    | none => open_stdout env) with
  | Res.fatal e => Res.fatal e
  | Res.ret _ =>
    Res.ret (true, ⟨arg_ptr, o,
      some { insert_primary_noarg func with
              side_effects := true, no_default_print := true,
              est_success_rate := 1000000000 }⟩)

/-- The parser of -fls. -/
def parse_fls (env : parse_env) (o : options) (argv : Option (List CStr)) (arg_ptr : Nat) :
    Res (Bool × parse_state) :=
  match collect_arg argv arg_ptr with
  | (true, ap, some filename) =>
    match insert_fls env o ap PRED_FUNC.pred_fls (some filename) with
    | Res.fatal e => Res.fatal e
    | Res.ret (true, st) => Res.ret (true, st)
    | Res.ret (false, st) => Res.ret (false, { st with arg_ptr := ap - 1 })
  | (_, ap, _) => Res.ret (false, ⟨ap, o, none⟩)

/-- The parser of -ls. -/
def parse_ls (env : parse_env) (o : options) (arg_ptr : Nat) : Res (Bool × parse_state) :=
  insert_fls env o arg_ptr PRED_FUNC.pred_ls none

/-- The parser of -fprint. -/
def parse_fprint (env : parse_env) (o : options) (argv : Option (List CStr)) (arg_ptr : Nat) :
    Res (Bool × parse_state) :=
  match collect_arg argv arg_ptr with
  | (true, ap, some filename) =>
    match open_output_file env filename with
    | Res.fatal e => Res.fatal e
    | Res.ret _ =>
      Res.ret (true, ⟨ap, o,
        some { insert_primary PRED_FUNC.pred_fprint with
                side_effects := true, no_default_print := true,
                need_stat := false, need_type := false,
                est_success_rate := 1000000000 }⟩)
  | (_, ap, _) => Res.ret (false, ⟨ap, o, none⟩)

/-- The function insert_fprint; `func` is the predicate function of the table
entry. -/
def insert_fprint (env : parse_env) (o : options) (arg_ptr : Nat) (func : PRED_FUNC)
    (filename : Option CStr) : Res (Bool × parse_state) :=
  match (match filename with
    | some f => open_output_file env f
    | none => open_stdout env) with
  | Res.fatal e => Res.fatal e
  | Res.ret _ =>
    Res.ret (true, ⟨arg_ptr, o,
      some { insert_primary func with
              side_effects := true, no_default_print := true,
              need_stat := false, need_type := false,
              est_success_rate := 1000000000 }⟩)

/-- The parser of -fprint0. -/
def parse_fprint0 (env : parse_env) (o : options) (argv : Option (List CStr)) (arg_ptr : Nat) :
    Res (Bool × parse_state) :=
  match collect_arg argv arg_ptr with
  | (true, ap, some filename) =>
    match insert_fprint env o ap PRED_FUNC.pred_fprint0 (some filename) with
    | Res.fatal e => Res.fatal e
    | Res.ret (true, st) => Res.ret (true, st)
    | Res.ret (false, st) => Res.ret (false, { st with arg_ptr := ap - 1 })
  | (_, ap, _) => Res.ret (false, ⟨ap, o, none⟩)

/-- The parser of -print0. -/
def parse_print0 (env : parse_env) (o : options) (arg_ptr : Nat) : Res (Bool × parse_state) :=
  insert_fprint env o arg_ptr PRED_FUNC.pred_print0 none

/-- The parser of -empty. -/
def parse_empty (o : options) (arg_ptr : Nat) : Res (Bool × parse_state) :=
  Res.ret (true, ⟨arg_ptr, o,
    some { insert_primary_noarg PRED_FUNC.pred_empty with est_success_rate := 10000000 }⟩)

/-- The parser parse_accesscheck of -executable, -readable and -writable;
`func` is the predicate function of the table entry. -/
def parse_accesscheck (o : options) (arg_ptr : Nat) (func : PRED_FUNC) :
    Res (Bool × parse_state) :=
  Res.ret (true, ⟨arg_ptr, o,
    some { insert_primary_noarg func with
            need_stat := false, need_type := false,
            side_effects := false, no_default_print := false,
            est_success_rate :=
              if func = PRED_FUNC.pred_executable then 200000000 else 900000000 }⟩)

/-- The parser of -lname. -/
def parse_lname (env : parse_env) (o : options) (argv : Option (List CStr)) (arg_ptr : Nat) :
    Res (Bool × parse_state) :=
  match fnmatch_sanitycheck env with
  | Res.fatal e => Res.fatal e
  | Res.ret _ =>
    match collect_arg argv arg_ptr with
    | (true, ap, some name) =>
      Res.ret (true, ⟨ap, o,
        some { insert_primary PRED_FUNC.pred_lname with
                args := pred_args.str name,
                est_success_rate := estimate_pattern_match_rate name false / 10 }⟩)
    | (_, ap, _) => Res.ret (false, ⟨ap, o, none⟩)

/-- The parser of -ilname. -/
def parse_ilname (o : options) (argv : Option (List CStr)) (arg_ptr : Nat) :
    Res (Bool × parse_state) :=
  match collect_arg argv arg_ptr with
  | (true, ap, some name) =>
    Res.ret (true, ⟨ap, o,
      some { insert_primary PRED_FUNC.pred_ilname with
              args := pred_args.str name,
              est_success_rate := estimate_pattern_match_rate name false / 10 }⟩)
  | (_, ap, _) => Res.ret (false, ⟨ap, o, none⟩)

/-- The parser of -nogroup. -/
def parse_nogroup (o : options) (arg_ptr : Nat) : Res (Bool × parse_state) :=
  Res.ret (true, ⟨arg_ptr, o,
    some { insert_primary PRED_FUNC.pred_nogroup with est_success_rate := 100000 }⟩)

/-- The parser of -nouser. -/
def parse_nouser (o : options) (arg_ptr : Nat) : Res (Bool × parse_state) :=
  Res.ret (true, ⟨arg_ptr, o,
    some { insert_primary_noarg PRED_FUNC.pred_nouser with est_success_rate := 1000000 }⟩)

/-- What a parser says about the side effects of the predicate it inserts:
whenever it returns true, the predicate has these values of side_effects and
no_default_print. -/
def marks (r : Res (Bool × parse_state)) (side_effects no_default_print : Bool) : Prop :=
  ∀ st, r = Res.ret (true, st) →
    ∃ p, st.pred = some p ∧ p.side_effects = side_effects ∧
      p.no_default_print = no_default_print

/-- A mode compiler for examples: a non-empty string of octal digits gives
its value, for a non-directory and for a directory alike. -/
def sample_mode_compile (s : CStr) : Option (Nat × Nat) :=
  if s ≠ [] ∧ s.all (fun c => decide ('0' ≤ c ∧ c ≤ '7')) then
    some (s.foldl (fun acc c => 8 * acc + (c.toNat - '0'.toNat)) 0,
      s.foldl (fun acc c => 8 * acc + (c.toNat - '0'.toNat)) 0)
  else none

/-- The sample environment with the mode compiler for examples, a mount table
that holds only ext4, and ext4 as the type of the root file system. -/
def sample_perm_env : parse_env :=
  { sample_parse_env with
    mode_compile := sample_mode_compile
    is_used_fs_type := fun t => decide (t = "ext4".toList)
    root_fstype := some "ext4".toList }

/-! ## The time tests: get_relative_timestamp, parse_time, do_parse_xmin, parse_daystart

What the parsers below obtain from the C library, as members of `parse_env`:
`xstrtod s` is `none` when xstrtod (s, NULL, &offset, strtod) returns false
and the value of `offset` otherwise; `localtime t` is `none` when localtime
returns NULL and otherwise the members tm_sec, tm_min and tm_hour of the
result. -/

/-- Modelled from the spec: the macro DAYSECS (defs.h) is not under src/; a day
has 86400 seconds. -/
def DAYSECS : Nat := 86400

/-- The constant nanosec_per_sec of get_relative_timestamp. -/
def nanosec_per_sec : Int := 1000000000

/-- The smallest value of time_t, taken to be 64 bits wide. -/
def TIME_T_MIN : Int := -(2 ^ 63)

/-- The largest value of time_t, taken to be 64 bits wide. -/
def TIME_T_MAX : Int := 2 ^ 63 - 1

/-- The value that a computation in time_t leaves when its exact result is
`v`: the result wraps around, as the comment on the overflow check in
get_relative_timestamp assumes. -/
def wrap_time_t (v : Int) : Int := (v + 2 ^ 63) % 2 ^ 64 - 2 ^ 63

/-- The conversion of an integer value to the type int, 32 bits wide. -/
def wrap_int (v : Int) : Int := (v + 2 ^ 31) % 2 ^ 32 - 2 ^ 31

/-- The conversion of a time_t to uintmax_t. -/
def to_uintmax (v : Int) : Nat := (v % (UINTMAX_MAX + 1 : Nat)).toNat

/-- The switch of get_relative_timestamp that inverts the sense of the
comparison. -/
def invert_comparison (kind : comparison_type) : comparison_type :=
  match kind with
  | comparison_type.COMP_LT => comparison_type.COMP_GT
  | comparison_type.COMP_GT => comparison_type.COMP_LT
  | comparison_type.COMP_EQ => comparison_type.COMP_EQ

/-! ### The type double

Modelled from the spec: the floating-point arithmetic of C is not under src/.
A double is an IEEE 754 binary64 number: a significand of 53 bits times a power
of two, the smallest power being 2^-1074.  A finite double is kept as an exact
fraction; every operation computes the exact result and rounds it to the
nearest double, a tie going to the even significand.  Results of 2^1024 and
above, which are infinite in C, are left out. -/

/-- An exact fraction `num / den`, `den` positive. -/
structure fraction where
  num : Int
  den : Nat
  deriving DecidableEq

/-- The integer nearest to n / d, a tie going to the even one. -/
def round_half_even (n d : Nat) : Nat :=
  if 2 * (n % d) > d ∨ (2 * (n % d) = d ∧ n / d % 2 = 1) then n / d + 1 else n / d

/-- The scaling of n / d by a power of two 2^-e that brings it into the range
[2^52, 2^53) of a 53-bit significand, or to the smallest power 2^-1074 when it
is reached before: the scaled numerator and denominator and the exponent `e`.
The first argument bounds the number of steps. -/
def normalise_significand : Nat → Nat → Nat → Int → Nat × Nat × Int
  | 0, n, d, e => (n, d, e)
  | fuel + 1, n, d, e =>
    if 2 ^ 53 * d ≤ n then normalise_significand fuel n (2 * d) (e + 1)
    else if n < 2 ^ 52 * d ∧ -1074 < e then normalise_significand fuel (2 * n) d (e - 1)
    else (n, d, e)

/-- The double nearest to the non-negative value n / d. -/
def round_double_nat (n d : Nat) : fraction :=
  if n = 0 then ⟨0, 1⟩
  else
    let s := normalise_significand 2200 n d 0
    let q : Nat := round_half_even s.1 s.2.1
    ⟨(q * 2 ^ s.2.2.toNat : Nat), 2 ^ (-s.2.2).toNat⟩

/-- The double nearest to a value: rounding is symmetric about zero. -/
def round_double (x : fraction) : fraction :=
  if x.num < 0 then
    ⟨-(round_double_nat x.num.natAbs x.den).num, (round_double_nat x.num.natAbs x.den).den⟩
  else round_double_nat x.num.natAbs x.den

/-- The conversion of an integer to double. -/
def double_of_int (v : Int) : fraction := round_double ⟨v, 1⟩

/-- The difference of two doubles. -/
def double_sub (a b : fraction) : fraction :=
  round_double ⟨a.num * b.den - b.num * a.den, a.den * b.den⟩

/-- The comparison `a < b` of two doubles. -/
def double_lt (a b : fraction) : Prop := a.num * b.den < b.num * a.den

instance (a b : fraction) : Decidable (double_lt a b) := by
  unfold double_lt; infer_instance

/-- The conversion of a double to an integer type: the fractional part is
discarded, the value is truncated towards zero. -/
def double_to_integer (a : fraction) : Int := Int.tdiv a.num a.den

/-- The values `seconds` and `nanosec` of get_relative_timestamp for the double
`offset`: modf splits the product offset * sec_per_unit into its integral part
and its fractional part, both with the sign of the product, and the fractional
part is multiplied by 1.0e9.  `sec_per_unit` is a double with a whole value
(the callers pass 60 and DAYSECS). -/
def relative_seconds_nanosec (offset : fraction) (sec_per_unit : Nat) : Int × fraction :=
  let product : fraction := round_double ⟨offset.num * sec_per_unit, offset.den⟩
  (Int.tdiv product.num product.den,
    round_double ⟨Int.tmod product.num product.den * 1000000000, product.den⟩)

/-- The function get_relative_timestamp: `none` is the return value false,
otherwise the members kind and ts of `*result`.  The number that xstrtod reads
is rounded to the double `offset`; the subtractions are made in double and
their results converted to time_t and to long.  The assertion on nanosec is
taken to hold, and a value outside time_t is taken to wrap, as the comment on
the overflow check assumes. -/
def get_relative_timestamp (env : parse_env) (str : CStr) (origin : timespec)
    (sec_per_unit : Nat) : Res (Option (comparison_type × timespec)) :=
  let kind : comparison_type := invert_comparison (get_comp_type str).2.2
  match env.xstrtod (get_comp_type str).2.1 with
  | none => Res.ret none
  | some double_value.nan => Res.fatal Fatal.not_a_number
  | some (double_value.finite num scale) =>
    let offset : fraction := round_double ⟨num, 10 ^ scale⟩
    let seconds : Int := (relative_seconds_nanosec offset sec_per_unit).1
    let nanosec : fraction := (relative_seconds_nanosec offset sec_per_unit).2
    let tv_sec : Int :=
      wrap_time_t (double_to_integer (double_sub (double_of_int origin.tv_sec) ⟨seconds, 1⟩))
    if decide (origin.tv_sec < tv_sec) ≠ decide (seconds < 0) then
      Res.fatal Fatal.time_overflow
    else
      let tv_nsec : Int :=
        double_to_integer (double_sub (double_of_int origin.tv_nsec) nanosec)
      if double_lt (double_of_int origin.tv_nsec) nanosec then
        Res.ret (some (kind, ⟨wrap_time_t (tv_sec - 1), tv_nsec + nanosec_per_sec⟩))
      else Res.ret (some (kind, ⟨tv_sec, tv_nsec⟩))

/-- The function estimate_file_age_success_rate, for a whole number of days,
in units of 1e-9. -/
def estimate_file_age_success_rate (num_days : Int) : Nat :=
  if num_days * 10 < 1 then 10000000
  else if num_days < 1 then 300000000
  else if num_days > 100 then 300000000
  else 390000000

/-- The function estimate_timestamp_success_rate. -/
def estimate_timestamp_success_rate (o : options) (when : Int) : Nat :=
  let num_days : Int := wrap_int (Int.tdiv (wrap_time_t (o.cur_day_start.tv_sec - when)) 86400)
  estimate_file_age_success_rate num_days

/-- The function parse_time, the parser of -atime, -ctime and -mtime; `func`
is the predicate function of the table entry. -/
def parse_time (env : parse_env) (o : options) (func : PRED_FUNC)
    (argv : Option (List CStr)) (arg_ptr : Nat) : Res (Bool × parse_state) :=
  let saved_argc := arg_ptr
  match collect_arg argv arg_ptr with
  | (true, ap, some timearg) =>
    let origin0 : timespec := o.cur_day_start
    let origin_end : timespec :=
      { origin0 with tv_sec := wrap_time_t (origin0.tv_sec + (DAYSECS - 1)) }
    let expected : Nat := to_uintmax (wrap_time_t (origin0.tv_sec + (DAYSECS - 1)))
    if (get_comp_type timearg).2.2 = comparison_type.COMP_LT ∧
        expected ≠ to_uintmax origin_end.tv_sec then
      Res.fatal Fatal.end_of_today_overflow
    else
      let origin : timespec :=
        if (get_comp_type timearg).2.2 = comparison_type.COMP_LT then origin_end else origin0
      match get_relative_timestamp env timearg origin DAYSECS with
      | Res.fatal e => Res.fatal e
      | Res.ret none => Res.ret (false, ⟨saved_argc, o, none⟩)
      | Res.ret (some (kind, ts)) =>
        Res.ret (true, ⟨ap, o,
          some { insert_primary func with
                  args := pred_args.reftime ⟨none, kind, ts⟩,
                  est_success_rate := estimate_timestamp_success_rate o ts.tv_sec }⟩)
  | (_, ap, _) => Res.ret (false, ⟨ap, o, none⟩)

/-- The function do_parse_xmin; `func` is the predicate function of the table
entry. -/
def do_parse_xmin (env : parse_env) (o : options) (func : PRED_FUNC)
    (argv : Option (List CStr)) (arg_ptr : Nat) (xv : xval) : Res (Bool × parse_state) :=
  let saved_argc := arg_ptr
  match collect_arg argv arg_ptr with
  | (true, ap, some minutes) =>
    let origin : timespec :=
      { o.cur_day_start with tv_sec := wrap_time_t (o.cur_day_start.tv_sec + DAYSECS) }
    match get_relative_timestamp env minutes origin 60 with
    | Res.fatal e => Res.fatal e
    | Res.ret (some (kind, ts)) =>
      Res.ret (true, ⟨ap, o,
        some { insert_primary func with
                args := pred_args.reftime ⟨some xv, kind, ts⟩,
                est_success_rate := estimate_timestamp_success_rate o ts.tv_sec }⟩)
    | Res.ret none => Res.ret (false, ⟨saved_argc, o, none⟩)
  | (_, ap, _) => Res.ret (false, ⟨ap, o, none⟩)

/-- The parser of -amin. -/
def parse_amin (env : parse_env) (o : options) (argv : Option (List CStr)) (arg_ptr : Nat) :
    Res (Bool × parse_state) :=
  do_parse_xmin env o PRED_FUNC.pred_amin argv arg_ptr xval.XVAL_ATIME

/-- The parser of -cmin. -/
def parse_cmin (env : parse_env) (o : options) (argv : Option (List CStr)) (arg_ptr : Nat) :
    Res (Bool × parse_state) :=
  do_parse_xmin env o PRED_FUNC.pred_cmin argv arg_ptr xval.XVAL_CTIME

/-- The parser of -mmin. -/
def parse_mmin (env : parse_env) (o : options) (argv : Option (List CStr)) (arg_ptr : Nat) :
    Res (Bool × parse_state) :=
  do_parse_xmin env o PRED_FUNC.pred_mmin argv arg_ptr xval.XVAL_MTIME

/-- The parser of -daystart. -/
def parse_daystart (env : parse_env) (o : options) (arg_ptr : Nat) :
    Res (Bool × parse_state) :=
  if o.full_days = false then
    let sec1 : Int := wrap_time_t (o.cur_day_start.tv_sec + DAYSECS)
    let since_midnight : Int :=
      match env.localtime sec1 with
      | some (tm_sec, tm_min, tm_hour) => tm_sec + tm_min * 60 + tm_hour * 3600
      | none => Int.tmod sec1 DAYSECS
    Res.ret (true, ⟨arg_ptr,
      { o with cur_day_start := ⟨wrap_time_t (sec1 - since_midnight), 0⟩, full_days := true },
      none⟩)
  else Res.ret (true, ⟨arg_ptr, o, none⟩)

/-- A reader of decimal numbers for examples: an optional '-', digits, and
optionally a '.' followed by digits. -/
def sample_xstrtod (s : CStr) : Option double_value :=
  let negative : Bool := s.head? = some '-'
  let body : CStr := if negative then s.drop 1 else s
  let int_part : CStr := body.takeWhile Char.isDigit
  let rest : CStr := body.dropWhile Char.isDigit
  let frac_part : CStr := if rest.head? = some '.' then rest.drop 1 else []
  if (rest = [] ∨ (rest.head? = some '.' ∧ frac_part.all Char.isDigit = true)) ∧
      int_part ++ frac_part ≠ [] then
    let n : Int := ((int_part ++ frac_part).foldl (fun acc c => 10 * acc + (c.toNat - 48)) 0 : Nat)
    some (double_value.finite (if negative then -n else n) frac_part.length)
  else none

/-- The sample environment with the reader of decimal numbers and a local time
that is UTC. -/
def sample_time_env : parse_env :=
  { sample_parse_env with
    xstrtod := sample_xstrtod
    localtime := fun t =>
      some ((t % 60).toNat, (t / 60 % 60).toNat, (t / 3600 % 24).toNat) }

/-! ## The remaining tests of parser.c: newer files, -used, owners, -context,
-help and -version -/

/-- The macro UID_T_MAX: uid_t is an unsigned type of 32 bits. -/
def UID_T_MAX : Nat := 4294967295

/-- The macro GID_T_MAX: gid_t is an unsigned type of 32 bits. -/
def GID_T_MAX : Nat := 4294967295

/-- The function collect_arg_stat_info: the return value, the new `*arg_ptr`,
and the argument with its stat data.  A stat call that fails ends the program
through fatal_target_file_error. -/
def collect_arg_stat_info (env : parse_env) (argv : Option (List CStr)) (arg_ptr : Nat) :
    Res (Bool × Nat × Option (CStr × stat_info)) :=
  match collect_arg argv arg_ptr with
  | (true, ap, some filename) =>
    match env.xstat filename with
    | none => Res.fatal Fatal.target_file
    | some p => Res.ret (true, ap, some (filename, p))
  | (_, ap, _) => Res.ret (false, ap, none)

/-- The parser of -anewer. -/
def parse_anewer (env : parse_env) (o : options) (argv : Option (List CStr)) (arg_ptr : Nat) :
    Res (Bool × parse_state) :=
  match collect_arg_stat_info env argv arg_ptr with
  | Res.fatal e => Res.fatal e
  | Res.ret (true, ap, some (_, stat_newer)) =>
    Res.ret (true, ⟨ap, o,
      some { insert_primary PRED_FUNC.pred_anewer with
              args := pred_args.reftime
                ⟨some xval.XVAL_ATIME, comparison_type.COMP_GT, stat_newer.st_mtime⟩,
              est_success_rate :=
                estimate_timestamp_success_rate o stat_newer.st_mtime.tv_sec }⟩)
  | Res.ret (_, ap, _) => Res.ret (false, ⟨ap, o, none⟩)

/-- The parser of -cnewer. -/
def parse_cnewer (env : parse_env) (o : options) (argv : Option (List CStr)) (arg_ptr : Nat) :
    Res (Bool × parse_state) :=
  match collect_arg_stat_info env argv arg_ptr with
  | Res.fatal e => Res.fatal e
  | Res.ret (true, ap, some (_, stat_newer)) =>
    Res.ret (true, ⟨ap, o,
      some { insert_primary PRED_FUNC.pred_cnewer with
              args := pred_args.reftime
                ⟨some xval.XVAL_CTIME, comparison_type.COMP_GT, stat_newer.st_mtime⟩,
              est_success_rate :=
                estimate_timestamp_success_rate o stat_newer.st_mtime.tv_sec }⟩)
  | Res.ret (_, ap, _) => Res.ret (false, ⟨ap, o, none⟩)

/-- The parser of -newer. -/
def parse_newer (env : parse_env) (o : options) (argv : Option (List CStr)) (arg_ptr : Nat) :
    Res (Bool × parse_state) :=
  match collect_arg_stat_info env argv arg_ptr with
  | Res.fatal e => Res.fatal e
  | Res.ret (true, ap, some (_, stat_newer)) =>
    Res.ret (true, ⟨ap, o,
      some { insert_primary PRED_FUNC.pred_newer with
              args := pred_args.reftime
                ⟨some xval.XVAL_MTIME, comparison_type.COMP_GT, stat_newer.st_mtime⟩,
              est_success_rate :=
                estimate_timestamp_success_rate o stat_newer.st_mtime.tv_sec }⟩)
  | Res.ret (_, ap, _) => Res.ret (false, ⟨ap, o, none⟩)

/-- The array validchars of parse_newerXY. -/
def validchars : List Char := ['a', 'B', 'c', 'm', 't']

/-- The function get_stat_Ytime for a letter among a, B, c and m: the
timestamp, or `none` when the function returns 0 (a birth time with a
negative tv_nsec). -/
def get_stat_Ytime (p : stat_info) (what : Char) : Option timespec :=
  if what = 'a' then some p.st_atime
  else if what = 'B' then
    if p.st_birthtime.tv_nsec ≥ 0 then some p.st_birthtime else none
  else if what = 'c' then some p.st_ctime
  else some p.st_mtime

/-- The parser of -newerXY.  Its entry is ARG_SPECIAL_PARSE, so `argv[*arg_ptr]`
is the name of the test itself.  The assertions are taken to hold, and the
message written when the system has no birth time is left out. -/
def parse_newerXY (env : parse_env) (o : options) (argv : Option (List CStr))
    (arg_ptr : Nat) : Res (Bool × parse_state) :=
  match argv with
  | none => Res.ret (false, ⟨arg_ptr, o, none⟩)
  | some l =>
    match l[arg_ptr]? with
    | none => Res.ret (false, ⟨arg_ptr, o, none⟩)
    | some name =>
      if name.length ≠ 8 then Res.ret (false, ⟨arg_ptr, o, none⟩)
      else
        let x : Char := name.getD 6 (Char.ofNat 0)
        let y : Char := name.getD 7 (Char.ofNat 0)
        if env.have_st_birthtime = false ∧ ('B' = x ∨ 'B' = y) then
          Res.ret (false, ⟨arg_ptr, o, none⟩)
        else if x = 't' ∨ x ∉ validchars ∨ y ∉ validchars then
          Res.ret (false, ⟨arg_ptr, o, none⟩)
        else
          match l[1 + arg_ptr]? with
          | none => Res.fatal Fatal.newerXY_needs_argument
          | some arg =>
            let xv : xval :=
              if x = 'a' then xval.XVAL_ATIME
              else if x = 'B' then xval.XVAL_BIRTHTIME
              else if x = 'c' then xval.XVAL_CTIME
              else xval.XVAL_MTIME
            let reftime_ts : Res timespec :=
              if 't' = y then
                match env.parse_datetime arg with
                | none => Res.fatal Fatal.newerXY_date
                | some ts => Res.ret ts
              else
                match env.xstat arg with
                | none => Res.fatal Fatal.target_file
                | some stat_newer =>
                  match get_stat_Ytime stat_newer y with
                  | none => Res.fatal Fatal.newerXY_birth_time
                  | some ts => Res.ret ts
            match reftime_ts with
            | Res.fatal e => Res.fatal e
            | Res.ret ts =>
              Res.ret (true, ⟨arg_ptr + 1 + 1, o,
                some { insert_primary PRED_FUNC.pred_newerXY with
                        args := pred_args.reftime ⟨some xv, comparison_type.COMP_GT, ts⟩,
                        est_success_rate := estimate_timestamp_success_rate o ts.tv_sec }⟩)

/-- The parser of -used: the offset is taken from the origin (0, 0) in units
of a day.  A number that get_relative_timestamp does not accept ends the
program. -/
def parse_used (env : parse_env) (o : options) (argv : Option (List CStr)) (arg_ptr : Nat) :
    Res (Bool × parse_state) :=
  match collect_arg argv arg_ptr with
  | (true, ap, some offset_str) =>
    match get_relative_timestamp env offset_str ⟨0, 0⟩ DAYSECS with
    | Res.fatal e => Res.fatal e
    | Res.ret (some (kind, ts)) =>
      Res.ret (true, ⟨ap, o,
        some { insert_primary PRED_FUNC.pred_used with
                args := pred_args.reftime ⟨none, kind, ts⟩,
                est_success_rate :=
                  estimate_file_age_success_rate (Int.tdiv ts.tv_sec DAYSECS) }⟩)
    | Res.ret none => Res.fatal Fatal.used_invalid_argument
  | (_, ap, _) => Res.ret (false, ⟨ap, o, none⟩)

/-- The parser of -user: the name is looked up with getpwnam, and a name that
is not known is read as a number. -/
def parse_user (env : parse_env) (o : options) (argv : Option (List CStr)) (arg_ptr : Nat) :
    Res (Bool × parse_state) :=
  match collect_arg argv arg_ptr with
  | (true, ap, some username) =>
    let uid : Res Nat :=
      match env.getpwnam username with
      | some pw_uid => Res.ret pw_uid
      | none =>
        if (xstrtoumax username).1 ≠ strtol_error.LONGINT_OK ∨
            UID_T_MAX < (xstrtoumax username).2 then
          Res.fatal Fatal.invalid_user
        else Res.ret (xstrtoumax username).2
    match uid with
    | Res.fatal e => Res.fatal e
    | Res.ret uid =>
      Res.ret (true, ⟨ap, o,
        some { insert_primary PRED_FUNC.pred_user with
                args := pred_args.uid uid,
                est_success_rate := if uid < 100 then 990000000 else 200000000 }⟩)
  | (_, ap, _) => Res.ret (false, ⟨ap, o, none⟩)

/-- The parser of -group: the name is looked up with getgrnam, and a name that
is not known is read as a number. -/
def parse_group (env : parse_env) (o : options) (argv : Option (List CStr)) (arg_ptr : Nat) :
    Res (Bool × parse_state) :=
  match collect_arg argv arg_ptr with
  | (true, ap, some groupname) =>
    let gid : Res Nat :=
      match env.getgrnam groupname with
      | some gr_gid => Res.ret gr_gid
      | none =>
        if (xstrtoumax groupname).1 ≠ strtol_error.LONGINT_OK ∨
            GID_T_MAX < (xstrtoumax groupname).2 then
          Res.fatal Fatal.invalid_group
        else Res.ret (xstrtoumax groupname).2
    match gid with
    | Res.fatal e => Res.fatal e
    | Res.ret gid =>
      Res.ret (true, ⟨ap, o,
        some { insert_primary PRED_FUNC.pred_group with
                args := pred_args.gid gid,
                est_success_rate := if gid < 100 then 990000000 else 200000000 }⟩)
  | (_, ap, _) => Res.ret (false, ⟨ap, o, none⟩)

/-- The parser of -context. -/
def parse_context (env : parse_env) (o : options) (argv : Option (List CStr))
    (arg_ptr : Nat) : Res (Bool × parse_state) :=
  match argv with
  | none => Res.ret (false, ⟨arg_ptr, o, none⟩)
  | some l =>
    match l[arg_ptr]? with
    | none => Res.ret (false, ⟨arg_ptr, o, none⟩)
    | some arg =>
      if env.is_selinux_enabled ≤ 0 then Res.fatal Fatal.selinux_not_enabled
      else
        Res.ret (true, ⟨arg_ptr + 1, o,
          some { insert_primary PRED_FUNC.pred_context with
                  est_success_rate := 10000000, need_stat := false,
                  args := pred_args.scontext arg }⟩)

/-- The parser of -help: `usage (EXIT_SUCCESS)` ends the program, the call
does not return. -/
def parse_help : Res (Bool × parse_state) := Res.fatal Fatal.help_usage

/-- The parser of -version: after writing the version and the features it
calls `exit (EXIT_SUCCESS)`, the call does not return. -/
def parse_version : Res (Bool × parse_state) := Res.fatal Fatal.version_exit

/-- The sample environment in which the files carry timestamps, the user
"root" and the group "wheel" are known, and SELinux is enabled. -/
def sample_owner_env : parse_env :=
  { sample_time_env with
    xstat := fun _ =>
      some { st_ino := 7, st_dev := 1, is_lnk := false,
             st_atime := ⟨1700000300, 0⟩, st_mtime := ⟨1700000100, 0⟩,
             st_ctime := ⟨1700000200, 0⟩ }
    parse_datetime := fun _ => some ⟨1600000000, 0⟩
    getpwnam := fun s => if s = "root".toList then some 0 else none
    getgrnam := fun s => if s = "wheel".toList then some 10 else none
    is_selinux_enabled := 1 }

/-- The names of the tests for which a parser is embedded here. -/
def test_names : List CStr :=
  ["amin", "anewer", "atime", "cmin", "cnewer", "ctime", "context", "empty", "executable",
    "fstype", "gid", "group", "ilname", "iname", "inum", "ipath", "iregex", "iwholename",
    "links", "lname", "mmin", "mtime", "name", "newer", "newerXY", "nogroup", "nouser",
    "path", "perm", "readable", "regex", "samefile", "size", "type", "uid", "used", "user",
    "wholename", "writable", "xtype", "false", "true", "help", "-help", "version",
    "-version"].map String.toList

/-! ## Properties of insert_exec_ok -/

theorem countP_le_one_unique {α : Type} (p : α → Bool) :
    ∀ (l : List α) (i j : Nat) (a b : α), l.countP p ≤ 1 →
      l[i]? = some a → p a = true → l[j]? = some b → p b = true → i = j := by
  intro l
  induction l with
  | nil => intro i j a b _ hi; simp at hi
  | cons x xs ih =>
    intro i j a b hc hi ha hj hb
    have hcons : (x :: xs).countP p = xs.countP p + if p x = true then 1 else 0 :=
      List.countP_cons p x xs
    cases i with
    | zero =>
      cases j with
      | zero => rfl
      | succ j =>
        exfalso
        simp at hi hj
        subst hi
        have hpos : 0 < xs.countP p :=
          List.countP_pos_iff.mpr ⟨b, List.getElem?_mem hj, hb⟩
        rw [if_pos ha] at hcons
        omega
    | succ i =>
      cases j with
      | zero =>
        exfalso
        simp at hi hj
        subst hj
        have hpos : 0 < xs.countP p :=
          List.countP_pos_iff.mpr ⟨a, List.getElem?_mem hi, ha⟩
        rw [if_pos hb] at hcons
        omega
      | succ j =>
        simp at hi hj
        have hle : xs.countP p ≤ 1 := by
          have : xs.countP p ≤ (x :: xs).countP p := by rw [hcons]; omega
          omega
        have := ih i j a b hle hi ha hj hb
        omega

theorem drop_eq_cons {α : Type} {l : List α} {e : Nat} {a : α} {rest : List α}
    (h : l.drop e = a :: rest) : l[e]? = some a ∧ l.drop (e + 1) = rest := by
  constructor
  · rw [← List.head?_drop, h]; rfl
  · rw [← List.drop_drop 1 e l]; simp [h]

theorem drop_eq_nil_getElem? {α : Type} {l : List α} {e : Nat}
    (h : l.drop e = []) : l[e]? = none := by
  rw [← List.head?_drop, h]; rfl

theorem plus_ne_semicolon : plus ≠ semicolon := by decide

theorem mbsstr_braces_self : mbsstr braces braces = true := by decide

theorem allow_plus_iff (func : PRED_FUNC) (hf : exec_family func = true) :
    allow_plus func = true ↔ (func = PRED_FUNC.pred_exec ∨ func = PRED_FUNC.pred_execdir) := by
  cases func <;> simp [allow_plus, exec_family] at hf ⊢

/-- The scanning loop, from any state that it can reach: it is either cut
short by the fatal error about the utility name (only at `start`, only for
-execdir and -okdir) or left at the first index that ends the command. -/
theorem exec_scan_spec (func : PRED_FUNC) (argv : List CStr) (start : Nat)
    (hf : exec_family func = true) :
    ∀ (l : List CStr) (e : Nat) (prev : Bool) (bc : Nat) (ba : Option CStr),
      argv.drop e = l → start ≤ e →
      (prev = true ↔ (start < e ∧ argv[e - 1]? = some braces)) →
      (∀ j, start ≤ j → j < e → ¬ is_terminator func argv start j) →
      (exec_scan (allow_plus func) func start l e prev bc ba
            = Res.fatal Fatal.braces_in_utility_name ∧
          start = e ∧ is_dir func = true ∧ utility_name_has_braces argv start = true) ∨
      (∃ s, exec_scan (allow_plus func) func start l e prev bc ba = Res.ret s ∧
          first_terminator func argv start s.end_ ∧ e ≤ s.end_ ∧
          (s.multiple = true ↔ is_plus_terminator func argv start s.end_)) := by
  intro l
  induction l with
  | nil =>
    intro e prev bc ba hl hse hprev hnt
    right
    have hnone := drop_eq_nil_getElem? hl
    refine ⟨⟨e, prev, bc, ba, false⟩, by simp [exec_scan], ⟨hse, Or.inl hnone, hnt⟩,
      le_refl _, ?_⟩
    constructor
    · intro h; simp at h
    · intro h
      rcases h with ⟨_, h2, _⟩
      rw [hnone] at h2; cases h2
  | cons a rest ih =>
    intro e prev bc ba hl hse hprev hnt
    obtain ⟨hget, hdrop⟩ := drop_eq_cons hl
    by_cases h1 : a = semicolon
    · right
      refine ⟨⟨e, prev, bc, ba, false⟩, by simp [exec_scan, h1],
        ⟨hse, Or.inr (Or.inl (by rw [hget, h1])), hnt⟩, le_refl _, ?_⟩
      constructor
      · intro h; simp at h
      · intro h
        rcases h with ⟨_, h2, _⟩
        rw [hget, h1] at h2
        exact absurd (Option.some.inj h2).symm plus_ne_semicolon
    · by_cases h2 : (allow_plus func && prev && (a == plus)) = true
      · right
        have h2' := h2
        simp only [Bool.and_eq_true, beq_iff_eq] at h2'
        obtain ⟨⟨hap, hp⟩, hplus⟩ := h2'
        have hpt : is_plus_terminator func argv start e :=
          ⟨(allow_plus_iff func hf).mp hap, by rw [hget, hplus], (hprev.mp hp).1,
            (hprev.mp hp).2⟩
        refine ⟨⟨e, prev, bc, ba, true⟩, by simp [exec_scan, h1, h2],
          ⟨hse, Or.inr (Or.inr hpt), hnt⟩, le_refl _, ?_⟩
        exact ⟨fun _ => hpt, fun _ => rfl⟩
      · have hnot : ¬ is_terminator func argv start e := by
          intro ht
          rcases ht with ht | ht | ht
          · rw [hget] at ht; cases ht
          · rw [hget] at ht; exact h1 (Option.some.inj ht)
          · obtain ⟨hfe, hpl, hlt, hbr⟩ := ht
            apply h2
            rw [hget] at hpl
            have hap := (allow_plus_iff func hf).mpr hfe
            have hp := hprev.mpr ⟨hlt, hbr⟩
            simp [hap, hp, Option.some.inj hpl]
        have hnt' : ∀ j, start ≤ j → j < e + 1 → ¬ is_terminator func argv start j := by
          intro j hj hlt
          by_cases hje : j = e
          · rw [hje]; exact hnot
          · exact hnt j hj (by omega)
        by_cases h3 : mbsstr a braces = true
        · by_cases h4 : start = e ∧ is_dir func = true
          · left
            refine ⟨by simp [exec_scan, h1, h2, h3, h4], h4.1, h4.2, ?_⟩
            rw [utility_name_has_braces, h4.1, hget]; exact h3
          · have hprev' : ((a == braces) = true ↔
                (start < e + 1 ∧ argv[e + 1 - 1]? = some braces)) := by
              simp only [beq_iff_eq, Nat.add_sub_cancel, hget]
              constructor
              · intro h; exact ⟨by omega, by rw [h]⟩
              · intro h; exact Option.some.inj h.2
            rcases ih (e + 1) (a == braces) (bc + 1) (some a) hdrop (by omega) hprev' hnt'
              with ⟨_, he, _⟩ | ⟨s, hs, hft, hle, hm⟩
            · omega
            · right
              refine ⟨s, ?_, hft, by omega, hm⟩
              rw [exec_scan]
              simp only [h1, h2, h3, h4, if_true, if_false]
              exact hs
        · have hprev' : (false = true ↔
                (start < e + 1 ∧ argv[e + 1 - 1]? = some braces)) := by
            simp only [Nat.add_sub_cancel, hget]
            constructor
            · intro h; cases h
            · intro h
              have hab : a = braces := Option.some.inj h.2
              rw [hab] at h3
              exact absurd mbsstr_braces_self h3
          rcases ih (e + 1) false bc ba hdrop (by omega) hprev' hnt'
            with ⟨_, he, _⟩ | ⟨s, hs, hft, hle, hm⟩
          · omega
          · right
            refine ⟨s, ?_, hft, by omega, hm⟩
            rw [exec_scan]
            simp only [h1, h2, h3, if_true, if_false]
            exact hs

/-- The scan started by insert_exec_ok: it is cut short by the fatal error
about the utility name, or it stops at the first index that ends the command. -/
theorem exec_scan_argv_spec (func : PRED_FUNC) (argv : List CStr) (start : Nat)
    (hf : exec_family func = true) :
    (exec_scan_argv func argv start = Res.fatal Fatal.braces_in_utility_name ∧
        is_dir func = true ∧ utility_name_has_braces argv start = true) ∨
    (∃ s, exec_scan_argv func argv start = Res.ret s ∧
        first_terminator func argv start s.end_ ∧
        (s.multiple = true ↔ is_plus_terminator func argv start s.end_)) := by
  have hprev : (false = true ↔ (start < start ∧ argv[start - 1]? = some braces)) := by
    constructor
    · intro h; cases h
    · intro h; omega
  rcases exec_scan_spec func argv start hf (argv.drop start) start false 0 none rfl
      (le_refl _) hprev (fun j h1 h2 => by omega)
    with ⟨h, _, hd, hu⟩ | ⟨s, hs, hft, _, hm⟩
  · exact Or.inl ⟨h, hd, hu⟩
  · exact Or.inr ⟨s, hs, hft, hm⟩

/-- C1, as stated, fails: for -execdir with a utility name that contains the
braces, the scan does not stop at the terminating ";" (index 1); the process
exits with a fatal error while the scan is at index 0. -/
theorem exec_scan_cut_short_by_utility_name :
    ¬ scan_stops_at_first_terminator PRED_FUNC.pred_execdir [braces, semicolon] 0 := by
  rintro ⟨s, hs, _⟩
  have h : exec_scan_argv PRED_FUNC.pred_execdir [braces, semicolon] 0
      = Res.fatal Fatal.braces_in_utility_name := by decide
  rw [h] at hs
  cases hs

/-- C1 (amended): for each of the four exec actions, every argument vector and
every start index, unless the action is -execdir or -okdir and argv[start]
contains the braces (the scan is then cut short by a fatal error), the scan of
insert_exec_ok stops at the smallest index end >= start such that argv[end] is
NULL, or exactly ";", or (for -exec and -execdir only) exactly "+" with the
element before it, at an index >= start, exactly the braces; and multiple is
set iff the scan stopped for the "+" reason. -/
theorem exec_scan_stops_at_first_terminator (func : PRED_FUNC) (argv : List CStr)
    (start : Nat) (hf : exec_family func = true)
    (hu : ¬ (is_dir func = true ∧ utility_name_has_braces argv start = true)) :
    scan_stops_at_first_terminator func argv start := by
  rcases exec_scan_argv_spec func argv start hf with ⟨_, hd, hb⟩ | h
  · exact absurd ⟨hd, hb⟩ hu
  · exact h

/-- Witness for C1 (amended): with -ok, the "+" after the braces is an ordinary
argument and the scan stops at the ";" (index 3); with -exec the same "+" ends
the command (index 2, multiple set), while a "+" after "x" followed by the
braces is an ordinary argument. -/
theorem exec_scan_stops_at_first_terminator_witness :
    exec_scan_argv PRED_FUNC.pred_ok [['e'], braces, plus, semicolon] 0
        = Res.ret ⟨3, false, 1, some braces, false⟩ ∧
      scan_stops_at_first_terminator PRED_FUNC.pred_ok [['e'], braces, plus, semicolon] 0 ∧
      exec_scan_argv PRED_FUNC.pred_exec [['e'], braces, plus, semicolon] 0
        = Res.ret ⟨2, true, 1, some braces, true⟩ ∧
      exec_scan_argv PRED_FUNC.pred_exec [['x', '\x7b', '\x7d'], plus, semicolon] 0
        = Res.ret ⟨2, false, 1, some ['x', '\x7b', '\x7d'], false⟩ :=
  ⟨by decide,
    exec_scan_stops_at_first_terminator PRED_FUNC.pred_ok [['e'], braces, plus, semicolon] 0
      (by decide) (by decide),
    by decide, by decide⟩

theorem exec_scan_count (ap : Bool) (func : PRED_FUNC) (start : Nat) :
    ∀ (l : List CStr) (e : Nat) (prev : Bool) (bc : Nat) (ba : Option CStr) (s : scan_state),
      exec_scan ap func start l e prev bc ba = Res.ret s →
      e ≤ s.end_ ∧
        s.brace_count = bc + (l.take (s.end_ - e)).countP (fun a => mbsstr a braces) := by
  intro l
  induction l with
  | nil =>
    intro e prev bc ba s h
    simp only [exec_scan, Res.ret.injEq] at h
    subst h
    simp
  | cons a rest ih =>
    intro e prev bc ba s h
    rw [exec_scan] at h
    split_ifs at h with h1 h2 h3 h4
    · simp only [Res.ret.injEq] at h
      subst h
      simp
    · simp only [Res.ret.injEq] at h
      subst h
      simp
    · obtain ⟨hle, hc⟩ := ih _ _ _ _ _ h
      refine ⟨by omega, ?_⟩
      have : s.end_ - e = (s.end_ - (e + 1)) + 1 := by omega
      rw [hc, this, List.take_succ_cons, List.countP_cons, if_pos h3]
      omega
    · obtain ⟨hle, hc⟩ := ih _ _ _ _ _ h
      refine ⟨by omega, ?_⟩
      have : s.end_ - e = (s.end_ - (e + 1)) + 1 := by omega
      rw [hc, this, List.take_succ_cons, List.countP_cons, if_neg h3]
      omega

/-- The paths through insert_exec_ok for a non-NULL argv. -/
theorem insert_exec_ok_cases (env : exec_env) (o : options) (func : PRED_FUNC)
    (argv : List CStr) (start : Nat) :
    (argv[start]? = none ∧
      insert_exec_ok env o func (some argv) start = Res.ret (false, ⟨start, o, none⟩)) ∨
    (argv[start]? ≠ none ∧ is_dir func = true ∧ ∃ e, check_path_safety env.path = Res.fatal e ∧
      insert_exec_ok env o func (some argv) start = Res.fatal e) ∨
    (argv[start]? ≠ none ∧ (is_dir func = true → check_path_safety env.path = Res.ret ()) ∧
      ((∃ e, exec_scan_argv func argv start = Res.fatal e ∧
          insert_exec_ok env o func (some argv) start = Res.fatal e) ∨
       (∃ s, exec_scan_argv func argv start = Res.ret s ∧
          (((s.end_ = start ∨ argv[s.end_]? = none) ∧
              ∃ o2, insert_exec_ok env o func (some argv) start
                = Res.ret (false, ⟨s.end_, o2, none⟩)) ∨
           (¬ (s.end_ = start ∨ argv[s.end_]? = none) ∧
              (s.multiple = true ∧ s.brace_count > 1) ∧
              insert_exec_ok env o func (some argv) start
                = Res.fatal Fatal.only_one_instance) ∨
           (¬ (s.end_ = start ∨ argv[s.end_]? = none) ∧
              ¬ (s.multiple = true ∧ s.brace_count > 1) ∧
              (s.multiple = true ∧ (s.brace_arg.getD []).length ≠ 2) ∧
              insert_exec_ok env o func (some argv) start
                = Res.fatal Fatal.braces_not_alone) ∨
           (¬ (s.end_ = start ∨ argv[s.end_]? = none) ∧
              ¬ (s.multiple = true ∧ s.brace_count > 1) ∧
              ¬ (s.multiple = true ∧ (s.brace_arg.getD []).length ≠ 2) ∧
              env.bcstatus ≠ BC_INIT_STATUS.BC_INIT_OK ∧
              insert_exec_ok env o func (some argv) start
                = Res.fatal Fatal.environment_too_large) ∨
           (¬ (s.end_ = start ∨ argv[s.end_]? = none) ∧
              ¬ (s.multiple = true ∧ s.brace_count > 1) ∧
              ¬ (s.multiple = true ∧ (s.brace_arg.getD []).length ≠ 2) ∧
              env.bcstatus = BC_INIT_STATUS.BC_INIT_OK ∧
              ∃ o2 p ev, insert_exec_ok env o func (some argv) start
                  = Res.ret (true, ⟨s.end_ + 1, o2, some p⟩) ∧
                p.args = pred_args.exec_vec ev ∧ ev.multiple = s.multiple ∧
                p.need_stat = false ∧ p.need_type = false ∧
                p.side_effects = true ∧ p.no_default_print = true))))) := by
  by_cases h0 : argv[start]? = none
  · left
    exact ⟨h0, by simp only [insert_exec_ok, h0, if_true]⟩
  · right
    cases hpath : (if is_dir func = true then check_path_safety env.path else Res.ret ()) with
    | fatal e =>
      left
      by_cases hd : is_dir func = true
      · rw [if_pos hd] at hpath
        exact ⟨h0, hd, e, hpath, by simp only [insert_exec_ok, h0, if_false, if_pos hd, hpath]⟩
      · rw [if_neg hd] at hpath
        cases hpath
    | ret u =>
      right
      refine ⟨h0, fun hd => by rw [if_pos hd] at hpath; exact hpath, ?_⟩
      cases hscan : exec_scan_argv func argv start with
      | fatal e =>
        left
        exact ⟨e, rfl, by simp only [insert_exec_ok, h0, if_false, hpath, hscan]⟩
      | ret s =>
        right
        refine ⟨s, rfl, ?_⟩
        by_cases h1 : s.end_ = start ∨ argv[s.end_]? = none
        · left
          refine ⟨h1, ?_⟩
          simp only [insert_exec_ok, h0, if_false, hpath, hscan]
          rw [if_pos h1]
          exact ⟨_, rfl⟩
        · right
          by_cases h2 : s.multiple = true ∧ s.brace_count > 1
          · left
            refine ⟨h1, h2, ?_⟩
            simp only [insert_exec_ok, h0, if_false, hpath, hscan]
            rw [if_neg h1, if_pos h2]
          · right
            by_cases h3 : s.multiple = true ∧ (s.brace_arg.getD []).length ≠ 2
            · left
              refine ⟨h1, h2, h3, ?_⟩
              simp only [insert_exec_ok, h0, if_false, hpath, hscan]
              rw [if_neg h1, if_neg h2, if_pos h3]
            · right
              by_cases h4 : env.bcstatus ≠ BC_INIT_STATUS.BC_INIT_OK
              · left
                refine ⟨h1, h2, h3, h4, ?_⟩
                simp only [insert_exec_ok, h0, if_false, hpath, hscan]
                rw [if_neg h1, if_neg h2, if_neg h3, if_pos h4]
              · right
                refine ⟨h1, h2, h3, not_not.mp h4, ?_⟩
                simp only [insert_exec_ok, h0, if_false, hpath, hscan]
                rw [if_neg h1, if_neg h2, if_neg h3, if_neg h4]
                refine ⟨_, _, _, rfl, rfl, ?_, rfl, rfl, rfl, rfl⟩
                cases hm : s.multiple <;> simp

theorem first_terminator_unique (func : PRED_FUNC) (argv : List CStr) (start e1 e2 : Nat)
    (h1 : first_terminator func argv start e1) (h2 : first_terminator func argv start e2) :
    e1 = e2 := by
  obtain ⟨hs1, ht1, hl1⟩ := h1
  obtain ⟨hs2, ht2, hl2⟩ := h2
  by_contra hne
  rcases Nat.lt_or_gt_of_ne hne with h | h
  · exact hl2 e1 hs1 h ht1
  · exact hl1 e2 hs2 h ht2

theorem is_terminator_start (func : PRED_FUNC) (argv : List CStr) (start : Nat) :
    is_terminator func argv start start ↔
      (argv[start]? = none ∨ argv[start]? = some semicolon) := by
  constructor
  · rintro (h | h | ⟨_, _, h, _⟩)
    · exact Or.inl h
    · exact Or.inr h
    · omega
  · rintro (h | h)
    · exact Or.inl h
    · exact Or.inr (Or.inl h)

theorem mbsstr_semicolon : mbsstr semicolon braces = false := by decide

theorem exec_scan_argv_utility_name (func : PRED_FUNC) (argv : List CStr) (start : Nat)
    (hd : is_dir func = true) (hu : utility_name_has_braces argv start = true) :
    exec_scan_argv func argv start = Res.fatal Fatal.braces_in_utility_name := by
  unfold utility_name_has_braces at hu
  cases hget : argv[start]? with
  | none => rw [hget] at hu; cases hu
  | some a =>
    rw [hget] at hu
    simp only at hu
    have hdrop : argv.drop start = a :: argv.drop (start + 1) := by
      obtain ⟨hlt, ha⟩ := List.getElem?_eq_some.mp hget
      rw [← ha]
      exact List.drop_eq_getElem_cons hlt
    have h1 : a ≠ semicolon := by
      intro h; rw [h, mbsstr_semicolon] at hu; cases hu
    unfold exec_scan_argv
    rw [hdrop, exec_scan]
    simp [h1, hu, hd]

theorem getElem?_take_drop {α : Type} (l : List α) (start n i : Nat) (h : i < n) :
    ((l.drop start).take n)[i]? = l[start + i]? := by
  rw [List.getElem?_take_of_lt h, List.getElem?_drop]

/-- Facts about a scan that was left normally, in terms of argv. -/
theorem exec_scan_argv_ret (func : PRED_FUNC) (argv : List CStr) (start : Nat)
    (hf : exec_family func = true) (s : scan_state)
    (hs : exec_scan_argv func argv start = Res.ret s) :
    first_terminator func argv start s.end_ ∧
      (s.multiple = true ↔ is_plus_terminator func argv start s.end_) ∧
      s.brace_count =
        ((argv.drop start).take (s.end_ - start)).countP (fun a => mbsstr a braces) := by
  have hc := (exec_scan_count _ _ _ _ _ _ _ _ _ hs).2
  rw [Nat.zero_add] at hc
  rcases exec_scan_argv_spec func argv start hf with ⟨h, _⟩ | ⟨s2, hs2, hft, hm⟩
  · rw [h] at hs; cases hs
  · rw [hs] at hs2
    cases hs2
    exact ⟨hft, hm, hc⟩

/-- Two elements of argv[start..e) that contain the braces make the count exceed one. -/
theorem braces_count_unique (argv : List CStr) (start e i j : Nat) (a b : CStr)
    (hc : ((argv.drop start).take (e - start)).countP (fun a => mbsstr a braces) ≤ 1)
    (hi1 : start ≤ i) (hi2 : i < e) (ha : argv[i]? = some a) (hma : mbsstr a braces = true)
    (hj1 : start ≤ j) (hj2 : j < e) (hb : argv[j]? = some b) (hmb : mbsstr b braces = true) :
    i = j := by
  have h1 : ((argv.drop start).take (e - start))[i - start]? = some a := by
    rw [getElem?_take_drop _ _ _ _ (by omega)]
    rw [show start + (i - start) = i by omega]; exact ha
  have h2 : ((argv.drop start).take (e - start))[j - start]? = some b := by
    rw [getElem?_take_drop _ _ _ _ (by omega)]
    rw [show start + (j - start) = j by omega]; exact hb
  have := countP_le_one_unique (fun a => mbsstr a braces) _ _ _ a b hc h1 hma h2 hmb
  omega

/-- C2: whenever insert_exec_ok returns true with multiple set (the "+"
terminator at index e, *arg_ptr = e + 1), exactly one element of the command
argv[start..e) contains the braces: the last one, argv[e-1], which is literally
the braces.  And any command that ends with the "+" terminator and has a second
element containing the braces is rejected with a fatal error. -/
theorem insert_exec_ok_plus_exactly_one_braces :
    (∀ (env : exec_env) (o : options) (func : PRED_FUNC) (argv : List CStr) (start : Nat)
        (st : parse_state) (p : predicate) (ev : exec_val),
        exec_family func = true →
        insert_exec_ok env o func (some argv) start = Res.ret (true, st) →
        st.pred = some p → p.args = pred_args.exec_vec ev → ev.multiple = true →
        ∃ e, st.arg_ptr = e + 1 ∧ start < e ∧ argv[e]? = some plus ∧
          argv[e - 1]? = some braces ∧
          ∀ j a, start ≤ j → j < e → argv[j]? = some a →
            (mbsstr a braces = true ↔ j = e - 1)) ∧
    (∀ (env : exec_env) (o : options) (func : PRED_FUNC) (argv : List CStr)
        (start e j : Nat) (a : CStr),
        exec_family func = true → first_terminator func argv start e →
        is_plus_terminator func argv start e →
        start ≤ j → j < e - 1 → argv[j]? = some a → mbsstr a braces = true →
        ∃ err, insert_exec_ok env o func (some argv) start = Res.fatal err) := by
  constructor
  · intro env o func argv start st p ev hf h hp hev hm
    rcases insert_exec_ok_cases env o func argv start with
      ⟨_, hr⟩ | ⟨_, _, e, _, hr⟩ | ⟨_, _, ⟨e, _, hr⟩ | ⟨s, hs, hcase⟩⟩
    · rw [hr] at h; cases h
    · rw [hr] at h; cases h
    · rw [hr] at h; cases h
    · rcases hcase with ⟨_, o2, hr⟩ | ⟨_, _, hr⟩ | ⟨_, _, _, hr⟩ | ⟨_, _, _, _, hr⟩ |
        ⟨_, h2, _, _, o2, p2, ev2, hr, hargs, hmult, _⟩
      · rw [hr] at h; cases h
      · rw [hr] at h; cases h
      · rw [hr] at h; cases h
      · rw [hr] at h; cases h
      · rw [hr] at h
        simp only [Res.ret.injEq, Prod.mk.injEq, true_and] at h
        subst h
        simp only [Option.some.injEq] at hp
        subst hp
        rw [hargs] at hev
        simp only [pred_args.exec_vec.injEq] at hev
        subst hev
        rw [hm] at hmult
        obtain ⟨hft, hmi, hcount⟩ := exec_scan_argv_ret func argv start hf s hs
        obtain ⟨_, hpl, hlt, hbr⟩ := hmi.mp hmult.symm
        have hle : s.brace_count ≤ 1 := by
          by_contra hgt
          exact h2 ⟨hmult.symm, by omega⟩
        rw [hcount] at hle
        refine ⟨s.end_, rfl, hlt, hpl, hbr, ?_⟩
        intro j a hj1 hj2 ha
        constructor
        · intro hma
          exact braces_count_unique argv start s.end_ j (s.end_ - 1) a braces hle hj1 hj2 ha
            hma (by omega) (by omega) hbr mbsstr_braces_self
        · intro hj
          rw [hj, hbr] at ha
          rw [← Option.some.inj ha]
          exact mbsstr_braces_self
  · intro env o func argv start e j a hf hft hpt hj1 hj2 ha hma
    rcases insert_exec_ok_cases env o func argv start with
      ⟨h0, _⟩ | ⟨_, _, err, _, hr⟩ | ⟨_, _, ⟨err, _, hr⟩ | ⟨s, hs, hcase⟩⟩
    · exfalso
      rw [List.getElem?_eq_none_iff] at h0
      have := (List.getElem?_eq_some.mp ha).1
      omega
    · exact ⟨err, hr⟩
    · exact ⟨err, hr⟩
    · obtain ⟨hft2, hmi, hcount⟩ := exec_scan_argv_ret func argv start hf s hs
      have hee : s.end_ = e := first_terminator_unique func argv start _ _ hft2 hft
      obtain ⟨_, hpl, hlt, hbr⟩ := hpt
      have hgt : s.brace_count > 1 := by
        by_contra hle
        rw [hcount, hee] at hle
        have := braces_count_unique argv start e j (e - 1) a braces (by omega) hj1 (by omega)
          ha hma (by omega) (by omega) hbr mbsstr_braces_self
        omega
      have hmult : s.multiple = true := hmi.mpr (hee ▸ ⟨‹_›, hpl, hlt, hbr⟩)
      rcases hcase with ⟨h1, _⟩ | ⟨_, _, hr⟩ | ⟨_, h2, _⟩ | ⟨_, h2, _⟩ | ⟨_, h2, _⟩
      · exfalso
        rw [hee] at h1
        rcases h1 with h1 | h1
        · omega
        · rw [hpl] at h1; cases h1
      · exact ⟨_, hr⟩
      · exact absurd ⟨hmult, hgt⟩ h2
      · exact absurd ⟨hmult, hgt⟩ h2
      · exact absurd ⟨hmult, hgt⟩ h2

/-- Witness for C2: -exec echo, braces, + returns true with *arg_ptr = 3, and
the only element with braces is argv[1]. -/
theorem insert_exec_ok_plus_exactly_one_braces_witness :
    insert_exec_ok sample_env sample_options PRED_FUNC.pred_exec
        (some [echo, braces, plus]) 0
      = Res.ret (true, ⟨3, sample_options, some sample_plus_pred⟩) ∧
    (∃ e, 3 = e + 1 ∧ 0 < e ∧ [echo, braces, plus][e]? = some plus ∧
      [echo, braces, plus][e - 1]? = some braces ∧
      ∀ j a, 0 ≤ j → j < e → [echo, braces, plus][j]? = some a →
        (mbsstr a braces = true ↔ j = e - 1)) ∧
    (∃ err, insert_exec_ok sample_env sample_options PRED_FUNC.pred_exec
        (some [braces, braces, plus]) 0 = Res.fatal err) :=
  ⟨by decide,
    insert_exec_ok_plus_exactly_one_braces.1 sample_env sample_options PRED_FUNC.pred_exec
      [echo, braces, plus] 0 ⟨3, sample_options, some sample_plus_pred⟩ sample_plus_pred
      sample_plus_exec_val (by decide) (by decide) rfl rfl rfl,
    insert_exec_ok_plus_exactly_one_braces.2 sample_env sample_options PRED_FUNC.pred_exec
      [braces, braces, plus] 0 2 0 braces (by decide)
      ⟨by decide, by decide, by decide⟩ (by decide) (by decide) (by decide) (by decide)
      (by decide)⟩

theorem is_dir_iff (func : PRED_FUNC) :
    is_dir func = true ↔ (func = PRED_FUNC.pred_execdir ∨ func = PRED_FUNC.pred_okdir) := by
  simp [is_dir]

/-- C3: for -execdir and -okdir, insert_exec_ok ends in a fatal error whenever
the utility name argv[start] contains the braces (the error about the utility
name, unless the check of PATH has already failed); for -exec and -ok no
command is rejected with that error. -/
theorem insert_exec_ok_rejects_braces_in_utility_name :
    (∀ (env : exec_env) (o : options) (func : PRED_FUNC) (argv : List CStr) (start : Nat),
        (func = PRED_FUNC.pred_execdir ∨ func = PRED_FUNC.pred_okdir) →
        utility_name_has_braces argv start = true →
        ∃ e, insert_exec_ok env o func (some argv) start = Res.fatal e ∧
          (check_path_safety env.path = Res.ret () → e = Fatal.braces_in_utility_name)) ∧
    (∀ (env : exec_env) (o : options) (func : PRED_FUNC) (argv : Option (List CStr))
        (start : Nat),
        (func = PRED_FUNC.pred_exec ∨ func = PRED_FUNC.pred_ok) →
        insert_exec_ok env o func argv start ≠ Res.fatal Fatal.braces_in_utility_name) := by
  constructor
  · intro env o func argv start hfunc hu
    have hd : is_dir func = true := (is_dir_iff func).mpr hfunc
    have hscan := exec_scan_argv_utility_name func argv start hd hu
    rcases insert_exec_ok_cases env o func argv start with
      ⟨h0, _⟩ | ⟨_, _, e, hp, hr⟩ | ⟨_, _, ⟨e, hs, hr⟩ | ⟨s, hs, _⟩⟩
    · rw [utility_name_has_braces, h0] at hu; cases hu
    · exact ⟨e, hr, fun h => by rw [h] at hp; cases hp⟩
    · rw [hscan] at hs
      cases hs
      exact ⟨_, hr, fun _ => rfl⟩
    · rw [hscan] at hs; cases hs
  · intro env o func argv start hfunc h
    have hd : ¬ is_dir func = true := by
      rw [is_dir_iff]
      rcases hfunc with hf | hf <;> rw [hf] <;> decide
    have hf : exec_family func = true := by
      rcases hfunc with hf | hf <;> rw [hf] <;> decide
    cases argv with
    | none => simp [insert_exec_ok] at h
    | some argv =>
      rcases insert_exec_ok_cases env o func argv start with
        ⟨_, hr⟩ | ⟨_, hd2, _⟩ | ⟨_, _, ⟨e, hs, _⟩ | ⟨s, _, hcase⟩⟩
      · rw [hr] at h; cases h
      · exact hd hd2
      · rcases exec_scan_argv_spec func argv start hf with ⟨_, hd2, _⟩ | ⟨s, hs2, _⟩
        · exact hd hd2
        · rw [hs2] at hs; cases hs
      · rcases hcase with ⟨_, o2, hr⟩ | ⟨_, _, hr⟩ | ⟨_, _, _, hr⟩ | ⟨_, _, _, _, hr⟩ |
          ⟨_, _, _, _, o2, p2, ev2, hr, _⟩ <;> rw [hr] at h <;> cases h

/-- Witness for C3: for the command braces, ";" -execdir and -okdir exit with the
error about the utility name, while -exec and -ok accept it. -/
theorem insert_exec_ok_rejects_braces_in_utility_name_witness :
    (∃ e, insert_exec_ok sample_env sample_options PRED_FUNC.pred_okdir
        (some [braces, semicolon]) 0 = Res.fatal e ∧
      (check_path_safety sample_env.path = Res.ret () → e = Fatal.braces_in_utility_name)) ∧
    insert_exec_ok sample_env sample_options PRED_FUNC.pred_execdir
        (some [braces, semicolon]) 0 = Res.fatal Fatal.braces_in_utility_name ∧
    insert_exec_ok sample_env sample_options PRED_FUNC.pred_ok
        (some [braces, semicolon]) 0 ≠ Res.fatal Fatal.braces_in_utility_name ∧
    (∃ st, insert_exec_ok sample_env sample_options PRED_FUNC.pred_exec
        (some [braces, semicolon]) 0 = Res.ret (true, st)) :=
  ⟨insert_exec_ok_rejects_braces_in_utility_name.1 sample_env sample_options
      PRED_FUNC.pred_okdir [braces, semicolon] 0 (Or.inr rfl) (by decide),
    by decide,
    insert_exec_ok_rejects_braces_in_utility_name.2 sample_env sample_options
      PRED_FUNC.pred_ok (some [braces, semicolon]) 0 (Or.inr rfl),
    ⟨_, rfl⟩⟩

/-- C4: absent a fatal error, insert_exec_ok returns false exactly when the
argument after the action name is missing (argv or argv[start] is NULL), when
the first argument is already ";", or when the argument list ends before any
terminator is found (NULL at the first terminating index e); in each of these
cases *arg_ptr is the index where the scan stopped.  When it returns true,
*arg_ptr is e + 1, the index just past the terminator. -/
theorem insert_exec_ok_return_value (env : exec_env) (o : options) (func : PRED_FUNC)
    (argv : Option (List CStr)) (start : Nat) (b : Bool) (st : parse_state)
    (hf : exec_family func = true)
    (h : insert_exec_ok env o func argv start = Res.ret (b, st)) :
    (argv = none → b = false ∧ st.arg_ptr = start) ∧
    (∀ l, argv = some l →
      ∃ e, first_terminator func l start e ∧
        (b = false ↔ (l[start]? = none ∨ l[start]? = some semicolon ∨ l[e]? = none)) ∧
        (b = false → st.arg_ptr = e) ∧
        (b = true → st.arg_ptr = e + 1 ∧ l[e]? ≠ none)) := by
  constructor
  · intro hn
    subst hn
    simp only [insert_exec_ok, Res.ret.injEq, Prod.mk.injEq] at h
    obtain ⟨hb, hst⟩ := h
    subst hb hst
    exact ⟨rfl, rfl⟩
  · intro l hl
    subst hl
    rcases insert_exec_ok_cases env o func l start with
      ⟨h0, hr⟩ | ⟨_, _, e, _, hr⟩ | ⟨h0, _, ⟨e, _, hr⟩ | ⟨s, hs, hcase⟩⟩
    · rw [hr] at h
      simp only [Res.ret.injEq, Prod.mk.injEq] at h
      obtain ⟨hb, hst⟩ := h
      subst hb hst
      refine ⟨start, ⟨le_refl _, Or.inl h0, fun j h1 h2 => by omega⟩, ?_, fun _ => rfl, ?_⟩
      · exact ⟨fun _ => Or.inl h0, fun _ => rfl⟩
      · intro hc; cases hc
    · rw [hr] at h; cases h
    · rw [hr] at h; cases h
    · obtain ⟨hft, _, _⟩ := exec_scan_argv_ret func l start hf s hs
      rcases hcase with ⟨h1, o2, hr⟩ | ⟨_, _, hr⟩ | ⟨_, _, _, hr⟩ | ⟨_, _, _, _, hr⟩ |
        ⟨h1, _, _, _, o2, p2, ev2, hr, _⟩
      · rw [hr] at h
        simp only [Res.ret.injEq, Prod.mk.injEq] at h
        obtain ⟨hb, hst⟩ := h
        subst hb hst
        refine ⟨s.end_, hft, ?_, fun _ => rfl, ?_⟩
        · refine ⟨fun _ => ?_, fun _ => rfl⟩
          rcases h1 with h1 | h1
          · have ht := hft.2.1
            rw [h1] at ht
            rcases (is_terminator_start func l start).mp ht with ht | ht
            · exact Or.inl ht
            · exact Or.inr (Or.inl ht)
          · exact Or.inr (Or.inr h1)
        · intro hc; cases hc
      · rw [hr] at h; cases h
      · rw [hr] at h; cases h
      · rw [hr] at h; cases h
      · rw [hr] at h
        simp only [Res.ret.injEq, Prod.mk.injEq] at h
        obtain ⟨hb, hst⟩ := h
        subst hb hst
        refine ⟨s.end_, hft, ?_, ?_, fun _ => ⟨rfl, fun hn => h1 (Or.inr hn)⟩⟩
        · constructor
          · intro hc; cases hc
          · intro hc
            exfalso
            rcases hc with hc | hc | hc
            · exact h0 hc
            · have ht : is_terminator func l start start :=
                (is_terminator_start func l start).mpr (Or.inr hc)
              by_cases hee : s.end_ = start
              · exact h1 (Or.inl hee)
              · exact hft.2.2 start (le_refl _) (by have := hft.1; omega) ht
            · exact h1 (Or.inr hc)
        · intro hc; cases hc

/-- Witness for C4: -exec echo with nothing after it returns false with
*arg_ptr = 1, the index of the terminating NULL. -/
theorem insert_exec_ok_return_value_witness :
    (some [echo] = none → false = false ∧ 1 = 0) ∧
    (∀ l, some [echo] = some l →
      ∃ e, first_terminator PRED_FUNC.pred_exec l 0 e ∧
        (false = false ↔ (l[0]? = none ∨ l[0]? = some semicolon ∨ l[e]? = none)) ∧
        (false = false → 1 = e) ∧
        (false = true → 1 = e + 1 ∧ l[e]? ≠ none)) :=
  insert_exec_ok_return_value sample_env sample_options PRED_FUNC.pred_exec (some [echo]) 0
    false ⟨1, sample_options, none⟩ (by decide) (by decide)

/-! ## Properties of check_path_safety -/

theorem not_sep_iff (c : Char) : (!([':'] : CStr).contains c) = true ↔ c ≠ ':' := by
  simp

theorem field_split (s : CStr) :
    (s = s.takeWhile (fun c => !([':'] : CStr).contains c) ∧
      s.splitOn ':' = [s.takeWhile (fun c => !([':'] : CStr).contains c)]) ∨
    (∃ rest, s = s.takeWhile (fun c => !([':'] : CStr).contains c) ++ ':' :: rest ∧
      s.splitOn ':' = s.takeWhile (fun c => !([':'] : CStr).contains c) :: rest.splitOn ':') := by
  have hf : ∀ x ∈ s.takeWhile (fun c => !([':'] : CStr).contains c), ¬ ((x == ':') = true) := by
    intro x hx
    have := List.mem_takeWhile_imp hx
    simpa using this
  have hsplit := List.takeWhile_append_dropWhile (fun c => !([':'] : CStr).contains c) s
  cases hd : s.dropWhile (fun c => !([':'] : CStr).contains c) with
  | nil =>
    left
    rw [hd, List.append_nil] at hsplit
    refine ⟨hsplit.symm, ?_⟩
    have := List.splitOnP_eq_single (fun x => x == ':') _ hf
    rw [hsplit] at this
    rw [hsplit]
    exact this
  | cons d rest =>
    right
    have hdc : d = ':' := by
      have := List.head_dropWhile_not (fun c => !([':'] : CStr).contains c) s
        (by rw [hd]; simp)
      simp only [hd, List.head_cons] at this
      simpa using this
    subst hdc
    rw [hd] at hsplit
    refine ⟨rest, hsplit.symm, ?_⟩
    have := List.splitOnP_first (fun x => x == ':') _ hf ':' (by simp) rest
    rw [hsplit] at this
    exact this

theorem check_path_safety_loop_step (path : CStr) (fuel pos : Nat) (f : CStr)
    (cs : List CStr) (h0 : f ≠ [] → path[pos]? = f.head?)
    (hnext : (match splitstring path [':'] false pos f.length with
        | none => Res.ret ()
        | some (p, l) => check_path_safety_loop path fuel p l) = check_components cs) :
    check_path_safety_loop path (fuel + 1) pos f.length = check_components (f :: cs) := by
  rw [check_path_safety_loop, check_components]
  cases f with
  | nil => simp
  | cons c f' =>
    have h0' := h0 (by simp)
    simp only [List.head?_cons] at h0'
    rw [h0']
    have hc1 : (((c :: f').length = 0 ∨ ((c :: f').length = 1 ∧ some c = some '.')) ↔
        (c :: f' = [] ∨ c :: f' = ['.'])) := by
      simp [List.length_eq_zero, and_comm]
    by_cases h1 : c :: f' = [] ∨ c :: f' = ['.']
    · rw [if_pos (hc1.mpr h1), if_pos h1]
    · rw [if_neg (fun h => h1 (hc1.mp h)), if_neg h1]
      have hc2 : (some c ≠ some '/') ↔ ((c :: f').head? ≠ some '/') := by simp
      by_cases h2 : (c :: f').head? ≠ some '/'
      · rw [if_pos (hc2.mpr h2), if_pos h2]
      · rw [if_neg (fun h => h2 (hc2.mp h)), if_neg h2]
        exact hnext

/-- With enough iterations allowed, the loop of check_path_safety, started at
the field that begins at `pos`, gives the verdict on the components of the
rest of PATH. -/
theorem check_path_safety_loop_spec (path : CStr) :
    ∀ (fuel pos : Nat), pos ≤ path.length → path.length - pos < fuel →
      check_path_safety_loop path fuel pos (field_length (path.drop pos) [':'])
        = check_components ((path.drop pos).splitOn ':') := by
  intro fuel
  induction fuel with
  | zero => intro pos _ h; omega
  | succ fuel ih =>
    intro pos hpos hfuel
    have hidx : ∀ i, path[pos + i]? = (path.drop pos)[i]? := fun i => by
      rw [List.getElem?_drop]
    have hlen : (path.drop pos).length = path.length - pos := List.length_drop pos path
    unfold field_length
    have hfs := field_split (path.drop pos)
    generalize List.takeWhile (fun c => !([':'] : CStr).contains c) (path.drop pos) = f
      at hfs ⊢
    rcases hfs with ⟨hsf, hsp⟩ | ⟨rest, hsf, hsp⟩
    · rw [hsp]
      apply check_path_safety_loop_step
      · intro hne
        have := hidx 0
        rw [Nat.add_zero] at this
        rw [this, hsf, List.head?_eq_getElem?]
      · unfold splitstring
        simp only [Bool.false_eq_true, if_false]
        rw [hidx, hsf, List.getElem?_eq_none (le_refl _)]
        rfl
    · rw [hsp]
      apply check_path_safety_loop_step
      · intro hne
        have := hidx 0
        rw [Nat.add_zero] at this
        rw [this, hsf, List.getElem?_append_left (List.length_pos.mpr hne),
          List.head?_eq_getElem?]
      · unfold splitstring
        simp only [Bool.false_eq_true, if_false]
        have hget : path[pos + f.length]? = some ':' := by
          rw [hidx, hsf, List.getElem?_append_right (le_refl _), Nat.sub_self,
            List.getElem?_cons_zero]
        rw [hget]
        simp only
        have hdrop : path.drop (pos + f.length + 1) = rest := by
          rw [Nat.add_assoc, ← List.drop_drop, hsf]
          simp
        have hle : f.length + 1 ≤ path.length - pos := by
          rw [← hlen, hsf]
          simp
        have := ih (pos + f.length + 1) (by omega) (by omega)
        rw [hdrop] at this
        rw [hdrop]
        exact this

theorem check_path_safety_eq (p : CStr) :
    check_path_safety (some p) = check_components (p.splitOn ':') := by
  have h := check_path_safety_loop_spec p (p.length + 1) 0 (Nat.zero_le _) (by omega)
  rw [List.drop_zero] at h
  simp only [check_path_safety, splitstring, if_true]
  exact h

theorem check_components_ret (l : List CStr) :
    check_components l = Res.ret () ↔ ∀ c ∈ l, c ≠ [] ∧ c.head? = some '/' := by
  induction l with
  | nil => simp [check_components]
  | cons c cs ih =>
    rw [check_components]
    by_cases h1 : c = [] ∨ c = ['.']
    · rw [if_pos h1]
      constructor
      · intro h; cases h
      · intro h
        exfalso
        have hc := h c (List.mem_cons_self _ _)
        rcases h1 with h1 | h1
        · exact hc.1 h1
        · rw [h1] at hc
          have := hc.2
          simp at this
    · rw [if_neg h1]
      by_cases h2 : c.head? ≠ some '/'
      · rw [if_pos h2]
        constructor
        · intro h; cases h
        · intro h
          exact absurd (h c (List.mem_cons_self _ _)).2 h2
      · rw [if_neg h2, ih]
        constructor
        · intro h x hx
          rcases List.mem_cons.mp hx with hx | hx
          · rw [hx]
            exact ⟨fun hn => h1 (Or.inl hn), not_not.mp h2⟩
          · exact h x hx
        · intro h x hx
          exact h x (List.mem_cons_of_mem _ hx)

theorem check_components_total (l : List CStr) :
    check_components l = Res.ret () ∨
      check_components l = Res.fatal Fatal.path_current_directory ∨
      check_components l = Res.fatal Fatal.path_relative := by
  induction l with
  | nil => left; rfl
  | cons c cs ih =>
    rw [check_components]
    split_ifs
    · right; left; rfl
    · right; right; rfl
    · exact ih

/-- C5: check_path_safety returns normally iff PATH is unset or every
':'-separated component of PATH is non-empty and begins with '/'; otherwise the
first offending component decides the fatal error (an empty component or "." is
the current directory, another component not beginning with '/' is a relative
path).  For -execdir and -okdir a fatal verdict on PATH ends insert_exec_ok;
for -exec and -ok the value of PATH has no influence on insert_exec_ok. -/
theorem check_path_safety_iff :
    check_path_safety none = Res.ret () ∧
    (∀ p : CStr, check_path_safety (some p) = check_components (p.splitOn ':')) ∧
    (∀ p : CStr, check_path_safety (some p) = Res.ret () ↔
      ∀ c ∈ p.splitOn ':', c ≠ [] ∧ c.head? = some '/') ∧
    (∀ p : CStr, (∃ c ∈ p.splitOn ':', c = [] ∨ c = ['.'] ∨ c.head? ≠ some '/') →
      check_path_safety (some p) = Res.fatal Fatal.path_current_directory ∨
      check_path_safety (some p) = Res.fatal Fatal.path_relative) ∧
    (∀ (env : exec_env) (o : options) (func : PRED_FUNC) (argv : List CStr) (start : Nat)
        (e : Fatal),
      (func = PRED_FUNC.pred_execdir ∨ func = PRED_FUNC.pred_okdir) →
      argv[start]? ≠ none → check_path_safety env.path = Res.fatal e →
      insert_exec_ok env o func (some argv) start = Res.fatal e) ∧
    (∀ (p1 p2 : Option CStr) (bc : BC_INIT_STATUS) (o : options) (func : PRED_FUNC)
        (argv : Option (List CStr)) (start : Nat),
      (func = PRED_FUNC.pred_exec ∨ func = PRED_FUNC.pred_ok) →
      insert_exec_ok ⟨p1, bc⟩ o func argv start = insert_exec_ok ⟨p2, bc⟩ o func argv start) := by
  refine ⟨rfl, check_path_safety_eq, ?_, ?_, ?_, ?_⟩
  · intro p
    rw [check_path_safety_eq, check_components_ret]
  · intro p ⟨c, hc, hbad⟩
    rw [check_path_safety_eq]
    rcases check_components_total (p.splitOn ':') with h | h | h
    · exfalso
      have := (check_components_ret _).mp h c hc
      rcases hbad with hb | hb | hb
      · exact this.1 hb
      · rw [hb] at this
        have := this.2
        simp at this
      · exact hb this.2
    · exact Or.inl h
    · exact Or.inr h
  · intro env o func argv start e hfunc h0 hp
    have hd : is_dir func = true := (is_dir_iff func).mpr hfunc
    rcases insert_exec_ok_cases env o func argv start with
      ⟨h0', _⟩ | ⟨_, _, e2, hp2, hr⟩ | ⟨_, hok, _⟩
    · exact absurd h0' h0
    · rw [hp] at hp2
      cases hp2
      exact hr
    · rw [hok hd] at hp
      cases hp
  · intro p1 p2 bc o func argv start hfunc
    cases argv with
    | none => rfl
    | some argv =>
      rcases hfunc with hf | hf <;> subst hf <;> rfl

/-- Witness for C5: a PATH of absolute directories passes; an empty PATH, a
leading, trailing or doubled colon, the component "." and a relative component
are each fatal. -/
theorem check_path_safety_iff_witness :
    check_path_safety (some "/bin:/usr/bin".toList) = Res.ret () ∧
    check_path_safety (some []) = Res.fatal Fatal.path_current_directory ∧
    check_path_safety (some ":/bin".toList) = Res.fatal Fatal.path_current_directory ∧
    check_path_safety (some "/bin:".toList) = Res.fatal Fatal.path_current_directory ∧
    check_path_safety (some "/bin::/usr".toList) = Res.fatal Fatal.path_current_directory ∧
    check_path_safety (some "/bin:.".toList) = Res.fatal Fatal.path_current_directory ∧
    check_path_safety (some "/bin:usr".toList) = Res.fatal Fatal.path_relative ∧
    (check_path_safety (some "/bin".toList) = Res.ret () ↔
      ∀ c ∈ "/bin".toList.splitOn ':', c ≠ [] ∧ c.head? = some '/') :=
  ⟨by decide, by decide, by decide, by decide, by decide, by decide, by decide,
    check_path_safety_iff.2.2.1 "/bin".toList⟩

/-! ## Properties of parse_size and insert_num -/

theorem isDigit_facts (c : Char) (h : c.isDigit = true) :
    isspace c = false ∧ c ≠ '-' ∧ c ≠ '+' ∧ c ≠ 'b' ∧ c ≠ 'c' ∧ c ≠ 'k' ∧ c ≠ 'M' ∧
      c ≠ 'G' ∧ c ≠ 'w' := by
  refine ⟨?_, ?_, ?_, ?_, ?_, ?_, ?_, ?_, ?_⟩
  · cases hs : isspace c with
    | false => rfl
    | true =>
      exfalso
      simp only [isspace, Bool.or_eq_true, decide_eq_true_eq] at hs
      rcases hs with ((((hs | hs) | hs) | hs) | hs) | hs <;> subst hs <;> revert h <;> decide
  all_goals (intro hc; subst hc; revert h; decide)

theorem xstrtoumax_digits (ds : CStr) (h : is_uintmax_digits ds) :
    xstrtoumax ds = (strtol_error.LONGINT_OK, decimal_value ds) := by
  obtain ⟨hne, hdig, hfit⟩ := h
  cases ds with
  | nil => exact absurd rfl hne
  | cons d ds' =>
    obtain ⟨hsp, hm, hp, _⟩ := isDigit_facts d (hdig d (List.mem_cons_self _ _))
    have htw : List.takeWhile Char.isDigit (d :: ds') = d :: ds' :=
      List.takeWhile_eq_self_iff.mpr hdig
    have hdw : List.dropWhile Char.isDigit (d :: ds') = [] :=
      List.dropWhile_eq_nil_iff.mpr hdig
    have hq : List.dropWhile isspace (d :: ds') = d :: ds' := by
      rw [List.dropWhile_cons_of_neg]; rw [hsp]; simp
    have hbm : begins_with_minus (d :: ds') = false := by
      unfold begins_with_minus
      split
      · rename_i heq
        simp only [List.cons.injEq] at heq
        exact absurd heq.1 hm
      · rfl
    have hsk : skip_plus (d :: ds') = d :: ds' := by
      unfold skip_plus
      split
      · rename_i heq
        simp only [List.cons.injEq] at heq
        exact absurd heq.1 hp
      · rfl
    unfold xstrtoumax
    simp only [hq, hbm, hsk, htw, hdw]
    rw [if_neg (by simp), if_neg (by simp), if_neg (by simp), if_neg (by omega)]

theorem get_num_digits (sign ds : CStr) (hs : sign ∈ signs) (hd : is_uintmax_digits ds) :
    get_num (some (sign ++ ds)) = some (decimal_value ds, spec_kind sign) := by
  have hx := xstrtoumax_digits ds hd
  obtain ⟨hne, hdig, _⟩ := hd
  cases ds with
  | nil => exact absurd rfl hne
  | cons d ds' =>
    obtain ⟨_, hm, hp, _⟩ := isDigit_facts d (hdig d (List.mem_cons_self _ _))
    simp only [signs, List.mem_cons, List.mem_singleton, List.not_mem_nil, or_false] at hs
    rcases hs with hs | hs | hs <;> subst hs
    · have hg : get_comp_type ([] ++ d :: ds') = (true, d :: ds', comparison_type.COMP_EQ) := by
        simp only [List.nil_append]
        unfold get_comp_type
        split
        · rename_i heq
          simp only [List.cons.injEq] at heq
          exact absurd heq.1 hp
        · rename_i heq
          simp only [List.cons.injEq] at heq
          exact absurd heq.1 hm
        · rfl
      unfold get_num
      simp only [hg, hx]
      rfl
    · have hg : get_comp_type (['+'] ++ d :: ds') = (true, d :: ds', comparison_type.COMP_GT) :=
        rfl
      unfold get_num
      simp only [hg, hx]
      rfl
    · have hg : get_comp_type (['-'] ++ d :: ds') = (true, d :: ds', comparison_type.COMP_LT) :=
        rfl
      unfold get_num
      simp only [hg, hx]
      rfl

theorem size_suffix_of_form (body suf : CStr) (hs : suf ∈ size_suffixes)
    (d : Char) (hlast : body.getLast? = some d) (hd : d.isDigit = true) :
    ∃ c, (body ++ suf).getLast? = some c ∧
      size_suffix (body ++ suf) c = some (spec_blocksize suf, body) := by
  obtain ⟨_, _, _, h1, h2, h3, h4, h5, h6⟩ := isDigit_facts d hd
  simp only [size_suffixes, List.mem_cons, List.mem_singleton, List.not_mem_nil,
    or_false] at hs
  rcases hs with hs | hs | hs | hs | hs | hs | hs <;> subst hs
  · refine ⟨d, by rw [List.append_nil]; exact hlast, ?_⟩
    rw [List.append_nil]
    unfold size_suffix
    rw [if_neg h1, if_neg h2, if_neg h3, if_neg h4, if_neg h5, if_neg h6, if_pos hd]
    rfl
  all_goals
    refine ⟨_, List.getLast?_concat _, ?_⟩
    unfold size_suffix
    simp [spec_blocksize]

theorem parse_size_present (o : options) (l : List CStr) (arg_ptr : Nat) (arg : CStr)
    (h : l[arg_ptr]? = some arg) :
    parse_size o (some l) arg_ptr =
      match arg.getLast? with
      | none => Res.fatal Fatal.size_null_argument
      | some suffix =>
        match size_suffix arg suffix with
        | none => Res.fatal Fatal.size_invalid_type
        | some (blksize, arg1) =>
          match get_num (some arg1) with
          | none => Res.fatal Fatal.size_invalid_argument
          | some (num, c_type) =>
            Res.ret (true, ⟨arg_ptr + 1, o,
              some { insert_primary PRED_FUNC.pred_size with
                      args := pred_args.size c_type blksize num,
                      need_stat := true, need_type := false,
                      est_success_rate :=
                        match c_type with
                        | comparison_type.COMP_GT =>
                          if (num * blksize) % (UINTMAX_MAX + 1) > 20480 then 100000000
                          else 900000000
                        | comparison_type.COMP_LT =>
                          if (num * blksize) % (UINTMAX_MAX + 1) > 20480 then 900000000
                          else 100000000
                        | comparison_type.COMP_EQ => 10000000 }⟩) := by
  simp only [parse_size, h]

/-- C6: for every argument sign ++ digits ++ suffix (sign none, "+" or "-";
digits a non-empty decimal number that fits uintmax_t; suffix none or one of
b, c, k, M, G, w), parse_size returns true, advances *arg_ptr by one and
creates a predicate with the decimal value as size, the comparison kind of the
sign, the block size of the suffix, need_stat true and need_type false. -/
theorem parse_size_of_form (o : options) (l : List CStr) (arg_ptr : Nat)
    (sign ds suf : CStr) (hsign : sign ∈ signs) (hds : is_uintmax_digits ds)
    (hsuf : suf ∈ size_suffixes) (harg : l[arg_ptr]? = some (sign ++ ds ++ suf)) :
    ∃ p, parse_size o (some l) arg_ptr = Res.ret (true, ⟨arg_ptr + 1, o, some p⟩) ∧
      p.args = pred_args.size (spec_kind sign) (spec_blocksize suf) (decimal_value ds) ∧
      p.need_stat = true ∧ p.need_type = false := by
  have hlast : ∃ d, (sign ++ ds).getLast? = some d ∧ d.isDigit = true := by
    obtain ⟨hne, hdig, _⟩ := hds
    refine ⟨ds.getLast hne, ?_, hdig _ (List.getLast_mem hne)⟩
    rw [List.getLast?_append_of_ne_nil _ hne, List.getLast?_eq_getLast _ hne]
  obtain ⟨d, hd1, hd2⟩ := hlast
  obtain ⟨c, hc1, hc2⟩ := size_suffix_of_form (sign ++ ds) suf hsuf d hd1 hd2
  rw [parse_size_present o l arg_ptr _ harg]
  simp only [hc1, hc2, get_num_digits sign ds hsign hds]
  exact ⟨_, rfl, rfl, rfl, rfl⟩

/-- Witness for C6: "+1k" gives (COMP_GT, 1024, 1) and "-10k" gives
(COMP_LT, 1024, 10). -/
theorem parse_size_of_form_witness :
    (∃ p, parse_size sample_options (some [['+', '1', 'k']]) 0
        = Res.ret (true, ⟨0 + 1, sample_options, some p⟩) ∧
      p.args = pred_args.size (spec_kind ['+']) (spec_blocksize ['k']) (decimal_value ['1']) ∧
      p.need_stat = true ∧ p.need_type = false) ∧
    pred_args.size (spec_kind ['+']) (spec_blocksize ['k']) (decimal_value ['1'])
      = pred_args.size comparison_type.COMP_GT 1024 1 ∧
    (∃ p, parse_size sample_options (some [['-', '1', '0', 'k']]) 0
        = Res.ret (true, ⟨1, sample_options, some p⟩) ∧
      p.args = pred_args.size comparison_type.COMP_LT 1024 10) :=
  ⟨parse_size_of_form sample_options [['+', '1', 'k']] 0 ['+'] ['1'] ['k']
      (by decide) (by decide) (by decide) (by decide),
    by decide, ⟨_, rfl, rfl⟩⟩

theorem file_type_cell_lt (t : file_type) : t.cell < FTYPE_COUNT := by
  cases t <;> decide

theorem file_type_cell_inj (t1 t2 : file_type) (h : t1.cell = t2.cell) : t1 = t2 := by
  cases t1 <;> cases t2 <;> first | rfl | (exfalso; revert h; decide)

theorem file_type_letter_inj (t1 t2 : file_type) (h : t1.letter = t2.letter) : t1 = t2 := by
  cases t1 <;> cases t2 <;> first | rfl | (exfalso; revert h; decide)

theorem type_switch_of_letter (c : Char) (h : c ∈ type_letters) :
    ∃ t r, type_switch full_platform c = Res.ret (t, r) ∧ t.letter = c := by
  simp only [type_letters, List.mem_cons, List.mem_singleton, List.not_mem_nil,
    or_false] at h
  rcases h with h | h | h | h | h | h | h | h <;> subst h <;> exact ⟨_, _, rfl, rfl⟩

theorem type_switch_ret (c : Char) (t : file_type) (r : Nat)
    (h : type_switch full_platform c = Res.ret (t, r)) :
    c ∈ type_letters ∧ t.letter = c := by
  unfold type_switch at h
  split_ifs at h with h1 h2 h3 h4 h5 h6 h7 h8 h9 h10 h11 h12
  all_goals
    simp only [Res.ret.injEq, Prod.mk.injEq] at h
    obtain ⟨ht, _⟩ := h
    subst ht
    subst_vars
    exact ⟨by decide, rfl⟩

theorem getD_set_true (l : List Bool) (i j : Nat) (hi : i < l.length) :
    (l.set i true).getD j false = true ↔ (i = j ∨ l.getD j false = true) := by
  simp only [List.getD_eq_getElem?_getD, List.getElem?_set]
  by_cases hij : i = j
  · subst hij
    simp [hi]
  · simp [hij]

/-- The loop of insert_type accepts a list of distinct type letters separated
by single commas, none of whose cells is set yet, and sets exactly their cells. -/
theorem insert_type_loop_accepts :
    ∀ (letters : List Char) (types : List Bool) (rate : Nat),
      letters ≠ [] → (∀ c ∈ letters, c ∈ type_letters) → letters.Nodup →
      types.length = FTYPE_COUNT →
      (∀ t : file_type, t.letter ∈ letters → types.getD t.cell false = false) →
      ∃ cells r, insert_type_loop full_platform (letters.intersperse ',') types rate
          = Res.ret (cells, r) ∧ cells.length = FTYPE_COUNT ∧
        ∀ t : file_type, cells.getD t.cell false = true ↔
          (types.getD t.cell false = true ∨ t.letter ∈ letters) := by
  intro letters
  induction letters with
  | nil => intro _ _ h; exact absurd rfl h
  | cons c ls ih =>
    intro types rate _ hall hnd hlen hfree
    obtain ⟨tc, rc, hsw, hlet⟩ := type_switch_of_letter c (hall c (List.mem_cons_self _ _))
    have hdup : ¬ (types.getD tc.cell false = true) := by
      rw [hfree tc (by rw [hlet]; exact List.mem_cons_self _ _)]
      decide
    have hcell : tc.cell < types.length := by rw [hlen]; exact file_type_cell_lt tc
    have hset : ∀ t : file_type, (types.set tc.cell true).getD t.cell false = true ↔
        (tc = t ∨ types.getD t.cell false = true) := by
      intro t
      rw [getD_set_true types tc.cell t.cell hcell]
      constructor
      · rintro (h | h)
        · exact Or.inl (file_type_cell_inj _ _ h)
        · exact Or.inr h
      · rintro (h | h)
        · exact Or.inl (by rw [h])
        · exact Or.inr h
    cases ls with
    | nil =>
      refine ⟨types.set tc.cell true, rate + rc, ?_, by rw [List.length_set]; exact hlen, ?_⟩
      · simp only [List.intersperse_single, insert_type_loop, hsw]
        rw [if_neg hdup]
      · intro t
        rw [hset t]
        constructor
        · rintro (h | h)
          · right; rw [← h, hlet]; exact List.mem_cons_self _ _
          · left; exact h
        · rintro (h | h)
          · right; exact h
          · left
            simp only [List.mem_singleton] at h
            exact file_type_letter_inj _ _ (by rw [hlet, h])
    | cons c2 ls2 =>
      have hnd2 := List.nodup_cons.mp hnd
      have hfree2 : ∀ t : file_type, t.letter ∈ c2 :: ls2 →
          (types.set tc.cell true).getD t.cell false = false := by
        intro t ht
        cases hv : (types.set tc.cell true).getD t.cell false with
        | false => rfl
        | true =>
          exfalso
          rcases (hset t).mp hv with h | h
          · apply hnd2.1
            rw [← hlet, h]
            exact ht
          · rw [hfree t (List.mem_cons_of_mem _ ht)] at h
            cases h
      obtain ⟨cells, r, hrun, hclen, hcells⟩ :=
        ih (types.set tc.cell true) (rate + rc) (by simp)
          (fun x hx => hall x (List.mem_cons_of_mem _ hx)) hnd2.2
          (by rw [List.length_set]; exact hlen) hfree2
      refine ⟨cells, r, ?_, hclen, ?_⟩
      · rw [List.intersperse_cons₂, insert_type_loop]
        simp only [hsw]
        have hne : (c2 :: ls2).intersperse ',' ≠ [] := by cases ls2 <;> simp
        rw [if_neg hdup, if_neg (not_not.mpr rfl), if_neg hne]
        exact hrun
      · intro t
        rw [hcells t, hset t]
        constructor
        · rintro ((h | h) | h)
          · right; rw [← h, hlet]; exact List.mem_cons_self _ _
          · left; exact h
          · right; exact List.mem_cons_of_mem _ h
        · rintro (h | h)
          · left; right; exact h
          · rcases List.mem_cons.mp h with h | h
            · left; left
              exact file_type_letter_inj _ _ (by rw [hlet, h])
            · right; exact h

/-- Whatever the loop of insert_type accepts is a list of distinct type
letters separated by single commas, none of whose cells was set before. -/
theorem insert_type_loop_ret :
    ∀ (n : Nat) (arg : CStr) (types : List Bool) (rate : Nat) (cells : List Bool) (r : Nat),
      arg.length ≤ n → arg ≠ [] → types.length = FTYPE_COUNT →
      insert_type_loop full_platform arg types rate = Res.ret (cells, r) →
      ∃ letters, is_type_list arg letters ∧
        ∀ t : file_type, t.letter ∈ letters → types.getD t.cell false = false := by
  intro n
  induction n with
  | zero =>
    intro arg _ _ _ _ hlen hne
    exact absurd (List.length_eq_zero.mp (Nat.le_zero.mp hlen)) hne
  | succ n ih =>
    intro arg types rate cells r hlen _ htl h
    cases arg with
    | nil => exact absurd rfl ‹[] ≠ []›
    | cons c rest =>
      rw [insert_type_loop] at h
      cases hsw : type_switch full_platform c with
      | fatal e => rw [hsw] at h; cases h
      | ret tr =>
        obtain ⟨tc, rc⟩ := tr
        rw [hsw] at h
        simp only at h
        obtain ⟨hmem, hlet⟩ := type_switch_ret c tc rc hsw
        by_cases hdup : types.getD tc.cell false = true
        · rw [if_pos hdup] at h; cases h
        · rw [if_neg hdup] at h
          have hfalse : types.getD tc.cell false = false := by
            cases hv : types.getD tc.cell false with
            | false => rfl
            | true => exact absurd hv hdup
          cases rest with
          | nil =>
            refine ⟨[c], ⟨by simp, ?_, by simp, by simp⟩, ?_⟩
            · intro x hx
              simp only [List.mem_singleton] at hx
              rw [hx]; exact hmem
            · intro t ht
              simp only [List.mem_singleton] at ht
              have : t = tc := file_type_letter_inj _ _ (by rw [hlet, ht])
              rw [this]; exact hfalse
          | cons d rest2 =>
            simp only at h
            by_cases hd : d ≠ ','
            · rw [if_pos hd] at h; cases h
            · rw [if_neg hd] at h
              have hd' : d = ',' := not_not.mp hd
              by_cases hr : rest2 = []
              · rw [if_pos hr] at h; cases h
              · rw [if_neg hr] at h
                have hcell : tc.cell < types.length := by
                  rw [htl]; exact file_type_cell_lt tc
                obtain ⟨letters, ⟨hne, hall, hnd, heq⟩, hfree⟩ :=
                  ih rest2 (types.set tc.cell true) (rate + rc) cells r
                    (by simp only [List.length_cons] at hlen; omega) hr
                    (by rw [List.length_set]; exact htl) h
                have hnotin : c ∉ letters := by
                  intro hc
                  have := hfree tc (by rw [hlet]; exact hc)
                  have h2 := (getD_set_true types tc.cell tc.cell hcell).mpr (Or.inl rfl)
                  rw [this] at h2
                  cases h2
                refine ⟨c :: letters, ⟨by simp, ?_, List.nodup_cons.mpr ⟨hnotin, hnd⟩, ?_⟩, ?_⟩
                · intro x hx
                  rcases List.mem_cons.mp hx with hx | hx
                  · rw [hx]; exact hmem
                  · exact hall x hx
                · cases letters with
                  | nil => exact absurd rfl hne
                  | cons x xs => rw [List.intersperse_cons₂, ← heq, hd']
                · intro t ht
                  rcases List.mem_cons.mp ht with ht | ht
                  · have : t = tc := file_type_letter_inj _ _ (by rw [hlet, ht])
                    rw [this]; exact hfalse
                  · have h1 := hfree t ht
                    cases hv : types.getD t.cell false with
                    | false => rfl
                    | true =>
                      have h2 := (getD_set_true types tc.cell t.cell hcell).mpr (Or.inr hv)
                      rw [h1] at h2
                      cases h2

theorem insert_type_present (pl : platform) (o : options) (l : List CStr) (arg_ptr : Nat)
    (which_pred : PRED_FUNC) (arg : CStr) (harg : l[arg_ptr]? = some arg) :
    (arg = [] ∧ insert_type pl o (some l) arg_ptr which_pred = Res.fatal Fatal.type_no_letter) ∨
    (arg ≠ [] ∧ ∃ e, insert_type_loop pl arg (List.replicate FTYPE_COUNT false) 0 = Res.fatal e ∧
      insert_type pl o (some l) arg_ptr which_pred = Res.fatal e) ∨
    (arg ≠ [] ∧ ∃ types rate p,
      insert_type_loop pl arg (List.replicate FTYPE_COUNT false) 0 = Res.ret (types, rate) ∧
      insert_type pl o (some l) arg_ptr which_pred
        = Res.ret (true, ⟨arg_ptr + 1, o, some p⟩) ∧
      p.args = pred_args.types types ∧ p.est_success_rate = rate ∧
      p.need_stat = decide (which_pred = PRED_FUNC.pred_xtype) ∧
      p.need_type = !decide (which_pred = PRED_FUNC.pred_xtype)) := by
  have hrate : (if which_pred = PRED_FUNC.pred_xtype then
          ({ insert_primary_withpred which_pred with
            est_success_rate := 0, need_stat := true, need_type := false } : predicate)
        else
          { insert_primary_withpred which_pred with
            est_success_rate := 0, need_stat := false, need_type := true }).est_success_rate
        = 0 := by
    split <;> rfl
  by_cases hne : arg = []
  · left
    refine ⟨hne, ?_⟩
    simp only [insert_type, collect_arg, harg, Option.getD_some, hne, if_true]
  · right
    cases hloop : insert_type_loop pl arg (List.replicate FTYPE_COUNT false) 0 with
    | fatal e =>
      left
      refine ⟨hne, e, rfl, ?_⟩
      simp only [insert_type, collect_arg, harg, Option.getD_some, hne, if_false, hrate, hloop]
    | ret tr =>
      right
      obtain ⟨types, rate⟩ := tr
      refine ⟨hne, types, rate, ?_⟩
      by_cases hx : which_pred = PRED_FUNC.pred_xtype
      · refine ⟨{ insert_primary_withpred which_pred with
            args := pred_args.types types, est_success_rate := rate,
            need_stat := true, need_type := false }, rfl, ?_, rfl, rfl, ?_, ?_⟩
        · simp only [insert_type, collect_arg, harg, Option.getD_some, hne, if_false, hrate,
            hloop]
          rw [if_pos hx]
        · simp [hx]
        · simp [hx]
      · refine ⟨{ insert_primary_withpred which_pred with
            args := pred_args.types types, est_success_rate := rate,
            need_stat := false, need_type := true }, rfl, ?_, rfl, rfl, ?_, ?_⟩
        · simp only [insert_type, collect_arg, harg, Option.getD_some, hne, if_false, hrate,
            hloop]
          rw [if_neg hx]
        · simp [hx]
        · simp [hx]

/-- C9: on a platform where every listed file type exists, insert_type accepts
a present argument iff it is a non-empty list of single letters from b, c, d,
f, l, p, s, D separated by single commas with no letter repeated; any other
argument is a fatal error; and on acceptance the array args.types is true at
exactly the cells of the listed letters. -/
theorem insert_type_accepts_iff (o : options) (l : List CStr) (arg_ptr : Nat)
    (which_pred : PRED_FUNC) (arg : CStr) (harg : l[arg_ptr]? = some arg) :
    ((∃ st, insert_type full_platform o (some l) arg_ptr which_pred = Res.ret (true, st)) ↔
      ∃ letters, is_type_list arg letters) ∧
    ((¬ ∃ letters, is_type_list arg letters) →
      ∃ e, insert_type full_platform o (some l) arg_ptr which_pred = Res.fatal e) ∧
    (∀ letters, is_type_list arg letters →
      ∃ p cells, insert_type full_platform o (some l) arg_ptr which_pred
          = Res.ret (true, ⟨arg_ptr + 1, o, some p⟩) ∧
        p.args = pred_args.types cells ∧ cells.length = FTYPE_COUNT ∧
        ∀ t : file_type, cells.getD t.cell false = true ↔ t.letter ∈ letters) := by
  have hzero : ∀ i, (List.replicate FTYPE_COUNT false).getD i false = false := by
    intro i
    simp only [List.getD_eq_getElem?_getD, List.getElem?_replicate]
    split <;> rfl
  have hthree : ∀ letters, is_type_list arg letters →
      ∃ p cells, insert_type full_platform o (some l) arg_ptr which_pred
          = Res.ret (true, ⟨arg_ptr + 1, o, some p⟩) ∧
        p.args = pred_args.types cells ∧ cells.length = FTYPE_COUNT ∧
        ∀ t : file_type, cells.getD t.cell false = true ↔ t.letter ∈ letters := by
    rintro letters ⟨hne, hall, hnd, heq⟩
    obtain ⟨cells, r, hrun, hclen, hcells⟩ :=
      insert_type_loop_accepts letters (List.replicate FTYPE_COUNT false) 0 hne hall hnd
        (by simp) (fun t _ => hzero t.cell)
    rw [← heq] at hrun
    rcases insert_type_present full_platform o l arg_ptr which_pred arg harg with
      ⟨h0, _⟩ | ⟨_, e, hl, _⟩ | ⟨_, types, rate, p, hl, hr, hargs, _⟩
    · exfalso
      rw [h0] at heq
      cases letters with
      | nil => exact hne rfl
      | cons x xs => cases xs <;> simp at heq
    · rw [hrun] at hl; cases hl
    · rw [hrun] at hl
      simp only [Res.ret.injEq, Prod.mk.injEq] at hl
      obtain ⟨h1, _⟩ := hl
      subst h1
      refine ⟨p, cells, hr, hargs, hclen, ?_⟩
      intro t
      rw [hcells t, hzero]
      simp
  have hone : (∃ st, insert_type full_platform o (some l) arg_ptr which_pred
      = Res.ret (true, st)) → ∃ letters, is_type_list arg letters := by
    rintro ⟨st, hst⟩
    rcases insert_type_present full_platform o l arg_ptr which_pred arg harg with
      ⟨_, hr⟩ | ⟨_, e, _, hr⟩ | ⟨hne, types, rate, p, hl, _⟩
    · rw [hr] at hst; cases hst
    · rw [hr] at hst; cases hst
    · obtain ⟨letters, hlist, _⟩ :=
        insert_type_loop_ret arg.length arg _ _ _ _ (le_refl _) hne (by simp) hl
      exact ⟨letters, hlist⟩
  refine ⟨⟨hone, ?_⟩, ?_, hthree⟩
  · rintro ⟨letters, hlist⟩
    obtain ⟨p, cells, hr, _⟩ := hthree letters hlist
    exact ⟨_, hr⟩
  · intro hno
    rcases insert_type_present full_platform o l arg_ptr which_pred arg harg with
      ⟨_, hr⟩ | ⟨_, e, _, hr⟩ | ⟨_, types, rate, p, _, hr, _⟩
    · exact ⟨_, hr⟩
    · exact ⟨_, hr⟩
    · exact absurd (hone ⟨_, hr⟩) hno

/-- Witness for C9: -type f,d is accepted and sets the cells of f and d; the
empty string, an unknown letter, two letters without a comma, a trailing comma
and a repeated letter are each fatal. -/
theorem insert_type_accepts_iff_witness :
    (∃ p cells, insert_type full_platform sample_options (some [['f', ',', 'd']]) 0
          PRED_FUNC.pred_type = Res.ret (true, ⟨0 + 1, sample_options, some p⟩) ∧
        p.args = pred_args.types cells ∧ cells.length = FTYPE_COUNT ∧
        ∀ t : file_type, cells.getD t.cell false = true ↔ t.letter ∈ ['f', 'd']) ∧
    insert_type full_platform sample_options (some [[]]) 0 PRED_FUNC.pred_type
      = Res.fatal Fatal.type_no_letter ∧
    insert_type full_platform sample_options (some [['x']]) 0 PRED_FUNC.pred_type
      = Res.fatal Fatal.type_unknown ∧
    insert_type full_platform sample_options (some [['f', 'd']]) 0 PRED_FUNC.pred_type
      = Res.fatal Fatal.type_missing_comma ∧
    insert_type full_platform sample_options (some [['f', ',']]) 0 PRED_FUNC.pred_xtype
      = Res.fatal Fatal.type_trailing_comma ∧
    insert_type full_platform sample_options (some [['f', ',', 'f']]) 0 PRED_FUNC.pred_xtype
      = Res.fatal Fatal.type_duplicate :=
  ⟨(insert_type_accepts_iff sample_options [['f', ',', 'd']] 0 PRED_FUNC.pred_type
      ['f', ',', 'd'] (by decide)).2.2 ['f', 'd']
      ⟨by decide, by decide, by decide, by decide⟩,
    by decide, by decide, by decide, by decide, by decide⟩


/-! ## What the parsers declare about stat and type needs -/

theorem declares_insert_path_check (env : parse_env) (o : options)
    (argv : Option (List CStr)) (i : Nat) (pred : PRED_FUNC) :
    declares (insert_path_check env o argv i pred) false false := by
  intro st h
  unfold insert_path_check at h
  simp only at h
  split at h
  · cases h
  · split at h
    · simp only [Res.ret.injEq, Prod.mk.injEq, true_and] at h
      subst h
      exact ⟨_, rfl, rfl, rfl⟩
    · simp only [Res.ret.injEq, Prod.mk.injEq] at h
      exact absurd h.1 (by decide)

theorem declares_insert_regex (env : parse_env) (o : options)
    (argv : Option (List CStr)) (i : Nat) (ro : Nat) :
    declares (insert_regex env o argv i ro) false false := by
  intro st h
  unfold insert_regex at h
  split at h
  · split at h
    · cases h
    · simp only [Res.ret.injEq, Prod.mk.injEq, true_and] at h
      subst h
      exact ⟨_, rfl, rfl, rfl⟩
  · simp only [Res.ret.injEq, Prod.mk.injEq] at h
    exact absurd h.1 (by decide)

theorem declares_insert_exec_ok (env : exec_env) (o : options) (func : PRED_FUNC)
    (argv : Option (List CStr)) (i : Nat) :
    declares (insert_exec_ok env o func argv i) false false := by
  intro st h
  cases argv with
  | none =>
    simp only [insert_exec_ok, Res.ret.injEq, Prod.mk.injEq] at h
    exact absurd h.1 (by decide)
  | some l =>
    rcases insert_exec_ok_cases env o func l i with
      ⟨_, hr⟩ | ⟨_, _, e, _, hr⟩ | ⟨_, _, ⟨e, _, hr⟩ | ⟨s, _, hcase⟩⟩
    · rw [hr] at h
      simp only [Res.ret.injEq, Prod.mk.injEq] at h
      exact absurd h.1 (by decide)
    · rw [hr] at h; cases h
    · rw [hr] at h; cases h
    · rcases hcase with ⟨_, o2, hr⟩ | ⟨_, _, hr⟩ | ⟨_, _, _, hr⟩ | ⟨_, _, _, _, hr⟩ |
        ⟨_, _, _, _, o2, p, ev, hr, _, _, hs, ht, _⟩
      · rw [hr] at h
        simp only [Res.ret.injEq, Prod.mk.injEq] at h
        exact absurd h.1 (by decide)
      · rw [hr] at h; cases h
      · rw [hr] at h; cases h
      · rw [hr] at h; cases h
      · rw [hr] at h
        simp only [Res.ret.injEq, Prod.mk.injEq, true_and] at h
        subst h
        exact ⟨p, rfl, hs, ht⟩

theorem declares_insert_type (pl : platform) (o : options) (argv : Option (List CStr))
    (i : Nat) (which_pred : PRED_FUNC) :
    declares (insert_type pl o argv i which_pred)
      (decide (which_pred = PRED_FUNC.pred_xtype))
      (!decide (which_pred = PRED_FUNC.pred_xtype)) := by
  intro st h
  have hmissing : ∀ a : Option (List CStr), collect_arg a i = (false, i, none) →
      insert_type pl o a i which_pred = Res.ret (false, ⟨i, o, none⟩) := by
    intro a ha
    simp only [insert_type, ha]
  cases argv with
  | none =>
    rw [hmissing none rfl] at h
    simp only [Res.ret.injEq, Prod.mk.injEq] at h
    exact absurd h.1 (by decide)
  | some l =>
    cases ha : l[i]? with
    | none =>
      rw [hmissing (some l) (by simp only [collect_arg, ha])] at h
      simp only [Res.ret.injEq, Prod.mk.injEq] at h
      exact absurd h.1 (by decide)
    | some arg =>
      rcases insert_type_present pl o l i which_pred arg ha with
        ⟨_, hr⟩ | ⟨_, e, _, hr⟩ | ⟨_, types, rate, p, _, hr, _, _, hs, ht⟩
      · rw [hr] at h; cases h
      · rw [hr] at h; cases h
      · rw [hr] at h
        simp only [Res.ret.injEq, Prod.mk.injEq, true_and] at h
        subst h
        exact ⟨p, rfl, hs, ht⟩

/-- C10: the parsers declare the stat and type needs statically: -type needs
the type but no stat; -xtype, -size and -samefile need a stat but not the type;
-name, -iname, -path, -wholename, -ipath, -iwholename, -regex, -iregex, -true,
-false, -print and the -exec family need neither. -/
theorem parsers_declare_needs :
    (∀ pl o argv i, declares (parse_type pl o argv i) false true) ∧
    (∀ pl o argv i, declares (parse_xtype pl o argv i) true false) ∧
    (∀ o argv i, declares (parse_size o argv i) true false) ∧
    (∀ env o argv i, declares (parse_samefile env o argv i) true false) ∧
    (∀ env o argv i, declares (parse_name env o argv i) false false) ∧
    (∀ env o argv i, declares (parse_iname env o argv i) false false) ∧
    (∀ env o argv i, declares (parse_path env o argv i) false false) ∧
    (∀ env o argv i, declares (parse_wholename env o argv i) false false) ∧
    (∀ env o argv i, declares (parse_ipath env o argv i) false false) ∧
    (∀ env o argv i, declares (parse_iwholename env o argv i) false false) ∧
    (∀ env o argv i, declares (parse_regex env o argv i) false false) ∧
    (∀ env o argv i, declares (parse_iregex env o argv i) false false) ∧
    (∀ o i, declares (parse_true o i) false false) ∧
    (∀ o i, declares (parse_false o i) false false) ∧
    (∀ o i, declares (parse_print o i) false false) ∧
    (∀ env o argv i, declares (parse_exec env o argv i) false false) ∧
    (∀ env o argv i, declares (parse_execdir env o argv i) false false) ∧
    (∀ env o argv i, declares (parse_ok env o argv i) false false) ∧
    (∀ env o argv i, declares (parse_okdir env o argv i) false false) := by
  refine ⟨?_, ?_, ?_, ?_, ?_, ?_, ?_, ?_, ?_, ?_, ?_, ?_, ?_, ?_, ?_, ?_, ?_, ?_, ?_⟩
  · intro pl o argv i
    exact declares_insert_type pl o argv i PRED_FUNC.pred_type
  · intro pl o argv i
    exact declares_insert_type pl o argv i PRED_FUNC.pred_xtype
  · intro o argv i st h
    cases argv with
    | none =>
      simp only [parse_size, Res.ret.injEq, Prod.mk.injEq] at h
      exact absurd h.1 (by decide)
    | some l =>
      cases ha : l[i]? with
      | none =>
        simp only [parse_size, ha, Res.ret.injEq, Prod.mk.injEq] at h
        exact absurd h.1 (by decide)
      | some arg =>
        rw [parse_size_present o l i arg ha] at h
        split at h
        · cases h
        · split at h
          · cases h
          · split at h
            · cases h
            · simp only [Res.ret.injEq, Prod.mk.injEq, true_and] at h
              subst h
              exact ⟨_, rfl, rfl, rfl⟩
  · intro env o argv i st h
    unfold parse_samefile at h
    split at h
    · split at h
      · cases h
      · split at h
        · cases h
        · simp only [Res.ret.injEq, Prod.mk.injEq, true_and] at h
          subst h
          exact ⟨_, rfl, rfl, rfl⟩
    · simp only [Res.ret.injEq, Prod.mk.injEq] at h
      exact absurd h.1 (by decide)
  · intro env o argv i st h
    unfold parse_name at h
    split at h
    · cases h
    · split at h
      · simp only [Res.ret.injEq, Prod.mk.injEq, true_and] at h
        subst h
        exact ⟨_, rfl, rfl, rfl⟩
      · simp only [Res.ret.injEq, Prod.mk.injEq] at h
        exact absurd h.1 (by decide)
  · intro env o argv i st h
    unfold parse_iname at h
    split at h
    · cases h
    · split at h
      · simp only [Res.ret.injEq, Prod.mk.injEq, true_and] at h
        subst h
        exact ⟨_, rfl, rfl, rfl⟩
      · simp only [Res.ret.injEq, Prod.mk.injEq] at h
        exact absurd h.1 (by decide)
  · intro env o argv i
    exact declares_insert_path_check env o argv i _
  · intro env o argv i
    exact declares_insert_path_check env o argv i _
  · intro env o argv i
    exact declares_insert_path_check env o argv i _
  · intro env o argv i
    exact declares_insert_path_check env o argv i _
  · intro env o argv i
    exact declares_insert_regex env o argv i _
  · intro env o argv i
    exact declares_insert_regex env o argv i _
  · intro o i st h
    simp only [parse_true, Res.ret.injEq, Prod.mk.injEq, true_and] at h
    subst h
    exact ⟨_, rfl, rfl, rfl⟩
  · intro o i st h
    simp only [parse_false, insert_false, Res.ret.injEq, Prod.mk.injEq, true_and] at h
    subst h
    exact ⟨_, rfl, rfl, rfl⟩
  · intro o i st h
    simp only [parse_print, Res.ret.injEq, Prod.mk.injEq, true_and] at h
    subst h
    exact ⟨_, rfl, rfl, rfl⟩
  · intro env o argv i
    exact declares_insert_exec_ok env o _ argv i
  · intro env o argv i
    exact declares_insert_exec_ok env o _ argv i
  · intro env o argv i
    exact declares_insert_exec_ok env o _ argv i
  · intro env o argv i
    exact declares_insert_exec_ok env o _ argv i

/-- Witness for C10: every one of these parsers returns true on a suitable
argument list, with a predicate that carries the stated needs. -/
theorem parsers_declare_needs_witness :
    (∃ p, (⟨1, sample_options, some (sample_plus_pred)⟩ : parse_state).pred = some p ∧
      p.need_stat = false ∧ p.need_type = false) ∧
    (∃ st p, parse_type full_platform sample_options (some [['f']]) 0 = Res.ret (true, st) ∧
      st.pred = some p ∧ p.need_stat = false ∧ p.need_type = true) ∧
    (∃ st p, parse_xtype full_platform sample_options (some [['f']]) 0 = Res.ret (true, st) ∧
      st.pred = some p ∧ p.need_stat = true ∧ p.need_type = false) ∧
    (∃ st p, parse_size sample_options (some [['1', 'k']]) 0 = Res.ret (true, st) ∧
      st.pred = some p ∧ p.need_stat = true ∧ p.need_type = false) ∧
    (∃ st p, parse_samefile sample_parse_env sample_options (some [echo]) 0
        = Res.ret (true, st) ∧
      st.pred = some p ∧ p.need_stat = true ∧ p.need_type = false) ∧
    (∃ st p, parse_name sample_parse_env sample_options (some [echo]) 0
        = Res.ret (true, st) ∧
      st.pred = some p ∧ p.need_stat = false ∧ p.need_type = false) ∧
    (∃ st p, parse_iname sample_parse_env sample_options (some [echo]) 0
        = Res.ret (true, st) ∧
      st.pred = some p ∧ p.need_stat = false ∧ p.need_type = false) ∧
    (∃ st p, parse_path sample_parse_env sample_options (some [echo]) 0
        = Res.ret (true, st) ∧
      st.pred = some p ∧ p.need_stat = false ∧ p.need_type = false) ∧
    (∃ st p, parse_wholename sample_parse_env sample_options (some [echo]) 0
        = Res.ret (true, st) ∧
      st.pred = some p ∧ p.need_stat = false ∧ p.need_type = false) ∧
    (∃ st p, parse_ipath sample_parse_env sample_options (some [echo]) 0
        = Res.ret (true, st) ∧
      st.pred = some p ∧ p.need_stat = false ∧ p.need_type = false) ∧
    (∃ st p, parse_iwholename sample_parse_env sample_options (some [echo]) 0
        = Res.ret (true, st) ∧
      st.pred = some p ∧ p.need_stat = false ∧ p.need_type = false) ∧
    (∃ st p, parse_regex sample_parse_env sample_options (some [echo]) 0
        = Res.ret (true, st) ∧
      st.pred = some p ∧ p.need_stat = false ∧ p.need_type = false) ∧
    (∃ st p, parse_iregex sample_parse_env sample_options (some [echo]) 0
        = Res.ret (true, st) ∧
      st.pred = some p ∧ p.need_stat = false ∧ p.need_type = false) ∧
    (∃ st p, parse_true sample_options 0 = Res.ret (true, st) ∧
      st.pred = some p ∧ p.need_stat = false ∧ p.need_type = false) ∧
    (∃ st p, parse_false sample_options 0 = Res.ret (true, st) ∧
      st.pred = some p ∧ p.need_stat = false ∧ p.need_type = false) ∧
    (∃ st p, parse_print sample_options 0 = Res.ret (true, st) ∧
      st.pred = some p ∧ p.need_stat = false ∧ p.need_type = false) ∧
    (∃ st p, parse_exec sample_env sample_options (some [echo, semicolon]) 0
        = Res.ret (true, st) ∧
      st.pred = some p ∧ p.need_stat = false ∧ p.need_type = false) ∧
    (∃ st p, parse_execdir sample_env sample_options (some [echo, semicolon]) 0
        = Res.ret (true, st) ∧
      st.pred = some p ∧ p.need_stat = false ∧ p.need_type = false) ∧
    (∃ st p, parse_ok sample_env sample_options (some [echo, semicolon]) 0
        = Res.ret (true, st) ∧
      st.pred = some p ∧ p.need_stat = false ∧ p.need_type = false) ∧
    (∃ st p, parse_okdir sample_env sample_options (some [echo, semicolon]) 0
        = Res.ret (true, st) ∧
      st.pred = some p ∧ p.need_stat = false ∧ p.need_type = false) :=
  ⟨parsers_declare_needs.2.2.2.2.2.2.2.2.2.2.2.2.2.2.2.1 sample_env sample_options
      (some [echo, braces, plus]) 0 ⟨3, sample_options, some sample_plus_pred⟩ (by decide),
    ⟨_, _, rfl, rfl, rfl, rfl⟩, ⟨_, _, rfl, rfl, rfl, rfl⟩, ⟨_, _, rfl, rfl, rfl, rfl⟩,
    ⟨_, _, rfl, rfl, rfl, rfl⟩, ⟨_, _, rfl, rfl, rfl, rfl⟩, ⟨_, _, rfl, rfl, rfl, rfl⟩,
    ⟨_, _, rfl, rfl, rfl, rfl⟩, ⟨_, _, rfl, rfl, rfl, rfl⟩, ⟨_, _, rfl, rfl, rfl, rfl⟩,
    ⟨_, _, rfl, rfl, rfl, rfl⟩, ⟨_, _, rfl, rfl, rfl, rfl⟩, ⟨_, _, rfl, rfl, rfl, rfl⟩,
    ⟨_, _, rfl, rfl, rfl, rfl⟩, ⟨_, _, rfl, rfl, rfl, rfl⟩, ⟨_, _, rfl, rfl, rfl, rfl⟩,
    ⟨_, _, rfl, rfl, rfl, rfl⟩, ⟨_, _, rfl, rfl, rfl, rfl⟩, ⟨_, _, rfl, rfl, rfl, rfl⟩,
    ⟨_, _, rfl, rfl, rfl, rfl⟩⟩

/-! ## Properties of insert_depthspec -/

theorem digit_isDigit : ∀ c ∈ "0123456789".toList, c.isDigit = true := by decide

theorem strspn_spec (s accept : CStr) :
    (strspn s accept > 0 ∧ s[strspn s accept]? = none) ↔ (s ≠ [] ∧ ∀ c ∈ s, c ∈ accept) := by
  unfold strspn
  have hle := (List.takeWhile_prefix (fun c => accept.contains c) (l := s)).length_le
  constructor
  · rintro ⟨hpos, hnone⟩
    have hlen : s.length ≤ (s.takeWhile (fun c => accept.contains c)).length :=
      List.getElem?_eq_none_iff.mp hnone
    have heq : s.takeWhile (fun c => accept.contains c) = s := by
      have hpre := List.takeWhile_prefix (fun c => accept.contains c) (l := s)
      exact hpre.eq_of_length (le_antisymm hle hlen)
    refine ⟨?_, ?_⟩
    · intro hs; subst hs; simp at hpos
    · intro c hc
      have := List.takeWhile_eq_self_iff.mp heq c hc
      simpa using this
  · rintro ⟨hne, hall⟩
    have heq : s.takeWhile (fun c => accept.contains c) = s :=
      List.takeWhile_eq_self_iff.mpr (fun c hc => by simpa using hall c hc)
    rw [heq]
    exact ⟨List.length_pos.mpr hne, List.getElem?_eq_none_iff.mpr (le_refl _)⟩

theorem safe_atoi_digits (s : CStr) (hne : s ≠ []) (hdig : ∀ c ∈ s, c.isDigit = true) :
    safe_atoi s = if (decimal_value s : Int) ≤ INT_MAX then Res.ret (decimal_value s : Int)
      else Res.fatal Fatal.integer_out_of_range := by
  cases s with
  | nil => exact absurd rfl hne
  | cons d ds' =>
    obtain ⟨hsp, hm, hp, _⟩ := isDigit_facts d (hdig d (List.mem_cons_self _ _))
    have htw : List.takeWhile Char.isDigit (d :: ds') = d :: ds' :=
      List.takeWhile_eq_self_iff.mpr hdig
    have hdw : List.dropWhile Char.isDigit (d :: ds') = [] :=
      List.dropWhile_eq_nil_iff.mpr hdig
    have hq : List.dropWhile isspace (d :: ds') = d :: ds' := by
      rw [List.dropWhile_cons_of_neg]; rw [hsp]; simp
    have hbm : begins_with_minus (d :: ds') = false := by
      unfold begins_with_minus
      split
      · rename_i heq
        simp only [List.cons.injEq] at heq
        exact absurd heq.1 hm
      · rfl
    have hsk : skip_plus (d :: ds') = d :: ds' := by
      unfold skip_plus
      split
      · rename_i heq
        simp only [List.cons.injEq] at heq
        exact absurd heq.1 hp
      · rfl
    unfold safe_atoi
    simp only [hq, hbm, hsk, htw, hdw, Bool.false_eq_true, if_false]
    have hv : (0 : Int) ≤ (decimal_value (d :: ds') : Int) := Int.ofNat_nonneg _
    generalize (decimal_value (d :: ds') : Int) = v at hv
    simp only [INT_MAX, INT_MIN, LONG_MAX]
    by_cases h : v ≤ 2147483647
    · rw [min_eq_left (by omega)]
      rw [if_pos h, if_neg (by omega), if_neg (by simp), if_neg (by simp)]
    · rw [if_neg h]
      rcases le_total v 9223372036854775807 with h1 | h1
      · rw [min_eq_left h1, if_pos (by omega)]
      · rw [min_eq_right h1, if_pos (by omega)]

theorem insert_depthspec_present (set_limit : options → Int → options) (o : options)
    (l : List CStr) (i : Nat) (s : CStr) (h : l[i]? = some s) :
    insert_depthspec set_limit o (some l) i =
      if is_depth_argument s then
        Res.ret (true, ⟨i + 1, set_limit o (decimal_value s : Int), some noop_predicate⟩)
      else if s ≠ [] ∧ (∀ c ∈ s, c ∈ "0123456789".toList) then
        Res.fatal Fatal.integer_out_of_range
      else Res.fatal Fatal.depth_expected_integer := by
  unfold insert_depthspec collect_arg
  simp only [h]
  by_cases hd : s ≠ [] ∧ ∀ c ∈ s, c ∈ "0123456789".toList
  · rw [if_pos ((strspn_spec s _).mpr hd)]
    rw [safe_atoi_digits s hd.1 (fun c hc => digit_isDigit c (hd.2 c hc))]
    by_cases hfit : (decimal_value s : Int) ≤ INT_MAX
    · rw [if_pos (show is_depth_argument s from ⟨hd.1, hd.2, hfit⟩)]
      simp only [if_pos hfit]
      rw [if_pos (Int.ofNat_nonneg _)]
      rfl
    · rw [if_neg (show ¬ is_depth_argument s from fun hh => hfit hh.2.2)]
      simp only [if_neg hfit]
      rw [if_pos hd]
  · rw [if_neg (fun hh => hd ((strspn_spec s _).mp hh))]
    rw [if_neg (show ¬ is_depth_argument s from fun hh => hd ⟨hh.1, hh.2.1⟩), if_neg hd]

/-- C11: insert_depthspec accepts a present argument exactly when it is a
non-empty string of the digits 0-9 whose value fits a non-negative int; it
then stores that value in the limit, consumes the argument and adds only the
no-op always-true predicate.  Every other present argument ends the program
with a fatal error, and a missing argument makes it return false with nothing
changed.  For -maxdepth and -mindepth "0" is accepted and stores 0, while "",
"+1", "-1", "1 " and a value beyond the int range are fatal. -/
theorem insert_depthspec_accepts_iff (set_limit : options → Int → options) (o : options)
    (l : List CStr) (i : Nat) :
    (∀ s, l[i]? = some s →
      ((∃ st, insert_depthspec set_limit o (some l) i = Res.ret (true, st)) ↔
        is_depth_argument s) ∧
      (is_depth_argument s → insert_depthspec set_limit o (some l) i =
        Res.ret (true, ⟨i + 1, set_limit o (decimal_value s : Int), some noop_predicate⟩)) ∧
      (¬ is_depth_argument s → ∃ e, insert_depthspec set_limit o (some l) i = Res.fatal e)) ∧
    (l[i]? = none → insert_depthspec set_limit o (some l) i = Res.ret (false, ⟨i, o, none⟩)) ∧
    insert_depthspec set_limit o none i = Res.ret (false, ⟨i, o, none⟩) ∧
    noop_predicate.pred_func = PRED_FUNC.pred_true ∧
    parse_maxdepth {} (some ["-maxdepth".toList, "0".toList]) 1 =
      Res.ret (true, ⟨2, { maxdepth := 0 }, some noop_predicate⟩) ∧
    parse_mindepth {} (some ["-mindepth".toList, "0".toList]) 1 =
      Res.ret (true, ⟨2, { mindepth := 0 }, some noop_predicate⟩) ∧
    parse_maxdepth {} (some ["-maxdepth".toList, "2147483647".toList]) 1 =
      Res.ret (true, ⟨2, { maxdepth := 2147483647 }, some noop_predicate⟩) ∧
    parse_maxdepth {} (some ["-maxdepth".toList, "2147483648".toList]) 1 =
      Res.fatal Fatal.integer_out_of_range ∧
    parse_maxdepth {} (some ["-maxdepth".toList, "".toList]) 1 =
      Res.fatal Fatal.depth_expected_integer ∧
    parse_maxdepth {} (some ["-maxdepth".toList, "+1".toList]) 1 =
      Res.fatal Fatal.depth_expected_integer ∧
    parse_maxdepth {} (some ["-maxdepth".toList, "-1".toList]) 1 =
      Res.fatal Fatal.depth_expected_integer ∧
    parse_maxdepth {} (some ["-maxdepth".toList, "1 ".toList]) 1 =
      Res.fatal Fatal.depth_expected_integer ∧
    parse_maxdepth {} (some ["-maxdepth".toList]) 1 = Res.ret (false, ⟨1, {}, none⟩) := by
  refine ⟨?_, ?_, ?_, rfl, by decide, by decide, by decide, by decide, by decide, by decide,
    by decide, by decide, by decide⟩
  · intro s h
    have hp := insert_depthspec_present set_limit o l i s h
    refine ⟨?_, ?_, ?_⟩
    · constructor
      · rintro ⟨st, hst⟩
        by_contra hn
        rw [hp, if_neg hn] at hst
        split at hst <;> cases hst
      · intro hs
        rw [hp, if_pos hs]
        exact ⟨_, rfl⟩
    · intro hs
      rw [hp, if_pos hs]
    · intro hn
      rw [hp, if_neg hn]
      split
      · exact ⟨_, rfl⟩
      · exact ⟨_, rfl⟩
  · intro h
    unfold insert_depthspec collect_arg
    simp only [h]
  · rfl

/-! ## Properties of consider_visiting -/

theorem evaluations_append (a b : List event) :
    evaluations (a ++ b) = evaluations a ++ evaluations b := by
  unfold evaluations; exact List.filterMap_append _ _ _

theorem skips_append (a b : List event) : skips (a ++ b) = skips a ++ skips b := by
  unfold skips; exact List.filterMap_append _ _ _

theorem diagnostics_append (a b : List event) :
    diagnostics (a ++ b) = diagnostics a ++ diagnostics b := by
  unfold diagnostics; exact List.filterMap_append _ _ _

theorem nonfatal_target_file_error_quiet (errno_value : Nat) (name : CStr) (st : state) :
    evaluations (nonfatal_target_file_error errno_value name st).2 = [] ∧
    skips (nonfatal_target_file_error errno_value name st).2 = [] := by
  unfold nonfatal_target_file_error
  split <;> exact ⟨rfl, rfl⟩

theorem issue_loop_warning_quiet (ent : FTSENT) :
    evaluations (issue_loop_warning ent) = [] ∧ skips (issue_loop_warning ent) = [] := by
  unfold issue_loop_warning
  split <;> exact ⟨rfl, rfl⟩

theorem consider_visiting_errors_quiet (env : find_env) (o : options) (st : state)
    (ent : FTSENT) :
    evaluations (consider_visiting_errors env o st ent).2.2 = [] ∧
    skips (consider_visiting_errors env o st ent).2.2 = [] := by
  have hn := nonfatal_target_file_error_quiet
  have hl := issue_loop_warning_quiet ent
  unfold consider_visiting_errors
  repeat' split
  all_goals first
    | exact ⟨rfl, rfl⟩
    | exact hn _ _ _
    | exact hl

theorem consider_visiting_usual_quiet (st : state) (ent : FTSENT) :
    evaluations (consider_visiting_usual st ent).2.2 = [] ∧
    skips (consider_visiting_usual st ent).2.2 = [] := by
  unfold consider_visiting_usual
  repeat' split
  all_goals exact ⟨rfl, rfl⟩

theorem consider_visiting_digest_quiet (env : find_env) (st : state) (ent : FTSENT)
    (mode : Nat) :
    evaluations (consider_visiting_digest env st ent mode).2.2 = [] ∧
    skips (consider_visiting_digest env st ent mode).2.2 = [] := by
  have hn := nonfatal_target_file_error_quiet
  unfold consider_visiting_digest
  split
  · exact ⟨rfl, rfl⟩
  · exact hn _ _ _
  · simp only []
    split <;> exact ⟨rfl, rfl⟩

theorem consider_visiting_early_quiet (env : find_env) (o : options) (st : state)
    (ent : FTSENT) :
    evaluations (consider_visiting_early env o st ent).2.2 = [] ∧
    skips (consider_visiting_early env o st ent).2.2 = [] := by
  have hn := nonfatal_target_file_error_quiet
  have he := consider_visiting_errors_quiet env o
  have hu := consider_visiting_usual_quiet
  have hd := consider_visiting_digest_quiet env
  unfold consider_visiting_early
  simp only []
  split
  · exact hn _ _ _
  · split
    · exact he _ _
    · simp only [evaluations_append, skips_append, (he _ _).1, (he _ _).2, (hu _ _).1,
        (hu _ _).2, (hd _ _ _).1, (hd _ _ _).2, List.append_nil, and_self]

theorem visit_evaluations (env : find_env) (o : options) (st : state) (ent : FTSENT) :
    evaluations (visit env o st ent).2 = [ent.fts_path] ∧
    skips (visit env o st ent).2 =
      if (visit env o st ent).1.stop_at_current_level = true then [ent.fts_path] else [] := by
  unfold visit
  simp only []
  split
  · rename_i h
    refine ⟨rfl, ?_⟩
    simp only [h, if_true]
    rfl
  · rename_i h
    refine ⟨rfl, ?_⟩
    simp only [h, Bool.false_eq_true, if_false]
    rfl

theorem consider_visiting_ignore_iff (o : options) (ent : FTSENT) :
    consider_visiting_ignore o ent = false ↔
      selected_by_order o ent ∧ o.mindepth ≤ ent.fts_level ∧
        (o.maxdepth < 0 ∨ ent.fts_level ≤ o.maxdepth) := by
  unfold consider_visiting_ignore selected_by_order
  simp only []
  by_cases h1 : ent.fts_info = FTS_INFO.FTS_D ∧ o.do_dir_first = false
  · rw [if_pos h1]
    exact ⟨fun h => (by cases h), fun h => absurd h1 h.1.1⟩
  · rw [if_neg h1]
    by_cases h2 : ent.fts_info = FTS_INFO.FTS_DP ∧ o.do_dir_first = true
    · rw [if_pos h2]
      exact ⟨fun h => (by cases h), fun h => absurd h2 h.1.2⟩
    · rw [if_neg h2]
      by_cases h3 : ent.fts_level < o.mindepth
      · rw [if_pos h3]
        exact ⟨fun h => (by cases h), fun h => absurd h.2.1 (by omega)⟩
      · rw [if_neg h3]
        simp only [decide_eq_false_iff_not]
        constructor
        · intro h
          exact ⟨⟨h1, h2⟩, by omega, by omega⟩
        · intro h
          omega

theorem consider_visiting_late_evaluations (env : find_env) (o : options) (st : state)
    (ent : FTSENT) :
    evaluations (consider_visiting_late env o st ent).2 =
      if selected_by_order o ent ∧ o.mindepth ≤ ent.fts_level ∧
          (o.maxdepth < 0 ∨ ent.fts_level ≤ o.maxdepth) then [ent.fts_path] else [] := by
  have hskip : ∀ c : Prop, ∀ _ : Decidable c,
      evaluations (if c then [event.fts_set ent.fts_path FTS_INSTR.FTS_SKIP] else []) = [] := by
    intro c _; split <;> rfl
  have hv := (visit_evaluations env o st ent).1
  unfold consider_visiting_late
  simp only [evaluations_append, hskip, List.nil_append]
  by_cases hc : selected_by_order o ent ∧ o.mindepth ≤ ent.fts_level ∧
      (o.maxdepth < 0 ∨ ent.fts_level ≤ o.maxdepth)
  · rw [if_pos hc, if_pos ((consider_visiting_ignore_iff o ent).mpr hc)]
    exact hv
  · rw [if_neg hc, if_neg (fun h => hc ((consider_visiting_ignore_iff o ent).mp h))]
    rfl

theorem consider_visiting_late_skips (env : find_env) (o : options) (st : state)
    (ent : FTSENT) :
    (0 ≤ o.maxdepth ∧ o.maxdepth ≤ ent.fts_level →
      ent.fts_path ∈ skips (consider_visiting_late env o st ent).2) ∧
    (¬ (0 ≤ o.maxdepth ∧ o.maxdepth ≤ ent.fts_level) →
      skips (consider_visiting_late env o st ent).2 ≠ [] →
      evaluations (consider_visiting_late env o st ent).2 = [ent.fts_path]) := by
  constructor
  · intro h
    unfold consider_visiting_late
    simp only [skips_append]
    rw [if_pos (show o.maxdepth ≥ 0 ∧ ent.fts_level ≥ o.maxdepth from h)]
    exact List.mem_append_left _ (List.mem_singleton.mpr rfl)
  · intro h
    unfold consider_visiting_late
    simp only [skips_append, evaluations_append]
    rw [if_neg (show ¬ (o.maxdepth ≥ 0 ∧ ent.fts_level ≥ o.maxdepth) from h)]
    show skips [] ++ _ ≠ [] → evaluations [] ++ _ = _
    rw [show skips [] = [] from rfl, show evaluations [] = [] from rfl, List.nil_append,
      List.nil_append]
    by_cases hi : consider_visiting_ignore o ent = false
    · rw [if_pos hi]
      intro _
      exact (visit_evaluations env o st ent).1
    · rw [if_neg hi]
      intro hne
      exact absurd rfl hne

theorem consider_visiting_events (env : find_env) (o : options) (st : state) (ent : FTSENT) :
    (consider_visiting_early env o st ent).1 = none ∧
      consider_visiting env o st ent =
        ((consider_visiting_early env o st ent).2.1, (consider_visiting_early env o st ent).2.2)
    ∨ (consider_visiting_early env o st ent).1 ≠ none ∧
      consider_visiting env o st ent =
        ((consider_visiting_late env o (consider_visiting_early env o st ent).2.1 ent).1,
          (consider_visiting_early env o st ent).2.2 ++
            (consider_visiting_late env o (consider_visiting_early env o st ent).2.1 ent).2) := by
  unfold consider_visiting
  cases h : (consider_visiting_early env o st ent).1 with
  | none =>
    left
    refine ⟨rfl, ?_⟩
    simp only [h]
  | some mode =>
    right
    refine ⟨fun hc => (by cases hc), ?_⟩
    simp only [h]

theorem consider_visiting_evaluations (env : find_env) (o : options) (st : state)
    (ent : FTSENT) :
    evaluations (consider_visiting env o st ent).2 =
      if (consider_visiting_early env o st ent).1 ≠ none ∧
          selected_by_order o ent ∧ o.mindepth ≤ ent.fts_level ∧
          (o.maxdepth < 0 ∨ ent.fts_level ≤ o.maxdepth) then [ent.fts_path] else [] := by
  rcases consider_visiting_events env o st ent with ⟨hn, hc⟩ | ⟨hs, hc⟩
  · rw [hc, if_neg]
    · exact (consider_visiting_early_quiet env o st ent).1
    · rintro ⟨hm, _⟩
      exact hm hn
  · rw [hc]
    simp only [evaluations_append, (consider_visiting_early_quiet env o st ent).1,
      List.nil_append, consider_visiting_late_evaluations, hs, ne_eq, not_false_eq_true,
      true_and]

/-- C12: an entry whose level is below options.mindepth is not evaluated by
consider_visiting (apply_predicate is not called on it), and FTS_SKIP is
requested for it only when the maxdepth cap asks for it, never because of
mindepth: without a cap at or above its level no FTS_SKIP is requested, so the
walker goes on below it. -/
theorem mindepth_suppresses_evaluation (env : find_env) (o : options) (st : state)
    (ent : FTSENT) (h : ent.fts_level < o.mindepth) :
    evaluations (consider_visiting env o st ent).2 = [] ∧
    (skips (consider_visiting env o st ent).2 ≠ [] →
      0 ≤ o.maxdepth ∧ o.maxdepth ≤ ent.fts_level) ∧
    (¬ (0 ≤ o.maxdepth ∧ o.maxdepth ≤ ent.fts_level) →
      skips (consider_visiting env o st ent).2 = []) := by
  have hev : evaluations (consider_visiting env o st ent).2 = [] := by
    rw [consider_visiting_evaluations, if_neg]
    rintro ⟨_, _, hm, _⟩
    omega
  have hsk : ¬ (0 ≤ o.maxdepth ∧ o.maxdepth ≤ ent.fts_level) →
      skips (consider_visiting env o st ent).2 = [] := by
    intro hcap
    by_contra hne
    rcases consider_visiting_events env o st ent with ⟨_, hc⟩ | ⟨_, hc⟩
    · rw [hc] at hne
      exact hne (consider_visiting_early_quiet env o st ent).2
    · rw [hc] at hne hev
      simp only [skips_append, evaluations_append,
        (consider_visiting_early_quiet env o st ent).1,
        (consider_visiting_early_quiet env o st ent).2, List.nil_append] at hne hev
      have := (consider_visiting_late_skips env o _ ent).2 hcap hne
      rw [hev] at this
      cases this
  refine ⟨hev, ?_, hsk⟩
  intro hne
  by_contra hcap
  exact hne (hsk hcap)

theorem mindepth_suppresses_evaluation_witness :
    (consider_visiting_early sample_find_env { mindepth := 1 } sample_state
      sample_dir_entry).1 = some sample_dir_mode ∧
    sample_dir_entry.fts_level < ({ mindepth := 1 } : options).mindepth ∧
    evaluations (consider_visiting sample_find_env { mindepth := 1 } sample_state
      sample_dir_entry).2 = [] ∧
    skips (consider_visiting sample_find_env { mindepth := 1 } sample_state
      sample_dir_entry).2 = [] :=
  ⟨by decide, by decide,
    (mindepth_suppresses_evaluation sample_find_env { mindepth := 1 } sample_state
      sample_dir_entry (by decide)).1,
    (mindepth_suppresses_evaluation sample_find_env { mindepth := 1 } sample_state
      sample_dir_entry (by decide)).2.2 (by decide)⟩

/-- C13: for an entry that reaches the depth check of consider_visiting, with
options.maxdepth >= 0: at a level >= maxdepth FTS_SKIP is requested for it, at
a level > maxdepth it is not evaluated, and at the level maxdepth it is
evaluated, once, provided its level is >= mindepth and the visit is the one
the pre/post-order setting selects.  With maxdepth < 0 there is no cap: the
entry is evaluated exactly when the order selects the visit and its level is
>= mindepth, and FTS_SKIP is requested only by an evaluation. -/
theorem maxdepth_caps_descent (env : find_env) (o : options) (st : state) (ent : FTSENT)
    (hreach : (consider_visiting_early env o st ent).1 ≠ none) :
    (0 ≤ o.maxdepth →
      (o.maxdepth ≤ ent.fts_level →
        ent.fts_path ∈ skips (consider_visiting env o st ent).2) ∧
      (o.maxdepth < ent.fts_level → evaluations (consider_visiting env o st ent).2 = []) ∧
      (ent.fts_level = o.maxdepth → o.mindepth ≤ ent.fts_level → selected_by_order o ent →
        evaluations (consider_visiting env o st ent).2 = [ent.fts_path])) ∧
    (o.maxdepth < 0 →
      (evaluations (consider_visiting env o st ent).2 =
        if selected_by_order o ent ∧ o.mindepth ≤ ent.fts_level then [ent.fts_path] else []) ∧
      (skips (consider_visiting env o st ent).2 ≠ [] →
        evaluations (consider_visiting env o st ent).2 = [ent.fts_path])) := by
  have hev := consider_visiting_evaluations env o st ent
  rcases consider_visiting_events env o st ent with ⟨hn, _⟩ | ⟨_, hc⟩
  · exact absurd hn hreach
  have he := consider_visiting_early_quiet env o st ent
  have hsk : skips (consider_visiting env o st ent).2 =
      skips (consider_visiting_late env o (consider_visiting_early env o st ent).2.1 ent).2 := by
    rw [hc]
    simp only [skips_append, he.2, List.nil_append]
  have hev2 : evaluations (consider_visiting env o st ent).2 =
      evaluations
        (consider_visiting_late env o (consider_visiting_early env o st ent).2.1 ent).2 := by
    rw [hc]
    simp only [evaluations_append, he.1, List.nil_append]
  refine ⟨fun hmax => ⟨?_, ?_, ?_⟩, fun hmax => ⟨?_, ?_⟩⟩
  · intro hl
    rw [hsk]
    exact (consider_visiting_late_skips env o _ ent).1 ⟨hmax, hl⟩
  · intro hl
    rw [hev, if_neg]
    rintro ⟨_, _, _, h4⟩
    omega
  · intro hl hm hs
    rw [hev, if_pos ⟨hreach, hs, hm, Or.inr (le_of_eq hl)⟩]
  · rw [hev]
    by_cases hs : selected_by_order o ent ∧ o.mindepth ≤ ent.fts_level
    · rw [if_pos hs, if_pos ⟨hreach, hs.1, hs.2, Or.inl hmax⟩]
    · rw [if_neg hs, if_neg (fun hh => hs ⟨hh.2.1, hh.2.2.1⟩)]
  · intro hne
    rw [hsk] at hne
    rw [hev2]
    exact (consider_visiting_late_skips env o _ ent).2 (by omega) hne

theorem maxdepth_caps_descent_witness :
    (consider_visiting_early sample_find_env { maxdepth := 0 } sample_state
      sample_dir_entry).1 ≠ none ∧
    sample_dir_entry.fts_level = 0 ∧
    sample_dir_entry.fts_path ∈ skips (consider_visiting sample_find_env { maxdepth := 0 }
      sample_state sample_dir_entry).2 ∧
    evaluations (consider_visiting sample_find_env { maxdepth := 0 } sample_state
      sample_dir_entry).2 = [sample_dir_entry.fts_path] :=
  ⟨by decide, by decide,
    ((maxdepth_caps_descent sample_find_env { maxdepth := 0 } sample_state sample_dir_entry
      (by decide)).1 (by decide)).1 (by decide),
    ((maxdepth_caps_descent sample_find_env { maxdepth := 0 } sample_state sample_dir_entry
      (by decide)).1 (by decide)).2.2 (by decide) (by decide) (by decide)⟩

theorem consider_visiting_errors_do_dir_first (env : find_env) (o : options) (st : state)
    (ent : FTSENT) (b : Bool) (h : ent.fts_info ≠ FTS_INFO.FTS_DNR) :
    consider_visiting_errors env { o with do_dir_first := b } st ent =
      consider_visiting_errors env o st ent := by
  unfold consider_visiting_errors
  rw [if_neg h, if_neg h]

theorem consider_visiting_early_do_dir_first (env : find_env) (o : options) (st : state)
    (ent : FTSENT) (b : Bool) (h : ent.fts_info ≠ FTS_INFO.FTS_DNR) :
    consider_visiting_early env { o with do_dir_first := b } st ent =
      consider_visiting_early env o st ent := by
  unfold consider_visiting_early
  simp only [consider_visiting_errors_do_dir_first env o _ ent b h]

theorem left_dir_frame (st : state) :
    (left_dir st).exit_status = st.exit_status ∧
    (left_dir st).already_issued_stat_error_msg = st.already_issued_stat_error_msg ∧
    (left_dir st).ftsoptions = st.ftsoptions ∧
    (left_dir st).execdirs_outstanding = st.execdirs_outstanding := by
  unfold left_dir
  repeat' split
  all_goals exact ⟨rfl, rfl, rfl, rfl⟩

theorem inside_dir_frame (env : find_env) (st : state) (dir_fd : Int) :
    (inside_dir env st dir_fd).exit_status = st.exit_status ∧
    (inside_dir env st dir_fd).already_issued_stat_error_msg =
      st.already_issued_stat_error_msg ∧
    (inside_dir env st dir_fd).ftsoptions = st.ftsoptions ∧
    (inside_dir env st dir_fd).execdirs_outstanding = st.execdirs_outstanding := by
  unfold inside_dir
  repeat' split
  all_goals exact ⟨rfl, rfl, rfl, rfl⟩

theorem consider_visiting_enter_frame (env : find_env) (st : state) (ent : FTSENT) :
    (consider_visiting_enter env st ent).exit_status = st.exit_status ∧
    (consider_visiting_enter env st ent).already_issued_stat_error_msg =
      st.already_issued_stat_error_msg ∧
    (consider_visiting_enter env st ent).ftsoptions = st.ftsoptions ∧
    (consider_visiting_enter env st ent).execdirs_outstanding = st.execdirs_outstanding := by
  unfold consider_visiting_enter
  simp only []
  have hi := inside_dir_frame env
  have hl := left_dir_frame st
  split
  · exact ⟨(hi _ _).1.trans hl.1, (hi _ _).2.1.trans hl.2.1, (hi _ _).2.2.1.trans hl.2.2.1,
      (hi _ _).2.2.2.trans hl.2.2.2⟩
  · split
    · exact ⟨(hi _ _).1.trans hl.1, (hi _ _).2.1.trans hl.2.1, (hi _ _).2.2.1.trans hl.2.2.1,
        (hi _ _).2.2.2.trans hl.2.2.2⟩
    · exact hi _ _

theorem consider_visiting_early_unreadable (env : find_env) (o : options) (st : state)
    (ent : FTSENT) (h : ent.fts_info = FTS_INFO.FTS_DNR) :
    (o.do_dir_first = true → (consider_visiting_early env o st ent).1 = none) ∧
    ((consider_visiting_early env o st ent).1 ≠ none →
      o.do_dir_first = false ∧
      ¬ (ENOENT = ent.fts_errno ∧ o.ignore_readdir_race = true) ∧
      ∃ rest, (consider_visiting_early env o st ent).2.2 =
        (nonfatal_target_file_error ent.fts_errno ent.fts_path
          (consider_visiting_enter env st ent)).2 ++ rest) := by
  have hne : ¬ ent.fts_info = FTS_INFO.FTS_ERR := by rw [h]; decide
  unfold consider_visiting_early
  simp only []
  rw [if_neg hne]
  unfold consider_visiting_errors
  rw [if_pos h]
  by_cases hrace : ENOENT = ent.fts_errno ∧ o.ignore_readdir_race = true
  · rw [if_pos hrace]
    simp only [if_true]
    exact ⟨fun _ => trivial, fun hh => absurd rfl hh⟩
  · rw [if_neg hrace]
    cases hb : o.do_dir_first with
    | true =>
      simp only [if_true]
      exact ⟨fun _ => trivial, fun hh => absurd rfl hh⟩
    | false =>
      simp only [Bool.false_eq_true, if_false]
      refine ⟨(fun hh => by cases hh), fun _ => ⟨trivial, hrace, ?_⟩⟩
      exact ⟨_, List.append_assoc _ _ _⟩

/-- C14: for a directory entry that reaches the depth check within the depth
bounds, with options.do_dir_first = true the pre-order visit (FTS_D) is
evaluated and the post-order visit (FTS_DP) is not, and with do_dir_first =
false the post-order visit is evaluated and the pre-order visit is not.
Whether an entry that is neither FTS_D, FTS_DP nor FTS_DNR is evaluated does
not depend on do_dir_first.  An unreadable directory (FTS_DNR) is never
evaluated with do_dir_first = true; when it is evaluated, do_dir_first is
false, the error was not a vanished directory under -ignore_readdir_race, and
the events start with those of nonfatal_target_file_error (the diagnostic,
unless one was issued already), the evaluation coming after them; and with
do_dir_first = false it is evaluated whenever it reaches the depth check
within the depth bounds. -/
theorem do_dir_first_selects_visit (env : find_env) (o : options) (st : state)
    (ent : FTSENT) :
    ((consider_visiting_early env o st ent).1 ≠ none → o.mindepth ≤ ent.fts_level →
      (o.maxdepth < 0 ∨ ent.fts_level ≤ o.maxdepth) →
      (ent.fts_info = FTS_INFO.FTS_D → evaluations (consider_visiting env o st ent).2 =
        if o.do_dir_first = true then [ent.fts_path] else []) ∧
      (ent.fts_info = FTS_INFO.FTS_DP → evaluations (consider_visiting env o st ent).2 =
        if o.do_dir_first = true then [] else [ent.fts_path])) ∧
    (ent.fts_info ≠ FTS_INFO.FTS_D → ent.fts_info ≠ FTS_INFO.FTS_DP →
      ent.fts_info ≠ FTS_INFO.FTS_DNR → ∀ b : Bool,
      evaluations (consider_visiting env { o with do_dir_first := b } st ent).2 =
        evaluations (consider_visiting env o st ent).2) ∧
    (ent.fts_info = FTS_INFO.FTS_DNR →
      (o.do_dir_first = true → evaluations (consider_visiting env o st ent).2 = []) ∧
      (evaluations (consider_visiting env o st ent).2 ≠ [] →
        o.do_dir_first = false ∧
        ¬ (ENOENT = ent.fts_errno ∧ o.ignore_readdir_race = true) ∧
        (∃ rest, (consider_visiting env o st ent).2 =
            (nonfatal_target_file_error ent.fts_errno ent.fts_path
              (consider_visiting_enter env st ent)).2 ++ rest ∧
          evaluations rest = [ent.fts_path]) ∧
        (st.already_issued_stat_error_msg = false →
          (nonfatal_target_file_error ent.fts_errno ent.fts_path
              (consider_visiting_enter env st ent)).2 =
            [event.error (diagnostic.target_file_error ent.fts_errno ent.fts_path)])) ∧
      (o.do_dir_first = false → (consider_visiting_early env o st ent).1 ≠ none →
        o.mindepth ≤ ent.fts_level → (o.maxdepth < 0 ∨ ent.fts_level ≤ o.maxdepth) →
        evaluations (consider_visiting env o st ent).2 = [ent.fts_path])) := by
  refine ⟨?_, ?_, ?_⟩
  rotate_left 2
  · intro hDNR
    obtain ⟨hu1, hu2⟩ := consider_visiting_early_unreadable env o st ent hDNR
    have hsel : selected_by_order o ent :=
      ⟨(fun hh => by rw [hDNR] at hh; cases hh.1), (fun hh => by rw [hDNR] at hh; cases hh.1)⟩
    refine ⟨?_, ?_, ?_⟩
    · intro hb
      rw [consider_visiting_evaluations, if_neg (fun hh => hh.1 (hu1 hb))]
    · intro hev
      have hcond : (consider_visiting_early env o st ent).1 ≠ none ∧
          selected_by_order o ent ∧ o.mindepth ≤ ent.fts_level ∧
          (o.maxdepth < 0 ∨ ent.fts_level ≤ o.maxdepth) := by
        by_contra hc
        rw [consider_visiting_evaluations, if_neg hc] at hev
        exact hev rfl
      obtain ⟨hb, hrace, rest0, hrest0⟩ := hu2 hcond.1
      refine ⟨hb, hrace, ?_, ?_⟩
      · rcases consider_visiting_events env o st ent with ⟨hn, _⟩ | ⟨_, hc⟩
        · exact absurd hn hcond.1
        · refine ⟨rest0 ++ (consider_visiting_late env o
            (consider_visiting_early env o st ent).2.1 ent).2, ?_, ?_⟩
          · rw [hc, hrest0, List.append_assoc]
          · have hall := consider_visiting_evaluations env o st ent
            rw [if_pos hcond, hc, hrest0, List.append_assoc, evaluations_append,
              (nonfatal_target_file_error_quiet _ _ _).1, List.nil_append] at hall
            exact hall
      · intro hflag
        have hf := (consider_visiting_enter_frame env st ent).2.1
        rw [hflag] at hf
        unfold nonfatal_target_file_error
        rw [hf]
        rfl
    · intro _ hreach hmin hmax
      rw [consider_visiting_evaluations, if_pos ⟨hreach, hsel, hmin, hmax⟩]
  · intro hreach hmin hmax
    constructor
    · intro hD
      rw [consider_visiting_evaluations]
      cases hb : o.do_dir_first with
      | true =>
        rw [if_pos ⟨hreach, ⟨fun hh => (by rw [hb] at hh; cases hh.2),
          fun hh => (by rw [hD] at hh; cases hh.1)⟩, hmin, hmax⟩]
        rfl
      | false =>
        rw [if_neg (fun hh => hh.2.1.1 ⟨hD, hb⟩)]
        rfl
    · intro hDP
      rw [consider_visiting_evaluations]
      cases hb : o.do_dir_first with
      | true =>
        rw [if_neg (fun hh => hh.2.1.2 ⟨hDP, hb⟩)]
        rfl
      | false =>
        rw [if_pos ⟨hreach, ⟨fun hh => (by rw [hDP] at hh; cases hh.1),
          fun hh => (by rw [hb] at hh; cases hh.2)⟩, hmin, hmax⟩]
        rfl
  · intro hD hDP hDNR b
    rw [consider_visiting_evaluations, consider_visiting_evaluations,
      consider_visiting_early_do_dir_first env o st ent b hDNR]
    have hs : ∀ o1 : options, selected_by_order o1 ent :=
      fun o1 => ⟨fun hh => hD hh.1, fun hh => hDP hh.1⟩
    simp only [hs, true_and]

theorem do_dir_first_selects_visit_witness :
    evaluations (consider_visiting sample_find_env {} sample_state sample_dir_entry).2 =
      [sample_dir_entry.fts_path] ∧
    evaluations (consider_visiting sample_find_env { do_dir_first := false } sample_state
      sample_dir_entry).2 = [] :=
  ⟨((do_dir_first_selects_visit sample_find_env {} sample_state sample_dir_entry).1
      (by decide) (by decide) (by decide)).1 (by decide),
    ((do_dir_first_selects_visit sample_find_env { do_dir_first := false } sample_state
      sample_dir_entry).1 (by decide) (by decide) (by decide)).1 (by decide)⟩

/-- C14, as stated: an FTS_DNR entry is neither FTS_D nor FTS_DP, yet whether
it is evaluated depends on do_dir_first: the unreadable directory is evaluated
under -depth and is not evaluated otherwise. -/
theorem unreadable_directory_depends_on_do_dir_first :
    sample_unreadable_entry.fts_info ≠ FTS_INFO.FTS_D ∧
    sample_unreadable_entry.fts_info ≠ FTS_INFO.FTS_DP ∧
    evaluations (consider_visiting sample_find_env { do_dir_first := true } sample_state
      sample_unreadable_entry).2 = [] ∧
    evaluations (consider_visiting sample_find_env { do_dir_first := false } sample_state
      sample_unreadable_entry).2 = [sample_unreadable_entry.fts_path] := by
  decide

theorem consider_visiting_of_early_none (env : find_env) (o : options) (st : state)
    (ent : FTSENT) (x : state × List event)
    (h : consider_visiting_early env o st ent = (none, x.1, x.2)) :
    consider_visiting env o st ent = x := by
  unfold consider_visiting
  simp only [h]

theorem consider_visiting_errors_cycle (env : find_env) (o : options) (st : state)
    (ent : FTSENT) (h : ent.fts_info = FTS_INFO.FTS_DC) :
    consider_visiting_errors env o st ent =
      (true, { st with exit_status := EXIT_FAILURE }, issue_loop_warning ent) := by
  unfold consider_visiting_errors
  rw [if_neg (by rw [h]; decide), if_pos h]

theorem consider_visiting_cycle (env : find_env) (o : options) (st : state)
    (ent : FTSENT) (h : ent.fts_info = FTS_INFO.FTS_DC) :
    consider_visiting env o st ent =
      ({ consider_visiting_enter env st ent with exit_status := EXIT_FAILURE },
        issue_loop_warning ent) := by
  apply consider_visiting_of_early_none
  unfold consider_visiting_early
  simp only []
  rw [if_neg (by rw [h]; decide), consider_visiting_errors_cycle env o _ ent h]
  rfl

/-- C15: for an entry that the walker reports as a directory cycle (FTS_DC),
consider_visiting writes exactly one diagnostic, a loop warning that names the
path of the entry, and nothing else happens: the entry is not evaluated.  It
sets state.exit_status to EXIT_FAILURE and returns, so that the loop of find
goes on with the entries that follow. -/
theorem directory_cycle_is_reported (env : find_env) (o : options) (st : state)
    (ent : FTSENT) (h : ent.fts_info = FTS_INFO.FTS_DC) :
    ∃ d, (d = diagnostic.symbolic_link_loop ent.fts_path ∨
        d = diagnostic.file_system_loop ent.fts_path) ∧
      (consider_visiting env o st ent).2 = [event.error d] ∧
      (consider_visiting env o st ent).1.exit_status = EXIT_FAILURE ∧
      ∀ (st0 : state) (level : Int) (rest : List FTSENT), ∃ pre st1,
        (pre = [] ∨ pre = [event.complete_pending_execdirs]) ∧
        (find_loop env o st0 level (ent :: rest)).2 =
          pre ++ [event.error d] ++ (find_loop env o st1 ent.fts_level rest).2 := by
  have hw : ∃ d, (d = diagnostic.symbolic_link_loop ent.fts_path ∨
      d = diagnostic.file_system_loop ent.fts_path) ∧ issue_loop_warning ent = [event.error d] := by
    unfold issue_loop_warning
    split
    · exact ⟨_, Or.inl rfl, rfl⟩
    · exact ⟨_, Or.inr rfl, rfl⟩
  obtain ⟨d, hd, hw⟩ := hw
  refine ⟨d, hd, ?_, ?_, ?_⟩
  · rw [consider_visiting_cycle env o st ent h, hw]
  · rw [consider_visiting_cycle env o st ent h]
  · intro st0 level rest
    rw [find_loop]
    simp only [consider_visiting_cycle env o _ ent h, hw]
    by_cases hf : (st0.execdirs_outstanding && decide (ent.fts_level ≠ level)) = true
    · simp only [hf, if_true]
      exact ⟨[event.complete_pending_execdirs], _, Or.inr rfl, rfl⟩
    · simp only [hf, Bool.false_eq_true, if_false]
      exact ⟨[], _, Or.inl rfl, rfl⟩

theorem directory_cycle_is_reported_witness :
    ∃ d, (d = diagnostic.symbolic_link_loop sample_cycle_entry.fts_path ∨
        d = diagnostic.file_system_loop sample_cycle_entry.fts_path) ∧
      (consider_visiting sample_find_env {} sample_state sample_cycle_entry).2 =
        [event.error d] ∧
      (consider_visiting sample_find_env {} sample_state sample_cycle_entry).1.exit_status =
        EXIT_FAILURE ∧
      ∀ (st0 : state) (level : Int) (rest : List FTSENT), ∃ pre st1,
        (pre = [] ∨ pre = [event.complete_pending_execdirs]) ∧
        (find_loop sample_find_env {} st0 level (sample_cycle_entry :: rest)).2 =
          pre ++ [event.error d] ++
            (find_loop sample_find_env {} st1 sample_cycle_entry.fts_level rest).2 :=
  directory_cycle_is_reported sample_find_env {} sample_state sample_cycle_entry rfl

/-- C17, as stated: with options.ignore_readdir_race set, a starting point
that does not exist (FTS_NS at level 0 with errno ENOENT) is still diagnosed
and makes the exit status non-zero. -/
theorem missing_starting_point_is_diagnosed :
    ({ ignore_readdir_race := true } : options).ignore_readdir_race = true ∧
    sample_missing_entry.fts_info = FTS_INFO.FTS_NS ∧
    sample_missing_entry.fts_errno = ENOENT ∧
    ({} : state).exit_status = EXIT_SUCCESS ∧
    consider_visiting sample_find_env { ignore_readdir_race := true } {} sample_missing_entry =
      ({ exit_status := EXIT_FAILURE, already_issued_stat_error_msg := true, prev_depth := 0,
         curr_fd := AT_FDCWD },
        [event.error (diagnostic.target_file_error ENOENT "gone".toList)]) := by
  decide

/-- C17: with options.ignore_readdir_race set and errno ENOENT,
consider_visiting does nothing that can be seen for an FTS_DNR entry (at any
level) and for an FTS_NS entry at a level other than 0 that is not part of a
symbolic-link loop: no diagnostic, no evaluation, exit status unchanged.  An
FTS_ERR entry and an FTS_NS entry at level 0 go to nonfatal_target_file_error
all the same, which reports them (unless an error was already reported for the
entry) and sets the exit status to EXIT_FAILURE; they are not evaluated. -/
theorem ignore_readdir_race_swallows_enoent (env : find_env) (o : options) (st : state)
    (ent : FTSENT) (hrace : o.ignore_readdir_race = true) (herr : ent.fts_errno = ENOENT) :
    ((ent.fts_info = FTS_INFO.FTS_DNR ∨
        (ent.fts_info = FTS_INFO.FTS_NS ∧ ent.fts_level ≠ 0 ∧
          env.symlink_loop ent.fts_accpath = false)) →
      (consider_visiting env o st ent).2 = [] ∧
      (consider_visiting env o st ent).1.exit_status = st.exit_status) ∧
    ((ent.fts_info = FTS_INFO.FTS_ERR ∨
        (ent.fts_info = FTS_INFO.FTS_NS ∧ ent.fts_level = 0)) →
      consider_visiting env o st ent =
        nonfatal_target_file_error ENOENT ent.fts_path (consider_visiting_enter env st ent) ∧
      (st.already_issued_stat_error_msg = false →
        (consider_visiting env o st ent).2 =
          [event.error (diagnostic.target_file_error ENOENT ent.fts_path)] ∧
        (consider_visiting env o st ent).1.exit_status = EXIT_FAILURE)) := by
  have hfr := consider_visiting_enter_frame env st ent
  constructor
  · intro hinfo
    have hq : consider_visiting env o st ent = (consider_visiting_enter env st ent, []) := by
      apply consider_visiting_of_early_none
      unfold consider_visiting_early
      simp only []
      rcases hinfo with hD | ⟨hN, hl, hs⟩
      · rw [if_neg (by rw [hD]; decide)]
        have : consider_visiting_errors env o (consider_visiting_enter env st ent) ent =
            (true, consider_visiting_enter env st ent, []) := by
          unfold consider_visiting_errors
          rw [if_pos hD, if_pos ⟨herr.symm, hrace⟩]
        rw [this]
        rfl
      · rw [if_neg (by rw [hN]; decide)]
        have : consider_visiting_errors env o (consider_visiting_enter env st ent) ent =
            (true, consider_visiting_enter env st ent, []) := by
          unfold consider_visiting_errors
          rw [if_neg (by rw [hN]; decide), if_neg (by rw [hN]; decide),
            if_neg (by rw [hN]; decide), if_pos hN, if_neg hl, hs,
            if_neg (by decide), if_pos ⟨herr.symm, hrace⟩]
        rw [this]
        rfl
    rw [hq]
    exact ⟨rfl, hfr.1⟩
  · intro hinfo
    have hq : consider_visiting env o st ent =
        nonfatal_target_file_error ENOENT ent.fts_path (consider_visiting_enter env st ent) := by
      apply consider_visiting_of_early_none
      unfold consider_visiting_early
      simp only []
      rcases hinfo with hE | ⟨hN, hl⟩
      · rw [if_pos hE, herr]
      · rw [if_neg (by rw [hN]; decide)]
        have : consider_visiting_errors env o (consider_visiting_enter env st ent) ent =
            (true, (nonfatal_target_file_error ENOENT ent.fts_path
              (consider_visiting_enter env st ent)).1,
              (nonfatal_target_file_error ENOENT ent.fts_path
                (consider_visiting_enter env st ent)).2) := by
          unfold consider_visiting_errors
          rw [if_neg (by rw [hN]; decide), if_neg (by rw [hN]; decide),
            if_neg (by rw [hN]; decide), if_pos hN, if_pos hl, herr]
        rw [this]
        rfl
    refine ⟨hq, ?_⟩
    intro hno
    rw [hq]
    unfold nonfatal_target_file_error
    rw [hfr.2.1, hno]
    exact ⟨rfl, rfl⟩

theorem ignore_readdir_race_swallows_enoent_witness :
    (consider_visiting sample_find_env { ignore_readdir_race := true } sample_state
      sample_vanished_entry).2 = [] ∧
    (consider_visiting sample_find_env { ignore_readdir_race := true } sample_state
      sample_vanished_entry).1.exit_status = sample_state.exit_status :=
  (ignore_readdir_race_swallows_enoent sample_find_env { ignore_readdir_race := true }
    sample_state sample_vanished_entry rfl rfl).1 (Or.inl rfl)

theorem consider_visiting_evaluations_sub (env : find_env) (o : options) (st : state)
    (ent : FTSENT) (p : CStr) (h : p ∈ evaluations (consider_visiting env o st ent).2) :
    p = ent.fts_path ∧ ent.fts_info ≠ FTS_INFO.FTS_DC := by
  constructor
  · rw [consider_visiting_evaluations] at h
    split at h
    · exact List.mem_singleton.mp h
    · cases h
  · intro hDC
    rw [consider_visiting_cycle env o st ent hDC] at h
    rw [(issue_loop_warning_quiet ent).1] at h
    cases h

theorem find_loop_evaluations (env : find_env) (o : options) (entries : List FTSENT)
    (p : CStr) :
    ∀ (st : state) (level : Int), p ∈ evaluations (find_loop env o st level entries).2 →
      ∃ ent ∈ entries, ent.fts_path = p ∧ ent.fts_info ≠ FTS_INFO.FTS_DC := by
  induction entries with
  | nil =>
    intro st level h
    rw [find_loop] at h
    cases h
  | cons ent rest ih =>
    intro st level h
    rw [find_loop] at h
    simp only [evaluations_append, List.mem_append] at h
    rcases h with (h | h) | h
    · exfalso
      split at h <;> cases h
    · obtain ⟨h1, h2⟩ := consider_visiting_evaluations_sub env o _ ent p h
      exact ⟨ent, List.mem_cons_self _ _, h1.symm, h2⟩
    · obtain ⟨e, he, h1⟩ := ih _ _ h
      exact ⟨e, List.mem_cons_of_mem _ he, h1⟩

/-- C16, as stated: in the run of `find -L a -print` on the directory `a` with
the symbolic link `a/loop` to `a`, the entry `a/loop` is not evaluated exactly
once. -/
theorem cycle_entry_is_not_evaluated_once :
    (evaluations (main loop_scenario_env loop_scenario_options
      ["a".toList, "-print".toList]).2).count "a/loop".toList ≠ 1 := by
  decide

/-- C16: in the run of `find -L a -print` on the directory `a` with the
symbolic link `a/loop` to `a`, which the walker reports as a cycle, only `a` is
evaluated, once; `a/loop` is not evaluated but one loop diagnostic names it,
and the exit status is 1.  In every walk, a path that the walker reports only
as a directory cycle is never evaluated. -/
theorem symlink_loop_scenario :
    main loop_scenario_env loop_scenario_options ["a".toList, "-print".toList] =
      (Res.ret 1,
        [event.fts_open "a".toList (ftsoptions_base ||| FTS_COMFOLLOW ||| FTS_LOGICAL),
         event.apply_predicate "a".toList,
         event.error (diagnostic.file_system_loop "a/loop".toList),
         event.show_success_rates, event.cleanup]) ∧
    evaluations (main loop_scenario_env loop_scenario_options
      ["a".toList, "-print".toList]).2 = ["a".toList] ∧
    diagnostics (main loop_scenario_env loop_scenario_options
      ["a".toList, "-print".toList]).2 = [diagnostic.file_system_loop "a/loop".toList] ∧
    ∀ (env : find_env) (o : options) (st : state) (level : Int) (entries : List FTSENT)
      (p : CStr), (∀ ent ∈ entries, ent.fts_path = p → ent.fts_info = FTS_INFO.FTS_DC) →
      p ∉ evaluations (find_loop env o st level entries).2 := by
  refine ⟨by decide, by decide, by decide, ?_⟩
  intro env o st level entries p h hp
  obtain ⟨ent, he, h1, h2⟩ := find_loop_evaluations env o entries p st level hp
  exact h2 (h ent he h1)

/-! ## Properties of find -/

theorem nonfatal_target_file_error_ftsoptions (errno_value : Nat) (name : CStr) (st : state) :
    (nonfatal_target_file_error errno_value name st).1.ftsoptions = st.ftsoptions := by
  unfold nonfatal_target_file_error
  split <;> rfl

theorem consider_visiting_errors_ftsoptions (env : find_env) (o : options) (st : state)
    (ent : FTSENT) :
    (consider_visiting_errors env o st ent).2.1.ftsoptions = st.ftsoptions := by
  have hn := nonfatal_target_file_error_ftsoptions
  unfold consider_visiting_errors
  repeat' split
  all_goals first
    | rfl
    | exact hn _ _ _

theorem consider_visiting_usual_ftsoptions (st : state) (ent : FTSENT) :
    (consider_visiting_usual st ent).2.1.ftsoptions = st.ftsoptions := by
  unfold consider_visiting_usual
  split <;> rfl

theorem consider_visiting_digest_ftsoptions (env : find_env) (st : state) (ent : FTSENT)
    (mode : Nat) :
    (consider_visiting_digest env st ent mode).2.1.ftsoptions = st.ftsoptions := by
  have hn := nonfatal_target_file_error_ftsoptions
  unfold consider_visiting_digest
  split
  · rfl
  · exact hn _ _ _
  · simp only []
    split <;> rfl

theorem consider_visiting_early_ftsoptions (env : find_env) (o : options) (st : state)
    (ent : FTSENT) :
    (consider_visiting_early env o st ent).2.1.ftsoptions = st.ftsoptions := by
  have hf := (consider_visiting_enter_frame env st ent).2.2.1
  unfold consider_visiting_early
  simp only []
  split
  · rw [nonfatal_target_file_error_ftsoptions, hf]
  · split
    · rw [consider_visiting_errors_ftsoptions, hf]
    · rw [consider_visiting_digest_ftsoptions]
      show (consider_visiting_usual _ ent).2.1.ftsoptions = _
      rw [consider_visiting_usual_ftsoptions, consider_visiting_errors_ftsoptions, hf]

theorem visit_ftsoptions (env : find_env) (o : options) (st : state) (ent : FTSENT) :
    (visit env o st ent).1.ftsoptions = st.ftsoptions := by
  unfold visit
  simp only []
  split <;> rfl

theorem consider_visiting_late_ftsoptions (env : find_env) (o : options) (st : state)
    (ent : FTSENT) :
    (consider_visiting_late env o st ent).1.ftsoptions = st.ftsoptions := by
  have hv := visit_ftsoptions env o st ent
  unfold consider_visiting_late
  simp only []
  split
  · split
    · exact hv
    · rfl
  · split
    · exact hv
    · rfl

theorem consider_visiting_ftsoptions (env : find_env) (o : options) (st : state)
    (ent : FTSENT) :
    (consider_visiting env o st ent).1.ftsoptions = st.ftsoptions := by
  rcases consider_visiting_events env o st ent with ⟨_, hc⟩ | ⟨_, hc⟩
  · rw [hc]
    exact consider_visiting_early_ftsoptions env o st ent
  · rw [hc]
    show (consider_visiting_late env o _ ent).1.ftsoptions = _
    rw [consider_visiting_late_ftsoptions, consider_visiting_early_ftsoptions]

theorem complete_pending_execdirs_ftsoptions (env : find_env) (st : state) :
    (complete_pending_execdirs env st).ftsoptions = st.ftsoptions := by
  unfold complete_pending_execdirs
  split <;> rfl

theorem find_loop_ftsoptions (env : find_env) (o : options) (entries : List FTSENT) :
    ∀ (st : state) (level : Int),
      (find_loop env o st level entries).1.ftsoptions = st.ftsoptions := by
  induction entries with
  | nil => intro st level; rw [find_loop]
  | cons ent rest ih =>
    intro st level
    rw [find_loop]
    simp only []
    rw [ih, consider_visiting_ftsoptions]
    show (if _ then complete_pending_execdirs env st else st).ftsoptions = _
    split
    · exact complete_pending_execdirs_ftsoptions env st
    · rfl

theorem find_ftsoptions (env : find_env) (o : options) (st : state) (arg : CStr) :
    (find env o st arg).2.1.ftsoptions = st.ftsoptions ||| ftsoptions_added o := by
  have hi := (inside_dir_frame env { st with starting_path_length := arg.length }
    AT_FDCWD).2.2.1
  have hst3 : ∀ st1 : state, st1.ftsoptions = st.ftsoptions →
      (if o.stay_on_filesystem = true then
        ({ ({ st1 with ftsoptions := st1.ftsoptions ||| (match o.symlink_handling with
              | SymlinkOption.SYMLINK_ALWAYS_DEREF => FTS_COMFOLLOW ||| FTS_LOGICAL
              | SymlinkOption.SYMLINK_DEREF_ARGSONLY => FTS_COMFOLLOW ||| FTS_PHYSICAL
              | SymlinkOption.SYMLINK_NEVER_DEREF => FTS_PHYSICAL) } : state) with
            ftsoptions := (st1.ftsoptions ||| (match o.symlink_handling with
              | SymlinkOption.SYMLINK_ALWAYS_DEREF => FTS_COMFOLLOW ||| FTS_LOGICAL
              | SymlinkOption.SYMLINK_DEREF_ARGSONLY => FTS_COMFOLLOW ||| FTS_PHYSICAL
              | SymlinkOption.SYMLINK_NEVER_DEREF => FTS_PHYSICAL)) ||| FTS_XDEV } : state)
       else { st1 with ftsoptions := st1.ftsoptions ||| (match o.symlink_handling with
              | SymlinkOption.SYMLINK_ALWAYS_DEREF => FTS_COMFOLLOW ||| FTS_LOGICAL
              | SymlinkOption.SYMLINK_DEREF_ARGSONLY => FTS_COMFOLLOW ||| FTS_PHYSICAL
              | SymlinkOption.SYMLINK_NEVER_DEREF => FTS_PHYSICAL) }).ftsoptions =
        st.ftsoptions ||| ftsoptions_added o := by
    intro st1 h1
    unfold ftsoptions_added
    split
    · show (st1.ftsoptions ||| _) ||| FTS_XDEV = _
      rw [h1, Nat.lor_assoc]
    · show st1.ftsoptions ||| _ = _
      rw [h1]
      simp
  unfold find
  simp only []
  split
  · exact hst3 _ hi
  · split
    · exact (find_loop_ftsoptions env o _ _ _).trans (hst3 _ hi)
    · split
      · exact (find_loop_ftsoptions env o _ _ _).trans (hst3 _ hi)
      · exact (find_loop_ftsoptions env o _ _ _).trans (hst3 _ hi)

theorem find_calls_ftsoptions (env : find_env) (o : options) (args : List CStr) :
    ∀ st : state, (find_calls env o st args).ftsoptions =
      if args = [] then st.ftsoptions else st.ftsoptions ||| ftsoptions_added o := by
  induction args with
  | nil => intro st; rfl
  | cons arg rest ih =>
    intro st
    rw [find_calls, ih, if_neg (List.cons_ne_nil _ _), find_ftsoptions]
    split
    · rfl
    · rw [Nat.lor_assoc, Nat.or_self]

theorem ftsoptions_added_bits (o : options) :
    ((ftsoptions_base ||| ftsoptions_added o) &&& FTS_LOGICAL ≠ 0 ↔
      o.symlink_handling = SymlinkOption.SYMLINK_ALWAYS_DEREF) ∧
    ((ftsoptions_base ||| ftsoptions_added o) &&& FTS_PHYSICAL ≠ 0 ↔
      o.symlink_handling ≠ SymlinkOption.SYMLINK_ALWAYS_DEREF) ∧
    ((ftsoptions_base ||| ftsoptions_added o) &&& FTS_COMFOLLOW ≠ 0 ↔
      o.symlink_handling ≠ SymlinkOption.SYMLINK_NEVER_DEREF) ∧
    ((ftsoptions_base ||| ftsoptions_added o) &&& FTS_XDEV ≠ 0 ↔
      o.stay_on_filesystem = true) ∧
    (ftsoptions_base ||| ftsoptions_added o) &&& ftsoptions_base = ftsoptions_base := by
  unfold ftsoptions_added
  cases hp : o.symlink_handling <;> cases hs : o.stay_on_filesystem <;> decide

/-- C18: starting from the base set FTS_NOSTAT|FTS_TIGHT_CYCLE_CHECK|FTS_CWDFD|
FTS_VERBATIM, after one or more calls of find under fixed options the walker
options are the base set together with FTS_COMFOLLOW|FTS_LOGICAL for
SYMLINK_ALWAYS_DEREF, FTS_COMFOLLOW|FTS_PHYSICAL for SYMLINK_DEREF_ARGSONLY and
FTS_PHYSICAL for SYMLINK_NEVER_DEREF, and with FTS_XDEV exactly when
options.stay_on_filesystem is set; so they hold exactly one of FTS_LOGICAL and
FTS_PHYSICAL. -/
theorem find_maps_symlink_policy (env : find_env) (o : options) (st : state)
    (args : List CStr) (hbase : st.ftsoptions = ftsoptions_base) (hne : args ≠ []) :
    (find_calls env o st args).ftsoptions =
      ftsoptions_base |||
        ((match o.symlink_handling with
          | SymlinkOption.SYMLINK_ALWAYS_DEREF => FTS_COMFOLLOW ||| FTS_LOGICAL
          | SymlinkOption.SYMLINK_DEREF_ARGSONLY => FTS_COMFOLLOW ||| FTS_PHYSICAL
          | SymlinkOption.SYMLINK_NEVER_DEREF => FTS_PHYSICAL)
        ||| (if o.stay_on_filesystem then FTS_XDEV else 0)) ∧
    ((find_calls env o st args).ftsoptions &&& FTS_LOGICAL ≠ 0 ↔
      o.symlink_handling = SymlinkOption.SYMLINK_ALWAYS_DEREF) ∧
    ((find_calls env o st args).ftsoptions &&& FTS_PHYSICAL ≠ 0 ↔
      o.symlink_handling ≠ SymlinkOption.SYMLINK_ALWAYS_DEREF) ∧
    ((find_calls env o st args).ftsoptions &&& FTS_LOGICAL ≠ 0 ↔
      ¬ (find_calls env o st args).ftsoptions &&& FTS_PHYSICAL ≠ 0) ∧
    ((find_calls env o st args).ftsoptions &&& FTS_COMFOLLOW ≠ 0 ↔
      o.symlink_handling ≠ SymlinkOption.SYMLINK_NEVER_DEREF) ∧
    ((find_calls env o st args).ftsoptions &&& FTS_XDEV ≠ 0 ↔ o.stay_on_filesystem = true) ∧
    (find_calls env o st args).ftsoptions &&& ftsoptions_base = ftsoptions_base := by
  have h := find_calls_ftsoptions env o args st
  rw [if_neg hne, hbase] at h
  have hb := ftsoptions_added_bits o
  rw [h]
  refine ⟨rfl, hb.1, hb.2.1, ?_, hb.2.2.1, hb.2.2.2.1, hb.2.2.2.2⟩
  rw [hb.1, hb.2.1, not_not]

theorem find_maps_symlink_policy_witness :
    (find_calls loop_scenario_env loop_scenario_options {} ["a".toList, "a".toList]).ftsoptions
      = FTS_NOSTAT ||| FTS_TIGHT_CYCLE_CHECK ||| FTS_CWDFD ||| FTS_VERBATIM |||
        FTS_COMFOLLOW ||| FTS_LOGICAL ∧
    (find_calls loop_scenario_env loop_scenario_options {}
      ["a".toList, "a".toList]).ftsoptions &&& FTS_PHYSICAL = 0 :=
  ⟨(find_maps_symlink_policy loop_scenario_env loop_scenario_options {}
      ["a".toList, "a".toList] rfl (by decide)).1.trans (by decide),
    by
      have h := (find_maps_symlink_policy loop_scenario_env loop_scenario_options {}
        ["a".toList, "a".toList] rfl (by decide)).2.2.1
      by_contra hc
      exact h.mp hc rfl⟩

theorem nonfatal_target_file_error_entry_events (errno_value : Nat) (name : CStr)
    (st : state) :
    (nonfatal_target_file_error errno_value name st).2.all is_entry_event = true := by
  unfold nonfatal_target_file_error
  split <;> rfl

theorem consider_visiting_errors_entry_events (env : find_env) (o : options) (st : state)
    (ent : FTSENT) :
    (consider_visiting_errors env o st ent).2.2.all is_entry_event = true := by
  have hn := nonfatal_target_file_error_entry_events
  have hl : (issue_loop_warning ent).all is_entry_event = true := by
    unfold issue_loop_warning
    split <;> rfl
  unfold consider_visiting_errors
  repeat' split
  all_goals first
    | rfl
    | exact hn _ _ _
    | exact hl

theorem consider_visiting_usual_entry_events (st : state) (ent : FTSENT) :
    (consider_visiting_usual st ent).2.2.all is_entry_event = true := by
  unfold consider_visiting_usual
  repeat' split
  all_goals rfl

theorem consider_visiting_digest_entry_events (env : find_env) (st : state) (ent : FTSENT)
    (mode : Nat) :
    (consider_visiting_digest env st ent mode).2.2.all is_entry_event = true := by
  have hn := nonfatal_target_file_error_entry_events
  unfold consider_visiting_digest
  split
  · rfl
  · exact hn _ _ _
  · simp only []
    split <;> rfl

theorem consider_visiting_early_entry_events (env : find_env) (o : options) (st : state)
    (ent : FTSENT) :
    (consider_visiting_early env o st ent).2.2.all is_entry_event = true := by
  unfold consider_visiting_early
  simp only []
  split
  · exact nonfatal_target_file_error_entry_events _ _ _
  · split
    · exact consider_visiting_errors_entry_events env o _ ent
    · simp only [List.all_append, consider_visiting_errors_entry_events,
        consider_visiting_usual_entry_events, consider_visiting_digest_entry_events,
        Bool.and_self]

theorem consider_visiting_late_entry_events (env : find_env) (o : options) (st : state)
    (ent : FTSENT) :
    (consider_visiting_late env o st ent).2.all is_entry_event = true := by
  have hv : (visit env o st ent).2.all is_entry_event = true := by
    unfold visit
    simp only []
    split <;> rfl
  unfold consider_visiting_late
  simp only [List.all_append, Bool.and_eq_true]
  constructor
  · split <;> rfl
  · split
    · exact hv
    · rfl

theorem consider_visiting_entry_events (env : find_env) (o : options) (st : state)
    (ent : FTSENT) :
    (consider_visiting env o st ent).2.all is_entry_event = true := by
  rcases consider_visiting_events env o st ent with ⟨_, hc⟩ | ⟨_, hc⟩
  · rw [hc]
    exact consider_visiting_early_entry_events env o st ent
  · rw [hc]
    simp only [List.all_append, consider_visiting_early_entry_events,
      consider_visiting_late_entry_events, Bool.and_self]

theorem level_after_getLast (pre : List FTSENT) :
    ∀ level : Int, level_after level pre = (pre.getLast?.map FTSENT.fts_level).getD level := by
  induction pre with
  | nil => intro level; rfl
  | cons e rest ih =>
    intro level
    rw [level_after, ih]
    cases rest with
    | nil => rfl
    | cons e2 rest2 => rw [List.getLast?_cons_cons]; rfl

theorem find_loop_append (env : find_env) (o : options) (pre rest : List FTSENT) :
    ∀ (st : state) (level : Int),
      find_loop env o st level (pre ++ rest) =
        ((find_loop env o (find_loop env o st level pre).1 (level_after level pre) rest).1,
          (find_loop env o st level pre).2 ++
            (find_loop env o (find_loop env o st level pre).1 (level_after level pre) rest).2) := by
  induction pre with
  | nil => intro st level; rfl
  | cons e pre ih =>
    intro st level
    rw [List.cons_append, find_loop, find_loop, level_after]
    simp only []
    rw [ih]
    simp only [List.append_assoc]

theorem find_loop_cons_events (env : find_env) (o : options) (st : state) (level : Int)
    (ent : FTSENT) (rest : List FTSENT) :
    ∃ st2, find_loop env o st level (ent :: rest) =
      ((find_loop env o (consider_visiting env o st2 ent).1 ent.fts_level rest).1,
        (if (st.execdirs_outstanding && decide (ent.fts_level ≠ level)) = true then
            [event.complete_pending_execdirs] else []) ++
          (consider_visiting env o st2 ent).2 ++
          (find_loop env o (consider_visiting env o st2 ent).1 ent.fts_level rest).2) := by
  rw [find_loop]
  exact ⟨_, rfl⟩

/-- C19: in the loop of find, when an entry is read after the entries `pre`
(with levels above INT_MIN, as the walker gives them), then
complete_pending_execdirs is called before the entry is considered exactly when
state.execdirs_outstanding is true at that moment and the level of the entry
differs from the level of the entry read before it, or there is none before
it; otherwise the loop goes straight from the events of the earlier entries to
consider_visiting, which never calls it. -/
theorem execdirs_completed_on_level_change (env : find_env) (o : options) (st : state)
    (pre : List FTSENT) (ent : FTSENT) (rest : List FTSENT)
    (hlevel : INT_MIN < ent.fts_level) :
    ∃ st2,
      event.complete_pending_execdirs ∉ (consider_visiting env o st2 ent).2 ∧
      (((find_loop env o st INT_MIN pre).1.execdirs_outstanding = true ∧
          (∀ prev, pre.getLast? = some prev → ent.fts_level ≠ prev.fts_level)) →
        (find_loop env o st INT_MIN (pre ++ ent :: rest)).2 =
          (find_loop env o st INT_MIN pre).2 ++ [event.complete_pending_execdirs] ++
            (consider_visiting env o st2 ent).2 ++
            (find_loop env o (consider_visiting env o st2 ent).1 ent.fts_level rest).2) ∧
      (¬ ((find_loop env o st INT_MIN pre).1.execdirs_outstanding = true ∧
          (∀ prev, pre.getLast? = some prev → ent.fts_level ≠ prev.fts_level)) →
        (find_loop env o st INT_MIN (pre ++ ent :: rest)).2 =
          (find_loop env o st INT_MIN pre).2 ++ (consider_visiting env o st2 ent).2 ++
            (find_loop env o (consider_visiting env o st2 ent).1 ent.fts_level rest).2) := by
  have hcv : ∀ st2, event.complete_pending_execdirs ∉ (consider_visiting env o st2 ent).2 := by
    intro st2 hmem
    have := List.all_eq_true.mp (consider_visiting_entry_events env o st2 ent) _ hmem
    cases this
  have hiff : ((find_loop env o st INT_MIN pre).1.execdirs_outstanding &&
        decide (ent.fts_level ≠ level_after INT_MIN pre)) = true ↔
      ((find_loop env o st INT_MIN pre).1.execdirs_outstanding = true ∧
        (∀ prev, pre.getLast? = some prev → ent.fts_level ≠ prev.fts_level)) := by
    rw [Bool.and_eq_true, decide_eq_true_eq, level_after_getLast]
    cases hl : pre.getLast? with
    | none =>
      constructor
      · rintro ⟨h1, _⟩
        exact ⟨h1, fun prev hp => by cases hp⟩
      · rintro ⟨h1, _⟩
        refine ⟨h1, ?_⟩
        show ent.fts_level ≠ INT_MIN
        omega
    | some prev =>
      constructor
      · rintro ⟨h1, h2⟩
        refine ⟨h1, fun p hp => ?_⟩
        cases hp
        exact h2
      · rintro ⟨h1, h2⟩
        exact ⟨h1, h2 prev rfl⟩
  obtain ⟨st2, hstep⟩ := find_loop_cons_events env o (find_loop env o st INT_MIN pre).1
    (level_after INT_MIN pre) ent rest
  rw [find_loop_append, hstep]
  simp only []
  by_cases hf : ((find_loop env o st INT_MIN pre).1.execdirs_outstanding &&
      decide (ent.fts_level ≠ level_after INT_MIN pre)) = true
  · rw [if_pos hf]
    refine ⟨st2, hcv st2, fun _ => ?_, fun hn => absurd (hiff.mp hf) hn⟩
    simp only [List.append_assoc]
  · rw [if_neg hf]
    refine ⟨st2, hcv st2, fun hc => absurd (hiff.mpr hc) hf, fun _ => ?_⟩
    simp only [List.append_assoc, List.nil_append]

theorem execdirs_completed_on_level_change_witness :
    ∃ st2,
      event.complete_pending_execdirs ∉
        (consider_visiting sample_find_env {} st2 sample_cycle_entry).2 ∧
      (((find_loop sample_find_env {} { execdirs_outstanding := true } INT_MIN
            [sample_dir_entry]).1.execdirs_outstanding = true ∧
          (∀ prev, [sample_dir_entry].getLast? = some prev →
            sample_cycle_entry.fts_level ≠ prev.fts_level)) →
        (find_loop sample_find_env {} { execdirs_outstanding := true } INT_MIN
            ([sample_dir_entry] ++ sample_cycle_entry :: [])).2 =
          (find_loop sample_find_env {} { execdirs_outstanding := true } INT_MIN
              [sample_dir_entry]).2 ++ [event.complete_pending_execdirs] ++
            (consider_visiting sample_find_env {} st2 sample_cycle_entry).2 ++
            (find_loop sample_find_env {} (consider_visiting sample_find_env {} st2
              sample_cycle_entry).1 sample_cycle_entry.fts_level []).2) ∧
      (¬ ((find_loop sample_find_env {} { execdirs_outstanding := true } INT_MIN
            [sample_dir_entry]).1.execdirs_outstanding = true ∧
          (∀ prev, [sample_dir_entry].getLast? = some prev →
            sample_cycle_entry.fts_level ≠ prev.fts_level)) →
        (find_loop sample_find_env {} { execdirs_outstanding := true } INT_MIN
            ([sample_dir_entry] ++ sample_cycle_entry :: [])).2 =
          (find_loop sample_find_env {} { execdirs_outstanding := true } INT_MIN
              [sample_dir_entry]).2 ++
            (consider_visiting sample_find_env {} st2 sample_cycle_entry).2 ++
            (find_loop sample_find_env {} (consider_visiting sample_find_env {} st2
              sample_cycle_entry).1 sample_cycle_entry.fts_level []).2) :=
  execdirs_completed_on_level_change sample_find_env {} { execdirs_outstanding := true }
    [sample_dir_entry] sample_cycle_entry [] (by decide)

/-! ## Properties of process_all_startpoints and main -/

theorem find_returns_true (env : find_env) (o : options) (st : state) (arg : CStr)
    (hwalk : ∀ a flags run, env.fts_open a flags = some run →
      run.read_errno = 0 ∧ run.close_status = 0) :
    (find env o st arg).1 = true := by
  unfold find
  simp only []
  split
  · rfl
  · rename_i run hrun
    obtain ⟨h1, h2⟩ := hwalk _ _ _ hrun
    rw [if_neg (not_not.mpr h1), if_neg (not_not.mpr h2)]

theorem searches_append (a b : List event) : searches (a ++ b) = searches a ++ searches b := by
  unfold searches; exact List.filterMap_append _ _ _

theorem startpoints_from_stream_outcome (env : find_env) (o : options) (st : state) :
    (startpoints_from_stream env o st).outcome = Res.fatal Fatal.files0_error_reading ∨
    ∃ ok, (startpoints_from_stream env o st).outcome = Res.ret ok := by
  unfold startpoints_from_stream
  simp only []
  split
  · exact Or.inl rfl
  · exact Or.inr ⟨_, rfl⟩

theorem argv_starting_points_false (env : find_env) (argv : List CStr)
    (h : argv = [] ∨ ∃ a rest, argv = a :: rest ∧ env.looks_like_expression a true = true) :
    argv_starting_points env argv = false := by
  rcases h with h | ⟨a, rest, h, ha⟩
  · subst h; rfl
  · subst h
    unfold argv_starting_points
    simp only [ha, Bool.not_true]

/-- C21: when options.files0_from is set and the first remaining argument does
not look like an expression, process_all_startpoints ends with the fatal error
about file operands, after the diagnostic that names the operand, with the
state untouched and no starting point handed to the walker.  When there is no
remaining argument, or the first one looks like an expression, it never ends
with that fatal error. -/
theorem files0_from_rejects_operands (env : find_env) (o : options) (st : state)
    (argv : List CStr) (f : CStr) (hf : o.files0_from = some f) :
    (∀ a rest, argv = a :: rest → env.looks_like_expression a true = false →
      (process_all_startpoints env o st argv).outcome = Res.fatal Fatal.files0_with_operands ∧
      (process_all_startpoints env o st argv).st = st ∧
      (process_all_startpoints env o st argv).events =
        [event.error (diagnostic.extra_operand a)] ∧
      searches (process_all_startpoints env o st argv).events = []) ∧
    ((argv = [] ∨ ∃ a rest, argv = a :: rest ∧ env.looks_like_expression a true = true) →
      (process_all_startpoints env o st argv).outcome ≠
        Res.fatal Fatal.files0_with_operands) := by
  have hs := startpoints_from_stream_outcome env o st
  have hrest : ∀ r : run_result,
      (r.outcome = Res.fatal Fatal.files0_error_reading ∨ ∃ ok, r.outcome = Res.ret ok) →
      r.outcome ≠ Res.fatal Fatal.files0_with_operands := by
    intro r hr hc
    rcases hr with h | ⟨ok, h⟩ <;> rw [h] at hc <;> cases hc
  have hno : argv_starting_points env argv = false →
      (process_all_startpoints env o st argv).outcome ≠
        Res.fatal Fatal.files0_with_operands := by
    intro hsp
    unfold process_all_startpoints
    simp only [hf, hsp, Bool.false_eq_true, if_false]
    split
    · split
      · intro h; cases h
      · exact hrest _ hs
    · split
      · intro h; cases h
      · split
        · intro h; cases h
        · exact hrest _ hs
  constructor
  · intro a rest hargv ha
    subst hargv
    have hp : process_all_startpoints env o st (a :: rest) =
        ⟨Res.fatal Fatal.files0_with_operands, st,
          [event.error (diagnostic.extra_operand a)]⟩ := by
      unfold process_all_startpoints argv_starting_points
      simp only [hf, ha, Bool.not_false, if_true, List.headD_cons]
    rw [hp]
    exact ⟨rfl, rfl, rfl, rfl⟩
  · intro h
    exact hno (argv_starting_points_false env argv h)

theorem files0_from_rejects_operands_witness :
    (process_all_startpoints sample_find_env { files0_from := some "list".toList } {}
      ["a".toList, "-print".toList]).outcome = Res.fatal Fatal.files0_with_operands ∧
    (process_all_startpoints sample_find_env { files0_from := some "list".toList } {}
      ["-print".toList]).outcome ≠ Res.fatal Fatal.files0_with_operands :=
  ⟨((files0_from_rejects_operands sample_find_env { files0_from := some "list".toList } {}
      ["a".toList, "-print".toList] "list".toList rfl).1 _ _ rfl rfl).1,
    (files0_from_rejects_operands sample_find_env { files0_from := some "list".toList } {}
      ["-print".toList] "list".toList rfl).2 (Or.inr ⟨_, _, rfl, rfl⟩)⟩

theorem insert_exec_ok_ok_prompt_stdin (env : exec_env) (o : options) (func : PRED_FUNC)
    (argv : Option (List CStr)) (arg_ptr : Nat) (st1 : parse_state)
    (h : insert_exec_ok env o func argv arg_ptr = Res.ret (true, st1)) :
    st1.opts.ok_prompt_stdin = (if allow_plus func = true then o.ok_prompt_stdin else true) := by
  unfold insert_exec_ok at h
  split at h
  · cases h
  · split at h
    · cases h
    · simp only [] at h
      split at h
      · cases h
      · split at h
        · cases h
        · split at h
          · cases h
          · split at h
            · cases h
            · split at h
              · cases h
              · split at h
                · cases h
                · simp only [Res.ret.injEq, Prod.mk.injEq, true_and] at h
                  rw [← h]
                  simp only []
                  split <;> split <;> rfl

/-- C22: the parsers of -ok and -okdir leave options.ok_prompt_stdin set
whenever they accept their arguments, and the parsers of -exec and -execdir
leave it as it was.  With -files0-from given the argument "-":
if ok_prompt_stdin is set, process_all_startpoints ends with a fatal error
with the state untouched, no event and no name taken from the stream, whatever
the stream holds; if it is not set and no starting point is given on the
command line, it goes on to read the names from the stream. -/
theorem files0_from_stdin_rejects_ok (xenv : exec_env) (env : find_env) (o : options)
    (st : state) (argv : List CStr) (hf : o.files0_from = some "-".toList) :
    (∀ l i st1, parse_ok xenv o l i = Res.ret (true, st1) →
      st1.opts.ok_prompt_stdin = true) ∧
    (∀ l i st1, parse_okdir xenv o l i = Res.ret (true, st1) →
      st1.opts.ok_prompt_stdin = true) ∧
    (∀ l i st1, parse_exec xenv o l i = Res.ret (true, st1) →
      st1.opts.ok_prompt_stdin = o.ok_prompt_stdin) ∧
    (∀ l i st1, parse_execdir xenv o l i = Res.ret (true, st1) →
      st1.opts.ok_prompt_stdin = o.ok_prompt_stdin) ∧
    (o.ok_prompt_stdin = true →
      (∃ e, (process_all_startpoints env o st argv).outcome = Res.fatal e) ∧
      (process_all_startpoints env o st argv).st = st ∧
      searches (process_all_startpoints env o st argv).events = [] ∧
      ((argv = [] ∨ ∃ a rest, argv = a :: rest ∧ env.looks_like_expression a true = true) →
        (process_all_startpoints env o st argv).outcome =
          Res.fatal Fatal.files0_stdin_with_ok ∧
        (process_all_startpoints env o st argv).events = [])) ∧
    (o.ok_prompt_stdin = false →
      (argv = [] ∨ ∃ a rest, argv = a :: rest ∧ env.looks_like_expression a true = true) →
      (process_all_startpoints env o st argv).outcome =
        (startpoints_from_stream env o st).outcome ∧
      (process_all_startpoints env o st argv).events =
        (startpoints_from_stream env o st).events ∧
      (process_all_startpoints env o st argv).outcome ≠
        Res.fatal Fatal.files0_stdin_with_ok) := by
  have hsp := argv_starting_points_false env argv
  refine ⟨?_, ?_, ?_, ?_, ?_, ?_⟩
  · intro l i st1 h
    exact insert_exec_ok_ok_prompt_stdin xenv o _ l i st1 h
  · intro l i st1 h
    exact insert_exec_ok_ok_prompt_stdin xenv o _ l i st1 h
  · intro l i st1 h
    exact insert_exec_ok_ok_prompt_stdin xenv o _ l i st1 h
  · intro l i st1 h
    exact insert_exec_ok_ok_prompt_stdin xenv o _ l i st1 h
  · intro hok
    have hcases : (process_all_startpoints env o st argv =
          ⟨Res.fatal Fatal.files0_with_operands, st,
            [event.error (diagnostic.extra_operand (argv.headD []))]⟩ ∧
          argv_starting_points env argv = true) ∨
        (process_all_startpoints env o st argv =
          ⟨Res.fatal Fatal.files0_stdin_with_ok, st, []⟩ ∧
          argv_starting_points env argv = false) := by
      unfold process_all_startpoints
      simp only [hf, hok, if_true]
      split
      · rename_i h
        exact Or.inl ⟨rfl, h⟩
      · rename_i h
        exact Or.inr ⟨rfl, by simpa using h⟩
    rcases hcases with ⟨hp, hs⟩ | ⟨hp, _⟩
    · rw [hp]
      refine ⟨⟨_, rfl⟩, rfl, rfl, ?_⟩
      intro hno
      rw [hsp hno] at hs
      cases hs
    · rw [hp]
      exact ⟨⟨_, rfl⟩, rfl, rfl, fun _ => ⟨rfl, rfl⟩⟩
  · intro hok hno
    have hp : process_all_startpoints env o st argv = startpoints_from_stream env o st := by
      unfold process_all_startpoints
      simp only [hf, hsp hno, hok, Bool.false_eq_true, if_false, if_true]
    rw [hp]
    refine ⟨rfl, rfl, ?_⟩
    intro hc
    rcases startpoints_from_stream_outcome env o st with h | ⟨ok, h⟩ <;> rw [h] at hc <;>
      cases hc

theorem files0_from_stdin_rejects_ok_witness :
    (match parse_ok sample_env { files0_from := some "-".toList }
        (some [echo, braces, semicolon]) 0 with
      | Res.ret (true, st1) => st1.opts.ok_prompt_stdin
      | _ => false) = true ∧
    (process_all_startpoints sample_find_env
      { files0_from := some "-".toList, ok_prompt_stdin := true } {}
      ["-ok".toList, echo, braces, semicolon]).outcome =
        Res.fatal Fatal.files0_stdin_with_ok :=
  ⟨by decide,
    (((files0_from_stdin_rejects_ok sample_env sample_find_env
      { files0_from := some "-".toList, ok_prompt_stdin := true } {}
      ["-ok".toList, echo, braces, semicolon] rfl).2.2.2.2.1 rfl).2.2.2
      (Or.inr ⟨_, _, rfl, rfl⟩)).1⟩

/-! ## The exit status -/

theorem exit_status_sticky_refl (st : state) : exit_status_sticky st st := Or.inl rfl

theorem exit_status_sticky_of_eq (a b : state) (h : b.exit_status = a.exit_status) :
    exit_status_sticky a b := Or.inl h

theorem exit_status_sticky_trans (a b c : state) (h1 : exit_status_sticky a b)
    (h2 : exit_status_sticky b c) : exit_status_sticky a c := by
  unfold exit_status_sticky at *
  rcases h2 with h2 | h2
  · rcases h1 with h1 | h1
    · exact Or.inl (h2.trans h1)
    · exact Or.inr (h2.trans h1)
  · exact Or.inr h2

theorem nonfatal_target_file_error_sticky (errno_value : Nat) (name : CStr) (st : state) :
    exit_status_sticky st (nonfatal_target_file_error errno_value name st).1 := by
  unfold nonfatal_target_file_error
  split
  · exact Or.inl rfl
  · exact Or.inr rfl

theorem consider_visiting_errors_sticky (env : find_env) (o : options) (st : state)
    (ent : FTSENT) :
    exit_status_sticky st (consider_visiting_errors env o st ent).2.1 := by
  have hn := nonfatal_target_file_error_sticky
  unfold consider_visiting_errors
  repeat' split
  all_goals first
    | exact Or.inl rfl
    | exact Or.inr rfl
    | exact hn _ _ _

theorem consider_visiting_usual_sticky (st : state) (ent : FTSENT) :
    exit_status_sticky st (consider_visiting_usual st ent).2.1 := by
  unfold consider_visiting_usual
  split <;> exact Or.inl rfl

theorem consider_visiting_digest_sticky (env : find_env) (st : state) (ent : FTSENT)
    (mode : Nat) :
    exit_status_sticky st (consider_visiting_digest env st ent mode).2.1 := by
  have hn := nonfatal_target_file_error_sticky
  unfold consider_visiting_digest
  split
  · exact Or.inl rfl
  · exact hn _ _ _
  · simp only []
    split <;> exact Or.inl rfl

theorem consider_visiting_early_sticky (env : find_env) (o : options) (st : state)
    (ent : FTSENT) :
    exit_status_sticky st (consider_visiting_early env o st ent).2.1 := by
  have hf : exit_status_sticky st (consider_visiting_enter env st ent) :=
    Or.inl (consider_visiting_enter_frame env st ent).1
  unfold consider_visiting_early
  simp only []
  split
  · exact exit_status_sticky_trans _ _ _ hf (nonfatal_target_file_error_sticky _ _ _)
  · split
    · exact exit_status_sticky_trans _ _ _ hf (consider_visiting_errors_sticky env o _ ent)
    · refine exit_status_sticky_trans _ _ _ hf ?_
      refine exit_status_sticky_trans _ _ _ (consider_visiting_errors_sticky env o _ ent) ?_
      refine exit_status_sticky_trans _ _ _
        (consider_visiting_usual_sticky (consider_visiting_errors env o _ ent).2.1 ent) ?_
      exact consider_visiting_digest_sticky env
        { (consider_visiting_usual (consider_visiting_errors env o _ ent).2.1 ent).2.1 with
          curdepth := ent.fts_level } ent _

theorem visit_sticky (env : find_env) (o : options) (st : state) (ent : FTSENT) :
    exit_status_sticky st (visit env o st ent).1 := by
  unfold visit
  simp only []
  split
  · show exit_status_sticky st { st with exit_status := _ }
    unfold exit_status_sticky
    simp only []
    split
    · exact Or.inr rfl
    · exact Or.inl rfl
  · show exit_status_sticky st { st with exit_status := _ }
    unfold exit_status_sticky
    simp only []
    split
    · exact Or.inr rfl
    · exact Or.inl rfl

theorem consider_visiting_late_sticky (env : find_env) (o : options) (st : state)
    (ent : FTSENT) :
    exit_status_sticky st (consider_visiting_late env o st ent).1 := by
  have hv := visit_sticky env o st ent
  unfold consider_visiting_late
  simp only []
  split
  · split
    · exact hv
    · exact Or.inl rfl
  · split
    · exact hv
    · exact Or.inl rfl

theorem consider_visiting_sticky (env : find_env) (o : options) (st : state) (ent : FTSENT) :
    exit_status_sticky st (consider_visiting env o st ent).1 := by
  rcases consider_visiting_events env o st ent with ⟨_, hc⟩ | ⟨_, hc⟩
  · rw [hc]
    exact consider_visiting_early_sticky env o st ent
  · rw [hc]
    exact exit_status_sticky_trans _ _ _ (consider_visiting_early_sticky env o st ent)
      (consider_visiting_late_sticky env o _ ent)

theorem complete_pending_execdirs_sticky (env : find_env) (st : state) :
    exit_status_sticky st (complete_pending_execdirs env st) := by
  unfold complete_pending_execdirs exit_status_sticky
  split
  · simp only []
    split
    · exact Or.inr rfl
    · exact Or.inl rfl
  · exact Or.inl rfl

theorem find_loop_sticky (env : find_env) (o : options) (entries : List FTSENT) :
    ∀ (st : state) (level : Int),
      exit_status_sticky st (find_loop env o st level entries).1 := by
  induction entries with
  | nil => intro st level; exact Or.inl rfl
  | cons ent rest ih =>
    intro st level
    rw [find_loop]
    simp only []
    refine exit_status_sticky_trans _ _ _ ?_ (ih _ _)
    refine exit_status_sticky_trans _ _ _ ?_ (consider_visiting_sticky env o _ ent)
    by_cases hf : (st.execdirs_outstanding && decide (ent.fts_level ≠ level)) = true
    · simp only [hf, if_true]
      exact complete_pending_execdirs_sticky env st
    · simp only [hf, Bool.false_eq_true, if_false]
      exact Or.inl rfl

theorem find_sticky (env : find_env) (o : options) (st : state) (arg : CStr) :
    exit_status_sticky st (find env o st arg).2.1 := by
  have hi := (inside_dir_frame env { st with starting_path_length := arg.length }
    AT_FDCWD).1
  have hst3 : ∀ (st1 : state) (p : Nat), st1.exit_status = st.exit_status →
      exit_status_sticky st
        (if o.stay_on_filesystem = true then
          ({ ({ st1 with ftsoptions := st1.ftsoptions ||| p } : state) with
              ftsoptions := (st1.ftsoptions ||| p) ||| FTS_XDEV } : state)
         else { st1 with ftsoptions := st1.ftsoptions ||| p }) := by
    intro st1 p h1
    split <;> exact Or.inl h1
  have hl := find_loop_sticky env o
  unfold find
  simp only []
  split
  · exact Or.inr rfl
  · split
    · exact Or.inr rfl
    · split
      · exact Or.inr rfl
      · exact exit_status_sticky_trans _ _ _ (hst3 _ _ hi) (hl _ _ _)

theorem startpoints_loop_sticky (env : find_env) (o : options)
    (from_files0 read_error : Bool) (names : List CStr) :
    ∀ (st : state) (ok : Bool),
      exit_status_sticky st
        (startpoints_loop env o from_files0 read_error st ok names).2.1 := by
  induction names with
  | nil =>
    intro st ok
    rw [startpoints_loop]
    split
    · exact Or.inr rfl
    · exact Or.inl rfl
  | cons name rest ih =>
    intro st ok
    rw [startpoints_loop]
    split
    · rcases ih { st with exit_status := EXIT_FAILURE } false with h | h
      · exact Or.inr h
      · exact Or.inr h
    · split
      · exact Or.inl rfl
      · simp only []
        have hf : exit_status_sticky st
            (find env o { st with starting_path_length := name.length } name).2.1 :=
          find_sticky env o { st with starting_path_length := name.length } name
        split
        · exact exit_status_sticky_trans _ _ _ hf (ih _ _)
        · exact hf

theorem process_all_startpoints_sticky (env : find_env) (o : options) (st : state)
    (argv : List CStr) :
    exit_status_sticky st (process_all_startpoints env o st argv).st := by
  have hs : exit_status_sticky st (startpoints_from_stream env o st).st := by
    unfold startpoints_from_stream
    simp only []
    split <;> exact startpoints_loop_sticky env o _ _ _ _ _
  unfold process_all_startpoints
  split
  · split
    · exact Or.inl rfl
    · split
      · split
        · exact Or.inl rfl
        · exact hs
      · split
        · exact Or.inl rfl
        · split
          · exact Or.inl rfl
          · exact hs
  · split
    · exact find_sticky env o _ _
    · exact startpoints_loop_sticky env o _ _ _ _ _

theorem cleanup_sticky (env : find_env) (st : state) :
    exit_status_sticky st (cleanup env st) := by
  unfold cleanup exit_status_sticky
  simp only []
  split
  · exact Or.inr rfl
  · exact Or.inl rfl

theorem exit_status_sticky_ne_zero (a b : state) (h : exit_status_sticky a b)
    (ha : a.exit_status ≠ EXIT_SUCCESS) : b.exit_status ≠ EXIT_SUCCESS := by
  rcases h with h | h
  · rw [h]; exact ha
  · rw [h]; decide

/-- C24: the exit status is sticky.  Each of left_dir, inside_dir, visit,
consider_visiting, find and process_all_startpoints leaves state.exit_status as
it was or sets it to EXIT_FAILURE, so once it is not 0 it stays so.  The run of
main starts from EXIT_SUCCESS, returns the state.exit_status that
process_all_startpoints and cleanup leave, and therefore returns a status other
than 0 whenever the search of the starting points left one. -/
theorem exit_status_is_sticky (env : find_env) (o : options) (st : state) :
    exit_status_sticky st (left_dir st) ∧
    (∀ dir_fd, exit_status_sticky st (inside_dir env st dir_fd)) ∧
    (∀ ent, exit_status_sticky st (visit env o st ent).1) ∧
    (∀ ent, exit_status_sticky st (consider_visiting env o st ent).1) ∧
    (∀ arg, exit_status_sticky st (find env o st arg).2.1) ∧
    (∀ argv, exit_status_sticky st (process_all_startpoints env o st argv).st) ∧
    (st.exit_status ≠ EXIT_SUCCESS →
      (left_dir st).exit_status ≠ EXIT_SUCCESS ∧
      (∀ dir_fd, (inside_dir env st dir_fd).exit_status ≠ EXIT_SUCCESS) ∧
      (∀ ent, (visit env o st ent).1.exit_status ≠ EXIT_SUCCESS) ∧
      (∀ ent, (consider_visiting env o st ent).1.exit_status ≠ EXIT_SUCCESS) ∧
      (∀ arg, (find env o st arg).2.1.exit_status ≠ EXIT_SUCCESS) ∧
      (∀ argv, (process_all_startpoints env o st argv).st.exit_status ≠ EXIT_SUCCESS)) ∧
    (∀ argv status, (main env o argv).1 = Res.ret status →
      (status = (process_all_startpoints env o {} argv).st.exit_status ∨
        status = (cleanup env (process_all_startpoints env o {} argv).st).exit_status) ∧
      (status = EXIT_SUCCESS ∨ status = EXIT_FAILURE) ∧
      ((process_all_startpoints env o {} argv).st.exit_status ≠ EXIT_SUCCESS →
        status ≠ EXIT_SUCCESS)) := by
  have h1 : exit_status_sticky st (left_dir st) := Or.inl (left_dir_frame st).1
  have h2 : ∀ dir_fd, exit_status_sticky st (inside_dir env st dir_fd) :=
    fun dir_fd => Or.inl (inside_dir_frame env st dir_fd).1
  have h3 := visit_sticky env o st
  have h4 := consider_visiting_sticky env o st
  have h5 := find_sticky env o st
  have h6 := process_all_startpoints_sticky env o st
  refine ⟨h1, h2, h3, h4, h5, h6, ?_, ?_⟩
  · intro hne
    exact ⟨exit_status_sticky_ne_zero _ _ h1 hne,
      fun x => exit_status_sticky_ne_zero _ _ (h2 x) hne,
      fun x => exit_status_sticky_ne_zero _ _ (h3 x) hne,
      fun x => exit_status_sticky_ne_zero _ _ (h4 x) hne,
      fun x => exit_status_sticky_ne_zero _ _ (h5 x) hne,
      fun x => exit_status_sticky_ne_zero _ _ (h6 x) hne⟩
  · intro argv status hm
    have hp := process_all_startpoints_sticky env o {} argv
    have hc := cleanup_sticky env (process_all_startpoints env o {} argv).st
    have hpc := exit_status_sticky_trans _ _ _ hp hc
    unfold main at hm
    simp only [] at hm
    split at hm
    · cases hm
    · simp only [Res.ret.injEq] at hm
      subst hm
      refine ⟨Or.inr rfl, ?_, fun hne => exit_status_sticky_ne_zero _ _ hc hne⟩
      rcases hpc with h | h
      · exact Or.inl h
      · exact Or.inr h
    · simp only [Res.ret.injEq] at hm
      subst hm
      refine ⟨Or.inl rfl, ?_, fun hne => hne⟩
      rcases hp with h | h
      · exact Or.inl h
      · exact Or.inr h

theorem exit_status_is_sticky_witness :
    ({ exit_status := EXIT_FAILURE } : state).exit_status ≠ EXIT_SUCCESS ∧
    (find loop_scenario_env loop_scenario_options { exit_status := EXIT_FAILURE }
      "a".toList).2.1.exit_status ≠ EXIT_SUCCESS :=
  ⟨by decide,
    ((exit_status_is_sticky loop_scenario_env loop_scenario_options
      { exit_status := EXIT_FAILURE }).2.2.2.2.2.2.1 (by decide)).2.2.2.2.1 _⟩

/-! ## The loop over the starting points -/

theorem startpoint_trace_append (a b : List event) :
    startpoint_trace (a ++ b) = startpoint_trace a ++ startpoint_trace b := by
  unfold startpoint_trace; exact List.filterMap_append _ _ _

theorem nonfatal_target_file_error_trace (errno_value : Nat) (name : CStr) (st : state) :
    startpoint_trace (nonfatal_target_file_error errno_value name st).2 = [] := by
  unfold nonfatal_target_file_error
  split <;> rfl

theorem consider_visiting_errors_trace (env : find_env) (o : options) (st : state)
    (ent : FTSENT) :
    startpoint_trace (consider_visiting_errors env o st ent).2.2 = [] := by
  have hn := nonfatal_target_file_error_trace
  have hl : startpoint_trace (issue_loop_warning ent) = [] := by
    unfold issue_loop_warning
    split <;> rfl
  unfold consider_visiting_errors
  repeat' split
  all_goals first
    | rfl
    | exact hn _ _ _
    | exact hl

theorem consider_visiting_usual_trace (st : state) (ent : FTSENT) :
    startpoint_trace (consider_visiting_usual st ent).2.2 = [] := by
  unfold consider_visiting_usual
  repeat' split
  all_goals rfl

theorem consider_visiting_digest_trace (env : find_env) (st : state) (ent : FTSENT)
    (mode : Nat) :
    startpoint_trace (consider_visiting_digest env st ent mode).2.2 = [] := by
  have hn := nonfatal_target_file_error_trace
  unfold consider_visiting_digest
  split
  · rfl
  · exact hn _ _ _
  · simp only []
    split <;> rfl

theorem consider_visiting_early_trace (env : find_env) (o : options) (st : state)
    (ent : FTSENT) :
    startpoint_trace (consider_visiting_early env o st ent).2.2 = [] := by
  unfold consider_visiting_early
  simp only []
  split
  · exact nonfatal_target_file_error_trace _ _ _
  · split
    · exact consider_visiting_errors_trace env o _ ent
    · simp only [startpoint_trace_append, consider_visiting_errors_trace,
        consider_visiting_usual_trace, consider_visiting_digest_trace, List.append_nil]

theorem consider_visiting_late_trace (env : find_env) (o : options) (st : state)
    (ent : FTSENT) :
    startpoint_trace (consider_visiting_late env o st ent).2 = [] := by
  have hv : startpoint_trace (visit env o st ent).2 = [] := by
    unfold visit
    simp only []
    split <;> rfl
  have hs : ∀ (c : Prop) (_ : Decidable c), startpoint_trace
      (if c then [event.fts_set ent.fts_path FTS_INSTR.FTS_SKIP] else []) = [] := by
    intro c _; split <;> rfl
  unfold consider_visiting_late
  simp only [startpoint_trace_append, hs, List.nil_append]
  split
  · exact hv
  · rfl

theorem consider_visiting_trace (env : find_env) (o : options) (st : state)
    (ent : FTSENT) :
    startpoint_trace (consider_visiting env o st ent).2 = [] := by
  rcases consider_visiting_events env o st ent with ⟨_, hc⟩ | ⟨_, hc⟩
  · rw [hc]
    exact consider_visiting_early_trace env o st ent
  · rw [hc]
    simp only [startpoint_trace_append, consider_visiting_early_trace,
      consider_visiting_late_trace, List.append_nil]

theorem find_loop_trace (env : find_env) (o : options) (entries : List FTSENT) :
    ∀ (st : state) (level : Int),
      startpoint_trace (find_loop env o st level entries).2 = [] := by
  induction entries with
  | nil => intro st level; rfl
  | cons ent rest ih =>
    intro st level
    obtain ⟨st2, hstep⟩ := find_loop_cons_events env o st level ent rest
    rw [hstep]
    simp only [startpoint_trace_append, consider_visiting_trace, ih, List.append_nil]
    split <;> rfl

theorem find_trace (env : find_env) (o : options) (st : state) (arg : CStr) :
    startpoint_trace (find env o st arg).2.2 = [some arg] := by
  have hl := find_loop_trace env o
  have hc : ∀ (x : event) (l : List event), startpoint_trace (x :: l) =
      startpoint_trace [x] ++ startpoint_trace l := fun x l => startpoint_trace_append [x] l
  unfold find
  simp only []
  split
  · rfl
  · split
    · rw [List.cons_append, hc, startpoint_trace_append, hl]
      rfl
    · split
      · rw [List.cons_append, hc, startpoint_trace_append, hl]
        rfl
      · rw [hc, hl]
        rfl

theorem startpoints_loop_not_ok (env : find_env) (o : options) (from_files0 read_error : Bool)
    (names : List CStr) :
    ∀ st : state, (startpoints_loop env o from_files0 read_error st false names).1 = false := by
  induction names with
  | nil =>
    intro st
    rw [startpoints_loop]
    split <;> rfl
  | cons name rest ih =>
    intro st
    rw [startpoints_loop]
    split
    · exact ih _
    · split
      · rfl
      · simp only []
        split
        · exact ih _
        · rfl

theorem startpoints_loop_trace (env : find_env) (o : options) (from_files0 read_error : Bool)
    (hwalk : ∀ a flags run, env.fts_open a flags = some run →
      run.read_errno = 0 ∧ run.close_status = 0) (names : List CStr) :
    ∀ (st : state) (ok : Bool),
      startpoint_trace (startpoints_loop env o from_files0 read_error st ok names).2.2 =
        (names_taken_up env from_files0 names).map (fun n => if n = [] then none else some n) ∧
      ([] ∈ names_taken_up env from_files0 names →
        (startpoints_loop env o from_files0 read_error st ok names).1 = false ∧
        (startpoints_loop env o from_files0 read_error st ok names).2.1.exit_status =
          EXIT_FAILURE) := by
  induction names with
  | nil =>
    intro st ok
    rw [startpoints_loop]
    refine ⟨?_, fun h => (by cases h)⟩
    split <;> rfl
  | cons name rest ih =>
    intro st ok
    rw [startpoints_loop]
    by_cases hn : name = []
    · subst hn
      rw [if_pos rfl]
      have ht : names_taken_up env from_files0 ([] :: rest) =
          [] :: names_taken_up env from_files0 rest := by
        unfold names_taken_up
        rw [List.takeWhile_cons_of_pos (by simp)]
      rw [ht]
      refine ⟨?_, fun _ => ⟨startpoints_loop_not_ok env o _ _ rest _, ?_⟩⟩
      · show startpoint_trace ([event.error diagnostic.empty_file_name] ++ _) = _
        rw [startpoint_trace_append, (ih _ _).1]
        rfl
      · rcases startpoints_loop_sticky env o from_files0 read_error rest
          { st with exit_status := EXIT_FAILURE } false with h | h
        · exact h
        · exact h
    · rw [if_neg hn]
      by_cases hs : from_files0 = false ∧ env.looks_like_expression name true = true
      · rw [if_pos hs]
        have ht : names_taken_up env from_files0 (name :: rest) = [] := by
          unfold names_taken_up
          rw [List.takeWhile_cons_of_neg]
          simp [hn, hs.1, hs.2]
        rw [ht]
        exact ⟨rfl, fun h => (by cases h)⟩
      · rw [if_neg hs]
        have ht : names_taken_up env from_files0 (name :: rest) =
            name :: names_taken_up env from_files0 rest := by
          unfold names_taken_up
          rw [List.takeWhile_cons_of_pos]
          cases hff : from_files0 with
          | true => simp
          | false =>
            cases hl : env.looks_like_expression name true with
            | true => exact absurd ⟨hff, hl⟩ hs
            | false => simp
        rw [ht]
        simp only []
        rw [if_pos (find_returns_true env o _ _ hwalk)]
        refine ⟨?_, ?_⟩
        · rw [startpoint_trace_append, find_trace, (ih _ _).1, List.map_cons, if_neg hn]
          rfl
        · intro hmem
          rcases List.mem_cons.mp hmem with h | h
          · exact absurd h.symm hn
          · exact (ih _ _).2 h

/-- C23, as stated: in the run on the names "", "a", "b" in which the working
directory cannot be restored after the search of "a", the empty name is
reported and "a" is searched, but the non-empty name "b" that follows the
empty name, before any expression-like token, is never searched. -/
theorem search_failure_ends_startpoints_loop :
    startpoint_trace (process_all_startpoints restore_failure_env {} {}
      ["".toList, "a".toList, "b".toList, "-print".toList]).events =
        [none, some "a".toList] ∧
    "b".toList ∉ searches (process_all_startpoints restore_failure_env {} {}
      ["".toList, "a".toList, "b".toList, "-print".toList]).events ∧
    names_taken_up restore_failure_env false
      ["".toList, "a".toList, "b".toList, "-print".toList] =
        ["".toList, "a".toList, "b".toList] := by
  decide

/-- C23: as long as every search ends without a read error and with the
working directory restored, the loop of process_all_startpoints goes through
the names in order, up to the first non-empty name that looks like an
expression when the names come from the command line: each empty name is
reported and skipped, each non-empty name is handed to the walker, and nothing
else ends the loop.  If one of these names is empty, the loop returns false
and leaves state.exit_status at EXIT_FAILURE.  With starting points on the
command line process_all_startpoints is this loop. -/
theorem empty_names_are_skipped (env : find_env) (o : options)
    (from_files0 read_error : Bool) (names : List CStr) (st : state) (ok : Bool)
    (hwalk : ∀ a flags run, env.fts_open a flags = some run →
      run.read_errno = 0 ∧ run.close_status = 0) :
    startpoint_trace (startpoints_loop env o from_files0 read_error st ok names).2.2 =
      (names_taken_up env from_files0 names).map (fun n => if n = [] then none else some n) ∧
    searches (startpoints_loop env o from_files0 read_error st ok names).2.2 =
      (names_taken_up env from_files0 names).filter (fun n => decide (n ≠ [])) ∧
    ([] ∈ names_taken_up env from_files0 names →
      (startpoints_loop env o from_files0 read_error st ok names).1 = false ∧
      (startpoints_loop env o from_files0 read_error st ok names).2.1.exit_status =
        EXIT_FAILURE) ∧
    (o.files0_from = none → argv_starting_points env names = true →
      (process_all_startpoints env o st names).events =
        (startpoints_loop env o false false st true names).2.2 ∧
      (process_all_startpoints env o st names).st =
        (startpoints_loop env o false false st true names).2.1 ∧
      (process_all_startpoints env o st names).outcome =
        Res.ret (startpoints_loop env o false false st true names).1) := by
  have h := startpoints_loop_trace env o from_files0 read_error hwalk names st ok
  have hsearch : ∀ l : List event, searches l =
      (startpoint_trace l).filterMap (fun x => x) := by
    intro l
    induction l with
    | nil => rfl
    | cons e l ih =>
      have hc : e :: l = [e] ++ l := rfl
      rw [hc, searches_append, startpoint_trace_append, List.filterMap_append, ih]
      congr 1
      cases e with
      | error d => cases d <;> rfl
      | _ => rfl
  refine ⟨h.1, ?_, h.2, ?_⟩
  · rw [hsearch, h.1]
    generalize names_taken_up env from_files0 names = l
    induction l with
    | nil => rfl
    | cons n l ih =>
      rw [List.map_cons]
      by_cases hn : n = []
      · rw [if_pos hn, List.filterMap_cons_none rfl, ih, List.filter_cons_of_neg]
        simp [hn]
      · rw [if_neg hn, List.filter_cons_of_pos (by simp [hn])]
        show n :: List.filterMap (fun x => x) _ = _
        rw [ih]
  · intro hf hs
    have hp : process_all_startpoints env o st names =
        ⟨Res.ret (startpoints_loop env o false false st true names).1,
          (startpoints_loop env o false false st true names).2.1,
          (startpoints_loop env o false false st true names).2.2⟩ := by
      unfold process_all_startpoints
      simp only [hf, hs, Bool.true_eq_false, if_false]
    rw [hp]
    exact ⟨rfl, rfl, rfl⟩

theorem empty_names_are_skipped_witness :
    startpoint_trace (startpoints_loop sample_find_env {} false false {} true
      ["".toList, "a".toList, "".toList, "b".toList, "-print".toList, "c".toList]).2.2 =
      [none, some "a".toList, none, some "b".toList] ∧
    (startpoints_loop sample_find_env {} false false {} true
      ["".toList, "a".toList, "".toList, "b".toList, "-print".toList,
        "c".toList]).2.1.exit_status = EXIT_FAILURE :=
  ⟨(empty_names_are_skipped sample_find_env {} false false
      ["".toList, "a".toList, "".toList, "b".toList, "-print".toList, "c".toList] {} true
      (fun a flags run h => by cases h; exact ⟨rfl, rfl⟩)).1.trans (by decide),
    ((empty_names_are_skipped sample_find_env {} false false
      ["".toList, "a".toList, "".toList, "b".toList, "-print".toList, "c".toList] {} true
      (fun a flags run h => by cases h; exact ⟨rfl, rfl⟩)).2.2.1 (by decide)).2⟩

/-! ## Properties of check_option_combinations -/

theorem seen_fold (p : List predicate) : ∀ (a b : Bool),
    p.foldl (fun acc q =>
      if q.pred_func = PRED_FUNC.pred_delete then acc ||| seen_delete
      else if q.pred_func = PRED_FUNC.pred_prune then acc ||| seen_prune
      else acc) ((if a then seen_delete else 0) ||| (if b then seen_prune else 0)) =
    (if (a || p.any (fun q => decide (q.pred_func = PRED_FUNC.pred_delete))) then seen_delete
      else 0) |||
    (if (b || p.any (fun q => decide (q.pred_func = PRED_FUNC.pred_prune))) then seen_prune
      else 0) := by
  induction p with
  | nil => intro a b; simp
  | cons q rest ih =>
    intro a b
    rw [List.foldl_cons, List.any_cons, List.any_cons]
    by_cases hd : q.pred_func = PRED_FUNC.pred_delete
    · have hp : ¬ q.pred_func = PRED_FUNC.pred_prune := by rw [hd]; decide
      rw [if_pos hd]
      have : ((if a = true then seen_delete else 0) ||| (if b = true then seen_prune else 0))
          ||| seen_delete =
          (if true = true then seen_delete else 0) ||| (if b = true then seen_prune else 0) := by
        cases a <;> cases b <;> decide
      rw [this, ih]
      simp [hd, hp]
    · rw [if_neg hd]
      by_cases hp : q.pred_func = PRED_FUNC.pred_prune
      · rw [if_pos hp]
        have : ((if a = true then seen_delete else 0) ||| (if b = true then seen_prune else 0))
            ||| seen_prune =
            (if a = true then seen_delete else 0) ||| (if true = true then seen_prune else 0) := by
          cases a <;> cases b <;> decide
        rw [this, ih]
        simp [hd, hp]
      · rw [if_neg hp, ih]
        simp [hd, hp]

theorem seen_bits (a b : Bool) :
    ((((if a then seen_delete else 0) ||| (if b then seen_prune else 0)) &&& seen_prune ≠ 0) ↔
      b = true) ∧
    ((((if a then seen_delete else 0) ||| (if b then seen_prune else 0)) &&& seen_delete ≠ 0) ↔
      a = true) := by
  cases a <;> cases b <;> decide

theorem check_option_combinations_eq (o : options) (p : List predicate) :
    check_option_combinations o p =
      if (∃ q ∈ p, q.pred_func = PRED_FUNC.pred_delete) ∧
          (∃ q ∈ p, q.pred_func = PRED_FUNC.pred_prune) ∧ o.explicit_depth = false
      then Res.fatal Fatal.delete_with_prune else Res.ret () := by
  have hfold := seen_fold p false false
  simp only [Bool.false_eq_true, if_false, Bool.false_or] at hfold
  have h0 : (0 : Nat) ||| 0 = 0 := by decide
  rw [h0] at hfold
  have hbits := seen_bits (p.any (fun q => decide (q.pred_func = PRED_FUNC.pred_delete)))
    (p.any (fun q => decide (q.pred_func = PRED_FUNC.pred_prune)))
  have hany : ∀ f : PRED_FUNC, p.any (fun q => decide (q.pred_func = f)) = true ↔
      ∃ q ∈ p, q.pred_func = f := by
    intro f
    rw [List.any_eq_true]
    constructor
    · rintro ⟨q, hq, h⟩
      exact ⟨q, hq, of_decide_eq_true h⟩
    · rintro ⟨q, hq, h⟩
      exact ⟨q, hq, decide_eq_true h⟩
  unfold check_option_combinations
  simp only []
  rw [hfold]
  by_cases hd : ∃ q ∈ p, q.pred_func = PRED_FUNC.pred_delete
  · by_cases hp : ∃ q ∈ p, q.pred_func = PRED_FUNC.pred_prune
    · rw [if_pos ⟨hbits.1.mpr ((hany _).mpr hp), hbits.2.mpr ((hany _).mpr hd)⟩]
      by_cases he : o.explicit_depth = false
      · rw [if_pos he, if_pos ⟨hd, hp, he⟩]
      · rw [if_neg he, if_neg (fun h => he h.2.2)]
    · rw [if_neg (fun h => hp ((hany _).mp (hbits.1.mp h.1))), if_neg (fun h => hp h.2.1)]
  · rw [if_neg (fun h => hd ((hany _).mp (hbits.2.mp h.2))), if_neg (fun h => hd h.1)]

/-- C25: check_option_combinations ends the program with a fatal error exactly
when the predicate list holds a -delete predicate and a -prune predicate,
anywhere and in either order, and options.explicit_depth is false; in every
other case it returns. -/
theorem check_option_combinations_iff (o : options) (p : List predicate) :
    (check_option_combinations o p = Res.fatal Fatal.delete_with_prune ↔
      (∃ q ∈ p, q.pred_func = PRED_FUNC.pred_delete) ∧
      (∃ q ∈ p, q.pred_func = PRED_FUNC.pred_prune) ∧ o.explicit_depth = false) ∧
    (¬ ((∃ q ∈ p, q.pred_func = PRED_FUNC.pred_delete) ∧
        (∃ q ∈ p, q.pred_func = PRED_FUNC.pred_prune) ∧ o.explicit_depth = false) →
      check_option_combinations o p = Res.ret ()) ∧
    (∀ e, check_option_combinations o p = Res.fatal e → e = Fatal.delete_with_prune) := by
  rw [check_option_combinations_eq]
  refine ⟨?_, ?_, ?_⟩
  · constructor
    · intro h
      by_contra hn
      rw [if_neg hn] at h
      cases h
    · intro h
      rw [if_pos h]
  · intro hn
    rw [if_neg hn]
  · intro e h
    split at h
    · cases h; rfl
    · cases h

theorem parse_primaries_cons (o : options) (x : depth_primary) (rest : List depth_primary)
    (hx : x ≠ depth_primary.depth) (hd : x ≠ depth_primary.d)
    (hother : ∀ f p, x = depth_primary.other f p →
      ∀ o1 : options, (f o1).explicit_depth = o1.explicit_depth) :
    ∃ (o1 : options) (ps : List predicate),
      o1.explicit_depth = o.explicit_depth ∧
      parse_primaries o (x :: rest) =
        ((parse_primaries o1 rest).1, ps ++ (parse_primaries o1 rest).2) ∧
      (x = depth_primary.delete → ∃ q ∈ ps, q.pred_func = PRED_FUNC.pred_delete) ∧
      (x = depth_primary.prune → ∃ q ∈ ps, q.pred_func = PRED_FUNC.pred_prune) := by
  cases x with
  | delete =>
    refine ⟨{ o with do_dir_first := false }, [_], rfl, rfl, fun _ => ⟨_, List.mem_singleton.mpr rfl, rfl⟩,
      fun h => (by cases h)⟩
  | prune =>
    refine ⟨o, [_], rfl, rfl, fun h => (by cases h), fun _ => ⟨_, List.mem_singleton.mpr rfl, ?_⟩⟩
    simp only []
    split <;> rfl
  | depth => exact absurd rfl hx
  | d => exact absurd rfl hd
  | other f p =>
    cases p with
    | none =>
      exact ⟨f o, [], hother f none rfl o, rfl, fun h => (by cases h), fun h => (by cases h)⟩
    | some q =>
      exact ⟨f o, [q], hother f (some q) rfl o, rfl, fun h => (by cases h),
        fun h => (by cases h)⟩

theorem parse_primaries_without_depth (xs : List depth_primary) :
    ∀ o : options,
      depth_primary.depth ∉ xs → depth_primary.d ∉ xs →
      (∀ f p, depth_primary.other f p ∈ xs →
        ∀ o1 : options, (f o1).explicit_depth = o1.explicit_depth) →
      (parse_primaries o xs).1.explicit_depth = o.explicit_depth ∧
      (depth_primary.delete ∈ xs →
        ∃ q ∈ (parse_primaries o xs).2, q.pred_func = PRED_FUNC.pred_delete) ∧
      (depth_primary.prune ∈ xs →
        ∃ q ∈ (parse_primaries o xs).2, q.pred_func = PRED_FUNC.pred_prune) := by
  induction xs with
  | nil =>
    intro o _ _ _
    exact ⟨rfl, fun h => (by cases h), fun h => (by cases h)⟩
  | cons x rest ih =>
    intro o hdepth hd hother
    obtain ⟨o1, ps, he, hp, hdel, hpr⟩ := parse_primaries_cons o x rest
      (fun h => hdepth (h ▸ List.mem_cons_self _ _))
      (fun h => hd (h ▸ List.mem_cons_self _ _))
      (fun f p h => hother f p (h ▸ List.mem_cons_self _ _))
    obtain ⟨ih1, ih2, ih3⟩ := ih o1 (fun h => hdepth (List.mem_cons_of_mem _ h))
      (fun h => hd (List.mem_cons_of_mem _ h))
      (fun f p h => hother f p (List.mem_cons_of_mem _ h))
    rw [hp]
    refine ⟨ih1.trans he, ?_, ?_⟩
    · intro hmem
      rcases List.mem_cons.mp hmem with h | h
      · obtain ⟨q, hq, hf⟩ := hdel h.symm
        exact ⟨q, List.mem_append_left _ hq, hf⟩
      · obtain ⟨q, hq, hf⟩ := ih2 h
        exact ⟨q, List.mem_append_right _ hq, hf⟩
    · intro hmem
      rcases List.mem_cons.mp hmem with h | h
      · obtain ⟨q, hq, hf⟩ := hpr h.symm
        exact ⟨q, List.mem_append_left _ hq, hf⟩
      · obtain ⟨q, hq, hf⟩ := ih3 h
        exact ⟨q, List.mem_append_right _ hq, hf⟩

/-- C26: parse_delete sets options.do_dir_first to false and nothing else in
the options, so that explicit_depth stays as it was, and marks its predicate
side_effects and no_default_print; parse_depth and parse_d set do_dir_first to
false and explicit_depth to true.  Hence, starting from options with
explicit_depth false, a sequence of primaries that holds -delete and -prune but
neither -depth nor -d, the others leaving explicit_depth alone, gives options
and predicates that check_option_combinations rejects with a fatal error. -/
theorem delete_with_prune_needs_depth (o : options) (arg_ptr : Nat)
    (xs : List depth_primary) (hexplicit : o.explicit_depth = false)
    (hdelete : depth_primary.delete ∈ xs) (hprune : depth_primary.prune ∈ xs)
    (hdepth : depth_primary.depth ∉ xs) (hd : depth_primary.d ∉ xs)
    (hother : ∀ f p, depth_primary.other f p ∈ xs →
      ∀ o1 : options, (f o1).explicit_depth = o1.explicit_depth) :
    (∃ p, parse_delete o arg_ptr =
        Res.ret (true, ⟨arg_ptr, { o with do_dir_first := false }, some p⟩) ∧
      p.pred_func = PRED_FUNC.pred_delete ∧
      p.side_effects = true ∧ p.no_default_print = true) ∧
    ({ o with do_dir_first := false } : options).explicit_depth = o.explicit_depth ∧
    (∃ st, parse_depth o arg_ptr = Res.ret (true, st) ∧
      st.opts.do_dir_first = false ∧ st.opts.explicit_depth = true) ∧
    (∃ st, (parse_d o arg_ptr).2 = Res.ret (true, st) ∧
      st.opts.do_dir_first = false ∧ st.opts.explicit_depth = true) ∧
    check_option_combinations (parse_primaries o xs).1 (parse_primaries o xs).2 =
      Res.fatal Fatal.delete_with_prune := by
  refine ⟨⟨_, rfl, rfl, rfl, rfl⟩, rfl, ⟨_, rfl, rfl, rfl⟩, ⟨_, rfl, rfl, rfl⟩, ?_⟩
  obtain ⟨h1, h2, h3⟩ := parse_primaries_without_depth xs o hdepth hd hother
  rw [check_option_combinations_eq, if_pos ⟨h2 hdelete, h3 hprune, h1.trans hexplicit⟩]

theorem delete_with_prune_needs_depth_witness :
    check_option_combinations
      (parse_primaries {} [depth_primary.prune, depth_primary.delete]).1
      (parse_primaries {} [depth_primary.prune, depth_primary.delete]).2 =
        Res.fatal Fatal.delete_with_prune ∧
    check_option_combinations
      (parse_primaries {} [depth_primary.depth, depth_primary.prune, depth_primary.delete]).1
      (parse_primaries {} [depth_primary.depth, depth_primary.prune, depth_primary.delete]).2 =
        Res.ret () :=
  ⟨(delete_with_prune_needs_depth {} 0 [depth_primary.prune, depth_primary.delete] rfl
      (List.mem_cons_of_mem _ (List.mem_cons_self _ _)) (List.mem_cons_self _ _)
      (fun h => by simp at h) (fun h => by simp at h)
      (fun f p h => by simp at h)).2.2.2.2,
    by decide⟩

/-! ## Properties of find_parser and found_parser -/

theorem found_parser_spec (o : options) (first : Option CStr) (a : CStr) (e : parser_table) :
    (found_parser_entry o first a e).1 = (if e.type = arg_type.ARG_NOOP then none else some e) ∧
    (found_parser_entry o first a e).2.1 =
      (if first = none ∧ e.type ≠ arg_type.ARG_OPTION ∧
          e.type ≠ arg_type.ARG_POSITIONAL_OPTION ∧ e.type ≠ arg_type.ARG_NOOP
        then some a else first) ∧
    (found_parser_entry o first a e).2.2 =
      (match first with
        | some f =>
          if e.type = arg_type.ARG_OPTION ∧ should_issue_warnings o = true then
            [parser_warning.misplaced_global_option a f]
          else []
        | none => []) := by
  unfold found_parser_entry
  cases ht : e.type <;> cases first <;> simp
  split <;> simp_all

theorem find_parser_spec (o : options) (first : Option CStr) (name : CStr) :
    (find_parser_entry o first name).1 = (find_parser_entry {} none name).1 ∧
    (find_parser_entry o first name).2.1 =
      (match (find_parser_entry o first name).1 with
        | some e =>
          if first = none ∧ e.type ≠ arg_type.ARG_OPTION ∧
              e.type ≠ arg_type.ARG_POSITIONAL_OPTION then some name else first
        | none => first) ∧
    ((∃ f, parser_warning.misplaced_global_option name f ∈ (find_parser_entry o first name).2.2) ↔
      (∃ e, (find_parser_entry o first name).1 = some e ∧ e.type = arg_type.ARG_OPTION) ∧
        first ≠ none ∧ should_issue_warnings o = true) := by
  have hfp : ∀ e : parser_table,
      (found_parser_entry o first name e).1 = (found_parser_entry {} none name e).1 ∧
      (found_parser_entry o first name e).2.1 =
        (match (found_parser_entry o first name e).1 with
          | some e =>
            if first = none ∧ e.type ≠ arg_type.ARG_OPTION ∧
                e.type ≠ arg_type.ARG_POSITIONAL_OPTION then some name else first
          | none => first) ∧
      ((∃ f, parser_warning.misplaced_global_option name f ∈
          (found_parser_entry o first name e).2.2) ↔
        (∃ e1, (found_parser_entry o first name e).1 = some e1 ∧ e1.type = arg_type.ARG_OPTION) ∧
          first ≠ none ∧ should_issue_warnings o = true) := by
    intro e
    obtain ⟨h1, h2, h3⟩ := found_parser_spec o first name e
    obtain ⟨h1', _, _⟩ := found_parser_spec {} none name e
    rw [h1, h1', h2, h3]
    refine ⟨rfl, ?_, ?_⟩
    · by_cases hn : e.type = arg_type.ARG_NOOP
      · rw [if_pos hn, if_neg (fun h => h.2.2.2 hn)]
      · rw [if_neg hn]
        have hiff : (first = none ∧ e.type ≠ arg_type.ARG_OPTION ∧
            e.type ≠ arg_type.ARG_POSITIONAL_OPTION ∧ e.type ≠ arg_type.ARG_NOOP) ↔
            (first = none ∧ e.type ≠ arg_type.ARG_OPTION ∧
              e.type ≠ arg_type.ARG_POSITIONAL_OPTION) :=
          ⟨fun h => ⟨h.1, h.2.1, h.2.2.1⟩, fun h => ⟨h.1, h.2.1, h.2.2, hn⟩⟩
        simp only [hiff]
    · by_cases hn : e.type = arg_type.ARG_NOOP
      · rw [if_pos hn]
        cases first with
        | none => simp
        | some f =>
          simp only [hn]
          simp
      · rw [if_neg hn]
        cases first with
        | none => simp
        | some f =>
          by_cases hc : e.type = arg_type.ARG_OPTION ∧ should_issue_warnings o = true
          · simp [hc.1, hc.2]
          · simp only [if_neg hc]
            simp only [List.not_mem_nil, exists_false, false_iff]
            rintro ⟨⟨e1, he1, ht⟩, _, hw⟩
            cases he1
            exact hc ⟨ht, hw⟩
  unfold find_parser_entry
  simp only []
  split
  · exact hfp _
  · split
    · rename_i e he
      obtain ⟨h1, h2, h3⟩ := hfp e
      refine ⟨h1, h2, ?_⟩
      rw [← h3]
      constructor
      · rintro ⟨f, hf⟩
        rcases List.mem_append.mp hf with h | h
        · exfalso
          revert h
          split <;> simp
        · exact ⟨f, h⟩
      · rintro ⟨f, hf⟩
        exact ⟨f, List.mem_append_right _ hf⟩
    · refine ⟨rfl, rfl, ?_⟩
      simp

theorem should_issue_warnings_iff (o : options) :
    should_issue_warnings o = true ↔ o.warnings = true ∧ o.posixly_correct = false := by
  unfold should_issue_warnings
  cases o.posixly_correct <;> simp

theorem first_nonoption_after_ne_none (pre : List (options × CStr)) :
    ∀ first : Option CStr, first_nonoption_after first pre ≠ none ↔
      (first ≠ none ∨ ∃ x ∈ pre, ∃ e, (find_parser_entry x.1 none x.2).1 = some e ∧
        e.type ≠ arg_type.ARG_OPTION ∧ e.type ≠ arg_type.ARG_POSITIONAL_OPTION) := by
  induction pre with
  | nil =>
    intro first
    rw [first_nonoption_after]
    simp
  | cons x rest ih =>
    intro first
    obtain ⟨o, name⟩ := x
    rw [first_nonoption_after, ih]
    obtain ⟨h1, h2, _⟩ := find_parser_spec o first name
    have h1' : (find_parser_entry o none name).1 = (find_parser_entry o first name).1 :=
      (find_parser_spec o none name).1.trans h1.symm
    have hstep : (find_parser_entry o first name).2.1 ≠ none ↔
        (first ≠ none ∨ ∃ e, (find_parser_entry o none name).1 = some e ∧
          e.type ≠ arg_type.ARG_OPTION ∧ e.type ≠ arg_type.ARG_POSITIONAL_OPTION) := by
      rw [h2, h1']
      cases he : (find_parser_entry o first name).1 with
      | none => simp
      | some e =>
        simp only []
        by_cases hc : first = none ∧ e.type ≠ arg_type.ARG_OPTION ∧
            e.type ≠ arg_type.ARG_POSITIONAL_OPTION
        · rw [if_pos hc]
          simp only [ne_eq, reduceCtorEq, not_false_eq_true, true_iff]
          exact Or.inr ⟨e, rfl, hc.2.1, hc.2.2⟩
        · rw [if_neg hc]
          constructor
          · intro h; exact Or.inl h
          · rintro (h | ⟨e1, he1, h⟩)
            · exact h
            · cases he1
              intro hf
              exact hc ⟨hf, h⟩
    rw [hstep]
    constructor
    · rintro ((h | ⟨e, he, ht⟩) | ⟨y, hy, h⟩)
      · exact Or.inl h
      · exact Or.inr ⟨(o, name), List.mem_cons_self _ _, e, he, ht⟩
      · exact Or.inr ⟨y, List.mem_cons_of_mem _ hy, h⟩
    · rintro (h | ⟨y, hy, h⟩)
      · exact Or.inl (Or.inl h)
      · rcases List.mem_cons.mp hy with hy | hy
        · subst hy
          exact Or.inl (Or.inr h)
        · exact Or.inr ⟨y, hy, h⟩

/-- C27: after parse_begin_user_args and any sequence of lookups through
find_parser, the next lookup writes the warning about a misplaced global option
exactly when the entry it finds is a global option (ARG_OPTION), one of the
earlier lookups found an entry that is neither a global option nor a
positional option, options.warnings is true and options.posixly_correct is
false.  The entry that a lookup finds does not depend on the options or on the
earlier lookups.  The positional options -daystart, -follow, -warn, -nowarn
and -regextype never get the warning and never count as the earlier argument:
they leave first_nonoption_arg as it is. -/
theorem misplaced_global_option_warning (pre : List (options × CStr)) (o : options)
    (name : CStr) :
    ((∃ f, parser_warning.misplaced_global_option name f ∈
        (find_parser_entry o (first_nonoption_after parse_begin_user_args pre) name).2.2) ↔
      (∃ e, (find_parser_entry o (first_nonoption_after parse_begin_user_args pre) name).1 = some e ∧
        e.type = arg_type.ARG_OPTION) ∧
      (∃ x ∈ pre, ∃ e, (find_parser_entry x.1 none x.2).1 = some e ∧
        e.type ≠ arg_type.ARG_OPTION ∧ e.type ≠ arg_type.ARG_POSITIONAL_OPTION) ∧
      o.warnings = true ∧ o.posixly_correct = false) ∧
    (∀ (o1 o2 : options) (first1 first2 : Option CStr) (n : CStr),
      (find_parser_entry o1 first1 n).1 = (find_parser_entry o2 first2 n).1) ∧
    (∀ n ∈ ["-daystart".toList, "-follow".toList, "-warn".toList, "-nowarn".toList,
        "-regextype".toList], ∀ (o1 : options) (first : Option CStr),
      (∃ e, (find_parser_entry o1 first n).1 = some e ∧
        e.type = arg_type.ARG_POSITIONAL_OPTION) ∧
      (∀ f, parser_warning.misplaced_global_option n f ∉ (find_parser_entry o1 first n).2.2) ∧
      (find_parser_entry o1 first n).2.1 = first) := by
  refine ⟨?_, ?_, ?_⟩
  · rw [(find_parser_spec o _ name).2.2, should_issue_warnings_iff,
      first_nonoption_after_ne_none]
    have hb : parse_begin_user_args = none := rfl
    rw [hb]
    simp only [ne_eq, not_true_eq_false, false_or]
  · intro o1 o2 first1 first2 n
    exact (find_parser_spec o1 first1 n).1.trans (find_parser_spec o2 first2 n).1.symm
  · intro n hn o1 first
    have hpos : ∃ e, (find_parser_entry {} none n).1 = some e ∧
        e.type = arg_type.ARG_POSITIONAL_OPTION := by
      simp only [List.mem_cons, List.mem_singleton, List.not_mem_nil, or_false] at hn
      rcases hn with h | h | h | h | h
      · subst h
        exact ⟨⟨arg_type.ARG_POSITIONAL_OPTION, "daystart".toList⟩, by decide, rfl⟩
      · subst h
        exact ⟨⟨arg_type.ARG_POSITIONAL_OPTION, "follow".toList⟩, by decide, rfl⟩
      · subst h
        exact ⟨⟨arg_type.ARG_POSITIONAL_OPTION, "warn".toList⟩, by decide, rfl⟩
      · subst h
        exact ⟨⟨arg_type.ARG_POSITIONAL_OPTION, "nowarn".toList⟩, by decide, rfl⟩
      · subst h
        exact ⟨⟨arg_type.ARG_POSITIONAL_OPTION, "regextype".toList⟩, by decide, rfl⟩
    obtain ⟨e, he, ht⟩ := hpos
    obtain ⟨h1, h2, h3⟩ := find_parser_spec o1 first n
    rw [he] at h1
    refine ⟨⟨e, h1, ht⟩, ?_, ?_⟩
    · intro f hf
      obtain ⟨⟨e1, he1, ht1⟩, _⟩ := h3.mp ⟨f, hf⟩
      rw [h1] at he1
      cases he1
      rw [ht] at ht1
      cases ht1
    · rw [h2, h1]
      simp only []
      rw [if_neg (fun h => h.2.2 ht)]

/-! ## Warnings under POSIXLY_CORRECT -/

/-- C28 (fails in the code): with options.posixly_correct set,
should_issue_warnings is false and the parser of -d and found_parser stay
silent, yet for the arguments `-perm /000` parse_perm still writes its warning
about the mode pattern, and for the dashed operator `-!` find_parser still
writes its warning, whatever the other options are. -/
theorem posixly_correct_leaves_two_warnings :
    (∀ o : options, o.posixly_correct = true →
      should_issue_warnings o = false ∧
      (parse_d o 1).1 = [] ∧
      (∀ first original_arg entry, (found_parser_entry o first original_arg entry).2.2 = []) ∧
      (parse_perm sample_perm_env o (some ["-perm".toList, "/000".toList]) 1).1
        = [parser_warning.perm_000 "/000".toList] ∧
      (find_parser_entry o none "-!".toList).2.2
        = [parser_warning.dashed_operator "-!".toList]) ∧
    (parse_perm sample_perm_env { posixly_correct := true }
        (some ["-perm".toList, "/000".toList]) 1).1
      = [parser_warning.perm_000 "/000".toList] := by
  refine ⟨?_, by decide⟩
  intro o ho
  have hs : should_issue_warnings o = false := by
    unfold should_issue_warnings; rw [ho]; rfl
  refine ⟨hs, ?_, ?_, ?_, ?_⟩
  · unfold parse_d; rw [hs]; rfl
  · intro first original_arg entry
    unfold found_parser_entry
    rw [hs]
    cases entry.type <;> cases first <;> simp
  · rfl
  · rfl

/-! ## Properties of parse_fstype -/

/-- C29: for every type name T given to parse_fstype, the parser returns true
and consumes the name; when options.optimisation_level is at least 2 and T is
not in the mount table, the predicate inserted is that of -false (need_stat
and need_type false, no side effects, est_success_rate 0, the same predicate
insert_false gives); otherwise it is an -fstype predicate that carries T; at
the optimisation levels 0 and 1 the -fstype predicate is always inserted. -/
theorem parse_fstype_replaced_by_false (env : parse_env) (o : options) (l : List CStr)
    (i : Nat) (T : CStr) (h : l[i]? = some T) :
    ∃ p, parse_fstype env o (some l) i = Res.ret (true, ⟨i + 1, o, some p⟩) ∧
      ((2 ≤ o.optimisation_level ∧ env.is_used_fs_type T = false) →
        p.pred_func = PRED_FUNC.pred_false ∧ p.need_stat = false ∧ p.need_type = false ∧
        p.side_effects = false ∧ p.no_default_print = false ∧ p.est_success_rate = 0 ∧
        parse_fstype env o (some l) i = insert_false o (i + 1)) ∧
      (¬ (2 ≤ o.optimisation_level ∧ env.is_used_fs_type T = false) →
        p.pred_func = PRED_FUNC.pred_fstype ∧ p.args = pred_args.str T) ∧
      (o.optimisation_level < 2 →
        p.pred_func = PRED_FUNC.pred_fstype ∧ p.args = pred_args.str T) := by
  have hc : collect_arg (some l) i = (true, i + 1, some T) := by
    unfold collect_arg; simp [h]
  by_cases hk : o.optimisation_level < 2 ∨ env.is_used_fs_type T = true
  · have hp : parse_fstype env o (some l) i = Res.ret (true, ⟨i + 1, o,
        some { insert_primary PRED_FUNC.pred_fstype with
                args := pred_args.str T,
                est_success_rate := estimate_fstype_success_rate env T }⟩) := by
      unfold parse_fstype; rw [hc]; simp only []; rw [if_pos hk]
    refine ⟨_, hp, ?_, ?_, ?_⟩
    · rintro ⟨h2, hu⟩
      rcases hk with hk | hk
      · omega
      · rw [hu] at hk; cases hk
    · intro _; exact ⟨rfl, rfl⟩
    · intro _; exact ⟨rfl, rfl⟩
  · have h2 : 2 ≤ o.optimisation_level := by
      by_contra hn; exact hk (Or.inl (by omega))
    have hp : parse_fstype env o (some l) i = insert_false o (i + 1) := by
      unfold parse_fstype; rw [hc]; simp only []; rw [if_neg hk]
    have hq : insert_false o (i + 1) = Res.ret (true, ⟨i + 1, o,
        some { insert_primary_noarg PRED_FUNC.pred_false with
            need_stat := false, need_type := false, side_effects := false,
            no_default_print := false, est_success_rate := 0 }⟩) := rfl
    refine ⟨_, hp.trans hq, ?_, ?_, ?_⟩
    · intro _; exact ⟨rfl, rfl, rfl, rfl, rfl, rfl, hp⟩
    · intro hn
      exfalso; apply hn
      refine ⟨h2, ?_⟩
      cases hu : env.is_used_fs_type T
      · rfl
      · exact absurd (Or.inr hu) hk
    · intro hl; omega

/-- C29, an instance: at optimisation level 2 with a mount table that holds
only ext4, `-fstype nfs` becomes the -false predicate. -/
theorem parse_fstype_replaced_by_false_witness :
    (["-fstype".toList, "nfs".toList] : List CStr)[1]? = some "nfs".toList ∧
    ∃ p, parse_fstype sample_perm_env { optimisation_level := 2 }
        (some ["-fstype".toList, "nfs".toList]) 1
        = Res.ret (true, ⟨1 + 1, { optimisation_level := 2 }, some p⟩) ∧
      p.pred_func = PRED_FUNC.pred_false := by
  refine ⟨rfl, ?_⟩
  obtain ⟨p, hp, hf, _, _⟩ :=
    parse_fstype_replaced_by_false sample_perm_env { optimisation_level := 2 }
      ["-fstype".toList, "nfs".toList] 1 "nfs".toList rfl
  exact ⟨p, hp, (hf ⟨by decide, by decide⟩).1⟩

theorem marks_of_ret (o : options) (i : Nat) (p : predicate) (a b : Bool)
    (ha : p.side_effects = a) (hb : p.no_default_print = b) :
    marks (Res.ret (true, ⟨i, o, some p⟩)) a b := by
  intro st h
  simp only [Res.ret.injEq, Prod.mk.injEq, true_and] at h
  subst h
  exact ⟨p, rfl, ha, hb⟩

theorem marks_of_false (st0 : parse_state) (a b : Bool) :
    marks (Res.ret (false, st0)) a b := by
  intro st h
  simp only [Res.ret.injEq, Prod.mk.injEq] at h
  exact absurd h.1 (by decide)

theorem marks_of_fatal (e : Fatal) (a b : Bool) :
    marks (Res.fatal e : Res (Bool × parse_state)) a b := by
  intro st h
  cases h

theorem marks_insert_fls (env : parse_env) (o : options) (i : Nat) (func : PRED_FUNC)
    (filename : Option CStr) : marks (insert_fls env o i func filename) true true := by
  unfold insert_fls
  split
  · exact marks_of_fatal _ _ _
  · exact marks_of_ret _ _ _ _ _ rfl rfl

theorem marks_insert_fprint (env : parse_env) (o : options) (i : Nat) (func : PRED_FUNC)
    (filename : Option CStr) : marks (insert_fprint env o i func filename) true true := by
  unfold insert_fprint
  split
  · exact marks_of_fatal _ _ _
  · exact marks_of_ret _ _ _ _ _ rfl rfl

theorem marks_parse_fls (env : parse_env) (o : options) (argv : Option (List CStr)) (i : Nat) :
    marks (parse_fls env o argv i) true true := by
  unfold parse_fls
  split
  · have hm := marks_insert_fls env o (by assumption) PRED_FUNC.pred_fls (some (by assumption))
    split
    · exact marks_of_fatal _ _ _
    · rename_i h; rw [h] at hm; exact hm
    · exact marks_of_false _ _ _
  · exact marks_of_false _ _ _

theorem marks_parse_fprint0 (env : parse_env) (o : options) (argv : Option (List CStr))
    (i : Nat) : marks (parse_fprint0 env o argv i) true true := by
  unfold parse_fprint0
  split
  · have hm := marks_insert_fprint env o (by assumption) PRED_FUNC.pred_fprint0
      (some (by assumption))
    split
    · exact marks_of_fatal _ _ _
    · rename_i h; rw [h] at hm; exact hm
    · exact marks_of_false _ _ _
  · exact marks_of_false _ _ _

theorem marks_parse_fprint (env : parse_env) (o : options) (argv : Option (List CStr))
    (i : Nat) : marks (parse_fprint env o argv i) true true := by
  unfold parse_fprint
  split
  · split
    · exact marks_of_fatal _ _ _
    · exact marks_of_ret _ _ _ _ _ rfl rfl
  · exact marks_of_false _ _ _

theorem marks_insert_exec_ok (env : exec_env) (o : options) (func : PRED_FUNC)
    (argv : Option (List CStr)) (i : Nat) :
    marks (insert_exec_ok env o func argv i) true true := by
  cases argv with
  | none =>
    have h : insert_exec_ok env o func none i = Res.ret (false, ⟨i, o, none⟩) := by
      simp only [insert_exec_ok]
    rw [h]; exact marks_of_false _ _ _
  | some l =>
    rcases insert_exec_ok_cases env o func l i with
      ⟨_, hr⟩ | ⟨_, _, e, _, hr⟩ | ⟨_, _, ⟨e, _, hr⟩ | ⟨s, _, hcase⟩⟩
    · rw [hr]; exact marks_of_false _ _ _
    · rw [hr]; exact marks_of_fatal _ _ _
    · rw [hr]; exact marks_of_fatal _ _ _
    · rcases hcase with ⟨_, o2, hr⟩ | ⟨_, _, hr⟩ | ⟨_, _, _, hr⟩ | ⟨_, _, _, _, hr⟩ |
        ⟨_, _, _, _, o2, p, ev, hr, _, _, _, _, hs, hn⟩
      · rw [hr]; exact marks_of_false _ _ _
      · rw [hr]; exact marks_of_fatal _ _ _
      · rw [hr]; exact marks_of_fatal _ _ _
      · rw [hr]; exact marks_of_fatal _ _ _
      · rw [hr]; exact marks_of_ret _ _ _ _ _ hs hn

theorem marks_insert_type (pl : platform) (o : options) (argv : Option (List CStr))
    (i : Nat) (which_pred : PRED_FUNC) :
    marks (insert_type pl o argv i which_pred) false false := by
  unfold insert_type
  split
  · exact marks_of_false _ _ _
  · split
    · exact marks_of_fatal _ _ _
    · simp only []
      split
      · exact marks_of_fatal _ _ _
      · apply marks_of_ret
        · by_cases hx : which_pred = PRED_FUNC.pred_xtype
          · rw [if_pos hx]; rfl
          · rw [if_neg hx]; rfl
        · by_cases hx : which_pred = PRED_FUNC.pred_xtype
          · rw [if_pos hx]; rfl
          · rw [if_neg hx]; rfl

theorem insert_num_marks (argv : Option (List CStr)) (i : Nat) (func : PRED_FUNC)
    (p : predicate) (ap : Nat) (h : insert_num argv i func = Res.ret (some p, ap)) :
    p.side_effects = false ∧ p.no_default_print = false := by
  unfold insert_num at h
  split at h
  · cases h
  · split at h
    · simp only [Res.ret.injEq, Prod.mk.injEq, Option.some.injEq] at h
      rw [← h.1]
      exact ⟨rfl, rfl⟩
    · cases h

theorem marks_parse_size (o : options) (argv : Option (List CStr)) (i : Nat) :
    marks (parse_size o argv i) false false := by
  cases argv with
  | none =>
    have h : parse_size o none i = Res.ret (false, ⟨i, o, none⟩) := by
      simp only [parse_size]
    rw [h]; exact marks_of_false _ _ _
  | some l =>
    cases ha : l[i]? with
    | none =>
      have h : parse_size o (some l) i = Res.ret (false, ⟨i, o, none⟩) := by
        simp only [parse_size, ha]
      rw [h]; exact marks_of_false _ _ _
    | some arg =>
      rw [parse_size_present o l i arg ha]
      split
      · exact marks_of_fatal _ _ _
      · split
        · exact marks_of_fatal _ _ _
        · split
          · exact marks_of_fatal _ _ _
          · exact marks_of_ret _ _ _ _ _ rfl rfl

theorem marks_insert_path_check (env : parse_env) (o : options)
    (argv : Option (List CStr)) (i : Nat) (pred : PRED_FUNC) :
    marks (insert_path_check env o argv i pred) false false := by
  unfold insert_path_check
  simp only
  split
  · exact marks_of_fatal _ _ _
  · split
    · exact marks_of_ret _ _ _ _ _ rfl rfl
    · exact marks_of_false _ _ _

theorem marks_insert_regex (env : parse_env) (o : options)
    (argv : Option (List CStr)) (i : Nat) (ro : Nat) :
    marks (insert_regex env o argv i ro) false false := by
  unfold insert_regex
  split
  · split
    · exact marks_of_fatal _ _ _
    · exact marks_of_ret _ _ _ _ _ rfl rfl
  · exact marks_of_false _ _ _

theorem marks_parse_perm (env : parse_env) (o : options) (argv : Option (List CStr))
    (i : Nat) : marks (parse_perm env o argv i).2 false false := by
  unfold parse_perm
  split
  · simp only []
    split
    · exact marks_of_fatal _ _ _
    · split
      · exact marks_of_fatal _ _ _
      · split
        · exact marks_of_ret _ _ _ _ _ rfl rfl
        · exact marks_of_ret _ _ _ _ _ rfl rfl
  · exact marks_of_false _ _ _

theorem marks_parse_fstype (env : parse_env) (o : options) (argv : Option (List CStr))
    (i : Nat) : marks (parse_fstype env o argv i) false false := by
  unfold parse_fstype
  split
  · split
    · exact marks_of_ret _ _ _ _ _ rfl rfl
    · exact marks_of_ret _ _ _ _ _ rfl rfl
  · exact marks_of_false _ _ _

theorem marks_parse_inum (o : options) (argv : Option (List CStr)) (i : Nat) :
    marks (parse_inum o argv i) false false := by
  unfold parse_inum
  split
  · exact marks_of_fatal _ _ _
  · rename_i h
    obtain ⟨h1, h2⟩ := insert_num_marks _ _ _ _ _ h
    exact marks_of_ret _ _ _ _ _ h1 h2
  · exact marks_of_false _ _ _

theorem marks_parse_links (o : options) (argv : Option (List CStr)) (i : Nat) :
    marks (parse_links o argv i) false false := by
  unfold parse_links
  split
  · exact marks_of_fatal _ _ _
  · rename_i h
    obtain ⟨h1, h2⟩ := insert_num_marks _ _ _ _ _ h
    exact marks_of_ret _ _ _ _ _ h1 h2
  · exact marks_of_false _ _ _

theorem marks_parse_uid (o : options) (argv : Option (List CStr)) (i : Nat) :
    marks (parse_uid o argv i) false false := by
  unfold parse_uid
  split
  · exact marks_of_fatal _ _ _
  · rename_i h
    obtain ⟨h1, h2⟩ := insert_num_marks _ _ _ _ _ h
    exact marks_of_ret _ _ _ _ _ h1 h2
  · exact marks_of_false _ _ _

theorem marks_parse_gid (o : options) (argv : Option (List CStr)) (i : Nat) :
    marks (parse_gid o argv i) false false := by
  unfold parse_gid
  split
  · exact marks_of_fatal _ _ _
  · rename_i h
    obtain ⟨h1, h2⟩ := insert_num_marks _ _ _ _ _ h
    exact marks_of_ret _ _ _ _ _ h1 h2
  · exact marks_of_false _ _ _

theorem marks_parse_samefile (env : parse_env) (o : options) (argv : Option (List CStr))
    (i : Nat) : marks (parse_samefile env o argv i) false false := by
  unfold parse_samefile
  split
  · split
    · exact marks_of_fatal _ _ _
    · split
      · exact marks_of_fatal _ _ _
      · exact marks_of_ret _ _ _ _ _ rfl rfl
  · exact marks_of_false _ _ _

theorem marks_parse_name (env : parse_env) (o : options) (argv : Option (List CStr))
    (i : Nat) : marks (parse_name env o argv i) false false := by
  unfold parse_name
  split
  · exact marks_of_fatal _ _ _
  · split
    · exact marks_of_ret _ _ _ _ _ rfl rfl
    · exact marks_of_false _ _ _

theorem marks_parse_iname (env : parse_env) (o : options) (argv : Option (List CStr))
    (i : Nat) : marks (parse_iname env o argv i) false false := by
  unfold parse_iname
  split
  · exact marks_of_fatal _ _ _
  · split
    · exact marks_of_ret _ _ _ _ _ rfl rfl
    · exact marks_of_false _ _ _

theorem marks_parse_lname (env : parse_env) (o : options) (argv : Option (List CStr))
    (i : Nat) : marks (parse_lname env o argv i) false false := by
  unfold parse_lname
  split
  · exact marks_of_fatal _ _ _
  · split
    · exact marks_of_ret _ _ _ _ _ rfl rfl
    · exact marks_of_false _ _ _

theorem marks_parse_ilname (o : options) (argv : Option (List CStr))
    (i : Nat) : marks (parse_ilname o argv i) false false := by
  unfold parse_ilname
  split
  · exact marks_of_ret _ _ _ _ _ rfl rfl
  · exact marks_of_false _ _ _

theorem marks_parse_time (env : parse_env) (o : options) (func : PRED_FUNC)
    (argv : Option (List CStr)) (i : Nat) : marks (parse_time env o func argv i) false false := by
  unfold parse_time
  simp only []
  split
  · split
    · exact marks_of_fatal _ _ _
    · split
      · exact marks_of_fatal _ _ _
      · exact marks_of_false _ _ _
      · exact marks_of_ret _ _ _ _ _ rfl rfl
  · exact marks_of_false _ _ _

theorem marks_do_parse_xmin (env : parse_env) (o : options) (func : PRED_FUNC)
    (argv : Option (List CStr)) (i : Nat) (xv : xval) :
    marks (do_parse_xmin env o func argv i xv) false false := by
  unfold do_parse_xmin
  simp only []
  split
  · split
    · exact marks_of_fatal _ _ _
    · exact marks_of_ret _ _ _ _ _ rfl rfl
    · exact marks_of_false _ _ _
  · exact marks_of_false _ _ _

theorem marks_parse_anewer (env : parse_env) (o : options) (argv : Option (List CStr))
    (i : Nat) : marks (parse_anewer env o argv i) false false := by
  unfold parse_anewer
  split
  · exact marks_of_fatal _ _ _
  · exact marks_of_ret _ _ _ _ _ rfl rfl
  · exact marks_of_false _ _ _

theorem marks_parse_cnewer (env : parse_env) (o : options) (argv : Option (List CStr))
    (i : Nat) : marks (parse_cnewer env o argv i) false false := by
  unfold parse_cnewer
  split
  · exact marks_of_fatal _ _ _
  · exact marks_of_ret _ _ _ _ _ rfl rfl
  · exact marks_of_false _ _ _

theorem marks_parse_newer (env : parse_env) (o : options) (argv : Option (List CStr))
    (i : Nat) : marks (parse_newer env o argv i) false false := by
  unfold parse_newer
  split
  · exact marks_of_fatal _ _ _
  · exact marks_of_ret _ _ _ _ _ rfl rfl
  · exact marks_of_false _ _ _

theorem marks_parse_newerXY (env : parse_env) (o : options) (argv : Option (List CStr))
    (i : Nat) : marks (parse_newerXY env o argv i) false false := by
  unfold parse_newerXY
  split
  · exact marks_of_false _ _ _
  · split
    · exact marks_of_false _ _ _
    · split
      · exact marks_of_false _ _ _
      · simp only []
        split
        · exact marks_of_false _ _ _
        · split
          · exact marks_of_false _ _ _
          · split
            · exact marks_of_fatal _ _ _
            · split
              · exact marks_of_fatal _ _ _
              · exact marks_of_ret _ _ _ _ _ rfl rfl

theorem marks_parse_used (env : parse_env) (o : options) (argv : Option (List CStr))
    (i : Nat) : marks (parse_used env o argv i) false false := by
  unfold parse_used
  split
  · split
    · exact marks_of_fatal _ _ _
    · exact marks_of_ret _ _ _ _ _ rfl rfl
    · exact marks_of_fatal _ _ _
  · exact marks_of_false _ _ _

theorem marks_parse_user (env : parse_env) (o : options) (argv : Option (List CStr))
    (i : Nat) : marks (parse_user env o argv i) false false := by
  unfold parse_user
  split
  · simp only []
    split
    · exact marks_of_fatal _ _ _
    · exact marks_of_ret _ _ _ _ _ rfl rfl
  · exact marks_of_false _ _ _

theorem marks_parse_group (env : parse_env) (o : options) (argv : Option (List CStr))
    (i : Nat) : marks (parse_group env o argv i) false false := by
  unfold parse_group
  split
  · simp only []
    split
    · exact marks_of_fatal _ _ _
    · exact marks_of_ret _ _ _ _ _ rfl rfl
  · exact marks_of_false _ _ _

theorem marks_parse_context (env : parse_env) (o : options) (argv : Option (List CStr))
    (i : Nat) : marks (parse_context env o argv i) false false := by
  unfold parse_context
  split
  · exact marks_of_false _ _ _
  · split
    · exact marks_of_false _ _ _
    · split
      · exact marks_of_fatal _ _ _
      · exact marks_of_ret _ _ _ _ _ rfl rfl

/-! ## Which parsers inhibit the default print -/

/-- C30: the parsers of -print, -print0, -fprint, -fprint0, -ls, -fls,
-delete, -exec, -execdir, -ok and -okdir mark the predicate they insert with
side_effects = true and no_default_print = true; the parsers of -prune and
-quit mark it with side_effects = true and no_default_print = false; every
test parser of parser.c (-size, -inum, -links, -uid, -gid, -type, -xtype,
-name, -iname, -lname, -ilname, -path, -wholename, -ipath, -iwholename,
-regex, -iregex, -samefile, -fstype, -perm, -empty, -executable, -readable,
-writable, -nogroup, -nouser, -true, -false, -atime, -ctime, -mtime, -amin,
-cmin, -mmin, -anewer, -cnewer, -newer, -newerXY, -used, -user, -group,
-context, and -help and -version, which end the program and insert nothing)
leaves both false, and these are all the tests of the parser table; so every
predicate that one of these parsers marks no_default_print is also marked
side_effects. -/
theorem actions_inhibit_default_print :
    (∀ o i, marks (parse_print o i) true true) ∧
    (∀ env o i, marks (parse_print0 env o i) true true) ∧
    (∀ env o argv i, marks (parse_fprint env o argv i) true true) ∧
    (∀ env o argv i, marks (parse_fprint0 env o argv i) true true) ∧
    (∀ env o i, marks (parse_ls env o i) true true) ∧
    (∀ env o argv i, marks (parse_fls env o argv i) true true) ∧
    (∀ o i, marks (parse_delete o i) true true) ∧
    (∀ env o argv i, marks (parse_exec env o argv i) true true) ∧
    (∀ env o argv i, marks (parse_execdir env o argv i) true true) ∧
    (∀ env o argv i, marks (parse_ok env o argv i) true true) ∧
    (∀ env o argv i, marks (parse_okdir env o argv i) true true) ∧
    (∀ o i, marks (parse_prune o i) true false) ∧
    (∀ o i, marks (parse_quit o i) true false) ∧
    (∀ o argv i, marks (parse_size o argv i) false false) ∧
    (∀ o argv i, marks (parse_inum o argv i) false false) ∧
    (∀ o argv i, marks (parse_links o argv i) false false) ∧
    (∀ o argv i, marks (parse_uid o argv i) false false) ∧
    (∀ o argv i, marks (parse_gid o argv i) false false) ∧
    (∀ pl o argv i, marks (parse_type pl o argv i) false false) ∧
    (∀ pl o argv i, marks (parse_xtype pl o argv i) false false) ∧
    (∀ env o argv i, marks (parse_name env o argv i) false false) ∧
    (∀ env o argv i, marks (parse_iname env o argv i) false false) ∧
    (∀ env o argv i, marks (parse_lname env o argv i) false false) ∧
    (∀ o argv i, marks (parse_ilname o argv i) false false) ∧
    (∀ env o argv i, marks (parse_path env o argv i) false false) ∧
    (∀ env o argv i, marks (parse_wholename env o argv i) false false) ∧
    (∀ env o argv i, marks (parse_ipath env o argv i) false false) ∧
    (∀ env o argv i, marks (parse_iwholename env o argv i) false false) ∧
    (∀ env o argv i, marks (parse_regex env o argv i) false false) ∧
    (∀ env o argv i, marks (parse_iregex env o argv i) false false) ∧
    (∀ env o argv i, marks (parse_samefile env o argv i) false false) ∧
    (∀ env o argv i, marks (parse_fstype env o argv i) false false) ∧
    (∀ env o argv i, marks (parse_perm env o argv i).2 false false) ∧
    (∀ o i, marks (parse_empty o i) false false) ∧
    (∀ o i func, marks (parse_accesscheck o i func) false false) ∧
    (∀ o i, marks (parse_nogroup o i) false false) ∧
    (∀ o i, marks (parse_nouser o i) false false) ∧
    (∀ o i, marks (parse_true o i) false false) ∧
    (∀ o i, marks (parse_false o i) false false) ∧
    (∀ env o func argv i, marks (parse_time env o func argv i) false false) ∧
    (∀ env o argv i, marks (parse_amin env o argv i) false false) ∧
    (∀ env o argv i, marks (parse_cmin env o argv i) false false) ∧
    (∀ env o argv i, marks (parse_mmin env o argv i) false false) ∧
    (∀ env o argv i, marks (parse_anewer env o argv i) false false) ∧
    (∀ env o argv i, marks (parse_cnewer env o argv i) false false) ∧
    (∀ env o argv i, marks (parse_newer env o argv i) false false) ∧
    (∀ env o argv i, marks (parse_newerXY env o argv i) false false) ∧
    (∀ env o argv i, marks (parse_used env o argv i) false false) ∧
    (∀ env o argv i, marks (parse_user env o argv i) false false) ∧
    (∀ env o argv i, marks (parse_group env o argv i) false false) ∧
    (∀ env o argv i, marks (parse_context env o argv i) false false) ∧
    marks parse_help false false ∧
    marks parse_version false false ∧
    (∀ e ∈ parse_entry_newerXY :: parse_table, e.type = arg_type.ARG_TEST ∨
        e.type = arg_type.ARG_SPECIAL_PARSE → e.parser_name ∈ test_names) ∧
    (∀ r a b, marks r a b → (b = true → a = true) → ∀ st p,
      r = Res.ret (true, st) → st.pred = some p → p.no_default_print = true →
      p.side_effects = true) := by
  refine ⟨?_, ?_, ?_, ?_, ?_, ?_, ?_, ?_, ?_, ?_, ?_, ?_, ?_, ?_, ?_, ?_, ?_, ?_, ?_, ?_, ?_, ?_, ?_, ?_, ?_, ?_, ?_, ?_, ?_, ?_, ?_, ?_, ?_, ?_, ?_, ?_, ?_, ?_, ?_, ?_, ?_, ?_, ?_, ?_, ?_, ?_, ?_, ?_, ?_, ?_, ?_, ?_, ?_, ?_, ?_⟩
  · intro o i; exact marks_of_ret _ _ _ _ _ rfl rfl
  · intro env o i; exact marks_insert_fprint env o i _ none
  · intro env o argv i; exact marks_parse_fprint env o argv i
  · intro env o argv i; exact marks_parse_fprint0 env o argv i
  · intro env o i; exact marks_insert_fls env o i _ none
  · intro env o argv i; exact marks_parse_fls env o argv i
  · intro o i; exact marks_of_ret _ _ _ _ _ rfl rfl
  · intro env o argv i; exact marks_insert_exec_ok env o _ argv i
  · intro env o argv i; exact marks_insert_exec_ok env o _ argv i
  · intro env o argv i; exact marks_insert_exec_ok env o _ argv i
  · intro env o argv i; exact marks_insert_exec_ok env o _ argv i
  · intro o i; unfold parse_prune; exact marks_of_ret _ _ _ _ _ rfl rfl
  · intro o i; exact marks_of_ret _ _ _ _ _ rfl rfl
  · intro o argv i; exact marks_parse_size o argv i
  · intro o argv i; exact marks_parse_inum o argv i
  · intro o argv i; exact marks_parse_links o argv i
  · intro o argv i; exact marks_parse_uid o argv i
  · intro o argv i; exact marks_parse_gid o argv i
  · intro pl o argv i; exact marks_insert_type pl o argv i _
  · intro pl o argv i; exact marks_insert_type pl o argv i _
  · intro env o argv i; exact marks_parse_name env o argv i
  · intro env o argv i; exact marks_parse_iname env o argv i
  · intro env o argv i; exact marks_parse_lname env o argv i
  · intro o argv i; exact marks_parse_ilname o argv i
  · intro env o argv i; exact marks_insert_path_check env o argv i _
  · intro env o argv i; exact marks_insert_path_check env o argv i _
  · intro env o argv i; exact marks_insert_path_check env o argv i _
  · intro env o argv i; exact marks_insert_path_check env o argv i _
  · intro env o argv i; exact marks_insert_regex env o argv i _
  · intro env o argv i; exact marks_insert_regex env o argv i _
  · intro env o argv i; exact marks_parse_samefile env o argv i
  · intro env o argv i; exact marks_parse_fstype env o argv i
  · intro env o argv i; exact marks_parse_perm env o argv i
  · intro o i; exact marks_of_ret _ _ _ _ _ rfl rfl
  · intro o i func; exact marks_of_ret _ _ _ _ _ rfl rfl
  · intro o i; exact marks_of_ret _ _ _ _ _ rfl rfl
  · intro o i; exact marks_of_ret _ _ _ _ _ rfl rfl
  · intro o i; exact marks_of_ret _ _ _ _ _ rfl rfl
  · intro o i; exact marks_of_ret _ _ _ _ _ rfl rfl
  · intro env o func argv i; exact marks_parse_time env o func argv i
  · intro env o argv i; exact marks_do_parse_xmin env o _ argv i _
  · intro env o argv i; exact marks_do_parse_xmin env o _ argv i _
  · intro env o argv i; exact marks_do_parse_xmin env o _ argv i _
  · intro env o argv i; exact marks_parse_anewer env o argv i
  · intro env o argv i; exact marks_parse_cnewer env o argv i
  · intro env o argv i; exact marks_parse_newer env o argv i
  · intro env o argv i; exact marks_parse_newerXY env o argv i
  · intro env o argv i; exact marks_parse_used env o argv i
  · intro env o argv i; exact marks_parse_user env o argv i
  · intro env o argv i; exact marks_parse_group env o argv i
  · intro env o argv i; exact marks_parse_context env o argv i
  · exact marks_of_fatal _ _ _
  · exact marks_of_fatal _ _ _
  · decide
  · intro r a b hm hab st p hr hp hn
    obtain ⟨q, hq, ha, hb⟩ := hm st hr
    rw [hp] at hq
    cases hq
    rw [ha]
    exact hab (hb.symm.trans hn)

/-- C30, instances: the parser of -print returns true on a sample with a
predicate marked as stated, and so do the other action parsers, -prune, -quit
and some of the tests. -/
theorem actions_inhibit_default_print_witness :
    (∃ p, (⟨0, sample_options,
        some { insert_primary_noarg PRED_FUNC.pred_print with
                side_effects := true, no_default_print := true,
                need_stat := false, need_type := false }⟩ : parse_state).pred = some p ∧
      p.side_effects = true ∧ p.no_default_print = true) ∧
    (∃ st p, parse_print0 sample_parse_env sample_options 0
        = Res.ret (true, st) ∧
      st.pred = some p ∧ p.side_effects = true ∧ p.no_default_print = true) ∧
    (∃ st p, parse_fprint sample_parse_env sample_options (some [echo]) 0
        = Res.ret (true, st) ∧
      st.pred = some p ∧ p.side_effects = true ∧ p.no_default_print = true) ∧
    (∃ st p, parse_fprint0 sample_parse_env sample_options (some [echo]) 0
        = Res.ret (true, st) ∧
      st.pred = some p ∧ p.side_effects = true ∧ p.no_default_print = true) ∧
    (∃ st p, parse_ls sample_parse_env sample_options 0
        = Res.ret (true, st) ∧
      st.pred = some p ∧ p.side_effects = true ∧ p.no_default_print = true) ∧
    (∃ st p, parse_fls sample_parse_env sample_options (some [echo]) 0
        = Res.ret (true, st) ∧
      st.pred = some p ∧ p.side_effects = true ∧ p.no_default_print = true) ∧
    (∃ st p, parse_delete sample_options 0
        = Res.ret (true, st) ∧
      st.pred = some p ∧ p.side_effects = true ∧ p.no_default_print = true) ∧
    (∃ st p, parse_exec sample_env sample_options (some [echo, semicolon]) 0
        = Res.ret (true, st) ∧
      st.pred = some p ∧ p.side_effects = true ∧ p.no_default_print = true) ∧
    (∃ st p, parse_execdir sample_env sample_options (some [echo, semicolon]) 0
        = Res.ret (true, st) ∧
      st.pred = some p ∧ p.side_effects = true ∧ p.no_default_print = true) ∧
    (∃ st p, parse_ok sample_env sample_options (some [echo, semicolon]) 0
        = Res.ret (true, st) ∧
      st.pred = some p ∧ p.side_effects = true ∧ p.no_default_print = true) ∧
    (∃ st p, parse_okdir sample_env sample_options (some [echo, semicolon]) 0
        = Res.ret (true, st) ∧
      st.pred = some p ∧ p.side_effects = true ∧ p.no_default_print = true) ∧
    (∃ st p, parse_prune sample_options 0
        = Res.ret (true, st) ∧
      st.pred = some p ∧ p.side_effects = true ∧ p.no_default_print = false) ∧
    (∃ st p, parse_quit sample_options 0
        = Res.ret (true, st) ∧
      st.pred = some p ∧ p.side_effects = true ∧ p.no_default_print = false) ∧
    (∃ st p, (parse_perm sample_perm_env sample_options (some ["644".toList]) 0).2
        = Res.ret (true, st) ∧
      st.pred = some p ∧ p.side_effects = false ∧ p.no_default_print = false) ∧
    (∃ st p, parse_fstype sample_perm_env sample_options (some ["ext4".toList]) 0
        = Res.ret (true, st) ∧
      st.pred = some p ∧ p.side_effects = false ∧ p.no_default_print = false) ∧
    (∃ st p, parse_empty sample_options 0
        = Res.ret (true, st) ∧
      st.pred = some p ∧ p.side_effects = false ∧ p.no_default_print = false) ∧
    (∃ st p, parse_accesscheck sample_options 0 PRED_FUNC.pred_readable
        = Res.ret (true, st) ∧
      st.pred = some p ∧ p.side_effects = false ∧ p.no_default_print = false) ∧
    (∃ st p, parse_newer sample_owner_env sample_options (some [echo]) 0
        = Res.ret (true, st) ∧
      st.pred = some p ∧ p.side_effects = false ∧ p.no_default_print = false) ∧
    (∃ st p, parse_newerXY sample_owner_env sample_options
        (some ["-newermt".toList, "yesterday".toList]) 0
        = Res.ret (true, st) ∧
      st.pred = some p ∧ p.side_effects = false ∧ p.no_default_print = false) ∧
    (∃ st p, parse_used sample_owner_env sample_options (some ["3".toList]) 0
        = Res.ret (true, st) ∧
      st.pred = some p ∧ p.side_effects = false ∧ p.no_default_print = false) ∧
    (∃ st p, parse_user sample_owner_env sample_options (some ["root".toList]) 0
        = Res.ret (true, st) ∧
      st.pred = some p ∧ p.side_effects = false ∧ p.no_default_print = false) ∧
    (∃ st p, parse_group sample_owner_env sample_options (some ["1000".toList]) 0
        = Res.ret (true, st) ∧
      st.pred = some p ∧ p.side_effects = false ∧ p.no_default_print = false) ∧
    (∃ st p, parse_context sample_owner_env sample_options (some [echo]) 0
        = Res.ret (true, st) ∧
      st.pred = some p ∧ p.side_effects = false ∧ p.no_default_print = false) :=
  ⟨actions_inhibit_default_print.1 sample_options 0 _ rfl,
    ⟨_, _, rfl, rfl, rfl, rfl⟩,
    ⟨_, _, rfl, rfl, rfl, rfl⟩,
    ⟨_, _, rfl, rfl, rfl, rfl⟩,
    ⟨_, _, rfl, rfl, rfl, rfl⟩,
    ⟨_, _, rfl, rfl, rfl, rfl⟩,
    ⟨_, _, rfl, rfl, rfl, rfl⟩,
    ⟨_, _, rfl, rfl, rfl, rfl⟩,
    ⟨_, _, rfl, rfl, rfl, rfl⟩,
    ⟨_, _, rfl, rfl, rfl, rfl⟩,
    ⟨_, _, rfl, rfl, rfl, rfl⟩,
    ⟨_, _, rfl, rfl, rfl, rfl⟩,
    ⟨_, _, rfl, rfl, rfl, rfl⟩,
    ⟨_, _, rfl, rfl, rfl, rfl⟩,
    ⟨_, _, rfl, rfl, rfl, rfl⟩,
    ⟨_, _, rfl, rfl, rfl, rfl⟩,
    ⟨_, _, rfl, rfl, rfl, rfl⟩,
    ⟨_, _, rfl, rfl, rfl, rfl⟩,
    ⟨_, _, rfl, rfl, rfl, rfl⟩,
    ⟨_, _, rfl, rfl, rfl, rfl⟩,
    ⟨_, _, rfl, rfl, rfl, rfl⟩,
    ⟨_, _, rfl, rfl, rfl, rfl⟩,
    ⟨_, _, rfl, rfl, rfl, rfl⟩⟩

/-! ## The flag stop_at_current_level -/

theorem consider_visiting_late_leaving (env : find_env) (o : options) (st : state)
    (ent : FTSENT) (h : ent.fts_info = FTS_INFO.FTS_DP) :
    (consider_visiting_late env o st ent).1.stop_at_current_level = false := by
  unfold consider_visiting_late
  simp only []
  rw [if_pos h]

theorem consider_visiting_early_leaving (env : find_env) (o : options) (st : state)
    (ent : FTSENT) (h : ent.fts_info = FTS_INFO.FTS_DP) :
    (consider_visiting_early env o st ent).1 = none ↔
      ent.st_mode ≠ 0 ∧ ∃ r, env.digest_mode ent ent.st_mode = digest_result.failed r := by
  have he : ∀ s, consider_visiting_errors env o s ent = (false, s, []) := by
    intro s
    unfold consider_visiting_errors
    rw [if_neg (by rw [h]; decide), if_neg (by rw [h]; decide), if_neg (by rw [h]; decide),
      if_neg (by rw [h]; decide)]
  have hu : ∀ s, (consider_visiting_usual s ent).1 = ent.st_mode := by
    intro s
    unfold consider_visiting_usual
    rw [if_neg (by rw [h]; decide)]
  have hd : ∀ s mode, (consider_visiting_digest env s ent mode).1 = none ↔
      mode ≠ 0 ∧ ∃ r, env.digest_mode ent mode = digest_result.failed r := by
    intro s mode
    unfold consider_visiting_digest
    by_cases hm : mode ≠ 0
    · rw [if_pos hm]
      cases hr : env.digest_mode ent mode with
      | failed r =>
        cases r with
        | none => simp only []; exact ⟨fun _ => ⟨hm, none, rfl⟩, fun _ => trivial⟩
        | some e => simp only []; exact ⟨fun _ => ⟨hm, some e, rfl⟩, fun _ => trivial⟩
      | ok mode1 =>
        simp only []
        rw [if_neg (by rw [h]; rintro ⟨_, h2⟩; cases h2)]
        constructor
        · intro h2; cases h2
        · rintro ⟨_, r, h2⟩; cases h2
    · rw [if_neg hm]
      simp only []
      rw [if_neg (by rw [h]; rintro ⟨_, h2⟩; cases h2)]
      constructor
      · intro h2; cases h2
      · rintro ⟨h2, _⟩; exact absurd h2 hm
  unfold consider_visiting_early
  simp only []
  rw [if_neg (by rw [h]; decide), he]
  simp only [Bool.false_eq_true, if_false]
  rw [hu]
  exact hd _ _

/-- C31: the call of visit on an entry requests FTS_SKIP for that entry if and
only if state.stop_at_current_level is true after the expression has been
evaluated, which is the case as soon as the evaluation (a successful -prune)
sets the flag; and for a post-order entry (FTS_DP) consider_visiting, when it
runs to its end, leaves state.stop_at_current_level false, whatever the flag
was before.  For such an entry consider_visiting returns before its end only
when digest_mode fails. -/
theorem stop_at_current_level_skips_and_is_reset (env : find_env) (o : options) (st : state)
    (ent : FTSENT) :
    (event.fts_set ent.fts_path FTS_INSTR.FTS_SKIP ∈ (visit env o st ent).2 ↔
      (visit env o st ent).1.stop_at_current_level = true) ∧
    skips (visit env o st ent).2 =
      (if (visit env o st ent).1.stop_at_current_level = true then [ent.fts_path] else []) ∧
    evaluations (visit env o st ent).2 = [ent.fts_path] ∧
    ((env.apply_predicate o ent.fts_path
        { st with have_stat := ent.fts_info ≠ FTS_INFO.FTS_NS ∧
                    ent.fts_info ≠ FTS_INFO.FTS_NSOK,
                  rel_pathname := ent.fts_accpath,
                  cwd_dir_fd := ent.fts_cwd_fd }).stop_at_current_level = true →
      (visit env o st ent).1.stop_at_current_level = true) ∧
    (ent.fts_info = FTS_INFO.FTS_DP → (consider_visiting_early env o st ent).1 ≠ none →
      (consider_visiting env o st ent).1.stop_at_current_level = false) ∧
    (ent.fts_info = FTS_INFO.FTS_DP →
      ((consider_visiting_early env o st ent).1 = none ↔
        ent.st_mode ≠ 0 ∧ ∃ r, env.digest_mode ent ent.st_mode = digest_result.failed r)) := by
  refine ⟨?_, (visit_evaluations env o st ent).2, (visit_evaluations env o st ent).1, ?_, ?_,
    consider_visiting_early_leaving env o st ent⟩
  · unfold visit
    simp only []
    split
    · rename_i h
      simp only [h, iff_true]
      exact List.mem_cons_of_mem _ (List.mem_singleton.mpr rfl)
    · rename_i h
      simp only [h]
      constructor
      swap
      · intro h2; cases h2
      intro hm
      exfalso
      rcases List.mem_cons.mp hm with h1 | h1
      · cases h1
      · cases h1
  · intro hp
    unfold visit
    simp only []
    split
    · rename_i h; exact h
    · rename_i h
      simp only [hp, Bool.or_true] at h
      exact absurd trivial h
  · intro hdp hne
    rcases consider_visiting_events env o st ent with ⟨h1, _⟩ | ⟨_, h2⟩
    · exact absurd h1 hne
    · rw [h2]
      exact consider_visiting_late_leaving env o _ ent hdp

/-- C31, an instance: when the evaluation on the directory `a` sets the flag
(a successful -prune), visit requests FTS_SKIP for `a`; and the post-order
visit of `a` entered with the flag set leaves it false. -/
theorem stop_at_current_level_skips_and_is_reset_witness :
    (event.fts_set sample_dir_entry.fts_path FTS_INSTR.FTS_SKIP ∈
      (visit { sample_find_env with
          apply_predicate := fun _ _ _ => { stop_at_current_level := true } }
        {} sample_state sample_dir_entry).2) ∧
    (consider_visiting sample_find_env {}
      { sample_state with stop_at_current_level := true }
      sample_dir_leave_entry).1.stop_at_current_level = false :=
  ⟨(stop_at_current_level_skips_and_is_reset
      { sample_find_env with
          apply_predicate := fun _ _ _ => { stop_at_current_level := true } }
      {} sample_state sample_dir_entry).1.mpr (by decide),
   (stop_at_current_level_skips_and_is_reset sample_find_env {}
      { sample_state with stop_at_current_level := true }
      sample_dir_leave_entry).2.2.2.2.1 (by decide) (by decide)⟩

/-! ## The braces before the "+" terminator -/

theorem exec_scan_brace_arg (ap : Bool) (func : PRED_FUNC) (start : Nat) :
    ∀ (l : List CStr) (e : Nat) (prev : Bool) (bc : Nat) (ba : Option CStr) (s : scan_state),
      exec_scan ap func start l e prev bc ba = Res.ret s →
      (prev = true → ba = some braces) →
      s.multiple = true → s.brace_arg = some braces := by
  intro l
  induction l with
  | nil =>
    intro e prev bc ba s h _ hm
    simp only [exec_scan, Res.ret.injEq] at h
    subst h
    cases hm
  | cons a rest ih =>
    intro e prev bc ba s h hinv hm
    rw [exec_scan] at h
    split_ifs at h with h1 h2 h3 h4
    · simp only [Res.ret.injEq] at h
      subst h
      cases hm
    · simp only [Res.ret.injEq] at h
      subst h
      simp only [Bool.and_eq_true] at h2
      exact hinv h2.1.2
    · refine ih _ _ _ _ _ h ?_ hm
      intro hb
      rw [eq_of_beq hb]
    · exact ih _ _ _ _ _ h (fun hb => by cases hb) hm

theorem exec_scan_fatal (ap : Bool) (func : PRED_FUNC) (start : Nat) :
    ∀ (l : List CStr) (e : Nat) (prev : Bool) (bc : Nat) (ba : Option CStr) (err : Fatal),
      exec_scan ap func start l e prev bc ba = Res.fatal err →
      err = Fatal.braces_in_utility_name := by
  intro l
  induction l with
  | nil =>
    intro e prev bc ba err h
    simp only [exec_scan] at h
    cases h
  | cons a rest ih =>
    intro e prev bc ba err h
    rw [exec_scan] at h
    split_ifs at h with h1 h2 h3 h4
    · cases h; rfl
    · exact ih _ _ _ _ _ h
    · exact ih _ _ _ _ _ h

theorem check_path_safety_fatal (path : Option CStr) (err : Fatal)
    (h : check_path_safety path = Res.fatal err) :
    err = Fatal.path_current_directory ∨ err = Fatal.path_relative := by
  cases path with
  | none => cases h
  | some p =>
    rw [check_path_safety_eq] at h
    rcases check_components_total (p.splitOn ':') with h1 | h1 | h1
    · rw [h1] at h; cases h
    · rw [h1] at h; cases h; exact Or.inl rfl
    · rw [h1] at h; cases h; exact Or.inr rfl

theorem insert_exec_ok_ne_braces_not_alone (env : exec_env) (o : options) (func : PRED_FUNC)
    (argv : Option (List CStr)) (start : Nat) :
    insert_exec_ok env o func argv start ≠ Res.fatal Fatal.braces_not_alone := by
  intro h
  cases argv with
  | none => simp only [insert_exec_ok] at h; cases h
  | some l =>
    rcases insert_exec_ok_cases env o func l start with
      ⟨_, hr⟩ | ⟨_, _, e, he, hr⟩ | ⟨_, _, ⟨e, he, hr⟩ | ⟨s, hs, hcase⟩⟩
    · rw [hr] at h; cases h
    · rw [hr] at h
      cases h
      rcases check_path_safety_fatal _ _ he with h1 | h1 <;> cases h1
    · rw [hr] at h
      cases h
      have h1 := exec_scan_fatal _ _ _ _ _ _ _ _ _ he
      cases h1
    · rcases hcase with ⟨_, o2, hr⟩ | ⟨_, _, hr⟩ | ⟨_, _, ⟨hm, hlen⟩, hr⟩ | ⟨_, _, _, _, hr⟩ |
        ⟨_, _, _, _, o2, p, ev, hr, _⟩
      · rw [hr] at h; cases h
      · rw [hr] at h; cases h
      · have hb := exec_scan_brace_arg _ _ _ _ _ _ _ _ _ hs (fun hp => by cases hp) hm
        rw [hb] at hlen
        exact hlen rfl
      · rw [hr] at h; cases h
      · rw [hr] at h; cases h

/-- C36: for every argument vector, when the scan of insert_exec_ok ends with
exec_vec.multiple set (the "+" terminator), brace_arg is non-NULL and is
exactly the two-character string of the braces, whatever brace_count is; so
the error "the braces must appear by itself" is never raised: insert_exec_ok
never ends with that fatal error. -/
theorem braces_not_alone_is_unreachable (func : PRED_FUNC) (argv : List CStr) (start : Nat)
    (s : scan_state) (hs : exec_scan_argv func argv start = Res.ret s)
    (hm : s.multiple = true) :
    s.brace_arg = some braces ∧ (s.brace_arg.getD []).length = 2 ∧
    ∀ (env : exec_env) (o : options) (func1 : PRED_FUNC) (argv1 : Option (List CStr))
      (start1 : Nat),
      insert_exec_ok env o func1 argv1 start1 ≠ Res.fatal Fatal.braces_not_alone := by
  have hb := exec_scan_brace_arg _ _ _ _ _ _ _ _ _ hs (fun hp => by cases hp) hm
  refine ⟨hb, ?_, insert_exec_ok_ne_braces_not_alone⟩
  rw [hb]
  rfl

/-- C36, an instance: the scan of `echo`, the braces, `+` ends with multiple
set and brace_arg equal to the braces. -/
theorem braces_not_alone_is_unreachable_witness :
    exec_scan_argv PRED_FUNC.pred_exec [echo, braces, plus] 0
      = Res.ret ⟨2, true, 1, some braces, true⟩ ∧
    (⟨2, true, 1, some braces, true⟩ : scan_state).brace_arg = some braces :=
  ⟨by decide,
    (braces_not_alone_is_unreachable PRED_FUNC.pred_exec [echo, braces, plus] 0
      ⟨2, true, 1, some braces, true⟩ (by decide) rfl).1⟩

/-! ## The initial arguments of a batched command -/

theorem insert_exec_ok_multiple (env : exec_env) (o : options) (func : PRED_FUNC)
    (argv : List CStr) (start : Nat) (st : parse_state) (p : predicate) (ev : exec_val)
    (h : insert_exec_ok env o func (some argv) start = Res.ret (true, st))
    (hp : st.pred = some p) (hev : p.args = pred_args.exec_vec ev) (hm : ev.multiple = true) :
    ∃ s, exec_scan_argv func argv start = Res.ret s ∧ s.multiple = true ∧
      st.arg_ptr = s.end_ + 1 ∧ ev.initial_argc = (s.end_ - start) - 1 ∧
      ev.pushed = (argv.drop start).take (s.end_ - 1 - start) := by
  unfold insert_exec_ok at h
  simp only [] at h
  split at h
  · cases h
  · split at h
    · cases h
    · split at h
      · cases h
      · rename_i s hs
        refine ⟨s, hs, ?_⟩
        split at h
        · simp only [Res.ret.injEq, Prod.mk.injEq] at h
          exact absurd h.1 (by decide)
        · split at h
          · cases h
          · split at h
            · cases h
            · split at h
              · cases h
              · simp only [Res.ret.injEq, Prod.mk.injEq, true_and] at h
                subst h
                simp only [Option.some.injEq] at hp
                subst hp
                simp only [pred_args.exec_vec.injEq] at hev
                subst hev
                cases hsm : s.multiple with
                | false => rw [hsm] at hm; cases hm
                | true => exact ⟨rfl, rfl, rfl, rfl⟩

theorem exec_scan_multiple (ap : Bool) (func : PRED_FUNC) (start : Nat) :
    ∀ (l : List CStr) (e : Nat) (prev : Bool) (bc : Nat) (ba : Option CStr) (s : scan_state),
      exec_scan ap func start l e prev bc ba = Res.ret s → s.multiple = true →
      e ≤ s.end_ ∧ l[s.end_ - e]? = some plus ∧ (e < s.end_ ∨ prev = true) := by
  intro l
  induction l with
  | nil =>
    intro e prev bc ba s h hm
    simp only [exec_scan, Res.ret.injEq] at h
    subst h
    cases hm
  | cons a rest ih =>
    intro e prev bc ba s h hm
    rw [exec_scan] at h
    split_ifs at h with h1 h2 h3 h4
    · simp only [Res.ret.injEq] at h
      subst h
      cases hm
    · simp only [Res.ret.injEq] at h
      subst h
      simp only [Bool.and_eq_true] at h2
      refine ⟨le_refl _, ?_, Or.inr h2.1.2⟩
      rw [Nat.sub_self, List.getElem?_cons_zero, eq_of_beq h2.2]
    · obtain ⟨h5, h6, _⟩ := ih _ _ _ _ _ h hm
      refine ⟨by omega, ?_, Or.inl (by omega)⟩
      have : s.end_ - e = (s.end_ - (e + 1)) + 1 := by omega
      rw [this, List.getElem?_cons_succ]
      exact h6
    · obtain ⟨h5, h6, _⟩ := ih _ _ _ _ _ h hm
      refine ⟨by omega, ?_, Or.inl (by omega)⟩
      have : s.end_ - e = (s.end_ - (e + 1)) + 1 := by omega
      rw [this, List.getElem?_cons_succ]
      exact h6

/-- C38: insert_exec_ok accepts a batched command with no utility name: for
-exec with the arguments braces, `+` it returns true with exec_vec.multiple
set, initial_argc = 0, no initial argument pushed and arg_ptr just past the
`+`.  In general, when it returns true with multiple set, the scan ended at an
index `e` that holds `+`, arg_ptr is e + 1, initial_argc is (e - start) - 1
and the arguments pushed are argv[start .. e-2], in order. -/
theorem insert_exec_ok_batched_initial_args :
    (∃ p ev, insert_exec_ok sample_env {} PRED_FUNC.pred_exec (some [braces, plus]) 0
        = Res.ret (true, ⟨2, {}, some p⟩) ∧
      p.args = pred_args.exec_vec ev ∧ ev.multiple = true ∧ ev.initial_argc = 0 ∧
      ev.pushed = []) ∧
    (∀ (env : exec_env) (o : options) (func : PRED_FUNC) (argv : List CStr) (start : Nat)
        (st : parse_state) (p : predicate) (ev : exec_val),
      insert_exec_ok env o func (some argv) start = Res.ret (true, st) →
      st.pred = some p → p.args = pred_args.exec_vec ev → ev.multiple = true →
      ∃ e, start < e ∧ argv[e]? = some plus ∧ st.arg_ptr = e + 1 ∧
        ev.initial_argc = (e - start) - 1 ∧
        ev.pushed.length = e - 1 - start ∧
        ∀ i, i < e - 1 - start → ev.pushed[i]? = argv[start + i]?) := by
  constructor
  · exact ⟨_, _, rfl, rfl, rfl, rfl, rfl⟩
  · intro env o func argv start st p ev h hp hev hm
    obtain ⟨s, hs, hsm, hap, hic, hpu⟩ :=
      insert_exec_ok_multiple env o func argv start st p ev h hp hev hm
    have hplus : argv[s.end_]? = some plus ∧ start < s.end_ := by
      obtain ⟨h1, h2, h3⟩ := exec_scan_multiple _ _ _ _ _ _ _ _ _ hs hsm
      rw [List.getElem?_drop] at h2
      constructor
      · rw [← h2]; congr 1; omega
      · rcases h3 with h3 | h3
        · exact h3
        · cases h3
    refine ⟨s.end_, hplus.2, hplus.1, hap, hic, ?_, ?_⟩
    · rw [hpu, List.length_take, List.length_drop]
      have hlt : s.end_ < argv.length := by
        by_contra hn
        have := List.getElem?_eq_none (Nat.le_of_not_lt hn)
        rw [this] at hplus
        cases hplus.1
      omega
    · intro i hi
      rw [hpu]
      exact getElem?_take_drop argv start _ i hi

/-- C38, an instance: for -exec with `echo`, the braces and `+` the scan ends
at index 2, one initial argument is counted and `echo` is the argument
pushed. -/
theorem insert_exec_ok_batched_initial_args_witness :
    ∃ e, 0 < e ∧ [echo, braces, plus][e]? = some plus ∧
      (⟨3, sample_options, some sample_plus_pred⟩ : parse_state).arg_ptr = e + 1 ∧
      sample_plus_exec_val.initial_argc = (e - 0) - 1 ∧
      sample_plus_exec_val.pushed.length = e - 1 - 0 ∧
      ∀ i, i < e - 1 - 0 → sample_plus_exec_val.pushed[i]? = [echo, braces, plus][0 + i]? :=
  insert_exec_ok_batched_initial_args.2 sample_env sample_options PRED_FUNC.pred_exec
    [echo, braces, plus] 0 ⟨3, sample_options, some sample_plus_pred⟩ sample_plus_pred
    sample_plus_exec_val (by decide) rfl rfl rfl

/-! ## Name resolution in find_parser -/

theorem find_parser_entry_table :
    ∀ e ∈ parse_table, e.type ≠ arg_type.ARG_NOOP →
      (find_parser_entry {} none ('-' :: e.parser_name)).1 =
          parse_table.find? (fun x => x.parser_name = e.parser_name) ∧
        (parse_table.find? (fun x => x.parser_name = e.parser_name)).isSome = true := by
  decide

theorem find_parser_entry_fst (o : options) (first : Option CStr) (name : CStr) :
    (find_parser_entry o first name).1 =
      if name.take 6 = "-newer".toList ∧ name.length = 8 then some parse_entry_newerXY
      else
        match parse_table.find?
            (fun e => e.parser_name = if name.head? = some '-' then name.drop 1 else name) with
        | some e => if e.type = arg_type.ARG_NOOP then none else some e
        | none => none := by
  unfold find_parser_entry
  simp only []
  split
  · rw [(found_parser_spec o first name parse_entry_newerXY).1]
    rfl
  · simp only [decide_eq_true_eq]
    split
    · rename_i e he
      rw [he]
      exact (found_parser_spec o first name e).1
    · rename_i he
      rw [he]

/-- C39: find_parser resolves names against the parse table: for every table
entry e whose type is not ARG_NOOP, the lookup of "-" followed by the name of
e returns the first table entry with that name; every name of 8 characters
that begins with "-newer" returns the entry parse_entry_newerXY; a name that
is neither such a name nor, after one leading dash is dropped, the name of a
table entry returns NULL; and no lookup returns an entry of type ARG_NOOP: in
particular "--noop" and "---noop" return NULL. -/
theorem find_parser_resolves_names (o : options) (first : Option CStr) :
    (∀ e ∈ parse_table, e.type ≠ arg_type.ARG_NOOP →
      ∃ e1, parse_table.find? (fun x => x.parser_name = e.parser_name) = some e1 ∧
        e1.parser_name = e.parser_name ∧
        (find_parser_entry o first ('-' :: e.parser_name)).1 = some e1) ∧
    (∀ name : CStr, name.take 6 = "-newer".toList → name.length = 8 →
      (find_parser_entry o first name).1 = some parse_entry_newerXY) ∧
    (∀ name : CStr, ¬ (name.take 6 = "-newer".toList ∧ name.length = 8) →
      (∀ e ∈ parse_table,
        e.parser_name ≠ (if name.head? = some '-' then name.drop 1 else name)) →
      (find_parser_entry o first name).1 = none) ∧
    (∀ (name : CStr) (e : parser_table), (find_parser_entry o first name).1 = some e →
      e.type ≠ arg_type.ARG_NOOP ∧
      e ≠ parser_table.mk arg_type.ARG_NOOP "--noop".toList) ∧
    (find_parser_entry o first "--noop".toList).1 = none ∧
    (find_parser_entry o first "---noop".toList).1 = none := by
  refine ⟨?_, ?_, ?_, ?_, ?_, ?_⟩
  · intro e he hn
    obtain ⟨h1, h2⟩ := find_parser_entry_table e he hn
    cases hf : parse_table.find? (fun x => x.parser_name = e.parser_name) with
    | none => rw [hf] at h2; cases h2
    | some e1 =>
      refine ⟨e1, rfl, ?_, ?_⟩
      · have h3 := List.find?_some hf
        simp only [decide_eq_true_eq] at h3
        exact h3
      · rw [(find_parser_spec o first _).1, h1, hf]
  · intro name h6 h8
    rw [find_parser_entry_fst, if_pos ⟨h6, h8⟩]
  · intro name hnew hno
    rw [find_parser_entry_fst, if_neg hnew]
    split
    · rename_i e he
      have h1 := List.mem_of_find?_eq_some he
      have h2 := List.find?_some he
      simp only [decide_eq_true_eq] at h2
      exact absurd h2 (hno e h1)
    · rfl
  · intro name e h
    have hn : e.type ≠ arg_type.ARG_NOOP := by
      rw [find_parser_entry_fst] at h
      split at h
      · cases h; decide
      · split at h
        · split at h
          · cases h
          · rename_i hne
            cases h
            exact hne
        · cases h
    refine ⟨hn, ?_⟩
    intro he
    rw [he] at hn
    exact hn rfl
  · rw [(find_parser_spec o first _).1]; decide
  · rw [(find_parser_spec o first _).1]; decide

/-! ## The success rate of -type and -xtype -/

theorem type_switch_rate (pl : platform) (c : Char) (t : file_type) (r : Nat)
    (h : type_switch pl c = Res.ret (t, r)) :
    r = spec_type_rate c ∧ type_switch full_platform c = Res.ret (t, r) := by
  unfold type_switch at h
  split_ifs at h with h1 h2 h3 h4 h5 h6 h7 h8 h9 h10 h11 h12
  all_goals
    simp only [Res.ret.injEq, Prod.mk.injEq] at h
    obtain ⟨ht, hr⟩ := h
    subst ht hr
    subst_vars
    exact ⟨rfl, rfl⟩

theorem insert_type_loop_full (pl : platform) :
    ∀ (n : Nat) (arg : CStr) (types : List Bool) (rate : Nat) (x : List Bool × Nat),
      arg.length ≤ n → insert_type_loop pl arg types rate = Res.ret x →
      insert_type_loop full_platform arg types rate = Res.ret x := by
  intro n
  induction n with
  | zero =>
    intro arg types rate x hlen h
    have : arg = [] := List.length_eq_zero.mp (Nat.le_zero.mp hlen)
    subst this
    simp only [insert_type_loop] at h ⊢
    exact h
  | succ n ih =>
    intro arg types rate x hlen h
    cases arg with
    | nil =>
      simp only [insert_type_loop] at h ⊢
      exact h
    | cons c rest =>
      rw [insert_type_loop] at h ⊢
      cases hsw : type_switch pl c with
      | fatal e => rw [hsw] at h; cases h
      | ret tr =>
        obtain ⟨tc, rc⟩ := tr
        rw [hsw] at h
        rw [(type_switch_rate pl c tc rc hsw).2]
        simp only at h ⊢
        split at h
        · cases h
        · rename_i hdup
          rw [if_neg hdup]
          cases rest with
          | nil => exact h
          | cons d rest2 =>
            simp only at h ⊢
            split at h
            · cases h
            · rename_i hd
              rw [if_neg hd]
              split at h
              · cases h
              · rename_i hr
                rw [if_neg hr]
                exact ih _ _ _ _ (by simp only [List.length_cons] at hlen; omega) h

theorem insert_type_loop_rate (pl : platform) :
    ∀ (letters : List Char) (types : List Bool) (rate : Nat) (cells : List Bool) (r : Nat),
      letters ≠ [] →
      insert_type_loop pl (letters.intersperse ',') types rate = Res.ret (cells, r) →
      r = rate + (letters.map spec_type_rate).sum := by
  intro letters
  induction letters with
  | nil => intro _ _ _ _ h; exact absurd rfl h
  | cons c ls ih =>
    intro types rate cells r _ h
    cases ls with
    | nil =>
      simp only [List.intersperse_single] at h
      rw [insert_type_loop] at h
      cases hsw : type_switch pl c with
      | fatal e => rw [hsw] at h; cases h
      | ret tr =>
        obtain ⟨tc, rc⟩ := tr
        rw [hsw] at h
        simp only at h
        split at h
        · cases h
        · simp only [Res.ret.injEq, Prod.mk.injEq] at h
          rw [← h.2, (type_switch_rate pl c tc rc hsw).1]
          simp
    | cons x xs =>
      rw [List.intersperse_cons₂, insert_type_loop] at h
      cases hsw : type_switch pl c with
      | fatal e => rw [hsw] at h; cases h
      | ret tr =>
        obtain ⟨tc, rc⟩ := tr
        rw [hsw] at h
        simp only at h
        split at h
        · cases h
        · split at h
          · cases h
          · split at h
            · cases h
            · have := ih _ _ _ _ (by simp) h
              rw [this, (type_switch_rate pl c tc rc hsw).1]
              simp only [List.map_cons, List.sum_cons]
              omega

theorem spec_type_rate_sum_le (letters : List Char) (hall : ∀ c ∈ letters, c ∈ type_letters)
    (hnd : letters.Nodup) : (letters.map spec_type_rate).sum ≤ 999664454 := by
  have hsub : letters.Subperm type_letters := List.subperm_of_subset hnd hall
  obtain ⟨l1, hperm, hsl⟩ := hsub
  have h1 : (letters.map spec_type_rate).sum = (l1.map spec_type_rate).sum :=
    ((hperm.map spec_type_rate).sum_eq).symm
  have h2 : (l1.map spec_type_rate).sum ≤ (type_letters.map spec_type_rate).sum :=
    List.Sublist.sum_le_sum (hsl.map spec_type_rate) (fun _ _ => Nat.zero_le _)
  have h3 : (type_letters.map spec_type_rate).sum = 999664454 := by decide
  omega

/-- C35: for every argument that insert_type accepts, the argument lists
distinct type letters separated by commas, the est_success_rate of the
predicate is the sum of the rates of the listed letters (f 0.875, d 0.0922,
l 0.0311, b 0.000888, c 0.000443, s 0.0000159, p 0.000007554, D 0.00001, in
units of 1e-9), and it lies between 0 and 1: no letter is repeated, so the sum
is at most the sum of all eight rates, 0.999664454. -/
theorem insert_type_success_rate (pl : platform) (o : options) (l : List CStr)
    (arg_ptr : Nat) (which_pred : PRED_FUNC) (arg : CStr) (st : parse_state) (p : predicate)
    (harg : l[arg_ptr]? = some arg)
    (h : insert_type pl o (some l) arg_ptr which_pred = Res.ret (true, st))
    (hp : st.pred = some p) :
    ∃ letters, is_type_list arg letters ∧
      p.est_success_rate = (letters.map spec_type_rate).sum ∧
      0 ≤ p.est_success_rate ∧ p.est_success_rate ≤ 999664454 ∧
      p.est_success_rate ≤ 1000000000 := by
  rcases insert_type_present pl o l arg_ptr which_pred arg harg with
    ⟨_, hr⟩ | ⟨_, e, _, hr⟩ | ⟨hne, types, rate, q, hloop, hr, _, hrate, _, _⟩
  · rw [hr] at h; cases h
  · rw [hr] at h; cases h
  · rw [hr] at h
    simp only [Res.ret.injEq, Prod.mk.injEq, true_and] at h
    subst h
    simp only [Option.some.injEq] at hp
    subst hp
    have hfull := insert_type_loop_full pl _ _ _ _ _ (le_refl _) hloop
    obtain ⟨letters, htl, _⟩ :=
      insert_type_loop_ret _ arg _ _ _ _ (le_refl _) hne (by simp [FTYPE_COUNT]) hfull
    have hlist := htl
    obtain ⟨hlne, hall, hnd, heq⟩ := htl
    rw [heq] at hloop
    have hsum := insert_type_loop_rate pl letters _ _ _ _ hlne hloop
    rw [Nat.zero_add] at hsum
    have hle := spec_type_rate_sum_le letters hall hnd
    refine ⟨letters, hlist, ?_, Nat.zero_le _, ?_, ?_⟩
    · rw [hrate, hsum]
    · rw [hrate, hsum]; exact hle
    · rw [hrate, hsum]; omega

/-- C35, an instance: `-type f,d` gives the rate 0.875 + 0.0922. -/
theorem insert_type_success_rate_witness :
    ∃ letters, is_type_list "f,d".toList letters ∧
      (967200000 : Nat) = (letters.map spec_type_rate).sum ∧
      0 ≤ (967200000 : Nat) ∧ (967200000 : Nat) ≤ 999664454 ∧
      (967200000 : Nat) ≤ 1000000000 :=
  insert_type_success_rate full_platform {} ["f,d".toList] 0 PRED_FUNC.pred_type
    "f,d".toList
    ⟨1, {}, some { insert_primary_withpred PRED_FUNC.pred_type with
      est_success_rate := 967200000, need_stat := false, need_type := true,
      args := pred_args.types [false, false, true, true, false, false, false, false] }⟩
    { insert_primary_withpred PRED_FUNC.pred_type with
      est_success_rate := 967200000, need_stat := false, need_type := true,
      args := pred_args.types [false, false, true, true, false, false, false, false] }
    rfl (by decide) rfl

/-! ## Properties of parse_perm -/

theorem char_lt_eight (d : Char) : d < '8' ↔ d ≤ '7' := by
  rw [Char.lt_iff_val_lt_val, Char.le_def]
  rw [UInt32.lt_def, UInt32.le_def, BitVec.lt_def, BitVec.le_def]
  have h8 : ('8'.val).toBitVec.toNat = 56 := rfl
  have h7 : ('7'.val).toBitVec.toNat = 55 := rfl
  rw [h8, h7]
  omega

/-- C32: for every argument of -perm, the mode is compiled from the text after
a leading '-' or '/' (from the whole text otherwise); parse_perm ends with the
fatal error "invalid mode" exactly when that text does not compile or the
argument starts with '+' followed by an octal digit 0-7; otherwise it returns
true with a -perm predicate that holds the two compiled values and whose kind
is PERM_AT_LEAST for a leading '-', PERM_ANY for a leading '/', PERM_EXACT for
anything else, except that a leading '/' with both values 0 gives
PERM_AT_LEAST. -/
theorem parse_perm_kind (env : parse_env) (o : options) (l : List CStr) (i : Nat)
    (perm_expr : CStr) (h : l[i]? = some perm_expr) :
    ((parse_perm env o (some l) i).2 = Res.fatal Fatal.invalid_mode ↔
      (env.mode_compile
          (if perm_expr.head? = some '-' ∨ perm_expr.head? = some '/' then perm_expr.drop 1
            else perm_expr) = none ∨
        (perm_expr.head? = some '+' ∧
          ∃ d, perm_expr[1]? = some d ∧ '0' ≤ d ∧ d ≤ '7'))) ∧
    (∀ v, env.mode_compile
          (if perm_expr.head? = some '-' ∨ perm_expr.head? = some '/' then perm_expr.drop 1
            else perm_expr) = some v →
      ¬ (perm_expr.head? = some '+' ∧ ∃ d, perm_expr[1]? = some d ∧ '0' ≤ d ∧ d ≤ '7') →
      ∃ p, (parse_perm env o (some l) i).2 = Res.ret (true, ⟨i + 1, o, some p⟩) ∧
        p.pred_func = PRED_FUNC.pred_perm ∧
        p.args = pred_args.perm
          (if perm_expr.head? = some '/' ∧ v.1 = 0 ∧ v.2 = 0 then
            permissions_type.PERM_AT_LEAST
          else if perm_expr.head? = some '-' then permissions_type.PERM_AT_LEAST
          else if perm_expr.head? = some '/' then permissions_type.PERM_ANY
          else permissions_type.PERM_EXACT) v.1 v.2) := by
  have hc : collect_arg (some l) i = (true, i + 1, some perm_expr) := by
    unfold collect_arg; simp [h]
  have htext : perm_expr.drop
      (if perm_expr.head? = some '-' then 1 else if perm_expr.head? = some '/' then 1 else 0)
      = (if perm_expr.head? = some '-' ∨ perm_expr.head? = some '/' then perm_expr.drop 1
          else perm_expr) := by
    by_cases h1 : perm_expr.head? = some '-'
    · rw [if_pos h1, if_pos (Or.inl h1)]
    · by_cases h2 : perm_expr.head? = some '/'
      · rw [if_neg h1, if_pos h2, if_pos (Or.inr h2)]
      · rw [if_neg h1, if_neg h2, if_neg (by rintro (h3 | h3); exact h1 h3; exact h2 h3)]
        rfl
  have hoct : (perm_expr.head? = some '+' ∧ '0' ≤ perm_expr.getD 1 (Char.ofNat 0) ∧
        perm_expr.getD 1 (Char.ofNat 0) < '8') ↔
      (perm_expr.head? = some '+' ∧ ∃ d, perm_expr[1]? = some d ∧ '0' ≤ d ∧ d ≤ '7') := by
    rw [List.getD_eq_getElem?_getD]
    cases hd : perm_expr[1]? with
    | none =>
      simp only [Option.getD_none]
      constructor
      · rintro ⟨_, h0, _⟩
        exact absurd h0 (by decide)
      · rintro ⟨_, d, h1, _⟩
        cases h1
    | some d =>
      simp only [Option.getD_some, Option.some.injEq]
      constructor
      · rintro ⟨hp, h0, h8⟩
        exact ⟨hp, d, rfl, h0, (char_lt_eight d).mp h8⟩
      · rintro ⟨hp, d1, h1, h0, h7⟩
        subst h1
        exact ⟨hp, h0, (char_lt_eight d).mpr h7⟩
  rw [← htext, ← hoct]
  unfold parse_perm
  rw [hc]
  simp only []
  cases hm : env.mode_compile (perm_expr.drop
      (if perm_expr.head? = some '-' then 1 else if perm_expr.head? = some '/' then 1 else 0))
    with
  | none =>
    simp only []
    refine ⟨⟨fun _ => Or.inl ?_, fun _ => ?_⟩, ?_⟩
    · trivial
    · trivial
    · intro v hv
      simp at hv
  | some w =>
    simp only []
    by_cases hplus : perm_expr.head? = some '+' ∧ '0' ≤ perm_expr.getD 1 (Char.ofNat 0) ∧
        perm_expr.getD 1 (Char.ofNat 0) < '8'
    · rw [if_pos hplus]
      exact ⟨⟨fun _ => Or.inr hplus, fun _ => rfl⟩, fun v _ hn => absurd hplus hn⟩
    · rw [if_neg hplus]
      by_cases hz : perm_expr.head? = some '/' ∧ w.1 = 0 ∧ w.2 = 0
      · rw [if_pos hz]
        refine ⟨⟨(fun h1 => by cases h1), ?_⟩, ?_⟩
        · rintro (h1 | h1)
          · cases h1
          · exact absurd h1 hplus
        · intro v hv _
          simp only [Option.some.injEq] at hv
          subst hv
          refine ⟨_, rfl, rfl, ?_⟩
          rw [if_pos hz]
      · rw [if_neg hz]
        refine ⟨⟨(fun h1 => by cases h1), ?_⟩, ?_⟩
        · rintro (h1 | h1)
          · cases h1
          · exact absurd h1 hplus
        · intro v hv _
          simp only [Option.some.injEq] at hv
          subst hv
          refine ⟨_, rfl, rfl, ?_⟩
          rw [if_neg hz]

/-- C32, an instance: with a mode compiler that reads octal digits, `-perm
/000` returns true with a predicate of kind PERM_AT_LEAST. -/
theorem parse_perm_kind_witness :
    ∃ p, (parse_perm sample_perm_env {} (some ["/000".toList]) 0).2
        = Res.ret (true, ⟨0 + 1, {}, some p⟩) ∧
      p.pred_func = PRED_FUNC.pred_perm ∧
      p.args = pred_args.perm permissions_type.PERM_AT_LEAST 0 0 :=
  (parse_perm_kind sample_perm_env {} ["/000".toList] 0 "/000".toList rfl).2 (0, 0)
    (by decide) (by decide)

/-! ## Properties of parse_daystart -/

/-- C40: parse_daystart always returns true, inserts no predicate and leaves
*arg_ptr alone; applying it twice leaves the options exactly as applying it
once, because the adjustment is made only while options.full_days is false and
sets it to true; after it options.full_days is true, and
options.cur_day_start.tv_nsec is 0 whenever the adjustment was made by this or
an earlier call (full_days was false before, or tv_nsec was 0 already). -/
theorem parse_daystart_idempotent (env : parse_env) (o : options) (i : Nat) :
    ∃ o1, parse_daystart env o i = Res.ret (true, ⟨i, o1, none⟩) ∧
      parse_daystart env o1 i = Res.ret (true, ⟨i, o1, none⟩) ∧
      o1.full_days = true ∧
      (o.full_days = true → o1 = o) ∧
      ((o.full_days = true → o.cur_day_start.tv_nsec = 0) → o1.cur_day_start.tv_nsec = 0) ∧
      (∀ o2, o2.full_days = o1.full_days → o2.cur_day_start = o1.cur_day_start →
        ∃ o3, parse_daystart env o2 i = Res.ret (true, ⟨i, o3, none⟩) ∧
          o3.full_days = o1.full_days ∧ o3.cur_day_start = o1.cur_day_start) := by
  have htrue : ∀ o2 : options, o2.full_days = true →
      parse_daystart env o2 i = Res.ret (true, ⟨i, o2, none⟩) := by
    intro o2 h2
    unfold parse_daystart
    rw [if_neg (by rw [h2]; decide)]
  by_cases hf : o.full_days = false
  · have hp : parse_daystart env o i = Res.ret (true, ⟨i,
        { o with
          cur_day_start := ⟨wrap_time_t (wrap_time_t (o.cur_day_start.tv_sec + DAYSECS) -
            (match env.localtime (wrap_time_t (o.cur_day_start.tv_sec + DAYSECS)) with
              | some (tm_sec, tm_min, tm_hour) =>
                (tm_sec : Int) + tm_min * 60 + tm_hour * 3600
              | none => Int.tmod (wrap_time_t (o.cur_day_start.tv_sec + DAYSECS)) DAYSECS)), 0⟩,
          full_days := true }, none⟩) := by
      unfold parse_daystart
      rw [if_pos hf]
    refine ⟨_, hp, htrue _ rfl, rfl, ?_, fun _ => rfl, ?_⟩
    · intro ht; rw [ht] at hf; cases hf
    · intro o2 h2 h3
      exact ⟨o2, htrue o2 h2, h2, h3⟩
  · have ht : o.full_days = true := by
      cases hv : o.full_days with
      | false => exact absurd hv hf
      | true => rfl
    refine ⟨o, htrue o ht, htrue o ht, ht, fun _ => rfl, fun h => h ht, ?_⟩
    intro o2 h2 h3
    exact ⟨o2, htrue o2 (h2.trans ht), h2, h3⟩

/-- C40, an instance: with the day starting at second 1000000 and a local time
that is UTC, -daystart moves the start to second 1036800 with tv_nsec 0, and a
second -daystart changes nothing. -/
theorem parse_daystart_idempotent_witness :
    parse_daystart sample_time_env { cur_day_start := ⟨1000000, 7⟩ } 3
      = Res.ret (true, ⟨3, { cur_day_start := ⟨1036800, 0⟩, full_days := true }, none⟩) ∧
    parse_daystart sample_time_env { cur_day_start := ⟨1036800, 0⟩, full_days := true } 3
      = Res.ret (true, ⟨3, { cur_day_start := ⟨1036800, 0⟩, full_days := true }, none⟩) ∧
    ∃ o1, parse_daystart sample_time_env { cur_day_start := ⟨1000000, 7⟩ } 3
        = Res.ret (true, ⟨3, o1, none⟩) ∧
      parse_daystart sample_time_env o1 3 = Res.ret (true, ⟨3, o1, none⟩) :=
  ⟨by decide, by decide,
    (parse_daystart_idempotent sample_time_env { cur_day_start := ⟨1000000, 7⟩ } 3).imp
      (fun _ h => ⟨h.1, h.2.1⟩)⟩

/-! ## The arithmetic of doubles -/

/-- Known values of the rounding to double: 0.1 is 0x1.999999999999ap-4, that
is 7205759403792794 / 2^56; 2^53 + 1 lies half way between two doubles and
goes to 2^53, 2^53 + 3 goes to 2^53 + 4; and 1e-15 is
0x1.203af9ee75616p-50, that is 5070602400912918 / 2^102. -/
theorem round_double_known_values :
    round_double ⟨1, 10⟩ = ⟨7205759403792794, 2 ^ 56⟩ ∧
    round_double ⟨9007199254740993, 1⟩ = ⟨9007199254740992, 1⟩ ∧
    round_double ⟨9007199254740995, 1⟩ = ⟨9007199254740996, 1⟩ ∧
    round_double ⟨-17279998299999999, 1⟩ = ⟨-17279998300000000, 1⟩ ∧
    round_double ⟨1, 10 ^ 15⟩ = ⟨5070602400912918, 2 ^ 102⟩ := by
  decide

theorem round_half_even_exact (m d : Nat) (hd : 0 < d) : round_half_even (m * d) d = m := by
  unfold round_half_even
  rw [Nat.mul_mod_left, Nat.mul_div_cancel _ hd]
  rw [if_neg]
  rintro (h | ⟨h, _⟩)
  · omega
  · omega

theorem normalise_significand_exact (c : Nat) (hc : 0 < c) (m : Nat) (hm : 0 < m) :
    ∀ (fuel k : Nat), m * 2 ^ k < 2 ^ 53 → 2 ^ 52 ≤ m * 2 ^ (k + fuel) →
      ∃ s : Nat, normalise_significand fuel (m * 2 ^ k * c) c (-(k : Int))
          = (m * 2 ^ s * c, c, -(s : Int)) := by
  intro fuel
  induction fuel with
  | zero =>
    intro k _ _
    exact ⟨k, rfl⟩
  | succ fuel ih =>
    intro k hlt hfuel
    have hk : k < 53 := by
      by_contra hn
      have h1 : 2 ^ 53 ≤ 2 ^ k := Nat.pow_le_pow_right (by decide) (by omega)
      have h2 : 2 ^ k ≤ m * 2 ^ k := Nat.le_mul_of_pos_left _ hm
      omega
    rw [normalise_significand]
    have hb1 : ¬ (2 ^ 53 * c ≤ m * 2 ^ k * c) := by
      intro h
      have := Nat.le_of_mul_le_mul_right h hc
      omega
    rw [if_neg hb1]
    by_cases hsmall : m * 2 ^ k < 2 ^ 52
    · have hc2 : m * 2 ^ k * c < 2 ^ 52 * c ∧ (-1074 : Int) < -(k : Int) :=
        ⟨Nat.mul_lt_mul_of_pos_right hsmall hc, by omega⟩
      rw [if_pos hc2]
      have e1 : 2 * (m * 2 ^ k * c) = m * 2 ^ (k + 1) * c := by
        rw [pow_succ]; ring
      have e2 : -(k : Int) - 1 = -((k + 1 : Nat) : Int) := by push_cast; ring
      rw [e1, e2]
      have e3 : m * 2 ^ (k + 1) = 2 * (m * 2 ^ k) := by rw [pow_succ]; ring
      apply ih (k + 1)
      · omega
      · have : k + 1 + fuel = k + (fuel + 1) := by omega
        rw [this]; exact hfuel
    · have hc2 : ¬ (m * 2 ^ k * c < 2 ^ 52 * c ∧ (-1074 : Int) < -(k : Int)) := by
        rintro ⟨h, _⟩
        exact hsmall (Nat.lt_of_mul_lt_mul_right h)
      rw [if_neg hc2]
      exact ⟨k, rfl⟩

theorem round_double_nat_exact (m c : Nat) (hc : 0 < c) (hm : m < 2 ^ 53) :
    ∃ s, round_double_nat (m * c) c = ⟨((m * 2 ^ s : Nat) : Int), 2 ^ s⟩ := by
  by_cases h0 : m = 0
  · subst h0
    refine ⟨0, ?_⟩
    unfold round_double_nat
    rw [Nat.zero_mul, if_pos rfl]
    rfl
  · have hpos : 0 < m := Nat.pos_of_ne_zero h0
    have hfuel : ∀ f : Nat, 52 ≤ f → 2 ^ 52 ≤ m * 2 ^ (0 + f) := by
      intro f hf
      have h1 : 2 ^ 52 ≤ 2 ^ (0 + f) := Nat.pow_le_pow_right (by decide) (by omega)
      exact le_trans h1 (Nat.le_mul_of_pos_left _ hpos)
    obtain ⟨s, hs⟩ := normalise_significand_exact c hc m hpos 2200 0
      (by rw [pow_zero, Nat.mul_one]; exact hm) (hfuel 2200 (by decide))
    refine ⟨s, ?_⟩
    unfold round_double_nat
    rw [if_neg (Nat.mul_ne_zero h0 (Nat.pos_iff_ne_zero.mp hc))]
    simp only [pow_zero, Nat.mul_one, Nat.cast_zero, neg_zero] at hs
    simp only []
    rw [hs]
    simp only []
    rw [round_half_even_exact _ _ hc]
    have e1 : (-(s : Int)).toNat = 0 := by omega
    have e2 : (-(-(s : Int))).toNat = s := by omega
    rw [e1, e2, pow_zero, Nat.mul_one]

theorem round_double_exact (v : Int) (c : Nat) (hc : 0 < c) (hv : v.natAbs < 2 ^ 53) :
    ∃ s, round_double ⟨v * c, c⟩ = ⟨v * 2 ^ s, 2 ^ s⟩ := by
  obtain ⟨s, hs⟩ := round_double_nat_exact v.natAbs c hc hv
  refine ⟨s, ?_⟩
  have habs : (v * (c : Int)).natAbs = v.natAbs * c := by
    rw [Int.natAbs_mul, Int.natAbs_ofNat]
  have hcpos : (0 : Int) < c := by exact_mod_cast hc
  unfold round_double
  simp only []
  rw [habs, hs]
  by_cases hneg : v * (c : Int) < 0
  · rw [if_pos hneg]
    have hv0 : v < 0 := by
      by_contra hn
      have : 0 ≤ v * (c : Int) := mul_nonneg (by omega) (le_of_lt hcpos)
      omega
    simp only [fraction.mk.injEq, and_true]
    push_cast
    rw [abs_of_neg hv0]
    ring
  · rw [if_neg hneg]
    have hv0 : 0 ≤ v := by
      by_contra hn
      have : v * (c : Int) < 0 := mul_neg_of_neg_of_pos (by omega) hcpos
      exact hneg this
    simp only [fraction.mk.injEq, and_true]
    push_cast
    rw [abs_of_nonneg hv0]

theorem double_to_integer_exact (v : Int) (s : Nat) :
    double_to_integer ⟨v * 2 ^ s, 2 ^ s⟩ = v := by
  unfold double_to_integer
  simp only []
  have hpos : (0 : Int) < 2 ^ s := by positivity
  push_cast
  exact Int.mul_tdiv_cancel _ (ne_of_gt hpos)

theorem tmod_exact (v : Int) (s : Nat) : Int.tmod (v * 2 ^ s) ((2 ^ s : Nat) : Int) = 0 := by
  push_cast
  exact Int.mul_tmod_left _ _

/-! ## Properties of get_relative_timestamp -/

theorem wrap_time_t_of_range (v : Int) (hlo : TIME_T_MIN ≤ v) (hhi : v ≤ TIME_T_MAX) :
    wrap_time_t v = v := by
  unfold wrap_time_t
  unfold TIME_T_MIN at hlo
  unfold TIME_T_MAX at hhi
  norm_num at hlo hhi ⊢
  omega

theorem get_comp_type_kind (str : CStr) :
    invert_comparison (get_comp_type str).2.2 =
      (if str.head? = some '+' then comparison_type.COMP_LT
        else if str.head? = some '-' then comparison_type.COMP_GT
        else comparison_type.COMP_EQ) ∧
    (get_comp_type str).2.1 =
      (if str.head? = some '+' ∨ str.head? = some '-' then str.drop 1 else str) := by
  cases str with
  | nil => exact ⟨rfl, rfl⟩
  | cons c r =>
    by_cases h1 : c = '+'
    · subst h1; exact ⟨rfl, rfl⟩
    · by_cases h2 : c = '-'
      · subst h2; exact ⟨rfl, rfl⟩
      · have hg : get_comp_type (c :: r) = (true, c :: r, comparison_type.COMP_EQ) := by
          unfold get_comp_type
          split
          · rename_i heq; cases heq; exact absurd rfl h1
          · rename_i heq; cases heq; exact absurd rfl h2
          · rfl
        rw [hg]
        simp only [List.head?_cons, Option.some.injEq, h1, h2, if_false, or_self]
        exact ⟨rfl, trivial⟩

theorem get_relative_timestamp_kind (env : parse_env) (str : CStr) (origin : timespec)
    (sec_per_unit : Nat) (kind : comparison_type) (ts : timespec)
    (h : get_relative_timestamp env str origin sec_per_unit = Res.ret (some (kind, ts))) :
    kind = invert_comparison (get_comp_type str).2.2 := by
  unfold get_relative_timestamp at h
  simp only [] at h
  split at h
  · cases h
  · cases h
  · split at h
    · cases h
    · split at h
      · simp only [Res.ret.injEq, Option.some.injEq, Prod.mk.injEq] at h
        exact h.1.symm
      · simp only [Res.ret.injEq, Option.some.injEq, Prod.mk.injEq] at h
        exact h.1.symm

theorem relative_seconds_nanosec_whole (n scale sec_per_unit : Nat)
    (hn : n < 2 ^ 53) (hp : n * sec_per_unit < 2 ^ 53) :
    ∃ s : Nat, relative_seconds_nanosec (round_double ⟨(n : Int) * 10 ^ scale, 10 ^ scale⟩)
        sec_per_unit = ((n : Int) * sec_per_unit, ⟨0 * 2 ^ s, 2 ^ s⟩) := by
  have h10 : 0 < 10 ^ scale := by positivity
  obtain ⟨s1, h1⟩ := round_double_exact (n : Int) (10 ^ scale) h10 (by simpa using hn)
  have e1 : ((n : Int) * ((10 ^ scale : Nat) : Int)) = (n : Int) * 10 ^ scale := by push_cast; rfl
  rw [e1] at h1
  have h2pos : 0 < 2 ^ s1 := by positivity
  obtain ⟨s2, h2⟩ := round_double_exact ((n : Int) * sec_per_unit) (2 ^ s1) h2pos
    (by rw [Int.natAbs_mul, Int.natAbs_ofNat, Int.natAbs_ofNat]; exact hp)
  have e2 : (n : Int) * 2 ^ s1 * (sec_per_unit : Int)
      = (n : Int) * sec_per_unit * ((2 ^ s1 : Nat) : Int) := by push_cast; ring
  obtain ⟨s3, h3⟩ := round_double_exact 0 (2 ^ s2) (by positivity) (by decide)
  refine ⟨s3, ?_⟩
  unfold relative_seconds_nanosec
  simp only []
  rw [h1]
  simp only []
  rw [e2, h2]
  simp only []
  have e3 : Int.tdiv ((n : Int) * sec_per_unit * 2 ^ s2) ((2 ^ s2 : Nat) : Int)
      = (n : Int) * sec_per_unit := by
    have hpos : (0 : Int) < 2 ^ s2 := by positivity
    push_cast
    exact Int.mul_tdiv_cancel _ (ne_of_gt hpos)
  rw [e3, tmod_exact]
  have e4 : (0 : Int) * 1000000000 = 0 * ((2 ^ s2 : Nat) : Int) := by simp
  rw [e4, h3]

theorem double_of_int_exact (v : Int) (hv : v.natAbs < 2 ^ 53) :
    ∃ s : Nat, double_of_int v = ⟨v * 2 ^ s, 2 ^ s⟩ := by
  obtain ⟨s, hs⟩ := round_double_exact v 1 (by decide) hv
  refine ⟨s, ?_⟩
  unfold double_of_int
  have e : v * ((1 : Nat) : Int) = v := by simp
  rw [e] at hs
  exact hs

theorem double_sub_exact (a b : Int) (s t : Nat) (h : (a - b).natAbs < 2 ^ 53) :
    ∃ u : Nat, double_sub ⟨a * 2 ^ s, 2 ^ s⟩ ⟨b * 2 ^ t, 2 ^ t⟩ = ⟨(a - b) * 2 ^ u, 2 ^ u⟩ := by
  obtain ⟨u, hu⟩ := round_double_exact (a - b) (2 ^ s * 2 ^ t) (by positivity) h
  refine ⟨u, ?_⟩
  unfold double_sub
  simp only []
  have e : a * 2 ^ s * ((2 ^ t : Nat) : Int) - b * 2 ^ t * ((2 ^ s : Nat) : Int)
      = (a - b) * ((2 ^ s * 2 ^ t : Nat) : Int) := by push_cast; ring
  rw [e, hu]

theorem natAbs_lt_range (v : Int) (h : v.natAbs < 2 ^ 53) :
    TIME_T_MIN ≤ v ∧ v ≤ TIME_T_MAX := by
  unfold TIME_T_MIN TIME_T_MAX
  norm_num at h ⊢
  omega

theorem get_relative_timestamp_whole (env : parse_env) (str : CStr) (origin : timespec)
    (sec_per_unit : Nat) (n scale : Nat)
    (hx : env.xstrtod (get_comp_type str).2.1
      = some (double_value.finite ((n : Int) * 10 ^ scale) scale))
    (hn : n < 2 ^ 53) (hp : n * sec_per_unit < 2 ^ 53)
    (ho : origin.tv_sec.natAbs < 2 ^ 53)
    (hd : (origin.tv_sec - n * sec_per_unit).natAbs < 2 ^ 53)
    (hns : 0 ≤ origin.tv_nsec) (hnb : origin.tv_nsec < 2 ^ 53) :
    get_relative_timestamp env str origin sec_per_unit =
      Res.ret (some (invert_comparison (get_comp_type str).2.2,
        ⟨origin.tv_sec - n * sec_per_unit, origin.tv_nsec⟩)) := by
  obtain ⟨s, hsn⟩ := relative_seconds_nanosec_whole n scale sec_per_unit hn hp
  obtain ⟨a, ha⟩ := double_of_int_exact origin.tv_sec ho
  obtain ⟨b, hb⟩ := double_of_int_exact origin.tv_nsec (by omega)
  have hsec1 : (⟨(n : Int) * sec_per_unit, 1⟩ : fraction)
      = ⟨(n : Int) * sec_per_unit * 2 ^ 0, 2 ^ 0⟩ := by simp
  obtain ⟨u, hu⟩ := double_sub_exact origin.tv_sec ((n : Int) * sec_per_unit) a 0 hd
  obtain ⟨w, hw⟩ := double_sub_exact origin.tv_nsec 0 b s (by rw [Int.sub_zero]; omega)
  have hnn : (0 : Int) ≤ (n : Int) * sec_per_unit := by positivity
  have hwrap : wrap_time_t (origin.tv_sec - n * sec_per_unit)
      = origin.tv_sec - n * sec_per_unit :=
    wrap_time_t_of_range _ (natAbs_lt_range _ hd).1 (natAbs_lt_range _ hd).2
  unfold get_relative_timestamp
  simp only []
  rw [hx]
  simp only []
  rw [hsn]
  simp only []
  rw [ha, hsec1, hu, double_to_integer_exact, hwrap, hb, hw, double_to_integer_exact]
  have hc : (decide (origin.tv_sec < origin.tv_sec - ↑n * ↑sec_per_unit) ≠
      decide ((n : Int) * sec_per_unit < 0)) ↔ False := by
    have h1 : ¬ (origin.tv_sec < origin.tv_sec - ↑n * ↑sec_per_unit) := by omega
    have h2 : ¬ ((n : Int) * sec_per_unit < 0) := by omega
    simp [h1, h2]
  rw [if_neg hc.mp]
  have hcarry : ¬ double_lt ⟨origin.tv_nsec * 2 ^ b, 2 ^ b⟩ ⟨0 * 2 ^ s, 2 ^ s⟩ := by
    unfold double_lt
    simp only []
    have h1 : (0 : Int) ≤ origin.tv_nsec * 2 ^ b * ((2 ^ s : Nat) : Int) := by positivity
    have h2 : (0 : Int) * 2 ^ s * ((2 ^ b : Nat) : Int) = 0 := by simp
    omega
  rw [if_neg hcarry, Int.sub_zero]

/-- C33, as stated, fails: get_relative_timestamp computes in double, and for
N = 200000000000 days with the origin (1700000001, 0), where nothing overflows
time_t, the difference 1700000001 - N * 86400 = -17279998299999999 is not a
double: the code returns tv_sec = -17279998300000000. -/
theorem relative_timestamp_rounds_large_counts :
    sample_time_env.xstrtod "200000000000".toList
      = some (double_value.finite 200000000000 0) ∧
    TIME_T_MIN ≤ (1700000001 : Int) - 200000000000 * 86400 ∧
    (1700000001 : Int) - 200000000000 * 86400 ≤ TIME_T_MAX ∧
    get_relative_timestamp sample_time_env "200000000000".toList ⟨1700000001, 0⟩ 86400
      = Res.ret (some (comparison_type.COMP_EQ, ⟨-17279998300000000, 0⟩)) ∧
    (-17279998300000000 : Int) ≠ 1700000001 - 200000000000 * 86400 := by
  decide

/-- C33, amended: get_relative_timestamp inverts the sense of the comparison
prefix: whenever it returns true, the kind is COMP_LT for an argument that
starts with '+', COMP_GT for one that starts with '-' and COMP_EQ otherwise,
and the number is read from the text after the '+' or '-'.  For every
non-negative integer N read there for which the arithmetic in double is exact
(N, N * sec_per_unit, the magnitude of origin.tv_sec and that of
origin.tv_sec - N * sec_per_unit all below 2^53) and every origin with
0 <= tv_nsec < 2^53, it returns true with
tv_sec = origin.tv_sec - N * sec_per_unit and tv_nsec = origin.tv_nsec. -/
theorem get_relative_timestamp_inverts_sense (env : parse_env) (str : CStr)
    (origin : timespec) (sec_per_unit : Nat) :
    (∀ kind ts, get_relative_timestamp env str origin sec_per_unit
        = Res.ret (some (kind, ts)) →
      kind = (if str.head? = some '+' then comparison_type.COMP_LT
        else if str.head? = some '-' then comparison_type.COMP_GT
        else comparison_type.COMP_EQ)) ∧
    (∀ n scale : Nat,
      env.xstrtod (if str.head? = some '+' ∨ str.head? = some '-' then str.drop 1 else str)
        = some (double_value.finite ((n : Int) * 10 ^ scale) scale) →
      n < 2 ^ 53 → n * sec_per_unit < 2 ^ 53 →
      origin.tv_sec.natAbs < 2 ^ 53 →
      (origin.tv_sec - n * sec_per_unit).natAbs < 2 ^ 53 →
      0 ≤ origin.tv_nsec → origin.tv_nsec < 2 ^ 53 →
      get_relative_timestamp env str origin sec_per_unit =
        Res.ret (some
          ((if str.head? = some '+' then comparison_type.COMP_LT
            else if str.head? = some '-' then comparison_type.COMP_GT
            else comparison_type.COMP_EQ),
          ⟨origin.tv_sec - n * sec_per_unit, origin.tv_nsec⟩))) := by
  obtain ⟨hk, hs⟩ := get_comp_type_kind str
  constructor
  · intro kind ts h
    rw [get_relative_timestamp_kind env str origin sec_per_unit kind ts h, hk]
  · intro n scale hx hn hp ho hd hns hnb
    rw [← hs] at hx
    rw [get_relative_timestamp_whole env str origin sec_per_unit n scale hx hn hp ho hd hns hnb,
      hk]

/-- C33, instances: with a reader of decimal numbers, "+3", "-3" and "3" in
units of a day give COMP_LT, COMP_GT and COMP_EQ, each with the timestamp three
days before the origin. -/
theorem get_relative_timestamp_inverts_sense_witness :
    get_relative_timestamp sample_time_env "+3".toList ⟨1000000, 5⟩ 86400
      = Res.ret (some (comparison_type.COMP_LT, ⟨1000000 - (3 : Nat) * (86400 : Nat), 5⟩)) ∧
    get_relative_timestamp sample_time_env "-3".toList ⟨1000000, 5⟩ 86400
      = Res.ret (some (comparison_type.COMP_GT, ⟨1000000 - 3 * 86400, 5⟩)) ∧
    get_relative_timestamp sample_time_env "3".toList ⟨1000000, 5⟩ 86400
      = Res.ret (some (comparison_type.COMP_EQ, ⟨1000000 - 3 * 86400, 5⟩)) :=
  ⟨(get_relative_timestamp_inverts_sense sample_time_env "+3".toList ⟨1000000, 5⟩ 86400).2
      3 0 (by decide) (by decide) (by decide) (by decide) (by decide) (by decide) (by decide),
    by decide, by decide⟩
/-! ## Properties of parse_time and do_parse_xmin -/

theorem to_uintmax_self_ne (v : Int) : ¬ (to_uintmax v ≠ to_uintmax v) := fun h => h rfl

theorem parse_time_present (env : parse_env) (o : options) (func : PRED_FUNC) (l : List CStr)
    (i : Nat) (str : CStr) (h : l[i]? = some str) :
    parse_time env o func (some l) i =
      match get_relative_timestamp env str
          (if str.head? = some '-' then
            { o.cur_day_start with
              tv_sec := wrap_time_t (o.cur_day_start.tv_sec + (DAYSECS - 1)) }
          else o.cur_day_start) DAYSECS with
      | Res.fatal e => Res.fatal e
      | Res.ret none => Res.ret (false, ⟨i, o, none⟩)
      | Res.ret (some (kind, ts)) =>
        Res.ret (true, ⟨i + 1, o,
          some { insert_primary func with
                  args := pred_args.reftime ⟨none, kind, ts⟩,
                  est_success_rate := estimate_timestamp_success_rate o ts.tv_sec }⟩) := by
  have hc : collect_arg (some l) i = (true, i + 1, some str) := by
    unfold collect_arg; simp [h]
  have hlt : (get_comp_type str).2.2 = comparison_type.COMP_LT ↔ str.head? = some '-' := by
    cases str with
    | nil => simp [get_comp_type]
    | cons c r =>
      by_cases h1 : c = '+'
      · subst h1; simp [get_comp_type]
      · by_cases h2 : c = '-'
        · subst h2; simp [get_comp_type]
        · have hg : get_comp_type (c :: r) = (true, c :: r, comparison_type.COMP_EQ) := by
            unfold get_comp_type
            split
            · rename_i heq; cases heq; exact absurd rfl h1
            · rename_i heq; cases heq; exact absurd rfl h2
            · rfl
          rw [hg]
          simp [h2]
  unfold parse_time
  rw [hc]
  simp only []
  rw [if_neg (fun hh => to_uintmax_self_ne _ hh.2)]
  by_cases hm : str.head? = some '-'
  · rw [if_pos (hlt.mpr hm), if_pos hm]
  · rw [if_neg (fun hh => hm (hlt.mp hh)), if_neg hm]

theorem do_parse_xmin_present (env : parse_env) (o : options) (func : PRED_FUNC)
    (l : List CStr) (i : Nat) (xv : xval) (str : CStr) (h : l[i]? = some str) :
    do_parse_xmin env o func (some l) i xv =
      match get_relative_timestamp env str
          { o.cur_day_start with tv_sec := wrap_time_t (o.cur_day_start.tv_sec + DAYSECS) }
          60 with
      | Res.fatal e => Res.fatal e
      | Res.ret (some (kind, ts)) =>
        Res.ret (true, ⟨i + 1, o,
          some { insert_primary func with
                  args := pred_args.reftime ⟨some xv, kind, ts⟩,
                  est_success_rate := estimate_timestamp_success_rate o ts.tv_sec }⟩)
      | Res.ret none => Res.ret (false, ⟨i, o, none⟩) := by
  have hc : collect_arg (some l) i = (true, i + 1, some str) := by
    unfold collect_arg; simp [h]
  unfold do_parse_xmin
  rw [hc]

theorem get_relative_timestamp_invalid (env : parse_env) (str : CStr) (origin : timespec)
    (sec_per_unit : Nat) (hx : env.xstrtod (get_comp_type str).2.1 = none) :
    get_relative_timestamp env str origin sec_per_unit = Res.ret none := by
  unfold get_relative_timestamp
  simp only []
  rw [hx]

/-- C34, as stated, fails: the reference is computed in double, and for
`-mtime -200000000000` with the day starting at second 1700000000 the value
1700000000 + 86399 - 86400 * 200000000000 = -17279998299913601 is not a
double: the predicate holds tv_sec = -17279998299913600. -/
theorem parse_time_rounds_large_counts :
    (match parse_time sample_time_env { cur_day_start := ⟨1700000000, 0⟩ }
        PRED_FUNC.pred_mtime (some ["-200000000000".toList]) 0 with
      | Res.ret (true, st) => st.pred.map (fun p => p.args)
      | _ => none)
      = some (pred_args.reftime
          ⟨none, comparison_type.COMP_GT, ⟨-17279998299913600, 0⟩⟩) ∧
    (-17279998299913600 : Int) ≠ 1700000000 + 86399 - 86400 * 200000000000 ∧
    TIME_T_MIN ≤ (1700000000 : Int) + 86399 - 86400 * 200000000000 := by
  decide

/-- C34, amended: parse_time (-atime, -ctime, -mtime) takes its reference from
options.cur_day_start in units of a day (86400 s): the origin handed to
get_relative_timestamp is cur_day_start, except that for an argument with a
'-' prefix it is cur_day_start + 86399 s, so "-N" gives
tv_sec = cur_day_start.tv_sec + 86399 - 86400 * N whenever the arithmetic in
double is exact (86400 * N, the magnitude of the origin and that of the result
below 2^53, tv_nsec between 0 and 2^53); do_parse_xmin (-amin, -cmin, -mmin)
uses units of 60 s with the origin cur_day_start + 86400 s for every prefix.
When the number is invalid, both return false with *arg_ptr as it was on
entry.  The additions to cur_day_start are taken not to overflow time_t. -/
theorem time_tests_reference (env : parse_env) (o : options) (func : PRED_FUNC)
    (l : List CStr) (i : Nat) (xv : xval) (str : CStr) (h : l[i]? = some str)
    (hlo : TIME_T_MIN ≤ o.cur_day_start.tv_sec)
    (hhi : o.cur_day_start.tv_sec + 86400 ≤ TIME_T_MAX) :
    (parse_time env o func (some l) i =
      match get_relative_timestamp env str
          (if str.head? = some '-' then
            ⟨o.cur_day_start.tv_sec + 86399, o.cur_day_start.tv_nsec⟩
          else o.cur_day_start) 86400 with
      | Res.fatal e => Res.fatal e
      | Res.ret none => Res.ret (false, ⟨i, o, none⟩)
      | Res.ret (some (kind, ts)) =>
        Res.ret (true, ⟨i + 1, o,
          some { insert_primary func with
                  args := pred_args.reftime ⟨none, kind, ts⟩,
                  est_success_rate := estimate_timestamp_success_rate o ts.tv_sec }⟩)) ∧
    (∀ n scale : Nat, str.head? = some '-' →
      env.xstrtod (str.drop 1) = some (double_value.finite ((n : Int) * 10 ^ scale) scale) →
      n * 86400 < 2 ^ 53 →
      (o.cur_day_start.tv_sec + 86399).natAbs < 2 ^ 53 →
      (o.cur_day_start.tv_sec + 86399 - 86400 * n).natAbs < 2 ^ 53 →
      0 ≤ o.cur_day_start.tv_nsec → o.cur_day_start.tv_nsec < 2 ^ 53 →
      ∃ p, parse_time env o func (some l) i = Res.ret (true, ⟨i + 1, o, some p⟩) ∧
        p.args = pred_args.reftime ⟨none, comparison_type.COMP_GT,
          ⟨o.cur_day_start.tv_sec + 86399 - 86400 * n, o.cur_day_start.tv_nsec⟩⟩) ∧
    (do_parse_xmin env o func (some l) i xv =
      match get_relative_timestamp env str
          ⟨o.cur_day_start.tv_sec + 86400, o.cur_day_start.tv_nsec⟩ 60 with
      | Res.fatal e => Res.fatal e
      | Res.ret (some (kind, ts)) =>
        Res.ret (true, ⟨i + 1, o,
          some { insert_primary func with
                  args := pred_args.reftime ⟨some xv, kind, ts⟩,
                  est_success_rate := estimate_timestamp_success_rate o ts.tv_sec }⟩)
      | Res.ret none => Res.ret (false, ⟨i, o, none⟩)) ∧
    (env.xstrtod (if str.head? = some '+' ∨ str.head? = some '-' then str.drop 1 else str)
        = none →
      parse_time env o func (some l) i = Res.ret (false, ⟨i, o, none⟩) ∧
      do_parse_xmin env o func (some l) i xv = Res.ret (false, ⟨i, o, none⟩)) := by
  have hw1 : wrap_time_t (o.cur_day_start.tv_sec + (DAYSECS - 1))
      = o.cur_day_start.tv_sec + 86399 := by
    have : o.cur_day_start.tv_sec + ((DAYSECS : Int) - 1) = o.cur_day_start.tv_sec + 86399 := by
      unfold DAYSECS; norm_num
    rw [this]
    exact wrap_time_t_of_range _ (by omega) (by omega)
  have hw2 : wrap_time_t (o.cur_day_start.tv_sec + DAYSECS)
      = o.cur_day_start.tv_sec + 86400 := by
    have : o.cur_day_start.tv_sec + (DAYSECS : Int) = o.cur_day_start.tv_sec + 86400 := by
      unfold DAYSECS; norm_num
    rw [this]
    exact wrap_time_t_of_range _ (by omega) (by omega)
  have hpt := parse_time_present env o func l i str h
  have hpx := do_parse_xmin_present env o func l i xv str h
  rw [hw1] at hpt
  rw [hw2] at hpx
  have hd : DAYSECS = 86400 := rfl
  rw [hd] at hpt
  refine ⟨hpt, ?_, hpx, ?_⟩
  · intro n scale hm hx hp86 ho hd hns hnb
    have hs := (get_comp_type_kind str).2
    rw [if_pos (Or.inr hm)] at hs
    rw [← hs] at hx
    have hk := (get_comp_type_kind str).1
    rw [if_neg (by rw [hm]; decide), if_pos hm] at hk
    have hr := get_relative_timestamp_whole env str
      ⟨o.cur_day_start.tv_sec + 86399, o.cur_day_start.tv_nsec⟩ 86400 n scale hx
      (by omega) hp86 ho
      (by
        have e : o.cur_day_start.tv_sec + 86399 - (n : Int) * ((86400 : Nat) : Int)
            = o.cur_day_start.tv_sec + 86399 - 86400 * n := by push_cast; ring
        simp only []
        rw [e]
        exact hd)
      hns hnb
    rw [hk] at hr
    rw [if_pos hm] at hpt
    rw [hr] at hpt
    refine ⟨_, hpt, ?_⟩
    simp only []
    congr 3
    push_cast
    ring
  · intro hx
    have hs := (get_comp_type_kind str).2
    rw [← hs] at hx
    rw [get_relative_timestamp_invalid env str _ _ hx] at hpt hpx
    exact ⟨hpt, hpx⟩

/-- C34, an instance: with the day starting at second 1000000, `-mtime -2`
gives the reference second 1000000 + 86399 - 2 * 86400. -/
theorem time_tests_reference_witness :
    ∃ p, parse_time sample_time_env { cur_day_start := ⟨1000000, 7⟩ } PRED_FUNC.pred_mtime
        (some ["-2".toList]) 0
        = Res.ret (true, ⟨0 + 1, { cur_day_start := ⟨1000000, 7⟩ }, some p⟩) ∧
      p.args = pred_args.reftime ⟨none, comparison_type.COMP_GT,
        ⟨(1000000 : Int) + 86399 - 86400 * (2 : Nat), 7⟩⟩ :=
  (time_tests_reference sample_time_env { cur_day_start := ⟨1000000, 7⟩ }
    PRED_FUNC.pred_mtime ["-2".toList] 0 xval.XVAL_MTIME "-2".toList rfl
    (by decide) (by decide)).2.1 2 0 rfl (by decide) (by decide) (by decide) (by decide)
    (by decide) (by decide)


/-! ## The nanoseconds of a relative timestamp -/

theorem tdiv_small_negative (a d : Int) (h1 : -d < a) (h2 : a < 0) : Int.tdiv a d = 0 := by
  have hd : 0 < d := by omega
  have h3 : Int.tdiv (-a) d = 0 := by
    rw [Int.tdiv_eq_ediv (by omega) (le_of_lt hd)]
    exact Int.ediv_eq_zero_of_lt (by omega) (by omega)
  have h4 : Int.tdiv (-a) d = -(Int.tdiv a d) := Int.neg_tdiv a d
  omega

theorem round_double_nat_num_nonneg (n d : Nat) : 0 ≤ (round_double_nat n d).num := by
  unfold round_double_nat
  split
  · exact le_refl _
  · exact Int.ofNat_nonneg _

theorem round_double_negative (x : fraction) (h : (round_double x).num < 0) : x.num < 0 := by
  unfold round_double at h
  by_contra hn
  rw [if_neg hn] at h
  have := round_double_nat_num_nonneg x.num.natAbs x.den
  omega

/-- C37 (fails in the code): the timestamp that get_relative_timestamp returns
need not be normalised.  Whenever the difference origin.tv_nsec - nanosec, as
computed in double, lies strictly between -1 and 0, it is truncated to 0 and
the carry step adds a full second of nanoseconds: the result has
tv_nsec = 1000000000.  So for the origin (1000000, 0) and units of a day, the
argument 0.000000000000001 gives the timestamp (999999, 1000000000); and for
a negative number no carry is made in the other direction: "+-0.00001" with
the origin (1000000, 500000000) gives tv_nsec = 1364000000. -/
theorem relative_timestamp_not_normalised :
    (∀ (env : parse_env) (str : CStr) (origin : timespec) (sec_per_unit : Nat)
        (num : Int) (scale : Nat),
      env.xstrtod (get_comp_type str).2.1 = some (double_value.finite num scale) →
      (double_sub (double_of_int origin.tv_nsec)
        (relative_seconds_nanosec (round_double ⟨num, 10 ^ scale⟩) sec_per_unit).2).num < 0 →
      -((double_sub (double_of_int origin.tv_nsec)
        (relative_seconds_nanosec (round_double ⟨num, 10 ^ scale⟩) sec_per_unit).2).den : Int)
        < (double_sub (double_of_int origin.tv_nsec)
          (relative_seconds_nanosec (round_double ⟨num, 10 ^ scale⟩) sec_per_unit).2).num →
      ∀ kind ts, get_relative_timestamp env str origin sec_per_unit
          = Res.ret (some (kind, ts)) →
        ts.tv_nsec = 1000000000) ∧
    get_relative_timestamp sample_time_env "0.000000000000001".toList ⟨1000000, 0⟩ 86400
      = Res.ret (some (comparison_type.COMP_EQ, ⟨999999, 1000000000⟩)) ∧
    get_relative_timestamp sample_time_env "+-0.00001".toList ⟨1000000, 500000000⟩ 86400
      = Res.ret (some (comparison_type.COMP_LT, ⟨1000000, 1364000000⟩)) := by
  refine ⟨?_, by decide, by decide⟩
  intro env str origin sec_per_unit num scale hx h1 h2 kind ts h
  have hq : double_to_integer (double_sub (double_of_int origin.tv_nsec)
      (relative_seconds_nanosec (round_double ⟨num, 10 ^ scale⟩) sec_per_unit).2) = 0 := by
    unfold double_to_integer
    exact tdiv_small_negative _ _ h2 h1
  have hlt : double_lt (double_of_int origin.tv_nsec)
      (relative_seconds_nanosec (round_double ⟨num, 10 ^ scale⟩) sec_per_unit).2 := by
    have hneg := round_double_negative _ h1
    unfold double_lt
    simp only [] at hneg
    omega
  unfold get_relative_timestamp at h
  simp only [] at h
  rw [hx] at h
  simp only [] at h
  split_ifs at h with h3
  simp only [Res.ret.injEq, Option.some.injEq, Prod.mk.injEq] at h
  rw [← h.2]
  simp only []
  rw [hq]
  rfl

end Findutils
